import Mathlib

/-!
# Steward control-plane provider: a shallow embedding of the reconciler

The Go sources under `controllers/` and `pkg/externalclusterreference/` are
embedded as pure Lean functions:

* Go strings are Lean `String`s. The delimiters the code looks for (`:`, `[`,
  `]`, the prefixes `v` and `kcp-`) are ASCII, so splitting by character and
  splitting by byte agree on valid UTF-8.
* a Go `map[string]string` is its lookup function (`GoMap`); a map-typed field
  that the code tests against `nil` is an `Option GoMap`.
* a Go slice that the code tests against `nil` is an `Option (List _)`, any
  other slice a `List _`; a pointer is an `Option`.
* nested Kubernetes values that the code only copies are `Payload`s.
* every call to the API server is answered by an explicit environment and is
  recorded in a trace, so that "which calls did this pass issue" is a value.
* the methods `Reconcile` calls and whose bodies are embedded on their own
  (`patchCluster`, `createRequiredResources`, `extractRemoteClient`) have their
  own environment (`Backend`) and trace (`Call`); an
  `unstructured.Unstructured` is a JSON tree.
* the router `ExternalClusterReferenceReconciler.Reconcile` works on the store
  and the background tasks (`RouterWorld`) with its own environment
  (`RouterEnv`) and trace (`RouterCall`); passes and tasks running side by
  side are the runs of a step function on `Crowd`, in which any number of
  passes may stand at any statement of the loop of lines 77-121 on one key.
  A Go integer conversion is spelled out on `Int` (`int32`).
-/

namespace Steward

/-! ## Strings and the Go standard library -/

/-- Go `strings.HasPrefix`. -/
def hasPrefix (s p : String) : Bool := p.data.isPrefixOf s.data

/-- Go `strings.LastIndexByte`: position of the last `c` in `l`. -/
def lastIndexByte (l : List Char) (c : Char) : Option Nat :=
  match l with
  | [] => none
  | x :: xs =>
    match lastIndexByte xs c with
    | some i => some (i + 1)
    | none => if x = c then some 0 else none

/-- Go `strings.IndexByte`: position of the first `c` in `l`. -/
def indexByte (l : List Char) (c : Char) : Option Nat :=
  match l with
  | [] => none
  | x :: xs => if x = c then some 0 else (indexByte xs c).map (· + 1)

/-- The reasons `net.SplitHostPort` gives in its `*net.AddrError`. -/
inductive AddrError where
  | missingPort
  | tooManyColons
  | missingClosingBracket
  | unexpectedOpeningBracket
  | unexpectedClosingBracket
  deriving DecidableEq, Repr

/-- Go `net.SplitHostPort`: the port starts after the last colon; a host in
square brackets must be closed right before that colon; an unbracketed host
holds no colon; no stray bracket is left. -/
def SplitHostPort (hostport : String) : Except AddrError (String × String) :=
  let s := hostport.data
  match lastIndexByte s ':' with
  | none => .error .missingPort
  | some i =>
    if s.head? = some '[' then
      match indexByte s ']' with
      | none => .error .missingClosingBracket
      | some e =>
        if e + 1 = s.length then .error .missingPort
        else if e + 1 = i then
          if (indexByte (s.drop 1) '[').isSome then .error .unexpectedOpeningBracket
          else if (indexByte (s.drop (e + 1)) ']').isSome then .error .unexpectedClosingBracket
          else .ok (String.mk ((s.take e).drop 1), String.mk (s.drop (i + 1)))
        else if (s.drop (e + 1)).head? = some ':' then .error .tooManyColons
        else .error .missingPort
    else
      if (indexByte (s.take i) ':').isSome then .error .tooManyColons
      else if (indexByte s '[').isSome then .error .unexpectedOpeningBracket
      else if (indexByte s ']').isSome then .error .unexpectedClosingBracket
      else .ok (String.mk (s.take i), String.mk (s.drop (i + 1)))

/-- The test `_, _, err := net.SplitHostPort(s); err == nil`. -/
def splitsAsHostPort (s : String) : Bool :=
  match SplitHostPort s with
  | .ok _ => true
  | .error _ => false

/-! ## Go maps -/

/-- A Go `map[string]string`, as its lookup function. -/
abbrev GoMap := String → Option String

/-- The empty map of `make(map[string]string)`. -/
def GoMap.empty : GoMap := fun _ => none

/-- Go `m[k]` on a possibly nil map: the zero value when `k` is absent. -/
def GoMap.index (m : Option GoMap) (k : String) : String :=
  match m with
  | none => ""
  | some f => (f k).getD ""

/-- Go `m[k] = v`. -/
def GoMap.set (m : GoMap) (k v : String) : GoMap :=
  fun x => if x = k then some v else m x

/-- Go `delete(m, k)`. -/
def GoMap.delete (m : GoMap) (k : String) : GoMap :=
  fun x => if x = k then none else m x

/-- The loop `for k, v := range src { if k == skip { continue }; dst[k] = v }`:
keys of a map are distinct, so whatever the iteration order the loop leaves
in `dst` every entry of `src` other than `skip`. Ranging over a nil map does
nothing. -/
def GoMap.copyExcept (src : Option GoMap) (skip : String) (dst : GoMap) : GoMap :=
  match src with
  | none => dst
  | some f => fun k =>
    if k = skip then dst k
    else match f k with
      | some v => some v
      | none => dst k

/-- A map literal, for concrete inputs. -/
def GoMap.ofList (l : List (String × String)) : GoMap :=
  fun k => (l.find? (fun e => e.1 = k)).map (·.2)

/-! ## Kubernetes object model -/

/-- A nested Kubernetes value that the translation copies without looking
inside (resource requirements, affinity, tolerations, ...), in serialised
form. -/
abbrev Payload := String

/-- Kubernetes `metav1.OwnerReference`. -/
structure OwnerReference where
  APIVersion : String
  Kind : String
  Name : String
  UID : String
  Controller : Option Bool := none
  BlockOwnerDeletion : Option Bool := none
  deriving DecidableEq, Repr

/-- Kubernetes `metav1.ObjectMeta`, the fields the controllers use. -/
structure ObjectMeta where
  Name : String := ""
  Namespace : String := ""
  UID : String := ""
  Generation : Int := 0
  Labels : Option GoMap := none
  Annotations : Option GoMap := none
  OwnerReferences : List OwnerReference := []
  Finalizers : List String := []
  DeletionTimestamp : Option Nat := none

/-- The claim's `Spec.Network.Ingress` block. -/
structure IngressComponent where
  ExtraLabels : Option GoMap := none
  ExtraAnnotations : Option GoMap := none
  ClassName : String := ""
  Hostname : String := ""

/-- The claim's `Spec.Network.Gateway` block. -/
structure GatewayComponent where
  Hostname : String := ""

/-- The claim's `Spec.Network.LoadBalancerConfig` block. -/
structure LoadBalancerConfig where
  LoadBalancerClass : Option String := none
  LoadBalancerSourceRanges : Option (List String) := none

/-- The claim's `Spec.Network`. -/
structure NetworkComponent where
  DNSServiceIPs : List String := []
  ServiceAddress : String := ""
  ServiceType : String := ""
  ServiceLabels : Option GoMap := none
  ServiceAnnotations : Option GoMap := none
  CertSANs : Option (List String) := none
  Ingress : Option IngressComponent := none
  Gateway : Option GatewayComponent := none
  LoadBalancerConfig : Option LoadBalancerConfig := none

/-- Steward `AddonSpec`: the image override of one addon. -/
structure AddonSpec where
  ImageRepository : String := ""
  ImageTag : String := ""
  deriving DecidableEq, Repr

/-- Steward `AddonsSpec`, the addon block of the workload. -/
structure StewardAddonsSpec where
  CoreDNS : Option AddonSpec := none
  Konnectivity : Option Payload := none
  KubeProxy : Option AddonSpec := none
  deriving DecidableEq, Repr

/-- The claim's `CoreDNSAddonSpec`: an embedded `*AddonSpec` and the DNS
service addresses. -/
structure CoreDNSAddonSpec where
  AddonSpec : Option AddonSpec := none
  DNSServiceIPs : List String := []
  deriving DecidableEq, Repr

/-- The claim's `Spec.Addons`: the embedded Steward `AddonsSpec` and the
claim's own `CoreDNS` override. -/
structure ClaimAddonsSpec where
  AddonsSpec : StewardAddonsSpec := {}
  CoreDNS : Option CoreDNSAddonSpec := none
  deriving DecidableEq, Repr

/-- The per-component block of the claim (`ControllerManager`, `Scheduler`,
`ApiServer`, `Kine`). -/
structure ControlPlaneComponent where
  ExtraVolumeMounts : List Payload := []
  ExtraArgs : List String := []
  Resources : Payload := ""
  ContainerImageName : String := ""
  deriving DecidableEq, Repr

/-- The claim's `Spec.Deployment.ExternalClusterReference`. -/
structure ExternalClusterReference where
  KubeconfigSecretName : String := ""
  KubeconfigSecretKey : String := ""
  KubeconfigSecretNamespace : String := ""
  DeploymentNamespace : String := ""
  deriving DecidableEq, Repr

/-- The claim's `Spec.Deployment`. -/
structure DeploymentComponent where
  NodeSelector : Option GoMap := none
  RuntimeClassName : String := ""
  ServiceAccountName : String := ""
  AdditionalMetadata : Payload := ""
  PodAdditionalMetadata : Payload := ""
  Strategy : Payload := ""
  Affinity : Payload := ""
  Tolerations : List Payload := []
  TopologySpreadConstraints : List Payload := []
  ExtraInitContainers : List Payload := []
  ExtraContainers : List Payload := []
  ExtraVolumes : List Payload := []
  ExternalClusterReference : Option ExternalClusterReference := none

/-- Cluster API `APIEndpoint`. -/
structure APIEndpoint where
  Host : String := ""
  Port : Int := 0
  deriving DecidableEq, Repr

/-- The claim's spec (`StewardControlPlaneSpec` with its inlined
`StewardControlPlaneFields`). -/
structure StewardControlPlaneSpec where
  Replicas : Option Int := none
  Version : String := ""
  Network : NetworkComponent := {}
  Addons : ClaimAddonsSpec := {}
  DataStoreName : String := ""
  DataStoreSchema : String := ""
  DataStoreUsername : String := ""
  AdmissionControllers : List String := []
  ContainerRegistry : String := ""
  ControllerManager : ControlPlaneComponent := {}
  Scheduler : ControlPlaneComponent := {}
  ApiServer : ControlPlaneComponent := {}
  Kine : ControlPlaneComponent := {}
  Kubelet : Payload := ""
  Deployment : DeploymentComponent := {}
  ControlPlaneEndpoint : APIEndpoint := {}

/-- Kubernetes `metav1.Condition`. -/
structure Condition where
  ConditionType : String
  Status : Bool
  ObservedGeneration : Int := 0
  Reason : String := ""
  Message : String := ""
  deriving DecidableEq, Repr

/-- The claim's status. -/
structure StewardControlPlaneStatus where
  Conditions : List Condition := []
  Initialized : Bool := false
  Ready : Bool := false
  ReadyReplicas : Int := 0
  Replicas : Int := 0
  Selector : String := ""
  UnavailableReplicas : Int := 0
  UpdatedReplicas : Int := 0
  Version : String := ""
  deriving DecidableEq, Repr

/-- The claim: `scpv1alpha1.StewardControlPlane`. -/
structure StewardControlPlane where
  Meta : ObjectMeta := {}
  Spec : StewardControlPlaneSpec := {}
  Status : StewardControlPlaneStatus := {}

/-! ## The workload: Steward `TenantControlPlane` -/

/-- Workload `Spec.NetworkProfile`. -/
structure NetworkProfileSpec where
  Address : String := ""
  Port : Int := 0
  CertSANs : Option (List String) := none
  ServiceCIDR : String := ""
  PodCIDR : String := ""
  DNSServiceIPs : List String := []
  ClusterDomain : String := ""
  LoadBalancerClass : Option String := none
  LoadBalancerSourceRanges : Option (List String) := none
  deriving DecidableEq, Repr

/-- Workload `AdditionalMetadata`. -/
structure AdditionalMetadata where
  Labels : Option GoMap := none
  Annotations : Option GoMap := none

/-- Workload `Spec.ControlPlane.Ingress`. -/
structure IngressSpec where
  AdditionalMetadata : AdditionalMetadata := {}
  IngressClassName : String := ""
  Hostname : String := ""

/-- Workload `Spec.ControlPlane.Service`. -/
structure ServiceSpec where
  AdditionalMetadata : AdditionalMetadata := {}
  ServiceType : String := ""

/-- Workload `Deployment.RegistrySettings`. -/
structure RegistrySettings where
  Registry : String := ""
  APIServerImage : String := ""
  ControllerManagerImage : String := ""
  SchedulerImage : String := ""
  deriving DecidableEq, Repr

/-- Workload `Deployment.AdditionalVolumeMounts`. -/
structure AdditionalVolumeMounts where
  APIServer : List Payload := []
  ControllerManager : List Payload := []
  Scheduler : List Payload := []
  deriving DecidableEq, Repr

/-- Workload `Deployment.ExtraArgs`. -/
structure ControlPlaneExtraArgs where
  APIServer : List String := []
  ControllerManager : List String := []
  Scheduler : List String := []
  Kine : List String := []
  deriving DecidableEq, Repr

/-- Workload `Deployment.Resources`. -/
structure ControlPlaneComponentsResources where
  APIServer : Option Payload := none
  ControllerManager : Option Payload := none
  Scheduler : Option Payload := none
  Kine : Option Payload := none
  deriving DecidableEq, Repr

/-- Workload `Spec.ControlPlane.Deployment`. -/
structure DeploymentSpec where
  Replicas : Option Int := none
  RegistrySettings : RegistrySettings := {}
  AdditionalVolumeMounts : Option AdditionalVolumeMounts := none
  ExtraArgs : Option ControlPlaneExtraArgs := none
  Resources : Option ControlPlaneComponentsResources := none
  NodeSelector : Option GoMap := none
  RuntimeClassName : String := ""
  ServiceAccountName : String := ""
  AdditionalMetadata : Payload := ""
  PodAdditionalMetadata : Payload := ""
  Strategy : Payload := ""
  Affinity : Payload := ""
  Tolerations : List Payload := []
  TopologySpreadConstraints : List Payload := []
  AdditionalInitContainers : List Payload := []
  AdditionalContainers : List Payload := []
  AdditionalVolumes : List Payload := []

/-- Workload `Spec.ControlPlane`. -/
structure ControlPlane where
  Deployment : DeploymentSpec := {}
  Service : ServiceSpec := {}
  Ingress : Option IngressSpec := none

/-- Workload `Spec.Kubernetes`. -/
structure KubernetesSpec where
  Version : String := ""
  Kubelet : Payload := ""
  AdmissionControllers : List String := []
  deriving DecidableEq, Repr

/-- Workload spec. -/
structure TenantControlPlaneSpec where
  DataStore : String := ""
  DataStoreSchema : String := ""
  DataStoreUsername : String := ""
  ControlPlane : ControlPlane := {}
  Kubernetes : KubernetesSpec := {}
  NetworkProfile : NetworkProfileSpec := {}
  Addons : StewardAddonsSpec := {}

/-- Workload `Status.Kubernetes.Deployment`, the replica counters. -/
structure DeploymentStatus where
  ReadyReplicas : Int := 0
  Replicas : Int := 0
  UnavailableReplicas : Int := 0
  UpdatedReplicas : Int := 0
  deriving DecidableEq, Repr

/-- Workload `Status.Kubernetes.Version`: the observed version and the
version state (`nil` until the workload's controller reports one). -/
structure KubernetesVersion where
  Version : String := ""
  Status : Option String := none
  deriving DecidableEq, Repr

/-- Workload `Status.Kubernetes`. -/
structure KubernetesStatus where
  Version : KubernetesVersion := {}
  Deployment : DeploymentStatus := {}
  deriving DecidableEq, Repr

/-- Workload status: the advertised endpoint, the Kubernetes status and the
names of the two generated secrets. -/
structure TenantControlPlaneStatus where
  ControlPlaneEndpoint : String := ""
  Kubernetes : KubernetesStatus := {}
  KubeConfigAdminSecretName : String := ""
  CertificatesCASecretName : String := ""
  deriving DecidableEq, Repr

/-- The workload: `stewardv1alpha1.TenantControlPlane`. -/
structure TenantControlPlane where
  Meta : ObjectMeta := {}
  Spec : TenantControlPlaneSpec := {}
  Status : TenantControlPlaneStatus := {}

/-- Steward version state `VersionReady` (the spec's "ready"). The constant is
declared in the Steward API module. -/
def VersionReady : String := "Ready"

/-- Steward version state `VersionUpgrading` (the spec's "upgrading"). The
constant is declared in the Steward API module. -/
def VersionUpgrading : String := "Upgrading"

/-! ## The owning cluster: Cluster API `Cluster` -/

/-- Cluster API `NetworkRanges`. -/
structure NetworkRanges where
  CIDRBlocks : List String := []
  deriving DecidableEq, Repr

/-- Cluster API `ClusterNetwork`. -/
structure ClusterNetwork where
  APIServerPort : Option Int := none
  Services : Option NetworkRanges := none
  Pods : Option NetworkRanges := none
  ServiceDomain : String := ""
  deriving DecidableEq, Repr

/-- Kubernetes `corev1.ObjectReference`, as used for `InfrastructureRef`. -/
structure ObjectReference where
  APIVersion : String := ""
  Kind : String := ""
  Name : String := ""
  Namespace : String := ""
  deriving DecidableEq, Repr

/-- Cluster API `ClusterSpec`. -/
structure ClusterSpec where
  Paused : Bool := false
  ClusterNetwork : Option ClusterNetwork := none
  ControlPlaneEndpoint : APIEndpoint := {}
  InfrastructureRef : Option ObjectReference := none
  deriving DecidableEq, Repr

/-- Cluster API `ClusterStatus`. -/
structure ClusterStatus where
  InfrastructureReady : Bool := false
  deriving DecidableEq, Repr

/-- Cluster API `Cluster`. -/
structure Cluster where
  Meta : ObjectMeta := {}
  Spec : ClusterSpec := {}
  Status : ClusterStatus := {}

/-! ## Constants -/

/-- Kubernetes `corev1.LastAppliedConfigAnnotation`. -/
def LastAppliedConfigAnnotation : String := "kubectl.kubernetes.io/last-applied-configuration"

/-- Steward `KubeconfigSecretKeyAnnotation`: the annotation naming the field of
the admin kubeconfig secret to use. -/
def KubeconfigSecretKeyAnnotation : String := "steward.butlerlabs.dev/kubeconfig-secret-key"

/-- The finalizer guarding the remote workload (`ExternalClusterReferenceFinalizer`). -/
def ExternalClusterReferenceFinalizer : String := "ecr.steward.butlerlabs.dev/finalizer"

/-- The prefix of a remote workload's name (`RemoteTCPPrefix`). -/
def RemoteTCPPrefix : String := "kcp-"

/-- Go `time.Second`, in nanoseconds like every `time.Duration`. -/
def timeSecond : Nat := 1000000000

/-! ## controller-runtime: `controllerutil.SetControllerReference` -/

/-- The API version under which the scheme registers the claim. -/
def claimAPIVersion : String := "controlplane.cluster.x-k8s.io/v1alpha1"

/-- The kind under which the scheme registers the claim. -/
def claimKind : String := "StewardControlPlane"

/-- Apimachinery `schema.ParseGroupVersion`, returning the group: the text
before the single `/`, the empty (core) group when there is none, and an error
when there are several. -/
def parseGroup (gv : String) : Option String :=
  let s := gv.data
  if s = [] ∨ s = ['/'] then some ""
  else match s.count '/' with
    | 0 => some ""
    | 1 => (indexByte s '/').map (fun i => String.mk (s.take i))
    | _ => none

/-- Controller-runtime `referSameObject`: same group, kind and name. -/
def referSameObject (a b : OwnerReference) : Bool :=
  match parseGroup a.APIVersion, parseGroup b.APIVersion with
  | some ga, some gb => ga = gb && a.Kind = b.Kind && a.Name = b.Name
  | _, _ => false

/-- Apimachinery `metav1.GetControllerOf`: the first owner reference whose
`Controller` flag is set. -/
def GetControllerOf (owners : List OwnerReference) : Option OwnerReference :=
  owners.find? (fun o => o.Controller = some true)

/-- Controller-runtime `upsertOwnerRef`: replace the first reference to the
same object, or append. -/
def upsertOwnerRef (ref : OwnerReference) : List OwnerReference → List OwnerReference
  | [] => [ref]
  | o :: os => if referSameObject o ref then ref :: os else o :: upsertOwnerRef ref os

/-! ## Errors -/

/-- The classes of error the API client returns that the code tells apart. -/
inductive ApiError where
  /-- `apierrors.IsNotFound` holds. -/
  | notFound
  /-- `apierrors.IsConflict` holds: the optimistic-concurrency collision. -/
  | conflict
  /-- Any other failure (network, forbidden, invalid, ...). -/
  | other (text : String)
  deriving DecidableEq, Repr

/-- Go `error` values, as far as the controllers can tell them apart. -/
inductive Err where
  /-- An error of the API client. -/
  | api (e : ApiError)
  /-- A package-level `errors.New(text)` variable, compared by identity. -/
  | sentinel (text : String)
  /-- An error created on the spot (`errors.New`, `fmt.Errorf` without `%w`)
  or returned by a collaborator. -/
  | other (text : String)
  /-- The wrappers `errors.Wrap(inner, msg)` and `fmt.Errorf("msg, %w", inner)`;
  `pre` is the text put before the inner error's (`"msg: "`, `"msg, "`). -/
  | wrap (pre : String) (inner : Err)
  /-- A nil-pointer dereference, which controller-runtime recovers into a
  failure of the pass. -/
  | nilDereference
  /-- Modelled from the spec: `UnmanagedControlPlaneAddressError`, built by
  `NewUnmanagedControlPlaneAddressError(kind)`; the type is declared outside the
  sources. Spec 4.4 calls it the "not yet managed" classified error;
  `errors.As` tells it from every other error by its type. -/
  | unmanagedControlPlaneAddress (kind : String)
  deriving DecidableEq, Repr

/-- `ErrUnsupportedCertificateSAN`. -/
def ErrUnsupportedCertificateSAN : Err :=
  .sentinel "a certificate SAN must be made of host only with no port"

/-- `ErrEnqueueBack`. -/
def ErrEnqueueBack : Err := .sentinel "enqueue back"

/-- Go `errors.Is(err, target)`: `target` is found along the chain of wrapped
errors. -/
def Err.is : Err → Err → Bool
  | .wrap msg inner, target => (Err.wrap msg inner == target) || Err.is inner target
  | e, target => e == target

/-- Go `err.Error()`. -/
def Err.Error : Err → String
  | .api .notFound => "not found"
  | .api .conflict => "the object has been modified"
  | .api (.other text) => text
  | .sentinel text => text
  | .other text => text
  | .wrap pre inner => pre ++ Err.Error inner
  | .nilDereference => "invalid memory address or nil pointer dereference"
  | .unmanagedControlPlaneAddress kind => "the " ++ kind ++ " control plane address is not yet managed"

/-- Apimachinery `apierrors.IsNotFound`, which looks through wrappers. -/
def Err.isNotFound : Err → Bool
  | .api .notFound => true
  | .wrap _ inner => Err.isNotFound inner
  | _ => false

/-- Apimachinery `apierrors.IsConflict`, which looks through wrappers. -/
def Err.isConflict : Err → Bool
  | .api .conflict => true
  | .wrap _ inner => Err.isConflict inner
  | _ => false

/-- The controller reference `SetControllerReference` builds for the claim. -/
def controllerRefOf (scp : StewardControlPlane) : OwnerReference :=
  { APIVersion := claimAPIVersion, Kind := claimKind, Name := scp.Meta.Name,
    UID := scp.Meta.UID, BlockOwnerDeletion := some true, Controller := some true }

/-- Controller-runtime `controllerutil.SetControllerReference(&scp, tcp, scheme)`:
validate the owner's namespace, refuse an object another controller owns,
then upsert the reference. The object comes back unchanged with an error, or
updated. -/
def SetControllerReference (scp : StewardControlPlane) (tcp : TenantControlPlane) :
    TenantControlPlane × Option Err :=
  if scp.Meta.Namespace ≠ "" ∧ tcp.Meta.Namespace = "" then (tcp, some (.other "cluster-scoped resource must not have a namespace-scoped owner"))
  else if scp.Meta.Namespace ≠ "" ∧ scp.Meta.Namespace ≠ tcp.Meta.Namespace then
    (tcp, some (.other "cross-namespace owner references are disallowed"))
  else
    let ref := controllerRefOf scp
    match GetControllerOf tcp.Meta.OwnerReferences with
    | some existing =>
      if referSameObject existing ref then
        ({ tcp with Meta.OwnerReferences := upsertOwnerRef ref tcp.Meta.OwnerReferences }, none)
      else (tcp, some (.other ("Object is already owned by another controller " ++ existing.Name)))
    | none =>
      ({ tcp with Meta.OwnerReferences := upsertOwnerRef ref tcp.Meta.OwnerReferences }, none)

/-! ## `createOrUpdateTenantControlPlane`: the mutate step -/

/-- Lines 46-64: annotations (all of the claim's but the last-applied one, then
the kubeconfig secret key set or deleted) and labels. -/
def mutateMetadata (scp : StewardControlPlane) (tcp : TenantControlPlane) : TenantControlPlane :=
  let annotations : GoMap :=
    match tcp.Meta.Annotations with
    | none => GoMap.empty
    | some m => m
  let annotations := GoMap.copyExcept scp.Meta.Annotations LastAppliedConfigAnnotation annotations
  let kubeconfigSecretKey := GoMap.index scp.Meta.Annotations KubeconfigSecretKeyAnnotation
  let annotations :=
    if kubeconfigSecretKey ≠ "" then
      GoMap.set annotations KubeconfigSecretKeyAnnotation kubeconfigSecretKey
    else GoMap.delete annotations KubeconfigSecretKeyAnnotation
  { tcp with Meta.Annotations := some annotations, Meta.Labels := scp.Meta.Labels }

/-- Lines 65-80: port, service CIDR, pod CIDR and cluster domain from the
cluster's network block, each only under its own guard. -/
def mutateClusterNetwork (cluster : Cluster) (tcp : TenantControlPlane) : TenantControlPlane :=
  match cluster.Spec.ClusterNetwork with
  | none => tcp
  | some net =>
    let tcp :=
      match net.APIServerPort with
      | some apiPort => { tcp with Spec.NetworkProfile.Port := apiPort }
      | none => tcp
    let tcp :=
      match net.Services with
      | some serviceCIDR =>
        match serviceCIDR.CIDRBlocks with
        | first :: _ => { tcp with Spec.NetworkProfile.ServiceCIDR := first }
        | [] => tcp
      | none => tcp
    let tcp :=
      match net.Pods with
      | some podsCIDR =>
        match podsCIDR.CIDRBlocks with
        | first :: _ => { tcp with Spec.NetworkProfile.PodCIDR := first }
        | [] => tcp
      | none => tcp
    { tcp with Spec.NetworkProfile.ClusterDomain := net.ServiceDomain }

/-- Lines 83-89: the version, with a `v` prepended when it is not there. -/
def normalizeVersion (version : String) : String :=
  if !hasPrefix version "v" then "v" ++ version else version

/-- Lines 81-102: replicas, version, DNS service addresses and addons, the
claim's CoreDNS block overriding both. (Line 98 also stores the empty
`AddonSpec` into the claim's in-memory CoreDNS block; nothing reads it
afterwards but line 101, which is modelled here.) -/
def mutateVersionAndAddons (scp : StewardControlPlane) (tcp : TenantControlPlane) :
    TenantControlPlane :=
  let tcp := { tcp with Spec.ControlPlane.Deployment.Replicas := scp.Spec.Replicas }
  let tcp := { tcp with Spec.Kubernetes.Version := normalizeVersion scp.Spec.Version }
  let tcp := { tcp with Spec.NetworkProfile.DNSServiceIPs := scp.Spec.Network.DNSServiceIPs }
  let tcp := { tcp with Spec.Addons := scp.Spec.Addons.AddonsSpec }
  match scp.Spec.Addons.CoreDNS with
  | some coreDNS =>
    let tcp := { tcp with Spec.NetworkProfile.DNSServiceIPs := coreDNS.DNSServiceIPs }
    let addonSpec : AddonSpec :=
      match coreDNS.AddonSpec with
      | none => {}
      | some a => a
    { tcp with Spec.Addons.CoreDNS := some addonSpec }
  | none => tcp

/-- Lines 103-112: data store (schema and username only when the claim names
them), admission controllers and registry. -/
def mutateDataStore (scp : StewardControlPlane) (tcp : TenantControlPlane) : TenantControlPlane :=
  let tcp := { tcp with Spec.DataStore := scp.Spec.DataStoreName }
  let tcp :=
    if scp.Spec.DataStoreSchema ≠ "" then
      { tcp with Spec.DataStoreSchema := scp.Spec.DataStoreSchema }
    else tcp
  let tcp :=
    if scp.Spec.DataStoreUsername ≠ "" then
      { tcp with Spec.DataStoreUsername := scp.Spec.DataStoreUsername }
    else tcp
  let tcp := { tcp with Spec.Kubernetes.AdmissionControllers := scp.Spec.AdmissionControllers }
  { tcp with Spec.ControlPlane.Deployment.RegistrySettings.Registry := scp.Spec.ContainerRegistry }

/-- Lines 113-149: volume mounts, extra arguments, resources, image overrides,
kubelet, address and service. The three pointer blocks hold no field beyond
those assigned here, so allocating them when nil and assigning every field
is building them anew. -/
def mutateComponents (scp : StewardControlPlane) (tcp : TenantControlPlane) : TenantControlPlane :=
  let mounts : AdditionalVolumeMounts :=
    match tcp.Spec.ControlPlane.Deployment.AdditionalVolumeMounts with
    | none => {}
    | some m => m
  let mounts := { mounts with
    ControllerManager := scp.Spec.ControllerManager.ExtraVolumeMounts,
    Scheduler := scp.Spec.Scheduler.ExtraVolumeMounts,
    APIServer := scp.Spec.ApiServer.ExtraVolumeMounts }
  let extraArgs : ControlPlaneExtraArgs :=
    match tcp.Spec.ControlPlane.Deployment.ExtraArgs with
    | none => {}
    | some a => a
  let extraArgs := { extraArgs with
    ControllerManager := scp.Spec.ControllerManager.ExtraArgs,
    Scheduler := scp.Spec.Scheduler.ExtraArgs,
    APIServer := scp.Spec.ApiServer.ExtraArgs,
    Kine := scp.Spec.Kine.ExtraArgs }
  let resources : ControlPlaneComponentsResources :=
    match tcp.Spec.ControlPlane.Deployment.Resources with
    | none => {}
    | some r => r
  let resources := { resources with
    ControllerManager := some scp.Spec.ControllerManager.Resources,
    Scheduler := some scp.Spec.Scheduler.Resources,
    APIServer := some scp.Spec.ApiServer.Resources,
    Kine := some scp.Spec.Kine.Resources }
  let tcp := { tcp with
    Spec.ControlPlane.Deployment.AdditionalVolumeMounts := some mounts,
    Spec.ControlPlane.Deployment.ExtraArgs := some extraArgs,
    Spec.ControlPlane.Deployment.Resources := some resources }
  let tcp := { tcp with
    Spec.ControlPlane.Deployment.RegistrySettings.ControllerManagerImage :=
      scp.Spec.ControllerManager.ContainerImageName,
    Spec.ControlPlane.Deployment.RegistrySettings.SchedulerImage :=
      scp.Spec.Scheduler.ContainerImageName,
    Spec.ControlPlane.Deployment.RegistrySettings.APIServerImage :=
      scp.Spec.ApiServer.ContainerImageName }
  let tcp := { tcp with Spec.Kubernetes.Kubelet := scp.Spec.Kubelet }
  let tcp := { tcp with Spec.NetworkProfile.Address := scp.Spec.Network.ServiceAddress }
  { tcp with
    Spec.ControlPlane.Service.ServiceType := scp.Spec.Network.ServiceType,
    Spec.ControlPlane.Service.AdditionalMetadata.Labels := scp.Spec.Network.ServiceLabels,
    Spec.ControlPlane.Service.AdditionalMetadata.Annotations := scp.Spec.Network.ServiceAnnotations }

/-- Lines 151-157: the first cert SAN on which `net.SplitHostPort` succeeds,
the entry the validation loop returns at. Ranging over a nil slice does
nothing. -/
def firstInvalidCertSAN (certSANs : Option (List String)) : Option String :=
  match certSANs with
  | none => none
  | some l => l.find? splitsAsHostPort

/-- Lines 175-181: the entry appended for the ingress: the host part when the
hostname splits as host and port, the bare hostname otherwise. -/
def ingressCertSAN (hostname : String) : String :=
  match SplitHostPort hostname with
  | .ok (host, _) => host
  | .error _ => hostname

/-- Lines 159-184: cert SANs and the ingress block. With an ingress, a nil
slice becomes the empty one before the hostname is appended. -/
def mutateCertSANsAndIngress (scp : StewardControlPlane) (tcp : TenantControlPlane) :
    TenantControlPlane :=
  let tcp := { tcp with Spec.NetworkProfile.CertSANs := scp.Spec.Network.CertSANs }
  match scp.Spec.Network.Ingress with
  | some ingress =>
    let tcp := { tcp with
      Spec.ControlPlane.Ingress := some {
        AdditionalMetadata := {
          Labels := ingress.ExtraLabels,
          Annotations := ingress.ExtraAnnotations },
        IngressClassName := ingress.ClassName,
        Hostname := ingress.Hostname } }
    let certSANs : List String :=
      match tcp.Spec.NetworkProfile.CertSANs with
      | none => []
      | some l => l
    { tcp with Spec.NetworkProfile.CertSANs := some (certSANs ++ [ingressCertSAN ingress.Hostname]) }
  | none => { tcp with Spec.ControlPlane.Ingress := none }

/-- Lines 185-194: load-balancer class and source ranges, each only when the
claim gives one. -/
def mutateLoadBalancer (scp : StewardControlPlane) (tcp : TenantControlPlane) :
    TenantControlPlane :=
  match scp.Spec.Network.LoadBalancerConfig with
  | some lb =>
    let tcp :=
      match lb.LoadBalancerClass with
      | some lbClass => { tcp with Spec.NetworkProfile.LoadBalancerClass := some lbClass }
      | none => tcp
    match lb.LoadBalancerSourceRanges with
    | some srcRange => { tcp with Spec.NetworkProfile.LoadBalancerSourceRanges := some srcRange }
    | none => tcp
  | none => tcp

/-- Lines 196-208: the deployment's scheduling fields. -/
def mutateDeployment (scp : StewardControlPlane) (tcp : TenantControlPlane) : TenantControlPlane :=
  { tcp with
    Spec.ControlPlane.Deployment.NodeSelector := scp.Spec.Deployment.NodeSelector,
    Spec.ControlPlane.Deployment.RuntimeClassName := scp.Spec.Deployment.RuntimeClassName,
    Spec.ControlPlane.Deployment.ServiceAccountName := scp.Spec.Deployment.ServiceAccountName,
    Spec.ControlPlane.Deployment.AdditionalMetadata := scp.Spec.Deployment.AdditionalMetadata,
    Spec.ControlPlane.Deployment.PodAdditionalMetadata := scp.Spec.Deployment.PodAdditionalMetadata,
    Spec.ControlPlane.Deployment.Strategy := scp.Spec.Deployment.Strategy,
    Spec.ControlPlane.Deployment.Affinity := scp.Spec.Deployment.Affinity,
    Spec.ControlPlane.Deployment.Tolerations := scp.Spec.Deployment.Tolerations,
    Spec.ControlPlane.Deployment.TopologySpreadConstraints :=
      scp.Spec.Deployment.TopologySpreadConstraints,
    Spec.ControlPlane.Deployment.AdditionalInitContainers := scp.Spec.Deployment.ExtraInitContainers,
    Spec.ControlPlane.Deployment.AdditionalContainers := scp.Spec.Deployment.ExtraContainers,
    Spec.ControlPlane.Deployment.AdditionalVolumes := scp.Spec.Deployment.ExtraVolumes }

/-- Lines 46-149: everything the mutate step assigns before it validates the
cert SANs. -/
def mutateBeforeValidation (cluster : Cluster) (scp : StewardControlPlane)
    (tcp : TenantControlPlane) : TenantControlPlane :=
  mutateComponents scp
    (mutateDataStore scp
      (mutateVersionAndAddons scp
        (mutateClusterNetwork cluster
          (mutateMetadata scp tcp))))

/-- Lines 159-208: everything the mutate step assigns after the validation and
before the owner reference. -/
def mutateAfterValidation (scp : StewardControlPlane) (tcp : TenantControlPlane) :
    TenantControlPlane :=
  mutateDeployment scp (mutateLoadBalancer scp (mutateCertSANsAndIngress scp tcp))

/-- The mutate step of `createOrUpdateTenantControlPlane` (lines 45-215), the
function handed to `controllerutil.CreateOrUpdate`. It works on the workload
in place: the result is the workload as the step leaves it, and the error it
returns, if any. `isDelegatedExternally` is `remoteClient != nil`. -/
def mutateFn (isDelegatedExternally : Bool) (cluster : Cluster) (scp : StewardControlPlane)
    (tcp : TenantControlPlane) : TenantControlPlane × Option Err :=
  let tcp := mutateBeforeValidation cluster scp tcp
  match firstInvalidCertSAN scp.Spec.Network.CertSANs with
  | some i => (tcp, some (.wrap ("entry " ++ i ++ " is invalid: ") ErrUnsupportedCertificateSAN))
  | none =>
    let tcp := mutateAfterValidation scp tcp
    if !isDelegatedExternally then SetControllerReference scp tcp
    else (tcp, none)

/-! ## What the claim and the cluster prescribe

Vocabulary for the statements about the mutate step: the value each input
gives for a workload field, `none` where the code leaves the field alone. -/

/-- The API server port the cluster gives (guard of lines 65-69). -/
def clusterAPIServerPort (cluster : Cluster) : Option Int :=
  cluster.Spec.ClusterNetwork.bind (·.APIServerPort)

/-- The first CIDR block of a range, when the range is there and not empty. -/
def firstCIDR (r : Option NetworkRanges) : Option String :=
  match r with
  | some ranges => ranges.CIDRBlocks.head?
  | none => none

/-- The service CIDR the cluster gives (guard of lines 71-73). -/
def clusterServiceCIDR (cluster : Cluster) : Option String :=
  cluster.Spec.ClusterNetwork.bind (fun n => firstCIDR n.Services)

/-- The pod CIDR the cluster gives (guard of lines 75-77). -/
def clusterPodCIDR (cluster : Cluster) : Option String :=
  cluster.Spec.ClusterNetwork.bind (fun n => firstCIDR n.Pods)

/-- The cluster domain the cluster gives (line 79, under the guard of line 65). -/
def clusterServiceDomain (cluster : Cluster) : Option String :=
  cluster.Spec.ClusterNetwork.map (·.ServiceDomain)

/-- The DNS service addresses the claim gives: those of its CoreDNS block when
there is one (lines 91-95). -/
def claimDNSServiceIPs (scp : StewardControlPlane) : List String :=
  match scp.Spec.Addons.CoreDNS with
  | some coreDNS => coreDNS.DNSServiceIPs
  | none => scp.Spec.Network.DNSServiceIPs

/-- The addons the claim gives: its Steward addons, CoreDNS replaced by the
claim's own CoreDNS block when there is one (lines 93-102). -/
def claimAddons (scp : StewardControlPlane) : StewardAddonsSpec :=
  match scp.Spec.Addons.CoreDNS with
  | some coreDNS =>
    { scp.Spec.Addons.AddonsSpec with CoreDNS := some (coreDNS.AddonSpec.getD {}) }
  | none => scp.Spec.Addons.AddonsSpec

/-- A string field assigned only when the claim's value is not empty (lines
105-110): the claim's value, or what the workload held. -/
def orPrior (value prior : String) : String := if value ≠ "" then value else prior

/-- The cert SANs the claim gives: its own, followed by the ingress entry when
it has an ingress block (lines 159-181). -/
def claimCertSANs (scp : StewardControlPlane) : Option (List String) :=
  match scp.Spec.Network.Ingress with
  | some ingress =>
    some ((scp.Spec.Network.CertSANs.getD []) ++ [ingressCertSAN ingress.Hostname])
  | none => scp.Spec.Network.CertSANs

/-- The ingress spec the claim gives (lines 161-169, 183). -/
def claimIngress (scp : StewardControlPlane) : Option IngressSpec :=
  scp.Spec.Network.Ingress.map fun ingress =>
    { AdditionalMetadata :=
        { Labels := ingress.ExtraLabels, Annotations := ingress.ExtraAnnotations },
      IngressClassName := ingress.ClassName,
      Hostname := ingress.Hostname }

/-- The load-balancer class the claim gives (guard of lines 186-189). -/
def claimLoadBalancerClass (scp : StewardControlPlane) : Option String :=
  scp.Spec.Network.LoadBalancerConfig.bind (·.LoadBalancerClass)

/-- The load-balancer source ranges the claim gives (guard of lines 186-193). -/
def claimLoadBalancerSourceRanges (scp : StewardControlPlane) : Option (List String) :=
  scp.Spec.Network.LoadBalancerConfig.bind (·.LoadBalancerSourceRanges)

/-- The workload spec fields that the mutate step assigns only under a guard
on the claim or the cluster. -/
structure GuardedFields where
  DataStoreSchema : String
  DataStoreUsername : String
  Port : Int
  ServiceCIDR : String
  PodCIDR : String
  ClusterDomain : String
  LoadBalancerClass : Option String
  LoadBalancerSourceRanges : Option (List String)
  deriving DecidableEq, Repr

/-- The guarded fields of a workload spec. -/
def guardedOf (spec : TenantControlPlaneSpec) : GuardedFields :=
  { DataStoreSchema := spec.DataStoreSchema,
    DataStoreUsername := spec.DataStoreUsername,
    Port := spec.NetworkProfile.Port,
    ServiceCIDR := spec.NetworkProfile.ServiceCIDR,
    PodCIDR := spec.NetworkProfile.PodCIDR,
    ClusterDomain := spec.NetworkProfile.ClusterDomain,
    LoadBalancerClass := spec.NetworkProfile.LoadBalancerClass,
    LoadBalancerSourceRanges := spec.NetworkProfile.LoadBalancerSourceRanges }

/-- A workload spec with its guarded fields replaced. -/
def withGuarded (spec : TenantControlPlaneSpec) (g : GuardedFields) : TenantControlPlaneSpec :=
  { spec with
    DataStoreSchema := g.DataStoreSchema,
    DataStoreUsername := g.DataStoreUsername,
    NetworkProfile.Port := g.Port,
    NetworkProfile.ServiceCIDR := g.ServiceCIDR,
    NetworkProfile.PodCIDR := g.PodCIDR,
    NetworkProfile.ClusterDomain := g.ClusterDomain,
    NetworkProfile.LoadBalancerClass := g.LoadBalancerClass,
    NetworkProfile.LoadBalancerSourceRanges := g.LoadBalancerSourceRanges }

/-- The guarded fields after the mutate step: for each, the value the claim or
the cluster gives, and the prior value where they give none. -/
def prescribeGuarded (cluster : Cluster) (scp : StewardControlPlane) (prior : GuardedFields) :
    GuardedFields :=
  { DataStoreSchema := orPrior scp.Spec.DataStoreSchema prior.DataStoreSchema,
    DataStoreUsername := orPrior scp.Spec.DataStoreUsername prior.DataStoreUsername,
    Port := (clusterAPIServerPort cluster).getD prior.Port,
    ServiceCIDR := (clusterServiceCIDR cluster).getD prior.ServiceCIDR,
    PodCIDR := (clusterPodCIDR cluster).getD prior.PodCIDR,
    ClusterDomain := (clusterServiceDomain cluster).getD prior.ClusterDomain,
    LoadBalancerClass := (claimLoadBalancerClass scp).orElse fun _ => prior.LoadBalancerClass,
    LoadBalancerSourceRanges :=
      (claimLoadBalancerSourceRanges scp).orElse fun _ => prior.LoadBalancerSourceRanges }

/-! ## Concrete inputs -/

/-- A claim with version `1.30.0` and nothing else. -/
def claimV130 : StewardControlPlane :=
  { Meta := { Name := "cp", Namespace := "default", UID := "u-1" },
    Spec := { Version := "1.30.0" } }

/-- A claim whose only cert SAN carries a port. -/
def claimSANWithPort : StewardControlPlane :=
  { Meta := { Name := "cp", Namespace := "default", UID := "u-1" },
    Spec := { Version := "v1.30.0", Network := { CertSANs := some ["host:443"] } } }

/-- A claim whose only cert SAN is a bare host, with an ingress on a port. -/
def claimSANHostOnly : StewardControlPlane :=
  { Meta := { Name := "cp", Namespace := "default", UID := "u-1" },
    Spec := { Version := "v1.30.0",
              Network := { CertSANs := some ["host"],
                           Ingress := some { Hostname := "cp.example.com:8443" } } } }

/-- A claim with annotations, an ingress, a load balancer and a CoreDNS block. -/
def claimRich : StewardControlPlane :=
  { Meta := { Name := "cp", Namespace := "default", UID := "u-1",
              Annotations := some (GoMap.ofList
                [( KubeconfigSecretKeyAnnotation, "super-admin.conf"), ("team", "a")]) },
    Spec := { Version := "1.30.0", DataStoreName := "default",
              Network := { CertSANs := some ["host"],
                           Ingress := some { Hostname := "cp.example.com:8443" },
                           LoadBalancerConfig := some { LoadBalancerClass := some "metallb" } },
              Addons := { CoreDNS := some { DNSServiceIPs := ["10.96.0.10"] } } } }

/-- A cluster without a network block. -/
def clusterPlain : Cluster := { Meta := { Name := "c1", Namespace := "default" } }

/-- A freshly allocated workload in the claim's namespace. -/
def tcpFresh : TenantControlPlane := { Meta := { Name := "cp", Namespace := "default" } }

/-- A stored workload whose data-store schema is `tenant_a` and whose runtime
class is `runc`. -/
def tcpSchemaA : TenantControlPlane :=
  { Meta := { Name := "cp", Namespace := "default" },
    Spec := { DataStoreSchema := "tenant_a",
              ControlPlane := { Deployment := { RuntimeClassName := "runc" } } } }

/-- A stored workload whose data-store schema is `tenant_b` and whose runtime
class is `kata`. -/
def tcpSchemaB : TenantControlPlane :=
  { Meta := { Name := "cp", Namespace := "default" },
    Spec := { DataStoreSchema := "tenant_b",
              ControlPlane := { Deployment := { RuntimeClassName := "kata" } } } }


/-! ## The API server as an environment -/

/-- The client a call goes through: the management cluster's (`r.client`) or
the one of the external cluster registered in the store under `key`. -/
inductive Client where
  | management
  | remote (key : String)
  deriving DecidableEq, Repr

/-- The stages of a pass whose step function the trace marks. -/
inductive Step where
  | externalClient
  | createOrUpdate
  | endpointWait
  | endpointPatch
  | infrastructurePatch
  | markInitialized
  | statusProjection
  | confirmInitialized
  | replication
  | readiness
  | persistConditions
  deriving DecidableEq, Repr

/-- What a pass does to the outside world, in order: the calls it issues, each
write with the answer it got (`none`: accepted), and, as ghost events, the
step functions it starts. -/
inductive Event where
  | step (s : Step)
  | getClaim (ns name : String)
  | updateClaim (obj : StewardControlPlane) (answer : Option ApiError)
  | updateClaimStatus (obj : StewardControlPlane) (answer : Option ApiError)
  | getCluster (ns name : String)
  | getTCP (c : Client) (ns name : String)
  | createTCP (c : Client) (obj : TenantControlPlane) (answer : Option ApiError)
  | updateTCP (c : Client) (obj : TenantControlPlane) (answer : Option ApiError)
  | deleteTCP (c : Client) (ns name : String) (answer : Option ApiError)
  | extractRemoteClient
  | patchControlPlaneEndpoint (hostPort : String)
  | patchCluster (hostPort : String)
  | createRequiredResources

/-- The event is a call on workloads, through client `c`, for the object
`ns/name`. -/
def Event.targetsTCP (c : Client) (ns name : String) : Event → Prop
  | .getTCP c' ns' name' => c' = c ∧ ns' = ns ∧ name' = name
  | .createTCP c' obj _ => c' = c ∧ obj.Meta.Namespace = ns ∧ obj.Meta.Name = name
  | .updateTCP c' obj _ => c' = c ∧ obj.Meta.Namespace = ns ∧ obj.Meta.Name = name
  | _ => False

/-- The workload an event sends to the API server to be created or updated. -/
def Event.writtenTCP : Event → Option TenantControlPlane
  | .createTCP _ obj _ => some obj
  | .updateTCP _ obj _ => some obj
  | _ => none

/-- The answers of the collaborators. Every answer may depend on when the
call is issued: the first argument is the number of events before it. The
methods of the reconciler whose bodies are embedded on their own
(`extractRemoteClient`, `patchControlPlaneEndpoint`, `patchCluster`,
`createRequiredResources`) answer here with what they return. -/
structure Env where
  getClaim : Nat → String → String → Except ApiError StewardControlPlane
  updateClaim : Nat → StewardControlPlane → Option ApiError
  updateClaimStatus : Nat → StewardControlPlane → Option ApiError
  getCluster : Nat → String → String → Except ApiError Cluster
  getTCP : Nat → Client → String → String → Except ApiError TenantControlPlane
  createTCP : Nat → Client → TenantControlPlane → Option ApiError
  updateTCP : Nat → Client → TenantControlPlane → Option ApiError
  deleteTCP : Nat → Client → String → String → Option ApiError
  /-- Apimachinery `equality.Semantic.DeepEqual` on workloads. -/
  deepEqual : TenantControlPlane → TenantControlPlane → Bool
  extractRemoteClient : Nat → StewardControlPlane → Except Err Client
  /-- The claim as `patchControlPlaneEndpoint` leaves it in memory, and its error. -/
  patchControlPlaneEndpoint : Nat → StewardControlPlane → String → StewardControlPlane × Option Err
  patchCluster : Nat → Cluster → StewardControlPlane → String → Option Err
  createRequiredResources :
    Nat → Option Client → Cluster → StewardControlPlane → TenantControlPlane → Option Err
  /-- `r.FeatureGates.Enabled(features.SkipInfraClusterPatch)`. -/
  skipInfraClusterPatch : Bool
  /-- Apimachinery `metav1.FormatLabelSelector` of a selector matching the labels. -/
  formatLabelSelector : Option GoMap → String

/-- Client-go `retry.RetryOnConflict`, for a backoff of `steps` steps: run `fn`
again while it fails with a conflict and steps are left; the last error is
the result. -/
def retryOnConflictLoop {σ : Type} (fn : σ → σ × Option Err) : Nat → σ → σ × Option Err
  | 0, s => (s, none)
  | steps + 1, s =>
    match fn s with
    | (s', none) => (s', none)
    | (s', some e) =>
      if e.isConflict = true ∧ steps ≠ 0 then retryOnConflictLoop fn steps s' else (s', some e)

/-- `retry.RetryOnConflict(retry.DefaultRetry, fn)`: `DefaultRetry` has 5 steps. -/
def RetryOnConflict {σ : Type} (fn : σ → σ × Option Err) (s : σ) : σ × Option Err :=
  retryOnConflictLoop fn 5 s

/-- Controller-runtime `controllerutil.CreateOrUpdate` on a workload: read it;
when it is absent run the mutate function on the object at hand and create;
otherwise run it on what was read and update unless nothing changed. The
mutate function must not change name or namespace. -/
def CreateOrUpdate (env : Env) (c : Client)
    (f : TenantControlPlane → TenantControlPlane × Option Err)
    (s : TenantControlPlane × List Event) : (TenantControlPlane × List Event) × Option Err :=
  let ns := s.1.Meta.Namespace
  let name := s.1.Meta.Name
  let tr := s.2 ++ [.getTCP c ns name]
  match env.getTCP s.2.length c ns name with
  | .error e =>
    if e ≠ .notFound then ((s.1, tr), some (.api e))
    else
      match f s.1 with
      | (obj, some e) => ((obj, tr), some e)
      | (obj, none) =>
        if obj.Meta.Namespace ≠ ns ∨ obj.Meta.Name ≠ name then
          ((obj, tr), some (.other "MutateFn cannot mutate object name and/or object namespace"))
        else
          match env.createTCP tr.length c obj with
          | some e => ((obj, tr ++ [.createTCP c obj (some e)]), some (.api e))
          | none => ((obj, tr ++ [.createTCP c obj none]), none)
  | .ok existing =>
    match f existing with
    | (obj, some e) => ((obj, tr), some e)
    | (obj, none) =>
      if obj.Meta.Namespace ≠ ns ∨ obj.Meta.Name ≠ name then
        ((obj, tr), some (.other "MutateFn cannot mutate object name and/or object namespace"))
      else if env.deepEqual existing obj then ((obj, tr), none)
      else
        match env.updateTCP tr.length c obj with
        | some e => ((obj, tr ++ [.updateTCP c obj (some e)]), some (.api e))
        | none => ((obj, tr ++ [.updateTCP c obj none]), none)

/-! ## `pkg/externalclusterreference` -/

/-- `GenerateRemoteTenantControlPlaneNames`: the prefix followed by the claim's
UID, in the deployment namespace of the external reference. The code
dereferences the reference: without one there is no result. -/
def GenerateRemoteTenantControlPlaneNames (kcp : StewardControlPlane) : Option (String × String) :=
  match kcp.Spec.Deployment.ExternalClusterReference with
  | none => none
  | some ref => some (RemoteTCPPrefix ++ kcp.Meta.UID, ref.DeploymentNamespace)

/-! ## `createOrUpdateTenantControlPlane` -/

/-- One run of the closure given to `retry.RetryOnConflict` (lines 35-218): pick
the client and, when delegated, the remote name and namespace, then create
or update. -/
def createOrUpdateAttempt (env : Env) (remoteClient : Option Client) (cluster : Cluster)
    (scp : StewardControlPlane) (s : TenantControlPlane × List Event) :
    (TenantControlPlane × List Event) × Option Err :=
  match remoteClient with
  | some k8sClient =>
    match GenerateRemoteTenantControlPlaneNames scp with
    | none => (s, some .nilDereference)
    | some (name, ns) =>
      CreateOrUpdate env k8sClient (mutateFn true cluster scp)
        ({ s.1 with Meta.Name := name, Meta.Namespace := ns }, s.2)
  | none => CreateOrUpdate env .management (mutateFn false cluster scp) s

/-- `createOrUpdateTenantControlPlane`: the workload starts with the claim's
name and namespace; the attempt is retried on conflict; a failure comes back
wrapped. -/
def createOrUpdateTenantControlPlane (env : Env) (remoteClient : Option Client)
    (cluster : Cluster) (scp : StewardControlPlane) (tr : List Event) :
    Except Err TenantControlPlane × List Event :=
  let tcp : TenantControlPlane :=
    { Meta := { Name := scp.Meta.Name, Namespace := scp.Meta.Namespace } }
  match RetryOnConflict (createOrUpdateAttempt env remoteClient cluster scp) (tcp, tr) with
  | (s, some e) => (.error (.wrap "cannot create or update TenantControlPlane: " e), s.2)
  | (s, none) => (.ok s.1, s.2)

/-! ## Finalizer handling -/

/-- Apimachinery `sets.New[string](xs...)`: a set, kept as a duplicate-free list. -/
def setsNew (xs : List String) : List String := xs.dedup

/-- Apimachinery `Set.Has`. -/
def setsHas (s : List String) (x : String) : Bool := decide (x ∈ s)

/-- Apimachinery `Set.Insert`. -/
def setsInsert (s : List String) (x : String) : List String := if x ∈ s then s else s ++ [x]

/-- Apimachinery `Set.Delete`. -/
def setsDelete (s : List String) (x : String) : List String := s.filter (fun y => y ≠ x)

/-- One run of the closure of `handleFinalizer` (lines 23-33): re-read the
claim, insert the finalizer into the set computed before the loop, write
the set back as the claim's finalizers, update. -/
def handleFinalizerAttempt (env : Env)
    (s : (StewardControlPlane × List String) × List Event) :
    ((StewardControlPlane × List String) × List Event) × Option Err :=
  let scp := s.1.1
  let tr := s.2 ++ [.getClaim scp.Meta.Namespace scp.Meta.Name]
  match env.getClaim s.2.length scp.Meta.Namespace scp.Meta.Name with
  | .error e => (((scp, s.1.2), tr), some (.api e))
  | .ok fetched =>
    let finalizers := setsInsert s.1.2 ExternalClusterReferenceFinalizer
    let scp := { fetched with Meta.Finalizers := finalizers }
    match env.updateClaim tr.length scp with
    | some e => (((scp, finalizers), tr ++ [.updateClaim scp (some e)]), some (.api e))
    | none => (((scp, finalizers), tr ++ [.updateClaim scp none]), none)

/-- `handleFinalizer`: nothing to do when the claim in memory carries the
finalizer, else add it under retry. -/
def handleFinalizer (env : Env) (scp : StewardControlPlane) (tr : List Event) :
    (StewardControlPlane × List Event) × Option Err :=
  let finalizers := setsNew scp.Meta.Finalizers
  if !setsHas finalizers ExternalClusterReferenceFinalizer then
    match RetryOnConflict (handleFinalizerAttempt env) ((scp, finalizers), tr) with
    | (s, some e) => ((s.1.1, s.2), some e)
    | (s, none) => ((s.1.1, s.2), none)
  else ((scp, tr), none)

/-- One run of the closure of `handleDeletion` (lines 75-86): re-read the claim,
drop the finalizer from its finalizers, update. -/
def removeFinalizerAttempt (env : Env) (s : StewardControlPlane × List Event) :
    (StewardControlPlane × List Event) × Option Err :=
  let tr := s.2 ++ [.getClaim s.1.Meta.Namespace s.1.Meta.Name]
  match env.getClaim s.2.length s.1.Meta.Namespace s.1.Meta.Name with
  | .error e => ((s.1, tr), some (.api e))
  | .ok fetched =>
    let finalizers := setsDelete (setsNew fetched.Meta.Finalizers) ExternalClusterReferenceFinalizer
    let scp := { fetched with Meta.Finalizers := finalizers }
    match env.updateClaim tr.length scp with
    | some e => ((scp, tr ++ [.updateClaim scp (some e)]), some (.api e))
    | none => ((scp, tr ++ [.updateClaim scp none]), none)

/-- `handleDeletion`: the error it returns and the events it adds to `tr`. -/
def handleDeletion (env : Env) (scp : StewardControlPlane) (tr : List Event) :
    Option Err × List Event :=
  let finalizers := setsNew scp.Meta.Finalizers
  if !setsHas finalizers ExternalClusterReferenceFinalizer
      || scp.Spec.Deployment.ExternalClusterReference.isNone then
    (none, tr)
  else
    match env.extractRemoteClient tr.length scp with
    | .error cErr => (some cErr, tr ++ [.extractRemoteClient])
    | .ok remoteClient =>
      let tr := tr ++ [.extractRemoteClient]
      match GenerateRemoteTenantControlPlaneNames scp with
      | none => (some .nilDereference, tr)
      | some (name, ns) =>
        match env.deleteTCP tr.length remoteClient ns name with
        | some tcpErr =>
          if (Err.api tcpErr).isNotFound then
            (none, tr ++ [.deleteTCP remoteClient ns name (some tcpErr)])
          else (some (.api tcpErr), tr ++ [.deleteTCP remoteClient ns name (some tcpErr)])
        | none =>
          let tr := tr ++ [.deleteTCP remoteClient ns name none]
          match RetryOnConflict (removeFinalizerAttempt env) (scp, tr) with
          | (s, some err) => if err.isNotFound then (none, s.2) else (some err, s.2)
          | (s, none) => (none, s.2)

/-- The finalizers of the claim as the API server holds it after the given
events, when it held `stored` before them: only an accepted update of the
claim changes them (a status update and the endpoint merge patch do not
touch metadata). -/
def finalizersAfter (stored : List String) : List Event → List String
  | [] => stored
  | .updateClaim obj none :: rest => finalizersAfter obj.Meta.Finalizers rest
  | _ :: rest => finalizersAfter stored rest

/-! ## Conditions -/

/-- `FoundExternalClusterReferenceConditionType`. -/
def FoundExternalClusterReferenceConditionType : String := "FoundExternalReferenceClient"

/-- `TenantControlPlaneCreatedConditionType`. -/
def TenantControlPlaneCreatedConditionType : String := "TenantControlPlaneCreated"

/-- `TenantControlPlaneAddressReadyConditionType`. -/
def TenantControlPlaneAddressReadyConditionType : String := "TenantControlPlaneAddressReady"

/-- `ControlPlaneEndpointPatchedConditionType`. -/
def ControlPlaneEndpointPatchedConditionType : String := "ControlPlaneEndpointPatched"

/-- `InfrastructureClusterPatchedConditionType`. -/
def InfrastructureClusterPatchedConditionType : String := "InfrastructureClusterPatched"

/-- `StewardControlPlaneInitializedConditionType`. -/
def StewardControlPlaneInitializedConditionType : String := "StewardControlPlaneIsInitialized"

/-- `StewardControlPlaneReadyConditionType`. -/
def StewardControlPlaneReadyConditionType : String := "StewardControlPlaneIsReady"

/-- `KubeadmResourcesCreatedReadyConditionType`. -/
def KubeadmResourcesCreatedReadyConditionType : String := "KubeadmResourcesCreated"

/-- Set or overwrite the condition of the same type, appending when there is
none. -/
def setCondition (conditions : List Condition) (c : Condition) : List Condition :=
  match conditions with
  | [] => [c]
  | x :: xs => if x.ConditionType = c.ConditionType then c :: xs else x :: setCondition xs c

/-- The generation on record for a condition type, when the list holds a
condition of that type. -/
def recordedGeneration (conditions : List Condition) (conditionType : String) : Option Int :=
  (conditions.find? (fun c => c.ConditionType = conditionType)).map (·.ObservedGeneration)

/-- Modelled from the spec: `TrackConditionType` is called by `Reconcile` but its
body is not among the sources. Spec 4.1: it runs the step function; on
success it sets or overwrites the named condition to True with the
generation; on failure it sets it False, attaches the error message,
preserves the generation (the one on record stays; the one of the call is
recorded when there is none), and hands the error back unchanged. Spec 3: a
condition is never overwritten by a stale generation, so a success carrying a
generation lower than the one on record leaves the condition as it is. Only
the in-memory condition list is touched. -/
def TrackConditionType {σ : Type} (conditions : List Condition) (conditionType : String)
    (generation : Int) (fn : σ → σ × Option Err) (s : σ) : List Condition × σ × Option Err :=
  match fn s with
  | (s', none) =>
    let stale : Bool :=
      match recordedGeneration conditions conditionType with
      | some recorded => decide (generation < recorded)
      | none => false
    (if stale then conditions
     else setCondition conditions
      { ConditionType := conditionType, Status := true, ObservedGeneration := generation },
     s', none)
  | (s', some e) =>
    (setCondition conditions
      { ConditionType := conditionType, Status := false,
        ObservedGeneration := (recordedGeneration conditions conditionType).getD generation,
        Message := e.Error },
     s', some e)

/-! ## `Reconcile` -/

/-- Controller-runtime `ctrl.Result`; `RequeueAfter` in nanoseconds. -/
structure Result where
  Requeue : Bool := false
  RequeueAfter : Nat := 0
  deriving DecidableEq, Repr

/-- The local variables of `Reconcile` that outlive a stage: the claim, the
cluster, the condition list, the remote client, the workload (set by the
create-or-update stage), the function-level `err`, and the events so far. -/
structure PassState where
  scp : StewardControlPlane
  cluster : Cluster
  conditions : List Condition
  remoteClient : Option Client := none
  tcp : TenantControlPlane := {}
  err : Option Err := none
  trace : List Event := []

/-- A `return` statement of `Reconcile` after the deferred status update has
been registered: what is returned and the locals at that point. -/
structure Exit where
  result : Result
  err : Option Err
  st : PassState

/-- What `Reconcile` returns to the scheduler, with the events of the pass. -/
structure Return where
  result : Result
  err : Option Err
  trace : List Event

/-- One run of the closure of `updateStewardControlPlaneStatus`: re-read the
claim into the variable, apply the modifier to it, update the status. -/
def updateStatusAttempt (env : Env) (modifierFn : StewardControlPlane → StewardControlPlane)
    (s : StewardControlPlane × List Event) : (StewardControlPlane × List Event) × Option Err :=
  let tr := s.2 ++ [.getClaim s.1.Meta.Namespace s.1.Meta.Name]
  match env.getClaim s.2.length s.1.Meta.Namespace s.1.Meta.Name with
  | .error e => ((s.1, tr), some (.api e))
  | .ok fetched =>
    let scp := modifierFn fetched
    match env.updateClaimStatus tr.length scp with
    | some e => ((scp, tr ++ [.updateClaimStatus scp (some e)]), some (.api e))
    | none => ((scp, tr ++ [.updateClaimStatus scp none]), none)

/-- `updateStewardControlPlaneStatus`: the attempt under retry, a failure wrapped. -/
def updateStewardControlPlaneStatus (env : Env) (scp : StewardControlPlane)
    (modifierFn : StewardControlPlane → StewardControlPlane) (tr : List Event) :
    (StewardControlPlane × List Event) × Option Err :=
  match RetryOnConflict (updateStatusAttempt env modifierFn) (scp, tr) with
  | (s, some e) => (s, some (.wrap "cannot update StewardControlPlane resource: " e))
  | (s, none) => (s, none)

/-- Cluster API `annotations.IsPaused`: the cluster is paused or the object
carries the paused annotation. -/
def IsPaused (cluster : Cluster) (scp : StewardControlPlane) : Bool :=
  cluster.Spec.Paused ||
    match scp.Meta.Annotations with
    | none => false
    | some m => (m "cluster.x-k8s.io/paused").isSome

/-- `TrackConditionType(&conditions, conditionType, scp.Generation, fn)` inside
`Reconcile`: the step works on the locals, the tracker on the condition
list; what the tracker hands back is dropped, as at every call site. -/
def trackStage (conditionType : String) (fn : PassState → PassState × Option Err)
    (st : PassState) : PassState :=
  let r := TrackConditionType st.conditions conditionType st.scp.Meta.Generation fn st
  { r.2.1 with conditions := r.1 }

/-- Lines 55-110: fetch the claim, wait for its owner, fetch the cluster, stop
when paused, and branch to `handleDeletion` when the claim is being deleted. -/
def reconcileGates (env : Env) (ns name : String) : Except Return PassState :=
  let tr := [Event.getClaim ns name]
  match env.getClaim 0 ns name with
  | .error e =>
    if (Err.api e).isNotFound then .error { result := {}, err := none, trace := tr }
    else .error { result := {}, err := some (.api e), trace := tr }
  | .ok scp =>
    match scp.Meta.OwnerReferences with
    | [] => .error { result := {}, err := none, trace := tr }
    | owner :: _ =>
      let tr' := tr ++ [.getCluster scp.Meta.Namespace owner.Name]
      match env.getCluster tr.length scp.Meta.Namespace owner.Name with
      | .error e =>
        if (Err.api e).isNotFound then .error { result := {}, err := none, trace := tr' }
        else .error { result := {}, err := some (.api e), trace := tr' }
      | .ok cluster =>
        if IsPaused cluster scp then .error { result := {}, err := none, trace := tr' }
        else if scp.Meta.DeletionTimestamp.isSome then
          let r := handleDeletion env scp tr'
          .error { result := {}, err := r.1, trace := r.2 }
        else
          .ok { scp := scp, cluster := cluster, conditions := scp.Status.Conditions, trace := tr' }

/-- The step function of lines 130-134: resolve the remote client into
`remoteClient` and `err`. -/
def externalClientStep (env : Env) (st : PassState) : PassState × Option Err :=
  let tr := st.trace ++ [.step .externalClient, .extractRemoteClient]
  match env.extractRemoteClient (st.trace.length + 1) st.scp with
  | .ok c => ({ st with remoteClient := some c, err := none, trace := tr }, none)
  | .error e => ({ st with remoteClient := none, err := some e, trace := tr }, some e)

/-- Lines 129-147, only with an external reference: resolve the remote client,
then make sure the claim carries the finalizer. -/
def stageExternalClient (env : Env) (st : PassState) : Except Exit PassState :=
  match st.scp.Spec.Deployment.ExternalClusterReference with
  | none => .ok st
  | some _ =>
    let st := trackStage FoundExternalClusterReferenceConditionType (externalClientStep env) st
    match st.err with
    | some e => .error { result := {}, err := some e, st := st }
    | none =>
      match handleFinalizer env st.scp st.trace with
      | (s, some e) =>
        .error { result := {}, err := some e, st := { st with scp := s.1, trace := s.2, err := some e } }
      | (s, none) => .ok { st with scp := s.1, trace := s.2, err := none }

/-- The step function of lines 151-155: create or update the workload into
`tcp` and `err`. (On failure the code sets `tcp` to nil and the pass returns
at once; here `tcp` keeps its value, which nothing reads.) -/
def createOrUpdateStep (env : Env) (st : PassState) : PassState × Option Err :=
  match createOrUpdateTenantControlPlane env st.remoteClient st.cluster st.scp
      (st.trace ++ [.step .createOrUpdate]) with
  | (.ok tcp, tr) => ({ st with tcp := tcp, err := none, trace := tr }, none)
  | (.error e, tr) => ({ st with err := some e, trace := tr }, some e)

/-- Lines 149-161: create or update the workload. -/
def stageCreateOrUpdate (env : Env) (st : PassState) : Except Exit PassState :=
  let st := trackStage TenantControlPlaneCreatedConditionType (createOrUpdateStep env) st
  match st.err with
  | some e => .error { result := {}, err := some e, st := st }
  | none => .ok st

/-- The error of line 170. -/
def errEndpointNotYetAvailable : Err :=
  .other "Control Plane Endpoint is not yet available since unprocessed by Steward"

/-- The step function of lines 168-174: it sets the function-level `err` when
the workload has no endpoint, and returns `err`. -/
def endpointWaitStep (st : PassState) : PassState × Option Err :=
  let st := { st with trace := st.trace ++ [.step .endpointWait] }
  let st :=
    if st.tcp.Status.ControlPlaneEndpoint.length = 0 then
      { st with err := some errEndpointNotYetAvailable }
    else st
  (st, st.err)

/-- Lines 168-182: without an advertised endpoint, requeue after a second. -/
def stageEndpointWait (_env : Env) (st : PassState) : Except Exit PassState :=
  let st := trackStage TenantControlPlaneAddressReadyConditionType endpointWaitStep st
  match st.err with
  | some _ => .error { result := { RequeueAfter := timeSecond }, err := none, st := st }
  | none => .ok st

/-- The step function of lines 186-190: patch the endpoint onto the claim. -/
def endpointPatchStep (env : Env) (st : PassState) : PassState × Option Err :=
  let hostPort := st.tcp.Status.ControlPlaneEndpoint
  let tr := st.trace ++ [.step .endpointPatch, .patchControlPlaneEndpoint hostPort]
  let r := env.patchControlPlaneEndpoint (st.trace.length + 1) st.scp hostPort
  ({ st with scp := r.1, err := r.2, trace := tr }, r.2)

/-- Lines 186-196: patch the endpoint onto the claim. -/
def stageEndpointPatch (env : Env) (st : PassState) : Except Exit PassState :=
  let st := trackStage ControlPlaneEndpointPatchedConditionType (endpointPatchStep env) st
  match st.err with
  | some e => .error { result := {}, err := some e, st := st }
  | none => .ok st

/-- Lines 200-210: fetch the cluster again. -/
def stageRefetchCluster (env : Env) (st : PassState) : Except Exit PassState :=
  let tr := st.trace ++ [.getCluster st.cluster.Meta.Namespace st.cluster.Meta.Name]
  match env.getCluster st.trace.length st.cluster.Meta.Namespace st.cluster.Meta.Name with
  | .error e =>
    let st := { st with err := some (.api e), trace := tr }
    if (Err.api e).isNotFound then .error { result := {}, err := none, st := st }
    else .error { result := {}, err := some (.api e), st := st }
  | .ok cluster => .ok { st with cluster := cluster, err := none, trace := tr }

/-- The step function of lines 217-221: patch the infrastructure cluster. -/
def infrastructurePatchStep (env : Env) (st : PassState) : PassState × Option Err :=
  let hostPort := st.tcp.Status.ControlPlaneEndpoint
  let tr := st.trace ++ [.step .infrastructurePatch, .patchCluster hostPort]
  let e := env.patchCluster (st.trace.length + 1) st.cluster st.scp hostPort
  ({ st with err := e, trace := tr }, e)

/-- Lines 214-228: patch the infrastructure cluster unless the feature gate
skips it. -/
def stageInfrastructurePatch (env : Env) (st : PassState) : Except Exit PassState :=
  if !env.skipInfraClusterPatch then
    let st := trackStage InfrastructureClusterPatchedConditionType (infrastructurePatchStep env) st
    match st.err with
    | some e => .error { result := {}, err := some e, st := st }
    | none => .ok st
  else .ok st

/-- Lines 233-249: the cluster must have an endpoint host and a ready
infrastructure, the workload a version state; else requeue after a second. -/
def stageClusterGates (_env : Env) (st : PassState) : Except Exit PassState :=
  if st.cluster.Spec.ControlPlaneEndpoint.Host.length = 0 then
    .error { result := { RequeueAfter := timeSecond }, err := none, st := st }
  else if !st.cluster.Status.InfrastructureReady then
    .error { result := { RequeueAfter := timeSecond }, err := none, st := st }
  else if st.tcp.Status.Kubernetes.Version.Status.isNone then
    .error { result := { RequeueAfter := timeSecond }, err := none, st := st }
  else .ok st

/-- The modifier of lines 255 and 296: mark the claim initialized. -/
def initializedModifier (scp : StewardControlPlane) : StewardControlPlane :=
  { scp with Status.Initialized := true }

/-- The step function of lines 253-259: mark the claim initialized. -/
def markInitializedStep (env : Env) (st : PassState) : PassState × Option Err :=
  let r := updateStewardControlPlaneStatus env st.scp initializedModifier
    (st.trace ++ [.step .markInitialized])
  ({ st with scp := r.1.1, err := r.2, trace := r.1.2 }, r.2)

/-- Lines 251-272: when the workload is exactly ready and the claim is not yet
initialized, mark it; a claim still not initialized requeues after a second. -/
def stageMarkInitialized (env : Env) (st : PassState) : Except Exit PassState :=
  let marked : Except Exit PassState :=
    if st.tcp.Status.Kubernetes.Version.Status = some VersionReady ∧ st.scp.Status.Initialized = false
    then
      let st := trackStage StewardControlPlaneInitializedConditionType (markInitializedStep env) st
      match st.err with
      | some e => .error { result := {}, err := some e, st := st }
      | none => .ok st
    else .ok st
  match marked with
  | .error exit => .error exit
  | .ok st =>
    if !st.scp.Status.Initialized then
      .error { result := { RequeueAfter := timeSecond }, err := none, st := st }
    else .ok st

/-- The modifier of lines 277-282: the workload's counters, the selector of the
claim's labels and the observed version. -/
def projectionModifier (env : Env) (tcp : TenantControlPlane) (scp : StewardControlPlane) :
    StewardControlPlane :=
  { scp with
    Status.ReadyReplicas := tcp.Status.Kubernetes.Deployment.ReadyReplicas,
    Status.Replicas := tcp.Status.Kubernetes.Deployment.Replicas,
    Status.Selector := env.formatLabelSelector scp.Meta.Labels,
    Status.UnavailableReplicas := tcp.Status.Kubernetes.Deployment.UnavailableReplicas,
    Status.UpdatedReplicas := tcp.Status.Kubernetes.Deployment.UpdatedReplicas,
    Status.Version := tcp.Status.Kubernetes.Version.Version }

/-- The step function of lines 275-286: project the workload's status. -/
def statusProjectionStep (env : Env) (st : PassState) : PassState × Option Err :=
  let r := updateStewardControlPlaneStatus env st.scp (projectionModifier env st.tcp)
    (st.trace ++ [.step .statusProjection])
  ({ st with scp := r.1.1, err := r.2, trace := r.1.2 }, r.2)

/-- Lines 275-292: project the workload's counters, selector and version onto
the claim's status. -/
def stageStatusProjection (env : Env) (st : PassState) : Except Exit PassState :=
  let st := trackStage StewardControlPlaneInitializedConditionType (statusProjectionStep env) st
  match st.err with
  | some e => .error { result := {}, err := some e, st := st }
  | none => .ok st

/-- The step function of lines 294-300: mark the claim initialized once more. -/
def confirmInitializedStep (env : Env) (st : PassState) : PassState × Option Err :=
  let r := updateStewardControlPlaneStatus env st.scp initializedModifier
    (st.trace ++ [.step .confirmInitialized])
  ({ st with scp := r.1.1, err := r.2, trace := r.1.2 }, r.2)

/-- Lines 294-300: mark the claim initialized once more; `err` is assigned and
not looked at before the next stage assigns it again. -/
def stageConfirmInitialized (env : Env) (st : PassState) : Except Exit PassState :=
  .ok (trackStage StewardControlPlaneInitializedConditionType (confirmInitializedStep env) st)

/-- The step function of lines 304-308: replicate the generated secrets. -/
def replicationStep (env : Env) (st : PassState) : PassState × Option Err :=
  let tr := st.trace ++ [.step .replication, .createRequiredResources]
  let e := env.createRequiredResources (st.trace.length + 1) st.remoteClient st.cluster
    st.scp st.tcp
  ({ st with err := e, trace := tr }, e)

/-- Lines 302-320: replicate the generated secrets; the enqueue-back sentinel
requeues after a second, any other error is returned. -/
def stageReplication (env : Env) (st : PassState) : Except Exit PassState :=
  let st := trackStage KubeadmResourcesCreatedReadyConditionType (replicationStep env) st
  match st.err with
  | some e =>
    if e.is ErrEnqueueBack then
      .error { result := { RequeueAfter := timeSecond }, err := none, st := st }
    else .error { result := {}, err := some e, st := st }
  | none => .ok st

/-- The modifier of the readiness stage (line 324): ready when the workload's
version state is ready or upgrading. -/
def readyModifier (versionStatus : String) (scp : StewardControlPlane) : StewardControlPlane :=
  { scp with
    Status.Ready := decide (versionStatus = VersionReady) || decide (versionStatus = VersionUpgrading) }

/-- The step function of the readiness stage (lines 322-335). It assigns the
function-level `err` with the outcome of the status update only; the
enqueue-back error for a claim that is not ready is its return value. -/
def readinessStep (env : Env) (st : PassState) : PassState × Option Err :=
  match st.tcp.Status.Kubernetes.Version.Status with
  | none => ({ st with trace := st.trace ++ [.step .readiness] }, some .nilDereference)
  | some versionStatus =>
    let r := updateStewardControlPlaneStatus env st.scp (readyModifier versionStatus)
      (st.trace ++ [.step .readiness])
    let st := { st with scp := r.1.1, err := r.2, trace := r.1.2 }
    match r.2 with
    | some e => (st, some e)
    | none =>
      if !st.scp.Status.Ready then
        (st, some (.wrap ("TenantControlPlane in " ++ versionStatus ++ " status, ") ErrEnqueueBack))
      else (st, none)

/-- Lines 322-351: the readiness stage and the final return. -/
def stageReadiness (env : Env) (st : PassState) : Exit :=
  let st := trackStage StewardControlPlaneReadyConditionType (readinessStep env) st
  match st.err with
  | some e =>
    if e.is ErrEnqueueBack then { result := { RequeueAfter := timeSecond }, err := none, st := st }
    else { result := {}, err := some e, st := st }
  | none => { result := {}, err := none, st := st }

/-- The modifier of the deferred function (line 117): the condition list. -/
def conditionsModifier (conditions : List Condition) (scp : StewardControlPlane) :
    StewardControlPlane :=
  { scp with Status.Conditions := conditions }

/-- The deferred function (lines 115-123): whatever the exit, write the
conditions gathered so far into the claim's status; a failure is only
logged. -/
def persistConditions (env : Env) (exit : Exit) : Return :=
  let r := updateStewardControlPlaneStatus env exit.st.scp (conditionsModifier exit.st.conditions)
    (exit.st.trace ++ [.step .persistConditions])
  { result := exit.result, err := exit.err, trace := r.1.2 }

/-- The pass up to and including create-or-update (lines 112-161). -/
def stagesThroughCreate (env : Env) (st : PassState) : Except Exit PassState :=
  stageExternalClient env st >>= stageCreateOrUpdate env

/-- The pass from the endpoint wait up to and including replication (lines 168-320). -/
def stagesAfterCreate (env : Env) (st : PassState) : Except Exit PassState :=
  stageEndpointWait env st >>= stageEndpointPatch env >>= stageRefetchCluster env
    >>= stageInfrastructurePatch env >>= stageClusterGates env >>= stageMarkInitialized env
    >>= stageStatusProjection env >>= stageConfirmInitialized env >>= stageReplication env

/-- The stages of a pass after the gates, up to its `return`. -/
def reconcileStages (env : Env) (st : PassState) : Exit :=
  match stagesThroughCreate env st >>= stagesAfterCreate env with
  | .error exit => exit
  | .ok st => stageReadiness env st

/-- `StewardControlPlaneReconciler.Reconcile` for the request `ns/name`. -/
def Reconcile (env : Env) (ns name : String) : Return :=
  match reconcileGates env ns name with
  | .error ret => ret
  | .ok st => persistConditions env (reconcileStages env st)

/-! ## Concrete environments -/

/-- The external reference of the concrete claims. -/
def ecrExample : ExternalClusterReference :=
  { KubeconfigSecretName := "kubeconfig", KubeconfigSecretKey := "value",
    DeploymentNamespace := "tenants" }

/-- A claim deployed to an external cluster, carrying the finalizer, owned by
the cluster `c1`. -/
def claimRemote : StewardControlPlane :=
  { Meta := { Name := "cp", Namespace := "default", UID := "u-1",
              Finalizers := [ExternalClusterReferenceFinalizer],
              OwnerReferences := [{ APIVersion := "cluster.x-k8s.io/v1beta1", Kind := "Cluster",
                                    Name := "c1", UID := "c-1" }] },
    Spec := { Version := "v1.30.0", Deployment := { ExternalClusterReference := some ecrExample } } }

/-- The client of the external cluster of the concrete claims. -/
def remoteExample : Client := .remote "default/kubeconfig/value"

/-- Clusters that hold nothing: every read and every delete reports NotFound,
every write is accepted, the remote client resolves. -/
def envAbsent : Env :=
  { getClaim := fun _ _ _ => .error .notFound,
    updateClaim := fun _ _ => none,
    updateClaimStatus := fun _ _ => none,
    getCluster := fun _ _ _ => .error .notFound,
    getTCP := fun _ _ _ _ => .error .notFound,
    createTCP := fun _ _ _ => none,
    updateTCP := fun _ _ _ => none,
    deleteTCP := fun _ _ _ _ => some .notFound,
    deepEqual := fun _ _ => false,
    extractRemoteClient := fun _ _ => .ok remoteExample,
    patchControlPlaneEndpoint := fun _ scp _ => (scp, none),
    patchCluster := fun _ _ _ _ => none,
    createRequiredResources := fun _ _ _ _ _ => none,
    skipInfraClusterPatch := false,
    formatLabelSelector := fun _ => "" }

/-- Clusters whose remote delete fails with a network error. -/
def envDeleteFails : Env :=
  { envAbsent with deleteTCP := fun _ _ _ _ => some (.other "connection refused") }

/-- Clusters on which the remote delete succeeds and the claim is stored as
`claimRemote`. -/
def envDeleted : Env :=
  { envAbsent with
    deleteTCP := fun _ _ _ _ => none,
    getClaim := fun _ _ _ => .ok claimRemote }

/-- A claim already marked initialized, owned by the cluster `c1`, deployed on
the management cluster. -/
def claimInitialized : StewardControlPlane :=
  { Meta := { Name := "cp", Namespace := "default", UID := "u-1",
              OwnerReferences := [{ APIVersion := "cluster.x-k8s.io/v1beta1", Kind := "Cluster",
                                    Name := "c1", UID := "c-1" }] },
    Spec := { Version := "v1.30.0" },
    Status := { Initialized := true, Ready := true } }

/-- A cluster with an endpoint and a ready infrastructure. -/
def clusterReady : Cluster :=
  { Meta := { Name := "c1", Namespace := "default" },
    Spec := { ControlPlaneEndpoint := { Host := "10.0.0.1", Port := 6443 } },
    Status := { InfrastructureReady := true } }

/-- A workload with an endpoint and both secrets, in the version state `s`. -/
def tcpInState (s : String) : TenantControlPlane :=
  { Meta := { Name := "cp", Namespace := "default" },
    Status := { ControlPlaneEndpoint := "10.0.0.1:6443",
                Kubernetes := { Version := { Version := "v1.30.0", Status := some s } },
                KubeConfigAdminSecretName := "cp-admin-kubeconfig",
                CertificatesCASecretName := "cp-ca" } }

/-- A workload that has not advertised an endpoint yet. -/
def tcpNoEndpoint : TenantControlPlane := { Meta := { Name := "cp", Namespace := "default" } }

/-- Clusters on which every call succeeds: the claim is stored as
`claimInitialized`, its cluster as `clusterReady`, the workload as `tcp`. -/
def envHealthy (tcp : TenantControlPlane) : Env :=
  { envAbsent with
    getClaim := fun _ _ _ => .ok claimInitialized,
    getCluster := fun _ _ _ => .ok clusterReady,
    getTCP := fun _ _ _ _ => .ok tcp,
    deleteTCP := fun _ _ _ _ => none }

/-! ## Vocabulary for the statements about `Reconcile` -/

/-- The stages that come after the endpoint wait. -/
def Step.afterEndpointWait : Step → Bool
  | .endpointPatch => true
  | .infrastructurePatch => true
  | .markInitialized => true
  | .statusProjection => true
  | .confirmInitialized => true
  | .replication => true
  | .readiness => true
  | _ => false

/-- The event belongs to a stage after the endpoint wait: the start of such a
stage, the endpoint patch, the infrastructure patch or the replication. -/
def Event.afterEndpointWait : Event → Bool
  | .step s => s.afterEndpointWait
  | .patchControlPlaneEndpoint _ => true
  | .patchCluster _ => true
  | .createRequiredResources => true
  | _ => false

/-- The event reads the claim or updates its status: what
`updateStewardControlPlaneStatus` issues. -/
def Event.isStatusUpdateCall : Event → Bool
  | .getClaim _ _ => true
  | .updateClaimStatus _ _ => true
  | _ => false

/-- The Ready flag an event sends in a status update of the claim. -/
def Event.readySent : Event → Option Bool
  | .updateClaimStatus obj _ => some obj.Status.Ready
  | _ => none

/-- The trace `tr'` is `tr` followed by events that all satisfy `P`. -/
def Extends (P : Event → Prop) (tr tr' : List Event) : Prop :=
  ∃ added, tr' = tr ++ added ∧ ∀ e ∈ added, P e

/-- The locals with which a run of stages ends: those it hands on, or those
at its `return`. -/
def passStateOf (r : Except Exit PassState) : PassState :=
  match r with
  | .ok st => st
  | .error exit => exit.st

/-- The run of stages did not return: the pass goes on. -/
def goesOn (r : Except Exit PassState) : Bool :=
  match r with
  | .ok _ => true
  | .error _ => false

/-- The locals after the gates of the pass for `default/cp` on `envHealthy tcp`. -/
def healthyAfterGates : PassState :=
  { scp := claimInitialized, cluster := clusterReady, conditions := [],
    trace := [.getClaim "default" "cp", .getCluster "default" "c1"] }

/-! ## `strconv` and the endpoint of the control plane -/

/-- The value of an ASCII decimal digit. -/
def digitValue (c : Char) : Option Nat :=
  if 48 ≤ c.toNat ∧ c.toNat ≤ 57 then some (c.toNat - 48) else none

/-- The number that decimal digits denote, continuing from the digits read so
far (`acc`); nothing as soon as a character is no digit. -/
def parseDigits (acc : Nat) : List Char → Option Nat
  | [] => some acc
  | c :: cs =>
    match digitValue c with
    | none => none
    | some d => parseDigits (acc * 10 + d) cs

/-- The two failures of `strconv.ParseInt`: `ErrSyntax` (`invalid`) and
`ErrRange` (`outOfRange`). -/
inductive NumError where
  | invalid
  | outOfRange
  deriving DecidableEq, Repr

/-- Go `strconv.ParseInt(s, 10, bitSize)` for `bitSize > 0`: an optional sign,
then at least one character, digits only; the value must fit a signed
integer of `bitSize` bits. The texts accepted and their values are those of
Go, and so is the error of a text made of digits; a text with a character
that is no digit is `invalid` here also when the digits before it are
already out of range, where Go reports the range error it meets first. -/
def ParseInt (s : String) (bitSize : Nat) : Except NumError Int :=
  let cutoff : Nat := 2 ^ (bitSize - 1)
  match s.data with
  | [] => .error .invalid
  | c :: rest =>
    let neg : Bool := c == '-'
    let digits := if c = '+' ∨ c = '-' then rest else c :: rest
    match digits with
    | [] => .error .invalid
    | _ :: _ =>
      match parseDigits 0 digits with
      | none => .error .invalid
      | some un =>
        if neg = false ∧ cutoff ≤ un then .error .outOfRange
        else if neg = true ∧ cutoff < un then .error .outOfRange
        else .ok (if neg then -(un : Int) else (un : Int))

/-- The decimal digits of `n`, most significant first; `fuel` bounds their
number. -/
def decimalDigits : Nat → Nat → List Char
  | 0, _ => []
  | fuel + 1, n =>
    if n < 10 then [Char.ofNat (48 + n)]
    else decimalDigits fuel (n / 10) ++ [Char.ofNat (48 + n % 10)]

/-- Go `strconv.Itoa`. -/
def Itoa (n : Int) : String :=
  match n with
  | .ofNat m => String.mk (decimalDigits (m + 1) m)
  | .negSucc m => String.mk ('-' :: decimalDigits (m + 2) (m + 1))

/-- Go `len(strings.Split(s, sep))` for a separator of one byte: one more than
the number of separators in `s`. -/
def splitCount (s : String) (sep : Char) : Nat := s.data.count sep + 1

/-- The text of a `*net.AddrError`. -/
def AddrError.reason : AddrError → String
  | .missingPort => "missing port in address"
  | .tooManyColons => "too many colons in address"
  | .missingClosingBracket => "missing ] in address"
  | .unexpectedOpeningBracket => "unexpected [ in address"
  | .unexpectedClosingBracket => "unexpected ] in address"

/-- A `*net.AddrError` as an error value. -/
def addrErr (addr : String) (e : AddrError) : Err :=
  .other ("address " ++ addr ++ ": " ++ e.reason)

/-- A `*strconv.NumError` as an error value. -/
def numErr (num : String) (e : NumError) : Err :=
  match e with
  | .invalid => .other ("strconv.ParseInt: parsing " ++ num ++ ": invalid syntax")
  | .outOfRange => .other ("strconv.ParseInt: parsing " ++ num ++ ": value out of range")

/-- `defaultIngressPort`. -/
def defaultIngressPort : Int := 443

/-- `defaultGatewayPort`. -/
def defaultGatewayPort : Int := 6443

/-- `parseHostnameWithDefault`: a hostname without any colon gets the default
port appended; then host and port are split and the port is read as a 64-bit
integer. -/
def parseHostnameWithDefault (hostname : String) (defaultPort : Int) (label : String) :
    Except Err (String × Int) :=
  let hostname :=
    if splitCount hostname ':' = 1 then hostname ++ ":" ++ Itoa defaultPort else hostname
  match SplitHostPort hostname with
  | .error e =>
    .error (.wrap ("cannot split the Steward " ++ label ++ " hostname host port pair: ")
      (addrErr hostname e))
  | .ok (host, strPort) =>
    match ParseInt strPort 64 with
    | .error e =>
      .error (.wrap ("cannot convert Steward " ++ label ++ " hostname port pair: ")
        (numErr strPort e))
    | .ok port => .ok (host, port)

/-- `controlPlaneEndpoint`: the workload's advertised `host:port` is split and its
port read as a 16-bit integer; then the hostname of the claim's ingress, and
after it the hostname of its gateway, replace host and port when configured. -/
def controlPlaneEndpoint (controlPlane : StewardControlPlane) (statusEndpoint : String) :
    Except Err (String × Int) :=
  match SplitHostPort statusEndpoint with
  | .error e =>
    .error (.wrap "cannot split the Steward endpoint host port pair: " (addrErr statusEndpoint e))
  | .ok (endpoint, strPort) =>
    match ParseInt strPort 16 with
    | .error pErr => .error (.wrap "cannot convert port to integer: " (numErr strPort pErr))
    | .ok port =>
      let afterIngress : Except Err (String × Int) :=
        match controlPlane.Spec.Network.Ingress with
        | some ingress => parseHostnameWithDefault ingress.Hostname defaultIngressPort "Ingress"
        | none => .ok (endpoint, port)
      match afterIngress with
      | .error err => .error err
      | .ok (endpoint, port) =>
        match controlPlane.Spec.Network.Gateway with
        | some gateway => parseHostnameWithDefault gateway.Hostname defaultGatewayPort "Gateway"
        | none => .ok (endpoint, port)

/-! ## Unstructured objects -/

/-- A JSON value as `unstructured.Unstructured` holds it: `nil`, a boolean, an
`int64`, a string, a `map[string]interface{}` (as its lookup function), or
anything else (a float, a list), which the code never looks into. -/
inductive JSON where
  | null
  | bool (b : Bool)
  | int (n : Int)
  | str (s : String)
  | other (payload : Payload)
  | obj (fields : String → Option JSON)

/-- Apimachinery `unstructured.NestedFieldNoCopy`: walk the path; a missing key
or a `nil` on the way is "not found", anything else that is no map is an
error. -/
def NestedFieldNoCopy : JSON → List String → Except Err (Option JSON)
  | val, [] => .ok (some val)
  | .null, _ :: _ => .ok none
  | .obj m, field :: rest =>
    match m field with
    | none => .ok none
    | some v => NestedFieldNoCopy v rest
  | _, _ :: _ => .error (.other "accessor error: expected map[string]interface{}")

/-- Apimachinery `unstructured.NestedString`: the string at the path and whether
it was found; a value that is no string is an error. -/
def NestedString (obj : String → Option JSON) (fields : List String) :
    Except Err (String × Bool) :=
  match NestedFieldNoCopy (.obj obj) fields with
  | .error e => .error e
  | .ok none => .ok ("", false)
  | .ok (some (.str s)) => .ok (s, true)
  | .ok (some _) => .error (.other "accessor error: expected string")

/-- Apimachinery `unstructured.NestedInt64`: the integer at the path and whether
it was found; a value that is no `int64` is an error. -/
def NestedInt64 (obj : String → Option JSON) (fields : List String) :
    Except Err (Int × Bool) :=
  match NestedFieldNoCopy (.obj obj) fields with
  | .error e => .error e
  | .ok none => .ok (0, false)
  | .ok (some (.int n)) => .ok (n, true)
  | .ok (some _) => .error (.other "accessor error: expected int64")

/-- Apimachinery `unstructured.SetNestedField`: walk the path but for its last
key, creating the maps that are missing and failing on a value that is no
map; then set the last key. On failure nothing has been changed. -/
def SetNestedField (obj : String → Option JSON) (value : JSON) :
    List String → Except Err (String → Option JSON)
  | [] => .ok obj
  | [last] => .ok (fun k => if k = last then some value else obj k)
  | field :: rest =>
    match obj field with
    | some (.obj m) =>
      match SetNestedField m value rest with
      | .ok m' => .ok (fun k => if k = field then some (.obj m') else obj k)
      | .error e => .error e
    | some _ => .error (.other "value cannot be set because the path holds no map[string]interface{}")
    | none =>
      match SetNestedField (fun _ => none) value rest with
      | .ok m' => .ok (fun k => if k = field then some (.obj m') else obj k)
      | .error e => .error e

/-- The map literal of lines 175-178: `host` and `port`, nothing else. -/
def endpointMap (endpoint : String) (port : Int) : JSON :=
  .obj (fun k => if k = "host" then some (.str endpoint)
    else if k = "port" then some (.int port) else none)

/-- An `unstructured.Unstructured`: the identity of the object (set by
`SetGroupVersionKind`, `SetName`, `SetNamespace`, or read) and the rest of its
content (`spec`, `status`, ...). -/
structure Unstructured where
  APIVersion : String := ""
  Kind : String := ""
  Name : String := ""
  Namespace : String := ""
  Object : String → Option JSON := fun _ => none

/-! ## Secrets -/

/-- Kubernetes `corev1.Secret`: the values of `Data` are kept as text. -/
structure Secret where
  Meta : ObjectMeta := {}
  ResourceVersion : String := ""
  /-- `CreationTimestamp`; `none` is the zero time of an object not yet created. -/
  CreationTimestamp : Option Nat := none
  Data : Option GoMap := none
  SecretType : String := ""

/-- Go `v, found := secret.Data[key]`, on a possibly nil map. -/
def Secret.lookup (s : Secret) (key : String) : Option String :=
  match s.Data with
  | none => none
  | some m => m key

/-- A connection to an external cluster as the store hands it out
(`manager.Manager`): its client, and whether its REST mapper resolves the
resource `tenantcontrolplanes`. -/
structure Manager where
  client : Client
  resolvesTenantControlPlanes : Bool := true
  deriving DecidableEq, Repr

/-! ## The collaborators of the embedded methods -/

/-- What the bodies of `patchCluster`, `createRequiredResources` and
`extractRemoteClient` do to the outside world, in order; each write with the
answer it got (`none`: accepted). -/
inductive Call where
  | getInfra (ref : ObjectReference)
  | patchInfra (before after : Unstructured) (answer : Option Err)
  | getSecret (c : Client) (ns name : String)
  | createSecret (obj : Secret) (answer : Option ApiError)
  | updateSecret (obj : Secret) (answer : Option ApiError)
  | storeGet (key version : String)

/-- The reconciler's settings and the answers of its collaborators to the
embedded methods. Every answer may depend on when the call is issued: the
first argument is the number of calls before it. -/
structure Backend where
  /-- `r.FeatureGates.Enabled(name)`. -/
  featureGates : String → Bool
  /-- `r.DynamicInfrastructureClusters`. -/
  dynamicInfrastructureClusters : List String := []
  /-- `r.client.Get` of the infrastructure cluster the reference names. -/
  getInfra : Nat → ObjectReference → Except ApiError Unstructured
  /-- Cluster API `patch.NewHelper` on the object read. -/
  newPatchHelper : Unstructured → Option Err
  /-- Cluster API `patchHelper.Patch`: it sends the differences between the
  object as read and as changed. -/
  patchInfra : Nat → Unstructured → Unstructured → Option Err
  getSecret : Nat → Client → String → String → Except ApiError Secret
  createSecret : Nat → Secret → Option ApiError
  updateSecret : Nat → Secret → Option ApiError
  /-- Apimachinery `equality.Semantic.DeepEqual` on secrets. -/
  deepEqualSecret : Secret → Secret → Bool
  /-- `r.ExternalClusterReferenceStore.Get(key, version)`. -/
  storeGet : Nat → String → String → Option Manager

/-- The call writes an infrastructure cluster. -/
def Call.isInfraPatch : Call → Bool
  | .patchInfra _ _ _ => true
  | _ => false

/-- The namespace a call reads a secret from. -/
def Call.secretNamespaceRead : Call → Option String
  | .getSecret _ ns _ => some ns
  | _ => none

/-! ## `patchCluster` -/

/-- The infrastructure cluster of lines 160-164, 198-202 and 240-244, before it
is read: the identity the cluster's reference gives. -/
def infraClusterOf (ref : ObjectReference) : Unstructured :=
  { APIVersion := ref.APIVersion, Kind := ref.Kind, Name := ref.Name, Namespace := ref.Namespace }

/-- `patchGenericCluster`: read the infrastructure cluster, set
`spec.controlPlaneEndpoint` to `{host, port}`, with `patchStatus` also
`status.ready` to true, and patch. The callers have checked the reference. -/
def patchGenericCluster (B : Backend) (cluster : Cluster) (endpoint : String) (port : Int)
    (patchStatus : Bool) (tr : List Call) : Option Err × List Call :=
  match cluster.Spec.InfrastructureRef with
  | none => (some .nilDereference, tr)
  | some ref =>
    let tr1 := tr ++ [.getInfra ref]
    match B.getInfra tr.length ref with
    | .error e =>
      (some (.wrap ("cannot retrieve the " ++ (infraClusterOf ref).Kind ++ " resource: ") (.api e)), tr1)
    | .ok infraCluster =>
      match B.newPatchHelper infraCluster with
      | some err => (some (.wrap "unable to create patch helper: " err), tr1)
      | none =>
        match SetNestedField infraCluster.Object (endpointMap endpoint port)
            ["spec", "controlPlaneEndpoint"] with
        | .error err =>
          (some (.wrap ("unable to set unstructured " ++ infraCluster.Kind ++ " spec patch: ") err), tr1)
        | .ok withEndpoint =>
          let withStatus : Except Err (String → Option JSON) :=
            if patchStatus then SetNestedField withEndpoint (.bool true) ["status", "ready"]
            else .ok withEndpoint
          match withStatus with
          | .error err =>
            (some (.wrap ("unable to set unstructured " ++ infraCluster.Kind ++ " status patch: ") err), tr1)
          | .ok object =>
            let changed := { infraCluster with Object := object }
            match B.patchInfra tr1.length infraCluster changed with
            | some err =>
              (some (.wrap ("cannot perform PATCH update for the " ++ infraCluster.Kind ++ " resource: ") err),
               tr1 ++ [.patchInfra infraCluster changed (some err)])
            | none => (none, tr1 ++ [.patchInfra infraCluster changed none])

/-- `checkGenericCluster`: read the infrastructure cluster and compare its
`spec.controlPlaneEndpoint` with the resolved endpoint. -/
def checkGenericCluster (B : Backend) (cluster : Cluster) (endpoint : String) (port : Int)
    (tr : List Call) : Option Err × List Call :=
  match cluster.Spec.InfrastructureRef with
  | none => (some .nilDereference, tr)
  | some ref =>
    let tr1 := tr ++ [.getInfra ref]
    match B.getInfra tr.length ref with
    | .error e =>
      (some (.wrap ("cannot retrieve the " ++ (infraClusterOf ref).Kind ++ " resource: ") (.api e)), tr1)
    | .ok gkc =>
      match NestedString gkc.Object ["spec", "controlPlaneEndpoint", "host"] with
      | .error err => (some (.wrap "cannot extract control plane endpoint host: " err), tr1)
      | .ok (cpHost, _) =>
        if cpHost = "" then (some (.unmanagedControlPlaneAddress gkc.Kind), tr1)
        else
          match NestedInt64 gkc.Object ["spec", "controlPlaneEndpoint", "port"] with
          | .error err => (some (.wrap "cannot extract control plane endpoint host: " err), tr1)
          | .ok (cpPort, _) =>
            if cpHost.length = 0 ∧ cpPort = 0 then
              (some (.unmanagedControlPlaneAddress gkc.Kind), tr1)
            else if cpHost ≠ endpoint then
              (some (.other ("the " ++ gkc.Kind ++ " cluster has been provisioned with a mismatching host")), tr1)
            else if cpPort ≠ port then
              (some (.other ("the " ++ gkc.Kind ++ " cluster has been provisioned with a mismatching port")), tr1)
            else (none, tr1)

/-- Go `errors.As` with an `UnmanagedControlPlaneAddressError` target: an error of that
type is found along the chain of wrapped errors. -/
def Err.asUnmanagedControlPlaneAddress : Err → Bool
  | .unmanagedControlPlaneAddress _ => true
  | .wrap _ inner => Err.asUnmanagedControlPlaneAddress inner
  | _ => false

/-- `checkOrPatchGenericCluster`: validate; on the unmanaged-address error fall
back to the patch without status; hand any other error back. -/
def checkOrPatchGenericCluster (B : Backend) (cluster : Cluster) (endpoint : String)
    (port : Int) (tr : List Call) : Option Err × List Call :=
  match checkGenericCluster B cluster endpoint port tr with
  | (some err, tr1) =>
    if err.asUnmanagedControlPlaneAddress then patchGenericCluster B cluster endpoint port false tr1
    else (some err, tr1)
  | (none, tr1) => (none, tr1)

/-- `patchOpenStackCluster`: read the infrastructure cluster, set
`spec.apiServerFixedIP` and `spec.apiServerPort`, and patch. -/
def patchOpenStackCluster (B : Backend) (cluster : Cluster) (endpoint : String) (port : Int)
    (tr : List Call) : Option Err × List Call :=
  match cluster.Spec.InfrastructureRef with
  | none => (some .nilDereference, tr)
  | some ref =>
    let tr1 := tr ++ [.getInfra ref]
    match B.getInfra tr.length ref with
    | .error e =>
      (some (.wrap ("cannot retrieve the " ++ (infraClusterOf ref).Kind ++ " resource: ") (.api e)), tr1)
    | .ok osc =>
      match B.newPatchHelper osc with
      | some err => (some (.wrap "unable to create patch helper: " err), tr1)
      | none =>
        match SetNestedField osc.Object (.str endpoint) ["spec", "apiServerFixedIP"] with
        | .error err =>
          (some (.wrap ("unable to set unstructured " ++ osc.Kind ++ " spec apiServerFixedIP: ") err), tr1)
        | .ok withIP =>
          match SetNestedField withIP (.int port) ["spec", "apiServerPort"] with
          | .error err =>
            (some (.wrap ("unable to set unstructured " ++ osc.Kind ++ " spec apiServerPort: ") err), tr1)
          | .ok object =>
            let changed := { osc with Object := object }
            match B.patchInfra tr1.length osc changed with
            | some err =>
              (some (.wrap "cannot perform PATCH update for the OpenStackCluster resource: " err),
               tr1 ++ [.patchInfra osc changed (some err)])
            | none => (none, tr1 ++ [.patchInfra osc changed none])

/-- `patchCluster`: without an infrastructure reference or a resolvable endpoint
fail; else pick the strategy by the kind of the infrastructure cluster. -/
def patchCluster (B : Backend) (cluster : Cluster) (controlPlane : StewardControlPlane)
    (hostPort : String) (tr : List Call) : Option Err × List Call :=
  match cluster.Spec.InfrastructureRef with
  | none => (some (.other "capiv1beta1.Cluster has no InfrastructureRef"), tr)
  | some ref =>
    match controlPlaneEndpoint controlPlane hostPort with
    | .error err => (some (.wrap "cannot retrieve ControlPlaneEndpoint: " err), tr)
    | .ok (endpoint, port) =>
      match ref.Kind with
      | "AWSCluster" => patchGenericCluster B cluster endpoint port false tr
      | "AzureCluster" => patchGenericCluster B cluster endpoint port false tr
      | "HetznerCluster" => patchGenericCluster B cluster endpoint port false tr
      | "IonosCloudCluster" => patchGenericCluster B cluster endpoint port false tr
      | "KubevirtCluster" => patchGenericCluster B cluster endpoint port true tr
      | "Metal3Cluster" => checkGenericCluster B cluster endpoint port tr
      | "NutanixCluster" => patchGenericCluster B cluster endpoint port true tr
      | "OpenStackCluster" => patchOpenStackCluster B cluster endpoint port tr
      | "PacketCluster" => patchGenericCluster B cluster endpoint port true tr
      | "ProxmoxCluster" => checkOrPatchGenericCluster B cluster endpoint port tr
      | "TinkerbellCluster" => checkOrPatchGenericCluster B cluster endpoint port tr
      | "VSphereCluster" => checkOrPatchGenericCluster B cluster endpoint port tr
      | kind =>
        if setsHas B.dynamicInfrastructureClusters kind then
          patchGenericCluster B cluster endpoint port false tr
        else (some (.other "unsupported infrastructure provider"), tr)

/-! ## `createRequiredResources` -/

/-- Cluster API `ClusterNameLabel`. -/
def ClusterNameLabel : String := "cluster.x-k8s.io/cluster-name"

/-- Cluster API `ClusterSecretType`. -/
def ClusterSecretType : String := "cluster.x-k8s.io/secret"

/-- Kubernetes `corev1.TLSCertKey`. -/
def TLSCertKey : String := "tls.crt"

/-- Kubernetes `corev1.TLSPrivateKeyKey`. -/
def TLSPrivateKeyKey : String := "tls.key"

/-- `controllerutil.SetControllerReference(&scp, secret, scheme)`: as on a
workload, validate the owner's namespace, refuse a secret another controller
owns, then upsert the reference. -/
def SetControllerReferenceSecret (scp : StewardControlPlane) (secret : Secret) :
    Secret × Option Err :=
  if scp.Meta.Namespace ≠ "" ∧ secret.Meta.Namespace = "" then
    (secret, some (.other "cluster-scoped resource must not have a namespace-scoped owner"))
  else if scp.Meta.Namespace ≠ "" ∧ scp.Meta.Namespace ≠ secret.Meta.Namespace then
    (secret, some (.other "cross-namespace owner references are disallowed"))
  else
    let ref := controllerRefOf scp
    match GetControllerOf secret.Meta.OwnerReferences with
    | some existing =>
      if referSameObject existing ref then
        ({ secret with Meta.OwnerReferences := upsertOwnerRef ref secret.Meta.OwnerReferences }, none)
      else (secret, some (.other ("Object is already owned by another controller " ++ existing.Name)))
    | none =>
      ({ secret with Meta.OwnerReferences := upsertOwnerRef ref secret.Meta.OwnerReferences }, none)

/-- Controller-runtime `controllerutil.CreateOrUpdate(ctx, r.client, secret, f)`:
read the secret; when it is absent run the mutate function on the object at
hand and create; otherwise run it on what was read and update unless nothing
changed. -/
def CreateOrUpdateSecret (B : Backend) (f : Secret → Secret × Option Err)
    (s : Secret × List Call) : (Secret × List Call) × Option Err :=
  let ns := s.1.Meta.Namespace
  let name := s.1.Meta.Name
  let tr := s.2 ++ [.getSecret .management ns name]
  match B.getSecret s.2.length .management ns name with
  | .error e =>
    if e ≠ .notFound then ((s.1, tr), some (.api e))
    else
      match f s.1 with
      | (obj, some e) => ((obj, tr), some e)
      | (obj, none) =>
        if obj.Meta.Namespace ≠ ns ∨ obj.Meta.Name ≠ name then
          ((obj, tr), some (.other "MutateFn cannot mutate object name and/or object namespace"))
        else
          match B.createSecret tr.length obj with
          | some e => ((obj, tr ++ [.createSecret obj (some e)]), some (.api e))
          | none => ((obj, tr ++ [.createSecret obj none]), none)
  | .ok existing =>
    match f existing with
    | (obj, some e) => ((obj, tr), some e)
    | (obj, none) =>
      if obj.Meta.Namespace ≠ ns ∨ obj.Meta.Name ≠ name then
        ((obj, tr), some (.other "MutateFn cannot mutate object name and/or object namespace"))
      else if B.deepEqualSecret existing obj then ((obj, tr), none)
      else
        match B.updateSecret tr.length obj with
        | some e => ((obj, tr ++ [.updateSecret obj (some e)]), some (.api e))
        | none => ((obj, tr ++ [.updateSecret obj none]), none)

/-- The five labels both mutate steps set on the label map (lines 102-106 and
155-159); `secret` is `"ca"` or `"kubeconfig"`. -/
def replicationLabels (labels : GoMap) (cluster : Cluster) (tcp : TenantControlPlane)
    (secret : String) : GoMap :=
  ((((labels.set ClusterNameLabel cluster.Meta.Name).set
    "steward.butlerlabs.dev/component" "capi").set
    "steward.butlerlabs.dev/secret" secret).set
    "steward.butlerlabs.dev/cluster" cluster.Meta.Name).set
    "steward.butlerlabs.dev/tcp" tcp.Meta.Name

/-- The test of line 83: the destination has owner references and the first
one is of kind `TenantControlPlane`. -/
def managedBySteward (capiCA : Secret) : Bool :=
  match capiCA.Meta.OwnerReferences with
  | [] => false
  | first :: _ => first.Kind = "TenantControlPlane"

/-- The mutate step of `createOrUpdateCertificateAuthority` (lines 82-119) on the
destination `capiCA`, for the source `stewardCA`. (The label map it fills is
the source's own when the source has one; the source is read once and used
for nothing else.) -/
def mutateCertificateAuthority (cluster : Cluster) (scp : StewardControlPlane)
    (tcp : TenantControlPlane) (stewardCA capiCA : Secret) : Secret × Option Err :=
  if managedBySteward capiCA then (capiCA, none)
  else
    match stewardCA.lookup "ca.crt" with
    | none =>
      (capiCA, some (.other "missing Certificate value from *stewardv1alpha1.TenantControlPlane CA"))
    | some crt =>
      match stewardCA.lookup "ca.key" with
      | none =>
        (capiCA, some (.other "missing Private Key value from *stewardv1alpha1.TenantControlPlane CA"))
      | some key =>
        let labels := replicationLabels (stewardCA.Meta.Labels.getD GoMap.empty) cluster tcp "ca"
        let capiCA :=
          { capiCA with
            Meta.Labels := some labels,
            Data := some ((GoMap.empty.set TLSCertKey crt).set TLSPrivateKeyKey key) }
        let capiCA :=
          if capiCA.CreationTimestamp.isNone then { capiCA with SecretType := ClusterSecretType }
          else capiCA
        SetControllerReferenceSecret scp capiCA

/-- `createOrUpdateCertificateAuthority`: read the source through `reader`, then
create or update `<cluster>-ca` under retry. -/
def createOrUpdateCertificateAuthority (B : Backend) (reader : Client) (cluster : Cluster)
    (scp : StewardControlPlane) (tcp : TenantControlPlane) (tr : List Call) :
    Option Err × List Call :=
  let capiCA : Secret :=
    { Meta := { Name := cluster.Meta.Name ++ "-ca", Namespace := cluster.Meta.Namespace } }
  let sourceName := tcp.Status.CertificatesCASecretName
  let tr1 := tr ++ [.getSecret reader tcp.Meta.Namespace sourceName]
  match B.getSecret tr.length reader tcp.Meta.Namespace sourceName with
  | .error e =>
    (some (.wrap "cannot retrieve source-of-truth as Certificate Authority: " (.api e)), tr1)
  | .ok stewardCA =>
    match RetryOnConflict
        (CreateOrUpdateSecret B (mutateCertificateAuthority cluster scp tcp stewardCA))
        (capiCA, tr1) with
    | (s, some err) => (some (.wrap "cannot create or update CA secret: " err), s.2)
    | (s, none) => (none, s.2)

/-- Lines 161-164: the field of the source to copy, `admin.conf` unless the
claim's annotation names another one. -/
def kubeconfigSecretKey (scp : StewardControlPlane) : String :=
  match scp.Meta.Annotations with
  | none => "admin.conf"
  | some annotations =>
    match annotations KubeconfigSecretKeyAnnotation with
    | some v => if v ≠ "" then v else "admin.conf"
    | none => "admin.conf"

/-- The mutate step of `createOrUpdateKubeconfig` (lines 150-181) on the
destination, for the source `stewardAdminKubeconfig`. The labels are set on
the destination's own label map when it has one, before the source is
looked at; a fresh map is attached only on success. -/
def mutateKubeconfig (cluster : Cluster) (scp : StewardControlPlane) (tcp : TenantControlPlane)
    (stewardAdminKubeconfig capiAdminKubeconfig : Secret) : Secret × Option Err :=
  let labels :=
    replicationLabels (capiAdminKubeconfig.Meta.Labels.getD GoMap.empty) cluster tcp "kubeconfig"
  let secretKey := kubeconfigSecretKey scp
  match stewardAdminKubeconfig.lookup secretKey with
  | none =>
    ({ capiAdminKubeconfig with
       Meta.Labels := capiAdminKubeconfig.Meta.Labels.map (fun _ => labels) },
     some (.other "missing key from *stewardv1alpha1.TenantControlPlane admin kubeconfig secret"))
  | some value =>
    let capiAdminKubeconfig :=
      { capiAdminKubeconfig with
        Meta.Labels := some labels, Data := some (GoMap.empty.set "value" value) }
    let capiAdminKubeconfig :=
      if capiAdminKubeconfig.CreationTimestamp.isNone then
        { capiAdminKubeconfig with SecretType := ClusterSecretType }
      else capiAdminKubeconfig
    SetControllerReferenceSecret scp capiAdminKubeconfig

/-- `createOrUpdateKubeconfig`: read the source through `reader`, then create or
update `<cluster>-kubeconfig` under retry. -/
def createOrUpdateKubeconfig (B : Backend) (reader : Client) (cluster : Cluster)
    (scp : StewardControlPlane) (tcp : TenantControlPlane) (tr : List Call) :
    Option Err × List Call :=
  let capiAdminKubeconfig : Secret :=
    { Meta := { Name := cluster.Meta.Name ++ "-kubeconfig", Namespace := cluster.Meta.Namespace } }
  let sourceName := tcp.Status.KubeConfigAdminSecretName
  let tr1 := tr ++ [.getSecret reader tcp.Meta.Namespace sourceName]
  match B.getSecret tr.length reader tcp.Meta.Namespace sourceName with
  | .error e => (some (.wrap "cannot retrieve source-of-truth for admin kubeconfig: " (.api e)), tr1)
  | .ok stewardAdminKubeconfig =>
    match RetryOnConflict
        (CreateOrUpdateSecret B (mutateKubeconfig cluster scp tcp stewardAdminKubeconfig))
        (capiAdminKubeconfig, tr1) with
    | (s, some err) => (some (.wrap "cannot create or update admin Kubeconfig secret: " err), s.2)
    | (s, none) => (none, s.2)

/-- Lines 36-40: the sources are read through the remote client when there is
one, else through the management cluster's. -/
def replicationReader (remoteClient : Option Client) : Client :=
  match remoteClient with
  | some c => c
  | none => .management

/-- `createRequiredResources`: the kubeconfig secret, then the CA secret, each
only once the workload names its source; a source not yet named is the
enqueue-back sentinel, wrapped. -/
def createRequiredResources (B : Backend) (remoteClient : Option Client) (cluster : Cluster)
    (scp : StewardControlPlane) (tcp : TenantControlPlane) (tr : List Call) :
    Option Err × List Call :=
  if tcp.Status.KubeConfigAdminSecretName.length = 0 then
    (some (.wrap "admin kubeconfig still unprocessed by Steward, " ErrEnqueueBack), tr)
  else
    let reader := replicationReader remoteClient
    match createOrUpdateKubeconfig B reader cluster scp tcp tr with
    | (some err, tr1) => (some err, tr1)
    | (none, tr1) =>
      if tcp.Status.CertificatesCASecretName.length = 0 then
        (some (.wrap "CA still unprocessed by Steward, " ErrEnqueueBack), tr1)
      else
        match createOrUpdateCertificateAuthority B reader cluster scp tcp tr1 with
        | (some err, tr2) => (some err, tr2)
        | (none, tr2) => (none, tr2)

/-! ## `extractRemoteClient` -/

/-- Feature `ExternalClusterReference`. -/
def features.ExternalClusterReference : String := "ExternalClusterReference"

/-- Feature `ExternalClusterReferenceCrossNamespace`. -/
def features.ExternalClusterReferenceCrossNamespace : String :=
  "ExternalClusterReferenceCrossNamespace"

/-- Feature `SkipInfraClusterPatch`. -/
def features.SkipInfraClusterPatch : String := "SkipInfraClusterPatch"

/-- Feature `DynamicInfrastructureClusterPatch`. -/
def features.DynamicInfrastructureClusterPatch : String := "DynamicInfrastructureClusterPatch"

/-- `ErrExternalClusterReferenceNotEnabled`. -/
def ErrExternalClusterReferenceNotEnabled : Err :=
  .sentinel "external cluster feature gates are not enabled"

/-- `ErrExternalClusterReferenceCrossNamespaceReference`. -/
def ErrExternalClusterReferenceCrossNamespaceReference : Err :=
  .sentinel "the ExternalClusterReference is enforcing kubeconfig in the same Namespace, ExternalClusterReferenceCrossNamespace must be enabled"

/-- `ErrExternalCLusterReferenceSecretEmptyError`. -/
def ErrExternalCLusterReferenceSecretEmptyError : Err :=
  .sentinel "could not extract kubeconfig for external cluster reference, secret is empty"

/-- `ErrExternalClusterReferenceSecretKeyEmpty`. -/
def ErrExternalClusterReferenceSecretKeyEmpty : Err :=
  .sentinel "could not extract kubeconfig for external cluster reference, key is empty"

/-- `ErrExternalClusterReferenceNonInitializedStore`. -/
def ErrExternalClusterReferenceNonInitializedStore : Err :=
  .sentinel "remote manager is not yet initialized"

/-- `ErrExternalClusterReferenceTenantControlPlaneNotFound`. -/
def ErrExternalClusterReferenceTenantControlPlaneNotFound : Err :=
  .sentinel "TenantControlPlane custom resource not available in external cluster"

/-- `GenerateKeyNameFromSteward`: namespace, secret name and secret key joined by
slashes; the namespace is the reference's when it names one, else the
claim's. The code dereferences the reference: without one there is no
result. -/
def GenerateKeyNameFromSteward (kcp : StewardControlPlane) : Option String :=
  match kcp.Spec.Deployment.ExternalClusterReference with
  | none => none
  | some ref =>
    let ns := if ref.KubeconfigSecretNamespace ≠ "" then ref.KubeconfigSecretNamespace
      else kcp.Meta.Namespace
    some (ns ++ "/" ++ ref.KubeconfigSecretName ++ "/" ++ ref.KubeconfigSecretKey)

/-- `extractRemoteClient`: the two feature gates, then the kubeconfig secret, then
the connection the store holds for it, then the check that the external
cluster serves workloads. A value of the secret is `nil` when its key is
absent; the key for the store exists since the reference does. -/
def extractRemoteClient (B : Backend) (scp : StewardControlPlane) (tr : List Call) :
    Except Err Client × List Call :=
  if !B.featureGates features.ExternalClusterReference then
    (.error ErrExternalClusterReferenceNotEnabled, tr)
  else
    match scp.Spec.Deployment.ExternalClusterReference with
    | none => (.error .nilDereference, tr)
    | some ref =>
      if B.featureGates features.ExternalClusterReference
          && !B.featureGates features.ExternalClusterReferenceCrossNamespace
          && decide (ref.KubeconfigSecretNamespace ≠ "")
          && decide (ref.KubeconfigSecretNamespace ≠ scp.Meta.Namespace) then
        (.error ErrExternalClusterReferenceCrossNamespaceReference, tr)
      else
        let ns := if ref.KubeconfigSecretNamespace ≠ "" then ref.KubeconfigSecretNamespace
          else scp.Meta.Namespace
        let tr1 := tr ++ [.getSecret .management ns ref.KubeconfigSecretName]
        match B.getSecret tr.length .management ns ref.KubeconfigSecretName with
        | .error e =>
          (.error (.wrap "could not get external cluster reference secret: " (.api e)), tr1)
        | .ok secret =>
          if secret.Data.isNone then (.error ErrExternalCLusterReferenceSecretEmptyError, tr1)
          else if (secret.lookup ref.KubeconfigSecretKey).isNone then
            (.error ErrExternalClusterReferenceSecretKeyEmpty, tr1)
          else
            let key := (GenerateKeyNameFromSteward scp).getD ""
            let tr2 := tr1 ++ [.storeGet key secret.ResourceVersion]
            match B.storeGet tr1.length key secret.ResourceVersion with
            | none => (.error ErrExternalClusterReferenceNonInitializedStore, tr2)
            | some mgr =>
              if !mgr.resolvesTenantControlPlanes then
                (.error ErrExternalClusterReferenceTenantControlPlaneNotFound, tr2)
              else (.ok mgr.client, tr2)

/-! ## Concrete secrets -/

/-- The owner reference a workload named `cp` puts on the secrets it manages. -/
def workloadOwnerRef : OwnerReference :=
  { APIVersion := "steward.butlerlabs.dev/v1alpha1", Kind := "TenantControlPlane", Name := "cp",
    UID := "t-1", Controller := none }

/-- A source CA secret holding both the certificate and the key. -/
def stewardCAFull : Secret :=
  { Meta := { Name := "cp-ca", Namespace := "default" },
    Data := some (GoMap.ofList [("ca.crt", "CRT"), ("ca.key", "KEY")]) }

/-- A source CA secret holding neither the certificate nor the key. -/
def stewardCABare : Secret := { Meta := { Name := "cp-ca", Namespace := "default" } }

/-- A destination CA secret whose first owner reference is the workload's. -/
def capiCAManaged : Secret :=
  { Meta := { Name := "c1-ca", Namespace := "default", OwnerReferences := [workloadOwnerRef] },
    CreationTimestamp := some 1 }

/-- A destination CA secret the claim `claimInitialized` controls, to which the
workload's owner reference was added afterwards: it comes second. -/
def capiCAWorkloadSecond : Secret :=
  { Meta := { Name := "c1-ca", Namespace := "default",
              OwnerReferences := [controllerRefOf claimInitialized, workloadOwnerRef] },
    CreationTimestamp := some 1 }

/-- A source kubeconfig secret with two fields. -/
def stewardKubeconfigTwoFields : Secret :=
  { Meta := { Name := "cp-admin-kubeconfig", Namespace := "default" },
    Data := some (GoMap.ofList [("admin.conf", "ADMIN"), ("super-admin.svc", "SUPER")]) }

/-- The claim `claimInitialized` with the annotation naming the field
`super-admin.svc`. -/
def claimAnnotated : StewardControlPlane :=
  { claimInitialized with
    Meta.Annotations := some (GoMap.ofList [( KubeconfigSecretKeyAnnotation, "super-admin.svc")]) }

/-- A destination kubeconfig secret not yet created. -/
def capiKubeconfigFresh : Secret := { Meta := { Name := "c1-kubeconfig", Namespace := "default" } }

/-! ## Concrete collaborators -/

/-- A backend on which nothing exists and every write is accepted, with the
feature gates as given. -/
def backendBare (gates : String → Bool) : Backend :=
  { featureGates := gates,
    getInfra := fun _ _ => .error .notFound,
    newPatchHelper := fun _ => none,
    patchInfra := fun _ _ _ => none,
    getSecret := fun _ _ _ _ => .error .notFound,
    createSecret := fun _ _ => none,
    updateSecret := fun _ _ => none,
    deepEqualSecret := fun _ _ => false,
    storeGet := fun _ _ _ => none }

/-- Only the external cluster reference is enabled, not the cross-namespace
reference. -/
def gatesSameNamespace (name : String) : Bool := name = features.ExternalClusterReference

/-- The claim `claimRemote` naming a kubeconfig secret in the namespace `other`. -/
def claimCrossNamespace : StewardControlPlane :=
  { claimRemote with
    Spec.Deployment.ExternalClusterReference :=
      some { ecrExample with KubeconfigSecretNamespace := "other" } }

/-! ## Vocabulary for the statements about the stages of a pass -/

/-- The stage whose step function an event starts. -/
def Event.stepOf : Event → Option Step
  | .step s => some s
  | _ => none

/-- The stages whose step function a trace starts, in order. -/
def stepsOf (tr : List Event) : List Step := tr.filterMap Event.stepOf

/-- The claim an event sends in a status update. -/
def Event.statusSent : Event → Option StewardControlPlane
  | .updateClaimStatus obj _ => some obj
  | _ => none

/-- The stages of lines 129-320, in the order `Reconcile` runs them. -/
def passStages (env : Env) : List (PassState → Except Exit PassState) :=
  [stageExternalClient env, stageCreateOrUpdate env, stageEndpointWait env,
   stageEndpointPatch env, stageRefetchCluster env, stageInfrastructurePatch env,
   stageClusterGates env, stageMarkInitialized env, stageStatusProjection env,
   stageConfirmInitialized env, stageReplication env]

/-- Run stages in order until one returns. -/
def runStages : List (PassState → Except Exit PassState) → PassState → Except Exit PassState
  | [], st => .ok st
  | f :: fs, st =>
    match f st with
    | .error exit => .error exit
    | .ok st' => runStages fs st'

/-- The stages before the initialization gate (lines 129-249). -/
def stagesBeforeInitialization (env : Env) : List (PassState → Except Exit PassState) :=
  (passStages env).take 7

/-- The stages before the second marking of the claim as initialized (lines
129-292). -/
def stagesBeforeConfirmation (env : Env) : List (PassState → Except Exit PassState) :=
  (passStages env).take 9

/-- The stages before the replication of the secrets (lines 129-300). -/
def stagesBeforeReplication (env : Env) : List (PassState → Except Exit PassState) :=
  (passStages env).take 10

/-- Clusters as `envHealthy` with a ready workload, on which the sources of the
secrets are missing: the replication answers what `createRequiredResources`
returns on `backendBare`. -/
def envSourcesMissing : Env :=
  { envHealthy (tcpInState "Ready") with
    createRequiredResources := fun _ remoteClient cluster scp tcp =>
      (createRequiredResources (backendBare gatesSameNamespace) remoteClient cluster scp tcp []).1 }

/-! ## Vocabulary for the statements about `patchCluster` -/

/-- The strategies of the dispatch of `patchCluster`, as the specification
names them: patch unconditionally (with or without the ready status),
validate only, the OpenStack variant, validate then patch, unsupported. -/
inductive PatchStrategy where
  | patchUnconditional (status : Bool)
  | validateOnly
  | openStack
  | validateThenPatch
  | unsupported
  deriving DecidableEq, Repr

/-- The dispatch table as the specification gives it, by kind of infrastructure
cluster; `dynamic` are the kinds admitted dynamically. -/
def dispatchTable (kind : String) (dynamic : List String) : PatchStrategy :=
  if kind ∈ ["AWSCluster", "AzureCluster", "HetznerCluster", "IonosCloudCluster"] then
    .patchUnconditional false
  else if kind ∈ ["KubevirtCluster", "NutanixCluster", "PacketCluster"] then
    .patchUnconditional true
  else if kind = "Metal3Cluster" then .validateOnly
  else if kind = "OpenStackCluster" then .openStack
  else if kind ∈ ["ProxmoxCluster", "TinkerbellCluster", "VSphereCluster"] then
    .validateThenPatch
  else if kind ∈ dynamic then .patchUnconditional false
  else .unsupported

/-- What a strategy of the table does: the method of the reconciler it stands
for, and for an unsupported kind the error without any call. -/
def runStrategy (B : Backend) (strategy : PatchStrategy) (cluster : Cluster)
    (endpoint : String) (port : Int) (tr : List Call) : Option Err × List Call :=
  match strategy with
  | .patchUnconditional status => patchGenericCluster B cluster endpoint port status tr
  | .validateOnly => checkGenericCluster B cluster endpoint port tr
  | .openStack => patchOpenStackCluster B cluster endpoint port tr
  | .validateThenPatch => checkOrPatchGenericCluster B cluster endpoint port tr
  | .unsupported => (some (.other "unsupported infrastructure provider"), tr)

/-- The object holds `host` and `port` as its `spec.controlPlaneEndpoint`. -/
def holdsEndpoint (object : String → Option JSON) (host : String) (port : Int) : Prop :=
  NestedString object ["spec", "controlPlaneEndpoint", "host"] = .ok (host, true)
    ∧ NestedInt64 object ["spec", "controlPlaneEndpoint", "port"] = .ok (port, true)

/-- The object holds `true` as its `status.ready`. -/
def holdsReady (object : String → Option JSON) : Prop :=
  ∃ status, object "status" = some (.obj status) ∧ status "ready" = some (.bool true)

/-- The object holds `host` and `port` as its `spec.apiServerFixedIP` and
`spec.apiServerPort`. -/
def holdsOpenStackEndpoint (object : String → Option JSON) (host : String) (port : Int) : Prop :=
  NestedString object ["spec", "apiServerFixedIP"] = .ok (host, true)
    ∧ NestedInt64 object ["spec", "apiServerPort"] = .ok (port, true)

/-- The calls `added` follow `tr` in `tr'`, and all satisfy `P`. -/
def CallsAdded (P : Call → Prop) (tr tr' : List Call) : Prop :=
  ∃ added, tr' = tr ++ added ∧ ∀ c ∈ added, P c

/-- A cluster like `clusterReady` whose infrastructure is of the given kind. -/
def clusterWithInfra (kind : String) : Cluster :=
  { clusterReady with
    Spec.InfrastructureRef :=
      some { APIVersion := "infrastructure.cluster.x-k8s.io/v1beta1", Kind := kind, Name := "c1",
             Namespace := "default" } }

/-- An infrastructure cluster of the given kind with the given endpoint. -/
def infraWithEndpoint (kind host : String) (port : Int) : Unstructured :=
  { APIVersion := "infrastructure.cluster.x-k8s.io/v1beta1", Kind := kind, Name := "c1",
    Namespace := "default",
    Object := fun k =>
      if k = "spec" then
        some (.obj (fun k => if k = "controlPlaneEndpoint" then some (endpointMap host port) else none))
      else none }

/-- An infrastructure cluster of the given kind without any endpoint. -/
def infraBlank (kind : String) : Unstructured :=
  { APIVersion := "infrastructure.cluster.x-k8s.io/v1beta1", Kind := kind, Name := "c1",
    Namespace := "default" }

/-- A backend holding one infrastructure cluster, whatever the reference. -/
def backendInfra (infra : Unstructured) : Backend :=
  { backendBare gatesSameNamespace with getInfra := fun _ _ => .ok infra }

/-- The object is what one of the four status modifiers of `Reconcile` makes of
`fetched`: the marking as initialized, the projection of a workload's status,
the Ready flag, the conditions. -/
def madeByModifier (env : Env) (fetched obj : StewardControlPlane) : Prop :=
  obj = initializedModifier fetched
    ∨ (∃ tcp, obj = projectionModifier env tcp fetched)
    ∨ (∃ versionStatus, obj = readyModifier versionStatus fetched)
    ∨ (∃ conditions, obj = conditionsModifier conditions fetched)

/-- Every status update in the trace directly follows the read it is made
from: the event before it reads a claim, the API server answers that read
with `fetched`, and `Q fetched obj` holds of the object sent. -/
def StatusFollowsRead (env : Env) (Q : StewardControlPlane → StewardControlPlane → Prop)
    (tr : List Event) : Prop :=
  ∀ i obj answer, tr[i]? = some (.updateClaimStatus obj answer) →
    ∃ j ns name fetched, i = j + 1 ∧ tr[j]? = some (.getClaim ns name)
      ∧ env.getClaim j ns name = .ok fetched ∧ Q fetched obj

/-- Clusters as `envHealthy` with a ready workload, on which one status update
fails: the one of the second marking as initialized, issued as the 17th
event of the pass. -/
def envConfirmationFails : Env :=
  { envHealthy (tcpInState "Ready") with
    updateClaimStatus := fun t _ =>
      if t = 16 then some (.other "etcdserver: request timed out") else none }

/-- A claim like `claimInitialized`, not yet marked initialized. -/
def claimFresh : StewardControlPlane :=
  { claimInitialized with Status := {} }

/-- Clusters as `envHealthy`, on which the claim is stored as `claimFresh`. -/
def envFresh (tcp : TenantControlPlane) : Env :=
  { envHealthy tcp with getClaim := fun _ _ _ => .ok claimFresh }

/-- The locals after the gates of the pass for `default/cp` on `envFresh tcp`. -/
def freshAfterGates : PassState :=
  { scp := claimFresh, cluster := clusterReady, conditions := [],
    trace := [.getClaim "default" "cp", .getCluster "default" "c1"] }

/-! ## The endpoint of the control plane: ports -/

/-- The integer a text denotes in decimal: an optional sign, then one digit at
least and digits only. This is what "the text is a decimal integer" means in
the statements about ports; no range is imposed. -/
def decimalValue (s : String) : Option Int :=
  match s.data with
  | [] => none
  | c :: rest =>
    let digits := if c = '+' ∨ c = '-' then rest else c :: rest
    match digits with
    | [] => none
    | _ :: _ =>
      match parseDigits 0 digits with
      | none => none
      | some un => some (if c = '-' then -(un : Int) else (un : Int))

/-- Go `int32(x)` on an `int64`: the low 32 bits of `x`, read as a signed
integer. -/
def int32 (x : Int) : Int := (x + 2 ^ 31) % 2 ^ 32 - 2 ^ 31

/-- `patchControlPlaneEndpoint`: the endpoint is resolved, put into the
claim's spec with the port converted to `int32`, and sent as a merge patch
against a copy of the claim taken before. `patch before after` is the answer
of `r.client.Patch` to that patch: an error, or the claim as the server
returns it, which replaces the one in memory. -/
def patchControlPlaneEndpoint
    (patch : StewardControlPlane → StewardControlPlane → Except ApiError StewardControlPlane)
    (controlPlane : StewardControlPlane) (hostPort : String) : StewardControlPlane × Option Err :=
  match controlPlaneEndpoint controlPlane hostPort with
  | .error err => (controlPlane, some (.wrap "cannot retrieve ControlPlaneEndpoint: " err))
  | .ok (endpoint, port) =>
    let before := controlPlane
    let controlPlane : StewardControlPlane :=
      { controlPlane with Spec.ControlPlaneEndpoint := { Host := endpoint, Port := int32 port } }
    match patch before controlPlane with
    | .error e =>
      (controlPlane,
        some (.wrap "cannot patch StewardControlPlane with ControlPlaneEndpoint: " (.api e)))
    | .ok stored => (stored, none)

/-- A server that accepts every patch of a claim and returns the claim as sent. -/
def patchAccepted (_ after : StewardControlPlane) : Except ApiError StewardControlPlane :=
  .ok after

/-- A claim with an ingress whose hostname has no port. -/
def claimBehindIngress : StewardControlPlane :=
  { claimInitialized with Spec.Network.Ingress := some { Hostname := "cp.example.com" } }

/-- A claim with a gateway whose hostname has no port. -/
def claimBehindGateway : StewardControlPlane :=
  { claimInitialized with Spec.Network.Gateway := some { Hostname := "gw.example.com" } }

/-- A claim with an ingress and a gateway, the gateway's hostname with a port. -/
def claimBehindBoth : StewardControlPlane :=
  { claimInitialized with
    Spec.Network.Ingress := some { Hostname := "cp.example.com" },
    Spec.Network.Gateway := some { Hostname := "gw.example.com:8443" } }

/-- A claim whose ingress hostname carries a port beyond 32 bits: `2^32 + 443`. -/
def claimIngressWidePort : StewardControlPlane :=
  { claimInitialized with
    Spec.Network.Ingress := some { Hostname := "cp.example.com:4294967739" } }

/-! ## Names of remote workloads and store keys -/

/-- Go `strings.TrimPrefix`. -/
def TrimPrefix (s p : String) : String :=
  if hasPrefix s p then String.mk (s.data.drop p.data.length) else s

/-- `ParseStewardControlPlaneUIDFromTenantControlPlane`: the workload's name
without the prefix of remote workloads; the empty string when the name does
not start with it. -/
def ParseStewardControlPlaneUIDFromTenantControlPlane (tcp : TenantControlPlane) : String :=
  if !hasPrefix tcp.Meta.Name RemoteTCPPrefix then ""
  else TrimPrefix tcp.Meta.Name RemoteTCPPrefix

/-- `GenerateKeyNameFromSecret`: one store key per entry of the secret's data,
namespace, name and data key joined by slashes. `order` lists the data keys
the way the `range` over the map visits them: each key once, in an order Go
leaves open. -/
def GenerateKeyNameFromSecret (secret : Secret) (order : List String) : List String :=
  order.map (fun k => secret.Meta.Namespace ++ "/" ++ secret.Meta.Name ++ "/" ++ k)

/-- What a `range` over the secret's data can visit: every key of the map,
each once. -/
def Secret.rangedBy (secret : Secret) (order : List String) : Prop :=
  order.Nodup ∧ ∀ k, k ∈ order ↔ (secret.lookup k).isSome = true

/-- The index `ExternalClusterReferenceStewardControlPlaneField` (`ExtractValue`):
a claim with an external reference is filed under its store key, any other
claim under nothing. -/
def ExternalClusterReferenceStewardControlPlane.ExtractValue (kcp : StewardControlPlane) :
    List String :=
  match GenerateKeyNameFromSteward kcp with
  | some key => [key]
  | none => []

/-- Controller-runtime `client.MatchingFields` on that index: the claims filed
under the value. -/
def matchingFields (value : String) (items : List StewardControlPlane) :
    List StewardControlPlane :=
  items.filter
    (fun scp => decide (value ∈ ExternalClusterReferenceStewardControlPlane.ExtractValue scp))

/-- Go `strings.Split(s, sep)` for a separator of one byte. -/
def splitOnByte (sep : Char) : List Char → List (List Char)
  | [] => [[]]
  | c :: cs =>
    match splitOnByte sep cs with
    | [] => [[]]
    | part :: parts => if c = sep then [] :: part :: parts else (c :: part) :: parts

/-! ## The External Cluster Reference Store and the router's background tasks -/

/-- Modelled from the spec: an entry of the External Cluster Reference Store, whose
code is not among the sources. Spec 3: the credential version token, the live
connection handle and the cancellation handle; the handle is kept as the
number of the background task whose context it cancels. The composite key
is the one the entry is registered under. -/
structure StoreEntry where
  version : String
  manager : Manager
  task : Nat
  deriving DecidableEq, Repr

/-- The store and the background tasks of the router. A task is named by its
position in `started`, which holds the store key it was started for;
`cancelled` lists the tasks whose context has been cancelled. -/
structure RouterWorld where
  entries : String → Option StoreEntry := fun _ => none
  started : List String := []
  cancelled : List Nat := []

/-- Modelled from the spec: `Store.Get(key, version)`. Spec 4.3: a hit only when a
connection is registered under the key and its stored version equals the
version asked for. -/
def Store.Get (w : RouterWorld) (key version : String) : Option Manager :=
  match w.entries key with
  | some e => if e.version = version then some e.manager else none
  | none => none

/-- Modelled from the spec: `Store.Add(key, version, connection, cancel)`. Spec 4.3:
registers the entry, replacing any prior one; the prior one is not stopped,
the caller is expected to have done so. -/
def Store.Add (w : RouterWorld) (key version : String) (mgr : Manager) (task : Nat) :
    RouterWorld :=
  { w with
    entries := fun k =>
      if k = key then some { version := version, manager := mgr, task := task }
      else w.entries k }

/-- Modelled from the spec: `Store.Stop(key)`. Spec 4.3: cancels the background
context of the entry and deregisters it; returns whether an entry was
present. -/
def Store.Stop (w : RouterWorld) (key : String) : RouterWorld × Bool :=
  match w.entries key with
  | some e =>
    ({ w with
       entries := fun k => if k = key then none else w.entries k,
       cancelled := w.cancelled ++ [e.task] }, true)
  | none => (w, false)

/-- The live background tasks of a key: started for it, their context not
cancelled. -/
def liveTasks (w : RouterWorld) (key : String) : List Nat :=
  (List.range w.started.length).filter
    (fun t => decide (w.started[t]? = some key) && !decide (t ∈ w.cancelled))

/-- `startManager` once `mgr.Start` has returned `startErr` (lines 127-131): an
error makes the task stop whatever the store holds under the name it was
started with. -/
def ExternalClusterReferenceReconciler.startManager (startErr : Option Err) (name : String)
    (w : RouterWorld) : RouterWorld :=
  match startErr with
  | some _ => (Store.Stop w name).1
  | none => w

/-- What the router and its background tasks do, in order: the calls of a pass
of `ExternalClusterReferenceReconciler.Reconcile`, and the return of a
task's `mgr.Start`. `startManager key` is the `go` statement of line 118. -/
inductive RouterCall where
  | getSecret (ns name : String)
  | listClaims (key : String)
  | storeGet (key version : String)
  | storeStop (key : String)
  | newManager (key : String)
  | setupWithManager (key : String)
  | startManager (key : String)
  | storeAdd (key version : String) (mgr : Manager) (task : Nat)
  | startReturned (task : Nat) (startErr : Option Err)
  deriving DecidableEq, Repr

/-- What a call does to the store and the tasks. -/
def RouterCall.apply (w : RouterWorld) : RouterCall → RouterWorld
  | .storeStop key => (Store.Stop w key).1
  | .startManager key => { w with started := w.started ++ [key] }
  | .storeAdd key version mgr task => Store.Add w key version mgr task
  | .startReturned task startErr =>
    match w.started[task]? with
    | some key => ExternalClusterReferenceReconciler.startManager startErr key w
    | none => w
  | _ => w

/-- The key whose connection a call of a pass stops, starts or registers. -/
def RouterCall.changes : RouterCall → Option String
  | .storeStop key => some key
  | .startManager key => some key
  | .storeAdd key _ _ _ => some key
  | _ => none

/-- The answers of the router's collaborators. Every answer of the API server
may depend on when the call is issued: the first argument is the number of
calls the pass issued before. -/
structure RouterEnv where
  /-- `r.Client.Get` of the secret. -/
  getSecret : Nat → String → String → Except ApiError Secret
  /-- The order in which `range` visits the keys of a secret's data. -/
  rangeOrder : Secret → List String
  /-- `r.Client.List` of the claims, before the index is applied. -/
  listClaims : Nat → Except ApiError (List StewardControlPlane)
  /-- Client-go `clientcmd.RESTConfigFromKubeConfig`. -/
  restConfigFromKubeConfig : String → Except Err Payload
  /-- `ctrl.NewManager`. -/
  newManager : Nat → Payload → Except Err Manager
  /-- `(&PushStewardChange{...}).SetupWithManager(mgr)`. -/
  setupWithManager : Nat → Manager → Option Err

/-- The store and tasks as a pass has left them so far, and its calls. -/
abbrev RouterState := RouterWorld × List RouterCall

/-- The pass issues a call. -/
def RouterState.issue (st : RouterState) (c : RouterCall) : RouterState :=
  (c.apply st.1, st.2 ++ [c])

/-- A `for ... range` loop whose body may return from the function with an
error. -/
def rangeLoop {σ : Type} (body : String → σ → σ × Option Err) : List String → σ → σ × Option Err
  | [], s => (s, none)
  | k :: ks, s =>
    match body k s with
    | (s', some e) => (s', some e)
    | (s', none) => rangeLoop body ks s'

/-- One turn of the loop of lines 55-75: list the claims filed under the key;
without any, stop what the store holds under the key; else keep the key. -/
def collectKey (env : RouterEnv) (key : String) (s : RouterState × List String) :
    (RouterState × List String) × Option Err :=
  let st := s.1.issue (.listClaims key)
  match env.listClaims s.1.2.length with
  | .error e => ((st, s.2), some (.api e))
  | .ok items =>
    if (matchingFields key items).length = 0 then ((st.issue (.storeStop key), s.2), none)
    else ((st, s.2 ++ [key]), none)

/-- One turn of the loop of lines 77-121: nothing when the store holds a
connection for the key at the secret's version; else stop what it holds,
build a manager from the data entry the key names, start it in the
background and register it. -/
def connectKey (env : RouterEnv) (secret : Secret) (key : String) (st : RouterState) :
    RouterState × Option Err :=
  let found := Store.Get st.1 key secret.ResourceVersion
  let st := st.issue (.storeGet key secret.ResourceVersion)
  match found with
  | some _ => (st, none)
  | none =>
    let st := st.issue (.storeStop key)
    match (splitOnByte '/' key.data)[2]? with
    | none => (st, some (.other "runtime error: index out of range [2]"))
    | some field =>
      match env.restConfigFromKubeConfig (GoMap.index secret.Data (String.mk field)) with
      | .error cfgErr => (st, some cfgErr)
      | .ok cfg =>
        let made := env.newManager st.2.length cfg
        let st := st.issue (.newManager key)
        match made with
        | .error err => (st, some err)
        | .ok mgr =>
          let setup := env.setupWithManager st.2.length mgr
          let st := st.issue (.setupWithManager key)
          match setup with
          | some err => (st, some err)
          | none =>
            let task := st.1.started.length
            let st := st.issue (.startManager key)
            (st.issue (.storeAdd key secret.ResourceVersion mgr task), none)

/-- `ExternalClusterReferenceReconciler.Reconcile` for the secret `ns/name`, on the
store and tasks `w`: the store and tasks it leaves, its calls, and its
error. The result is `ctrl.Result{}` on every path. -/
def ExternalClusterReferenceReconciler.Reconcile (env : RouterEnv) (ns name : String)
    (w : RouterWorld) : RouterState × Option Err :=
  let st : RouterState := (w, [.getSecret ns name])
  match env.getSecret 0 ns name with
  | .error e =>
    if (Err.api e).isNotFound then (st, none) else (st, some (.api e))
  | .ok secret =>
    match rangeLoop (collectKey env) (GenerateKeyNameFromSecret secret (env.rangeOrder secret))
        (st, []) with
    | (s, some err) => (s.1, some err)
    | (s, none) => rangeLoop (connectKey env secret) s.2 s.1

/-! ## Passes and tasks running side by side -/

/-- Where the router stands on a key: `stopped` after a `Store.Stop` on the key,
`started task` between the `go` statement and `Store.Add`, else `quiet`. -/
inductive KeyPhase where
  | quiet
  | stopped
  | started (task : Nat)
  deriving DecidableEq, Repr

/-- Where a pass stands in its turn of the loop of lines 77-121 on a key: before
`Store.Get` (line 78), before `Store.Stop` (line 82), before the manager is
built (lines 88-115), before the `go` statement (line 118), before
`Store.Add` (line 120), or past the turn. -/
inductive TurnPoint where
  | atGet
  | atStop
  | atBuild
  | atGo (mgr : Manager)
  | atAdd (mgr : Manager) (task : Nat)
  | over
  deriving DecidableEq, Repr

/-- A turn of a pass on a key: the resource version of the secret the pass has
read, and where the pass stands. -/
structure Turn where
  version : String
  point : TurnPoint := .atGet
  deriving DecidableEq, Repr

/-- The next statement of a turn on `key`, run on the store and tasks as they
are at that moment. Line 78: a hit ends the turn. Line 82: stop what the
store holds under the key. Lines 88-115: `built` is the manager they come
to, none when one of them returns an error, which ends the turn. Line 118:
start the task. Line 120: register the manager with its task. -/
def Turn.advance (t : Turn) (key : String) (built : Option Manager) (w : RouterWorld) :
    RouterWorld × Turn :=
  match t.point with
  | .atGet =>
    match Store.Get w key t.version with
    | some _ => (w, { t with point := .over })
    | none => (w, { t with point := .atStop })
  | .atStop => ((Store.Stop w key).1, { t with point := .atBuild })
  | .atBuild =>
    match built with
    | none => (w, { t with point := .over })
    | some mgr => (w, { t with point := .atGo mgr })
  | .atGo mgr =>
    ({ w with started := w.started ++ [key] }, { t with point := .atAdd mgr w.started.length })
  | .atAdd mgr task => (Store.Add w key t.version mgr task, { t with point := .over })
  | .over => (w, t)

/-- The store, the tasks, and the turns the passes have entered so far on every
key, in the order they entered them. -/
structure Crowd where
  world : RouterWorld := {}
  turns : String → List Turn := fun _ => []

/-- What happens next when passes and tasks run side by side: a pass comes to
line 78 for a key, having read the secret at `version`; the turn numbered
`turn` on a key runs its next statement; a pass stops a key nothing
references (line 65); the `mgr.Start` of a task returns. -/
inductive Move where
  | enter (key version : String)
  | advance (key : String) (turn : Nat) (built : Option Manager)
  | sweep (key : String)
  | returned (task : Nat) (startErr : Option Err)
  deriving DecidableEq, Repr

/-- The turns of one key replaced. -/
def Crowd.setTurns (c : Crowd) (key : String) (l : List Turn) : String → List Turn :=
  fun k => if k = key then l else c.turns k

/-- One move, in whatever order the scheduler picks: nothing keeps two passes
from being at work on one key at the same time. There is no next state only
when the move names a turn or a task that does not exist. -/
def Crowd.step (c : Crowd) : Move → Option Crowd
  | .enter key version =>
    some { c with turns := c.setTurns key (c.turns key ++ [{ version := version }]) }
  | .advance key turn built =>
    match (c.turns key)[turn]? with
    | none => none
    | some t =>
      some { world := (t.advance key built c.world).1,
             turns := c.setTurns key ((c.turns key).set turn (t.advance key built c.world).2) }
  | .sweep key => some { c with world := (Store.Stop c.world key).1 }
  | .returned task startErr =>
    match c.world.started[task]? with
    | none => none
    | some key =>
      some { c with
             world := ExternalClusterReferenceReconciler.startManager startErr key c.world }

/-- The moves of a run, one after the other. -/
def Crowd.run (c : Crowd) : List Move → Option Crowd
  | [] => some c
  | m :: ms =>
    match c.step m with
    | none => none
    | some c' => Crowd.run c' ms

/-- No pass is at work on the key: every turn entered on it is over. -/
def Crowd.idle (c : Crowd) (key : String) : Bool :=
  (c.turns key).all (fun t => decide (t.point = .over))

/-- The passes on one key come one after the other, as a work queue arranges
that hands a secret to one worker at a time: in this run a pass enters a
key only when no other pass is at work on it. The line-65 stops and the
returns of `mgr.Start` fall anywhere. -/
def Crowd.serial (c : Crowd) : List Move → Bool
  | [] => true
  | m :: ms =>
    (match m with
      | .enter key _ => c.idle key
      | _ => true)
    && match c.step m with
       | none => true
       | some c' => Crowd.serial c' ms

/-- The moves of one turn run on its own, from line 78 to the end: the turn
numbered `turn` enters and runs its five statements (fewer when it ends
early: a turn that is over does not move). -/
def soloTurn (key version : String) (turn : Nat) (built : Option Manager) : List Move :=
  .enter key version :: List.replicate 5 (.advance key turn built)

/-- Where a turn at a point has brought its key. -/
def TurnPoint.phase : TurnPoint → KeyPhase
  | .atBuild => .stopped
  | .atGo _ => .stopped
  | .atAdd _ task => .started task
  | _ => .quiet

/-- Where the last turn entered on a key has brought the key. -/
def phaseOf (l : List Turn) : KeyPhase :=
  match l.getLast? with
  | none => .quiet
  | some t => t.point.phase

/-- What a phase of a key allows the store and the tasks to be: when quiet,
every live task of the key is the one of the registered entry; after the
stop, nothing is registered and no task of the key is live; between the `go`
statement and `Store.Add`, nothing is registered and only the task just
started can be live. -/
def KeyPhase.allows (p : KeyPhase) (w : RouterWorld) (key : String) : Prop :=
  match p with
  | .quiet => ∀ t ∈ liveTasks w key, ∃ e, w.entries key = some e ∧ e.task = t
  | .stopped => w.entries key = none ∧ ∀ t, t ∉ liveTasks w key
  | .started task => w.entries key = none ∧ ∀ t ∈ liveTasks w key, t = task

/-- On every key all turns but the last entered are over, and the store and
the tasks are as the last turn has left them. -/
def Crowd.orderly (c : Crowd) : Prop :=
  ∀ key, (∀ t ∈ (c.turns key).dropLast, t.point = .over)
    ∧ (phaseOf (c.turns key)).allows c.world key

/-- Every `Store.Add` among the calls comes after a `Store.Stop` on the same key. -/
def AddsFollowStops (calls : List RouterCall) : Prop :=
  ∀ (i : Nat) key version mgr task,
    calls[i]? = some (RouterCall.storeAdd key version mgr task) →
    ∃ j : Nat, j < i ∧ calls[j]? = some (RouterCall.storeStop key)

/-! ## Conditions: the generation on record -/

/-- A call of `TrackConditionType`: the condition type, the generation it
carries, and what its step function returns. -/
structure TrackCall where
  conditionType : String
  generation : Int
  outcome : Option Err := none
  deriving DecidableEq, Repr

/-- A sequence of `TrackConditionType` calls on one condition list, in order. -/
def trackAll (conditions : List Condition) : List TrackCall → List Condition
  | [] => conditions
  | c :: cs =>
    trackAll
      (TrackConditionType conditions c.conditionType c.generation
        (fun (s : Unit) => (s, c.outcome)) ()).1 cs

/-! ## Concrete inputs: finalizers, secrets, the store -/

/-- The claim `claimRemote` as a pass holds it in memory, without finalizer. -/
def claimUnguarded : StewardControlPlane :=
  { claimRemote with Meta.Finalizers := [] }

/-- The same claim as stored by now, with a finalizer of another controller. -/
def claimForeignFinalizer : StewardControlPlane :=
  { claimRemote with Meta.Finalizers := ["example.com/protect"] }

/-- Clusters on which the claim is stored as `claimForeignFinalizer` and every
write is accepted. -/
def envForeignFinalizer : Env :=
  { envAbsent with getClaim := fun _ _ _ => .ok claimForeignFinalizer }

/-- The kubeconfig secret of the concrete claims, at resource version 2. -/
def secretRotated : Secret :=
  { Meta := { Name := "kubeconfig", Namespace := "default" },
    ResourceVersion := "2",
    Data := some (GoMap.ofList [("value", "apiVersion: v1")]) }

/-- The connection of the concrete store entries. -/
def managerExample : Manager := { client := remoteExample }

/-- A store that holds a connection under `default/kubeconfig/value` at version 1,
its task running. -/
def worldConnected : RouterWorld :=
  { entries := fun k =>
      if k = "default/kubeconfig/value" then
        some { version := "1", manager := managerExample, task := 0 }
      else none,
    started := ["default/kubeconfig/value"] }

/-- A cluster on which the secret is stored as `secretRotated`, the claim
`claimRemote` references it, and every manager can be built. -/
def routerEnvRotated : RouterEnv :=
  { getSecret := fun _ _ _ => .ok secretRotated,
    rangeOrder := fun _ => ["value"],
    listClaims := fun _ => .ok [claimRemote],
    restConfigFromKubeConfig := fun _ => .ok "rest-config",
    newManager := fun _ _ => .ok managerExample,
    setupWithManager := fun _ _ => none }

/-- A cluster on which the secret has been deleted. -/
def routerEnvDeleted : RouterEnv :=
  { routerEnvRotated with getSecret := fun _ _ _ => .error .notFound }

/-- Two passes at work on `default/kubeconfig/value` at the same time, each having
read the secret at version 2: both miss at line 78 and stop the key at line
82 before either starts its manager; then the first builds its manager,
starts it and registers it, and the second does the same. -/
def runOverlap : List Move :=
  [.enter "default/kubeconfig/value" "2", .enter "default/kubeconfig/value" "2",
   .advance "default/kubeconfig/value" 0 (some managerExample),
   .advance "default/kubeconfig/value" 0 (some managerExample),
   .advance "default/kubeconfig/value" 1 (some managerExample),
   .advance "default/kubeconfig/value" 1 (some managerExample),
   .advance "default/kubeconfig/value" 0 (some managerExample),
   .advance "default/kubeconfig/value" 0 (some managerExample),
   .advance "default/kubeconfig/value" 0 (some managerExample),
   .advance "default/kubeconfig/value" 1 (some managerExample),
   .advance "default/kubeconfig/value" 1 (some managerExample),
   .advance "default/kubeconfig/value" 1 (some managerExample)]

/-- The same two passes one after the other, the task of the first failing to
start in between. -/
def runOneByOne : List Move :=
  soloTurn "default/kubeconfig/value" "2" 0 (some managerExample)
    ++ [.returned 0 (some (.other "connection refused"))]
    ++ soloTurn "default/kubeconfig/value" "2" 1 (some managerExample)

/-- A claim with an ingress whose hostname does not split (`a:b:c`) and a gateway
whose hostname has no port. -/
def claimUnparsableIngress : StewardControlPlane :=
  { claimInitialized with
    Spec.Network.Ingress := some { Hostname := "a:b:c" },
    Spec.Network.Gateway := some { Hostname := "gw.example.com" } }

/-- The owner references are none at all, or those of a workload that client
`c` answers with for `ns/name` at some moment: what an object carries on
which no owner reference was set. -/
def ownerReferencesAsRead (env : Env) (c : Client) (ns name : String)
    (refs : List OwnerReference) : Prop :=
  refs = [] ∨ ∃ t existing, env.getTCP t c ns name = .ok existing
    ∧ refs = existing.Meta.OwnerReferences

/-! # Theorems -/

theorem mutateClusterNetwork_eq (cluster : Cluster) (tcp : TenantControlPlane) :
    mutateClusterNetwork cluster tcp = { tcp with
      Spec.NetworkProfile.Port := (clusterAPIServerPort cluster).getD tcp.Spec.NetworkProfile.Port,
      Spec.NetworkProfile.ServiceCIDR :=
        (clusterServiceCIDR cluster).getD tcp.Spec.NetworkProfile.ServiceCIDR,
      Spec.NetworkProfile.PodCIDR := (clusterPodCIDR cluster).getD tcp.Spec.NetworkProfile.PodCIDR,
      Spec.NetworkProfile.ClusterDomain :=
        (clusterServiceDomain cluster).getD tcp.Spec.NetworkProfile.ClusterDomain } := by
  unfold mutateClusterNetwork clusterAPIServerPort clusterServiceCIDR clusterPodCIDR
    clusterServiceDomain
  cases cluster.Spec.ClusterNetwork with
  | none => rfl
  | some net =>
    obtain ⟨port, services, pods, domain⟩ := net
    cases port <;> cases services with
    | none => cases pods with
      | none => rfl
      | some p => obtain ⟨bl⟩ := p; cases bl <;> rfl
    | some s =>
      obtain ⟨sb⟩ := s
      cases sb <;> cases pods with
      | none => rfl
      | some p => obtain ⟨bl⟩ := p; cases bl <;> rfl

theorem mutateVersionAndAddons_eq (scp : StewardControlPlane) (tcp : TenantControlPlane) :
    mutateVersionAndAddons scp tcp = { tcp with
      Spec.ControlPlane.Deployment.Replicas := scp.Spec.Replicas,
      Spec.Kubernetes.Version := normalizeVersion scp.Spec.Version,
      Spec.NetworkProfile.DNSServiceIPs := claimDNSServiceIPs scp,
      Spec.Addons := claimAddons scp } := by
  unfold mutateVersionAndAddons claimDNSServiceIPs claimAddons
  cases scp.Spec.Addons.CoreDNS with
  | none => rfl
  | some c => obtain ⟨a, ips⟩ := c; cases a <;> rfl

theorem mutateDataStore_eq (scp : StewardControlPlane) (tcp : TenantControlPlane) :
    mutateDataStore scp tcp = { tcp with
      Spec.DataStore := scp.Spec.DataStoreName,
      Spec.DataStoreSchema := orPrior scp.Spec.DataStoreSchema tcp.Spec.DataStoreSchema,
      Spec.DataStoreUsername := orPrior scp.Spec.DataStoreUsername tcp.Spec.DataStoreUsername,
      Spec.Kubernetes.AdmissionControllers := scp.Spec.AdmissionControllers,
      Spec.ControlPlane.Deployment.RegistrySettings.Registry := scp.Spec.ContainerRegistry } := by
  unfold mutateDataStore orPrior
  by_cases h1 : scp.Spec.DataStoreSchema = "" <;> by_cases h2 : scp.Spec.DataStoreUsername = ""
    <;> simp [h1, h2]

theorem mutateCertSANsAndIngress_eq (scp : StewardControlPlane) (tcp : TenantControlPlane) :
    mutateCertSANsAndIngress scp tcp = { tcp with
      Spec.NetworkProfile.CertSANs := claimCertSANs scp,
      Spec.ControlPlane.Ingress := claimIngress scp } := by
  unfold mutateCertSANsAndIngress claimCertSANs claimIngress
  cases scp.Spec.Network.Ingress with
  | none => rfl
  | some i => cases h : scp.Spec.Network.CertSANs <;> simp [h] 

theorem mutateLoadBalancer_eq (scp : StewardControlPlane) (tcp : TenantControlPlane) :
    mutateLoadBalancer scp tcp = { tcp with
      Spec.NetworkProfile.LoadBalancerClass :=
        (claimLoadBalancerClass scp).orElse fun _ => tcp.Spec.NetworkProfile.LoadBalancerClass,
      Spec.NetworkProfile.LoadBalancerSourceRanges :=
        (claimLoadBalancerSourceRanges scp).orElse
          fun _ => tcp.Spec.NetworkProfile.LoadBalancerSourceRanges } := by
  unfold mutateLoadBalancer claimLoadBalancerClass claimLoadBalancerSourceRanges
  cases scp.Spec.Network.LoadBalancerConfig with
  | none => rfl
  | some lb => obtain ⟨c, r⟩ := lb; cases c <;> cases r <;> rfl

theorem getD_getD_self {α : Type} (o : Option α) (x : α) : o.getD (o.getD x) = o.getD x := by
  cases o <;> rfl

theorem orPrior_orPrior (v p : String) : orPrior v (orPrior v p) = orPrior v p := by
  unfold orPrior; split <;> rfl

theorem orElse_orElse_self {α : Type} (o p : Option α) :
    (o.orElse fun _ => o.orElse fun _ => p) = o.orElse fun _ => p := by
  cases o <;> rfl

theorem annotations_step_idem (src : Option GoMap) (skip key : String) (m0 : GoMap) :
    (if GoMap.index src key ≠ "" then
        GoMap.set (GoMap.copyExcept src skip
          (if GoMap.index src key ≠ "" then
            GoMap.set (GoMap.copyExcept src skip m0) key (GoMap.index src key)
          else GoMap.delete (GoMap.copyExcept src skip m0) key)) key (GoMap.index src key)
      else GoMap.delete (GoMap.copyExcept src skip
          (if GoMap.index src key ≠ "" then
            GoMap.set (GoMap.copyExcept src skip m0) key (GoMap.index src key)
          else GoMap.delete (GoMap.copyExcept src skip m0) key)) key)
      = (if GoMap.index src key ≠ "" then
            GoMap.set (GoMap.copyExcept src skip m0) key (GoMap.index src key)
          else GoMap.delete (GoMap.copyExcept src skip m0) key) := by
  funext k
  by_cases h : GoMap.index src key = ""
  · simp only [h, ne_eq, not_true_eq_false, ↓reduceIte, GoMap.delete, GoMap.copyExcept]
    by_cases hk : k = key
    · simp [hk]
    · cases src with
      | none => simp [hk, GoMap.delete]
      | some f =>
        by_cases hl : k = skip
        · subst hl; simp [hk]
        · cases hf : f k <;> simp [hk, hl, hf]
  · simp only [h, ne_eq, not_false_eq_true, ↓reduceIte, GoMap.set, GoMap.copyExcept]
    by_cases hk : k = key
    · simp [hk]
    · cases src with
      | none => simp [hk, GoMap.set]
      | some f =>
        by_cases hl : k = skip
        · subst hl; simp [hk]
        · cases hf : f k <;> simp [hk, hl, hf]

theorem mutateMetadata_annotations_idem (scp : StewardControlPlane) (tcp : TenantControlPlane) :
    (mutateMetadata scp (mutateMetadata scp tcp)).Meta.Annotations
      = (mutateMetadata scp tcp).Meta.Annotations := by
  simp only [mutateMetadata]
  exact congrArg some (annotations_step_idem _ _ _ _)

theorem mutate_pure_idem (cluster : Cluster) (scp : StewardControlPlane) (tcp : TenantControlPlane) :
    mutateAfterValidation scp (mutateBeforeValidation cluster scp
        (mutateAfterValidation scp (mutateBeforeValidation cluster scp tcp)))
      = mutateAfterValidation scp (mutateBeforeValidation cluster scp tcp) := by
  have hA := mutateMetadata_annotations_idem scp tcp
  simp only [mutateAfterValidation, mutateBeforeValidation, mutateCertSANsAndIngress_eq,
    mutateLoadBalancer_eq, mutateDataStore_eq, mutateVersionAndAddons_eq, mutateClusterNetwork_eq,
    mutateDeployment, mutateComponents] at *
  simp only [mutateMetadata] at hA ⊢
  simp only [getD_getD_self, orPrior_orPrior, orElse_orElse_self]
  rw [hA]

theorem parseGroup_claimAPIVersion : parseGroup claimAPIVersion = some "controlplane.cluster.x-k8s.io" := by
  decide

theorem referSameObject_controllerRefOf (scp : StewardControlPlane) :
    referSameObject (controllerRefOf scp) (controllerRefOf scp) = true := by
  simp [referSameObject, controllerRefOf, parseGroup_claimAPIVersion]

theorem upsertOwnerRef_idem (ref : OwnerReference) (h : referSameObject ref ref = true)
    (owners : List OwnerReference) :
    upsertOwnerRef ref (upsertOwnerRef ref owners) = upsertOwnerRef ref owners := by
  induction owners with
  | nil => simp [upsertOwnerRef, h]
  | cons o os ih =>
    by_cases ho : referSameObject o ref = true
    · simp [upsertOwnerRef, ho, h]
    · simp [upsertOwnerRef, ho, ih]

theorem getControllerOf_upsert (ref : OwnerReference) (hc : ref.Controller = some true)
    (owners : List OwnerReference)
    (h : ∀ e, GetControllerOf owners = some e → referSameObject e ref = true) :
    GetControllerOf (upsertOwnerRef ref owners) = some ref := by
  induction owners with
  | nil => simp [upsertOwnerRef, GetControllerOf, hc]
  | cons o os ih =>
    by_cases ho : referSameObject o ref = true
    · simp [upsertOwnerRef, ho, GetControllerOf, hc]
    · have hoc : ¬ (o.Controller = some true) := by
        intro hoc
        apply ho
        apply h o
        simp [GetControllerOf, List.find?, hoc]
      have h' : ∀ e, GetControllerOf os = some e → referSameObject e ref = true := by
        intro e he
        apply h e
        simpa [GetControllerOf, List.find?, hoc] using he
      have := ih h'
      simp only [upsertOwnerRef, ho, Bool.false_eq_true, ↓reduceIte]
      simpa [GetControllerOf, List.find?, hoc] using this

/-- What a successful `SetControllerReference` returns. -/
theorem SetControllerReference_ok (scp : StewardControlPlane) (tcp : TenantControlPlane)
    (h : (SetControllerReference scp tcp).2 = none) :
    SetControllerReference scp tcp
        = ({ tcp with Meta.OwnerReferences :=
              upsertOwnerRef (controllerRefOf scp) tcp.Meta.OwnerReferences }, none)
      ∧ ¬ (scp.Meta.Namespace ≠ "" ∧ tcp.Meta.Namespace = "")
      ∧ ¬ (scp.Meta.Namespace ≠ "" ∧ scp.Meta.Namespace ≠ tcp.Meta.Namespace)
      ∧ ∀ e, GetControllerOf tcp.Meta.OwnerReferences = some e →
          referSameObject e (controllerRefOf scp) = true := by
  unfold SetControllerReference at h ⊢
  by_cases h1 : scp.Meta.Namespace ≠ "" ∧ tcp.Meta.Namespace = ""
  · rw [if_pos h1] at h; cases h
  · by_cases h2 : scp.Meta.Namespace ≠ "" ∧ scp.Meta.Namespace ≠ tcp.Meta.Namespace
    · rw [if_neg h1, if_pos h2] at h; cases h
    · rw [if_neg h1, if_neg h2] at h ⊢
      cases hg : GetControllerOf tcp.Meta.OwnerReferences with
      | none => exact ⟨by simp, h1, h2, by simp⟩
      | some e =>
        simp only [hg] at h ⊢
        by_cases hs : referSameObject e (controllerRefOf scp) = true
        · rw [if_pos hs]
          refine ⟨rfl, h1, h2, ?_⟩
          intro e' he'
          cases he'
          exact hs
        · rw [if_neg hs] at h; cases h

theorem SetControllerReference_idem (scp : StewardControlPlane) (tcp : TenantControlPlane)
    (h : (SetControllerReference scp tcp).2 = none) :
    SetControllerReference scp (SetControllerReference scp tcp).1
      = ((SetControllerReference scp tcp).1, none) := by
  obtain ⟨heq, h1, h2, hg⟩ := SetControllerReference_ok scp tcp h
  rw [heq]
  have hc := getControllerOf_upsert (controllerRefOf scp) rfl tcp.Meta.OwnerReferences hg
  have hi := upsertOwnerRef_idem (controllerRefOf scp) (referSameObject_controllerRefOf scp)
    tcp.Meta.OwnerReferences
  simp only [SetControllerReference]
  simp only [h1, h2, ↓reduceIte, hc, referSameObject_controllerRefOf scp, hi]

/-! ### The shape of the mutate step -/

theorem SetControllerReference_spec (scp : StewardControlPlane) (tcp : TenantControlPlane) :
    (SetControllerReference scp tcp).1.Spec = tcp.Spec := by
  unfold SetControllerReference
  split
  · rfl
  · split
    · rfl
    · dsimp only
      split
      · split <;> rfl
      · rfl

theorem mutateFn_invalid (d : Bool) (cluster : Cluster) (scp : StewardControlPlane)
    (tcp : TenantControlPlane) (i : String)
    (h : firstInvalidCertSAN scp.Spec.Network.CertSANs = some i) :
    mutateFn d cluster scp tcp
      = (mutateBeforeValidation cluster scp tcp,
          some (.wrap ("entry " ++ i ++ " is invalid: ") ErrUnsupportedCertificateSAN)) := by
  simp only [mutateFn, h]

theorem mutateFn_valid (d : Bool) (cluster : Cluster) (scp : StewardControlPlane)
    (tcp : TenantControlPlane) (h : firstInvalidCertSAN scp.Spec.Network.CertSANs = none) :
    mutateFn d cluster scp tcp
      = if d = true then
          (mutateAfterValidation scp (mutateBeforeValidation cluster scp tcp), none)
        else SetControllerReference scp
          (mutateAfterValidation scp (mutateBeforeValidation cluster scp tcp)) := by
  cases d <;> simp [mutateFn, h]

theorem mutateFn_spec_of_valid (d : Bool) (cluster : Cluster) (scp : StewardControlPlane)
    (tcp : TenantControlPlane) (h : firstInvalidCertSAN scp.Spec.Network.CertSANs = none) :
    (mutateFn d cluster scp tcp).1.Spec
      = (mutateAfterValidation scp (mutateBeforeValidation cluster scp tcp)).Spec := by
  rw [mutateFn_valid d cluster scp tcp h]
  cases d
  · simp [SetControllerReference_spec]
  · simp

theorem firstInvalidCertSAN_eq_none (sans : Option (List String)) :
    firstInvalidCertSAN sans = none ↔ ∀ s ∈ sans.getD [], splitsAsHostPort s = false := by
  cases sans with
  | none => simp [firstInvalidCertSAN]
  | some l => simp [firstInvalidCertSAN, List.find?_eq_none]

theorem mutateFn_version (d : Bool) (cluster : Cluster) (scp : StewardControlPlane)
    (tcp : TenantControlPlane) :
    (mutateFn d cluster scp tcp).1.Spec.Kubernetes.Version = normalizeVersion scp.Spec.Version := by
  cases h : firstInvalidCertSAN scp.Spec.Network.CertSANs with
  | some i =>
    rw [mutateFn_invalid d cluster scp tcp i h]
    simp only [mutateBeforeValidation, mutateDataStore_eq, mutateVersionAndAddons_eq,
      mutateComponents]
  | none =>
    rw [mutateFn_spec_of_valid d cluster scp tcp h]
    simp only [mutateAfterValidation, mutateBeforeValidation, mutateCertSANsAndIngress_eq,
      mutateLoadBalancer_eq, mutateDataStore_eq, mutateVersionAndAddons_eq, mutateDeployment,
      mutateComponents]

theorem hasPrefix_v_append (s : String) : hasPrefix ("v" ++ s) "v" = true := by
  simp [hasPrefix, String.data_append]

/-- C1. For every claim version `s` the mutate step leaves `s` as the
workload's Kubernetes version when `s` begins with `v`, and `v` followed by
`s` otherwise; the workload version therefore always begins with `v`, and
the claim version `1.30.0` gives `v1.30.0`. This holds whatever the step
returns, the version being assigned before anything can fail. -/
theorem C1_version_normalized (d : Bool) (cluster : Cluster) (scp : StewardControlPlane)
    (tcp : TenantControlPlane) :
    (mutateFn d cluster scp tcp).1.Spec.Kubernetes.Version
        = (if hasPrefix scp.Spec.Version "v" = true then scp.Spec.Version
           else "v" ++ scp.Spec.Version)
      ∧ hasPrefix (mutateFn d cluster scp tcp).1.Spec.Kubernetes.Version "v" = true
      ∧ (mutateFn d cluster { scp with Spec.Version := "1.30.0" } tcp).1.Spec.Kubernetes.Version
          = "v1.30.0" := by
  refine ⟨?_, ?_, ?_⟩
  · rw [mutateFn_version]
    unfold normalizeVersion
    cases hasPrefix scp.Spec.Version "v" <;> simp
  · rw [mutateFn_version]
    unfold normalizeVersion
    cases h : hasPrefix scp.Spec.Version "v"
    · simpa using hasPrefix_v_append scp.Spec.Version
    · simpa using h
  · rw [mutateFn_version]
    show normalizeVersion "1.30.0" = "v1.30.0"
    decide

/-! ### C2: cert SAN validation -/

theorem SetControllerReference_err_not_san (scp : StewardControlPlane) (tcp : TenantControlPlane)
    (e : Err) (h : (SetControllerReference scp tcp).2 = some e) :
    e.is ErrUnsupportedCertificateSAN = false := by
  unfold SetControllerReference at h
  split at h
  · cases h; rfl
  · split at h
    · cases h; rfl
    · dsimp only at h
      split at h
      · split at h
        · cases h
        · cases h; rfl
      · cases h

theorem mutateFn_certSANs (d : Bool) (cluster : Cluster) (scp : StewardControlPlane)
    (tcp : TenantControlPlane) :
    (mutateFn d cluster scp tcp).1.Spec.NetworkProfile.CertSANs
      = if (firstInvalidCertSAN scp.Spec.Network.CertSANs).isSome = true
        then tcp.Spec.NetworkProfile.CertSANs else claimCertSANs scp := by
  cases h : firstInvalidCertSAN scp.Spec.Network.CertSANs with
  | some i =>
    rw [mutateFn_invalid d cluster scp tcp i h]
    simp only [mutateBeforeValidation, mutateDataStore_eq, mutateVersionAndAddons_eq,
      mutateClusterNetwork_eq, mutateComponents, mutateMetadata, Option.isSome_some, ↓reduceIte]
  | none =>
    rw [mutateFn_spec_of_valid d cluster scp tcp h]
    simp only [mutateAfterValidation, mutateBeforeValidation, mutateCertSANsAndIngress_eq,
      mutateLoadBalancer_eq, mutateDataStore_eq, mutateVersionAndAddons_eq, mutateDeployment,
      mutateComponents, Option.isSome_none, Bool.false_eq_true, ↓reduceIte]

theorem firstInvalidCertSAN_isSome (sans : Option (List String)) :
    (firstInvalidCertSAN sans).isSome = true ↔ ∃ s ∈ sans.getD [], splitsAsHostPort s = true := by
  cases sans with
  | none => simp [firstInvalidCertSAN]
  | some l => simp [firstInvalidCertSAN, List.find?_isSome]

theorem mutateFn_san_error_iff (d : Bool) (cluster : Cluster) (scp : StewardControlPlane)
    (tcp : TenantControlPlane) :
    (∃ e, (mutateFn d cluster scp tcp).2 = some e ∧ e.is ErrUnsupportedCertificateSAN = true)
      ↔ ∃ s ∈ scp.Spec.Network.CertSANs.getD [], splitsAsHostPort s = true := by
  rw [← firstInvalidCertSAN_isSome]
  cases h : firstInvalidCertSAN scp.Spec.Network.CertSANs with
  | some i =>
    rw [mutateFn_invalid d cluster scp tcp i h]
    simp [Err.is, ErrUnsupportedCertificateSAN]
  | none =>
    rw [mutateFn_valid d cluster scp tcp h]
    simp only [Option.isSome_none, Bool.false_eq_true, iff_false, not_exists, not_and]
    intro e he
    cases d
    · simp only [Bool.false_eq_true, ↓reduceIte] at he
      simp [SetControllerReference_err_not_san _ _ e he]
    · simp at he

/-- C2. The mutate step fails with an error wrapping
`ErrUnsupportedCertificateSAN` exactly when some cert SAN of the claim splits
as host and port under `net.SplitHostPort`. `host:443` splits and `host` does
not, so a claim whose only SAN is `host:443` is rejected with that error and
one whose only SAN is `host` is not. On rejection the step has not assigned
the workload's cert SANs: they are what they were. -/
theorem C2_cert_san_validation (d : Bool) (cluster : Cluster) (scp : StewardControlPlane)
    (tcp : TenantControlPlane) :
    ((∃ e, (mutateFn d cluster scp tcp).2 = some e ∧ e.is ErrUnsupportedCertificateSAN = true)
        ↔ ∃ s ∈ scp.Spec.Network.CertSANs.getD [], splitsAsHostPort s = true)
      ∧ (mutateFn d cluster { scp with Spec.Network.CertSANs := some ["host:443"] } tcp).2
          = some (.wrap "entry host:443 is invalid: " ErrUnsupportedCertificateSAN)
      ∧ (¬ ∃ e, (mutateFn d cluster { scp with Spec.Network.CertSANs := some ["host"] } tcp).2 = some e
            ∧ e.is ErrUnsupportedCertificateSAN = true)
      ∧ (mutateFn d cluster scp tcp).1.Spec.NetworkProfile.CertSANs
          = (if (firstInvalidCertSAN scp.Spec.Network.CertSANs).isSome = true
             then tcp.Spec.NetworkProfile.CertSANs else claimCertSANs scp)
      ∧ ((firstInvalidCertSAN scp.Spec.Network.CertSANs).isSome = true
          ↔ ∃ s ∈ scp.Spec.Network.CertSANs.getD [], splitsAsHostPort s = true) := by
  refine ⟨mutateFn_san_error_iff d cluster scp tcp, ?_, ?_, mutateFn_certSANs d cluster scp tcp,
    firstInvalidCertSAN_isSome _⟩
  · have h : firstInvalidCertSAN (some ["host:443"]) = some "host:443" := by decide
    rw [mutateFn_invalid d cluster { scp with Spec.Network.CertSANs := some ["host:443"] } tcp
      "host:443" h]
    show some (Err.wrap ("entry " ++ "host:443" ++ " is invalid: ") ErrUnsupportedCertificateSAN)
      = some (Err.wrap "entry host:443 is invalid: " ErrUnsupportedCertificateSAN)
    decide
  · rw [mutateFn_san_error_iff]
    intro ⟨s, hs, hsplit⟩
    have : s = "host" := by simpa using hs
    subst this
    exact absurd hsplit (by decide)

/-! ### C3: idempotence -/

theorem mutate_pure_ownerReferences (cluster : Cluster) (scp : StewardControlPlane)
    (tcp : TenantControlPlane) (owners : List OwnerReference) :
    mutateAfterValidation scp (mutateBeforeValidation cluster scp
        { tcp with Meta.OwnerReferences := owners })
      = { mutateAfterValidation scp (mutateBeforeValidation cluster scp tcp) with
          Meta.OwnerReferences := owners } := by
  simp only [mutateAfterValidation, mutateBeforeValidation, mutateCertSANsAndIngress_eq,
    mutateLoadBalancer_eq, mutateDataStore_eq, mutateVersionAndAddons_eq, mutateClusterNetwork_eq,
    mutateDeployment, mutateComponents, mutateMetadata]

theorem mutate_pure_meta (cluster : Cluster) (scp : StewardControlPlane)
    (tcp : TenantControlPlane) :
    (mutateAfterValidation scp (mutateBeforeValidation cluster scp tcp)).Meta.OwnerReferences
        = tcp.Meta.OwnerReferences
      ∧ (mutateAfterValidation scp (mutateBeforeValidation cluster scp tcp)).Meta.Name
        = tcp.Meta.Name
      ∧ (mutateAfterValidation scp (mutateBeforeValidation cluster scp tcp)).Meta.Namespace
        = tcp.Meta.Namespace := by
  simp only [mutateAfterValidation, mutateBeforeValidation, mutateCertSANsAndIngress_eq,
    mutateLoadBalancer_eq, mutateDataStore_eq, mutateVersionAndAddons_eq, mutateClusterNetwork_eq,
    mutateDeployment, mutateComponents, mutateMetadata, and_self]

/-- C3. The mutate step is idempotent: whenever it succeeds on a workload,
running it again with the same claim and cluster on the workload it produced
succeeds and returns that workload unchanged, field for field (metadata with
labels, annotations and owner references, the whole spec with the cert SANs
and the appended ingress host, and the status). -/
theorem C3_mutate_idempotent (d : Bool) (cluster : Cluster) (scp : StewardControlPlane)
    (tcp : TenantControlPlane) (h : (mutateFn d cluster scp tcp).2 = none) :
    mutateFn d cluster scp (mutateFn d cluster scp tcp).1
      = ((mutateFn d cluster scp tcp).1, none) := by
  cases hv : firstInvalidCertSAN scp.Spec.Network.CertSANs with
  | some i => rw [mutateFn_invalid d cluster scp tcp i hv] at h; cases h
  | none =>
    rw [mutateFn_valid d cluster scp tcp hv] at h ⊢
    cases d
    · simp only [Bool.false_eq_true, ↓reduceIte] at h ⊢
      obtain ⟨heq, -⟩ := SetControllerReference_ok scp _ h
      have hidem := SetControllerReference_idem scp _ h
      rw [mutateFn_valid false cluster scp _ hv]
      simp only [Bool.false_eq_true, ↓reduceIte]
      have hpure : mutateAfterValidation scp (mutateBeforeValidation cluster scp
            (SetControllerReference scp
              (mutateAfterValidation scp (mutateBeforeValidation cluster scp tcp))).1)
          = (SetControllerReference scp
              (mutateAfterValidation scp (mutateBeforeValidation cluster scp tcp))).1 := by
        rw [heq]
        simp only
        rw [mutate_pure_ownerReferences, mutate_pure_idem]
      rw [hpure]
      exact hidem
    · simp only [↓reduceIte]
      rw [mutateFn_valid true cluster scp _ hv]
      simp only [↓reduceIte, mutate_pure_idem]

/-- C3 at a concrete input: the rich claim on a stored workload, with the
owner reference set by the first run. -/
theorem C3_mutate_idempotent_witness :
    (mutateFn false clusterPlain claimRich tcpSchemaA).2 = none
      ∧ mutateFn false clusterPlain claimRich (mutateFn false clusterPlain claimRich tcpSchemaA).1
        = ((mutateFn false clusterPlain claimRich tcpSchemaA).1, none) :=
  ⟨by decide, C3_mutate_idempotent false clusterPlain claimRich tcpSchemaA (by decide)⟩

/-! ### C4: what the translation determines -/

theorem mutate_pure_guarded (cluster : Cluster) (scp : StewardControlPlane)
    (tcp : TenantControlPlane) :
    guardedOf (mutateAfterValidation scp (mutateBeforeValidation cluster scp tcp)).Spec
      = prescribeGuarded cluster scp (guardedOf tcp.Spec) := by
  simp only [mutateAfterValidation, mutateBeforeValidation, mutateCertSANsAndIngress_eq,
    mutateLoadBalancer_eq, mutateDataStore_eq, mutateVersionAndAddons_eq, mutateClusterNetwork_eq,
    mutateDeployment, mutateComponents, mutateMetadata, guardedOf, prescribeGuarded]

theorem mutate_pure_unguarded (cluster : Cluster) (scp : StewardControlPlane)
    (w₁ w₂ : TenantControlPlane) :
    withGuarded (mutateAfterValidation scp (mutateBeforeValidation cluster scp w₁)).Spec
        (guardedOf (mutateAfterValidation scp (mutateBeforeValidation cluster scp w₂)).Spec)
      = (mutateAfterValidation scp (mutateBeforeValidation cluster scp w₂)).Spec := by
  simp only [mutateAfterValidation, mutateBeforeValidation, mutateCertSANsAndIngress_eq,
    mutateLoadBalancer_eq, mutateDataStore_eq, mutateVersionAndAddons_eq, mutateClusterNetwork_eq,
    mutateDeployment, mutateComponents, mutateMetadata, guardedOf, withGuarded]

/-- C4, as the code has it. Given a claim whose cert SANs pass validation, a
cluster and any two prior workloads, the mutate step leaves the two workload
specs equal in every field except the guarded ones (data-store schema and
username, load-balancer class and source ranges, port, service CIDR, pod CIDR
and cluster domain); each guarded field holds the value the claim or cluster
gives for it and, where they give none, the value the prior workload held. -/
theorem C4_translation_pure_up_to_guards (d : Bool) (cluster : Cluster)
    (scp : StewardControlPlane) (w₁ w₂ : TenantControlPlane)
    (hv : firstInvalidCertSAN scp.Spec.Network.CertSANs = none) :
    withGuarded (mutateFn d cluster scp w₁).1.Spec (guardedOf (mutateFn d cluster scp w₂).1.Spec)
        = (mutateFn d cluster scp w₂).1.Spec
      ∧ guardedOf (mutateFn d cluster scp w₁).1.Spec
        = prescribeGuarded cluster scp (guardedOf w₁.Spec)
      ∧ guardedOf (mutateFn d cluster scp w₂).1.Spec
        = prescribeGuarded cluster scp (guardedOf w₂.Spec) := by
  rw [mutateFn_spec_of_valid d cluster scp w₁ hv, mutateFn_spec_of_valid d cluster scp w₂ hv]
  exact ⟨mutate_pure_unguarded cluster scp w₁ w₂, mutate_pure_guarded cluster scp w₁,
    mutate_pure_guarded cluster scp w₂⟩

/-- C4 as amended, at a concrete input: two stored workloads that differ in
their data-store schema. -/
theorem C4_translation_pure_up_to_guards_witness :
    firstInvalidCertSAN claimV130.Spec.Network.CertSANs = none
      ∧ withGuarded (mutateFn true clusterPlain claimV130 tcpSchemaA).1.Spec
          (guardedOf (mutateFn true clusterPlain claimV130 tcpSchemaB).1.Spec)
        = (mutateFn true clusterPlain claimV130 tcpSchemaB).1.Spec
      ∧ guardedOf (mutateFn true clusterPlain claimV130 tcpSchemaA).1.Spec
        = prescribeGuarded clusterPlain claimV130 (guardedOf tcpSchemaA.Spec)
      ∧ guardedOf (mutateFn true clusterPlain claimV130 tcpSchemaB).1.Spec
        = prescribeGuarded clusterPlain claimV130 (guardedOf tcpSchemaB.Spec) :=
  ⟨by decide, C4_translation_pure_up_to_guards true clusterPlain claimV130 tcpSchemaA tcpSchemaB
    (by decide)⟩

/-- C4 as stated fails. The claim `claimV130` names no data-store schema, so
the mutate step, which succeeds, keeps the schema of the prior workload: two
prior workloads with different schemas come out with different schemas. And
the claim `claimSANWithPort` is rejected by the validation before the runtime
class is assigned, so the step leaves the two prior runtime classes in
place. -/
theorem C4_counterexample :
    (mutateFn true clusterPlain claimV130 tcpSchemaA).2 = none
      ∧ (mutateFn true clusterPlain claimV130 tcpSchemaB).2 = none
      ∧ (mutateFn true clusterPlain claimV130 tcpSchemaA).1.Spec.DataStoreSchema = "tenant_a"
      ∧ (mutateFn true clusterPlain claimV130 tcpSchemaB).1.Spec.DataStoreSchema = "tenant_b"
      ∧ (mutateFn true clusterPlain claimV130 tcpSchemaA).1.Spec.DataStoreSchema
          ≠ (mutateFn true clusterPlain claimV130 tcpSchemaB).1.Spec.DataStoreSchema
      ∧ (mutateFn true clusterPlain claimSANWithPort tcpSchemaA).1.Spec.ControlPlane.Deployment.RuntimeClassName
          ≠ (mutateFn true clusterPlain claimSANWithPort tcpSchemaB).1.Spec.ControlPlane.Deployment.RuntimeClassName := by
  decide

/-! ### C5: cert SANs and the ingress host -/

theorem lastIndexByte_split (c : Char) (l : List Char) (i : Nat)
    (h : lastIndexByte l c = some i) : l.take i ++ c :: l.drop (i + 1) = l := by
  induction l generalizing i with
  | nil => simp [lastIndexByte] at h
  | cons x xs ih =>
    unfold lastIndexByte at h
    cases hx : lastIndexByte xs c with
    | some j =>
      simp only [hx, Option.some.injEq] at h
      subst h
      simp [ih j hx]
    | none =>
      simp only [hx] at h
      by_cases hc : x = c
      · simp only [hc, ↓reduceIte, Option.some.injEq] at h
        subst h
        simp [hc]
      · simp [hc] at h

theorem lastIndexByte_eq_none (c : Char) (l : List Char) (h : c ∉ l) :
    lastIndexByte l c = none := by
  induction l with
  | nil => rfl
  | cons x xs ih =>
    simp only [List.mem_cons, not_or] at h
    unfold lastIndexByte
    rw [ih h.2]
    simp [Ne.symm h.1]

theorem SplitHostPort_unbracketed (hostport host port : String)
    (hb : hostport.data.head? ≠ some '[')
    (h : SplitHostPort hostport = .ok (host, port)) : hostport = host ++ ":" ++ port := by
  unfold SplitHostPort at h
  simp only at h
  cases hi : lastIndexByte hostport.data ':' with
  | none => simp [hi] at h
  | some i =>
    simp only [hi, hb, ↓reduceIte] at h
    split at h
    · cases h
    · split at h
      · cases h
      · split at h
        · cases h
        · simp only [Except.ok.injEq, Prod.mk.injEq] at h
          obtain ⟨h1, h2⟩ := h
          subst h1 h2
          apply String.ext
          simp [String.data_append, lastIndexByte_split ':' hostport.data i hi]

theorem ingressCertSAN_of_no_colon (hostname : String) (h : ':' ∉ hostname.data) :
    ingressCertSAN hostname = hostname := by
  unfold ingressCertSAN SplitHostPort
  simp [lastIndexByte_eq_none ':' hostname.data h]

theorem ingressCertSAN_of_split (hostname host port : String)
    (h : SplitHostPort hostname = .ok (host, port)) : ingressCertSAN hostname = host := by
  simp [ingressCertSAN, h]

/-- C5. For every claim whose cert SANs pass validation: with an ingress block,
the workload's cert SANs after the mutate step are the claim's cert SANs
followed by exactly one entry, the host that `net.SplitHostPort` finds in the
ingress hostname (for an unbracketed hostname `host:port`, the text before
`:port`), or the hostname itself when it does not split, in particular when
it holds no colon; without an ingress block, the workload's cert SANs are
the claim's and the workload's ingress spec is nil. -/
theorem C5_cert_sans_with_ingress (d : Bool) (cluster : Cluster) (scp : StewardControlPlane)
    (tcp : TenantControlPlane)
    (hv : ∀ s ∈ scp.Spec.Network.CertSANs.getD [], splitsAsHostPort s = false) :
    (∀ ingress, scp.Spec.Network.Ingress = some ingress →
        (mutateFn d cluster scp tcp).1.Spec.NetworkProfile.CertSANs
            = some (scp.Spec.Network.CertSANs.getD [] ++ [ingressCertSAN ingress.Hostname])
          ∧ (∀ host port, SplitHostPort ingress.Hostname = .ok (host, port) →
              ingressCertSAN ingress.Hostname = host
                ∧ (ingress.Hostname.data.head? ≠ some '[' →
                    ingress.Hostname = host ++ ":" ++ port))
          ∧ (splitsAsHostPort ingress.Hostname = false →
              ingressCertSAN ingress.Hostname = ingress.Hostname)
          ∧ (':' ∉ ingress.Hostname.data → ingressCertSAN ingress.Hostname = ingress.Hostname))
      ∧ (scp.Spec.Network.Ingress = none →
          (mutateFn d cluster scp tcp).1.Spec.NetworkProfile.CertSANs = scp.Spec.Network.CertSANs
            ∧ (mutateFn d cluster scp tcp).1.Spec.ControlPlane.Ingress.isNone = true) := by
  have hv' := (firstInvalidCertSAN_eq_none _).2 hv
  have hsans := mutateFn_certSANs d cluster scp tcp
  simp only [hv', Option.isSome_none, Bool.false_eq_true, ↓reduceIte] at hsans
  refine ⟨?_, ?_⟩
  · intro ingress hi
    refine ⟨?_, ?_, ?_, ingressCertSAN_of_no_colon _⟩
    · rw [hsans]; simp [claimCertSANs, hi]
    · intro host port hs
      exact ⟨ingressCertSAN_of_split _ _ _ hs, fun hb => SplitHostPort_unbracketed _ _ _ hb hs⟩
    · intro hs
      unfold splitsAsHostPort at hs
      unfold ingressCertSAN
      split at hs
      · cases hs
      · rename_i e he; simp [he]
  · intro hi
    refine ⟨?_, ?_⟩
    · rw [hsans]; simp [claimCertSANs, hi]
    · rw [mutateFn_spec_of_valid d cluster scp tcp hv']
      simp only [mutateAfterValidation, mutateBeforeValidation, mutateCertSANsAndIngress_eq,
        mutateLoadBalancer_eq, mutateDataStore_eq, mutateVersionAndAddons_eq, mutateDeployment,
        mutateComponents]
      simp [claimIngress, hi]

/-- C5 at a concrete input: the SAN `host` and the ingress hostname
`cp.example.com:8443` give the SANs `host`, `cp.example.com`. -/
theorem C5_cert_sans_with_ingress_witness :
    (∀ s ∈ claimSANHostOnly.Spec.Network.CertSANs.getD [], splitsAsHostPort s = false)
      ∧ (mutateFn false clusterPlain claimSANHostOnly tcpFresh).1.Spec.NetworkProfile.CertSANs
          = some ["host", "cp.example.com"] := by
  have hv : ∀ s ∈ claimSANHostOnly.Spec.Network.CertSANs.getD [], splitsAsHostPort s = false := by
    decide
  have h := (C5_cert_sans_with_ingress false clusterPlain claimSANHostOnly tcpFresh hv).1
    { Hostname := "cp.example.com:8443" } rfl
  exact ⟨hv, h.1.trans (by decide)⟩

/-! ### C6: which workload is targeted -/

theorem retryOnConflictLoop_induct {σ : Type} (fn : σ → σ × Option Err) (Inv : σ → Prop)
    (Post : σ × Option Err → Prop)
    (hstep : ∀ s, Inv s → Post (fn s)
      ∧ ∀ e, (fn s).2 = some e → e.isConflict = true → Inv (fn s).1) :
    ∀ n s, Inv s → Post (retryOnConflictLoop fn (n + 1) s) := by
  intro n
  induction n with
  | zero =>
    intro s hs
    have h := (hstep s hs).1
    unfold retryOnConflictLoop
    rcases hfs : fn s with ⟨s', r⟩
    rw [hfs] at h
    cases r with
    | none => exact h
    | some e => simpa using h
  | succ n ih =>
    intro s hs
    have h := hstep s hs
    unfold retryOnConflictLoop
    rcases hfs : fn s with ⟨s', r⟩
    rw [hfs] at h
    cases r with
    | none => exact h.1
    | some e =>
      by_cases hc : e.isConflict = true
      · simp only [hc, ne_eq, add_eq_zero, one_ne_zero, and_false, not_false_eq_true, and_self,
          ↓reduceIte]
        exact ih s' (h.2 e rfl hc)
      · simp only [hc, false_and, ↓reduceIte]
        exact h.1

theorem append_two {α : Type} (l : List α) (a b : α) : l ++ [a] ++ [b] = l ++ [a, b] := by
  simp

theorem mutateFn_err_not_conflict (d : Bool) (cluster : Cluster) (scp : StewardControlPlane)
    (tcp : TenantControlPlane) (e : Err) (h : (mutateFn d cluster scp tcp).2 = some e) :
    e.isConflict = false := by
  cases hv : firstInvalidCertSAN scp.Spec.Network.CertSANs with
  | some i =>
    rw [mutateFn_invalid d cluster scp tcp i hv] at h
    cases h
    rfl
  | none =>
    rw [mutateFn_valid d cluster scp tcp hv] at h
    cases d
    · simp only [Bool.false_eq_true, ↓reduceIte] at h
      unfold SetControllerReference at h
      split at h
      · cases h; rfl
      · split at h
        · cases h; rfl
        · dsimp only at h
          split at h
          · split at h
            · cases h
            · cases h; rfl
          · cases h
    · simp at h

theorem CreateOrUpdate_spec (env : Env) (c : Client)
    (f : TenantControlPlane → TenantControlPlane × Option Err)
    (W : TenantControlPlane → Prop)
    (hconf : ∀ t e, (f t).2 = some e → e.isConflict = false)
    (hok : ∀ t, (f t).2 = none → W (f t).1)
    (s : TenantControlPlane × List Event) :
    (∃ added, (CreateOrUpdate env c f s).1.2 = s.2 ++ added
        ∧ ∀ e ∈ added, e.targetsTCP c s.1.Meta.Namespace s.1.Meta.Name
            ∧ ∀ obj, e.writtenTCP = some obj → W obj)
      ∧ ((CreateOrUpdate env c f s).2 = none →
          (CreateOrUpdate env c f s).1.1.Meta.Namespace = s.1.Meta.Namespace
            ∧ (CreateOrUpdate env c f s).1.1.Meta.Name = s.1.Meta.Name
            ∧ W (CreateOrUpdate env c f s).1.1)
      ∧ (∀ e, (CreateOrUpdate env c f s).2 = some e → e.isConflict = true →
          (CreateOrUpdate env c f s).1.1.Meta.Namespace = s.1.Meta.Namespace
            ∧ (CreateOrUpdate env c f s).1.1.Meta.Name = s.1.Meta.Name) := by
  have hget : (Event.getTCP c s.1.Meta.Namespace s.1.Meta.Name).targetsTCP c
      s.1.Meta.Namespace s.1.Meta.Name := ⟨rfl, rfl, rfl⟩
  unfold CreateOrUpdate
  dsimp only
  cases hg : env.getTCP s.2.length c s.1.Meta.Namespace s.1.Meta.Name with
  | error e =>
    dsimp only
    by_cases hnf : e = .notFound
    · subst hnf
      simp only [ne_eq, not_true_eq_false, ↓reduceIte]
      rcases hf : f s.1 with ⟨obj, r⟩
      cases r with
      | some e' =>
        dsimp only
        refine ⟨⟨[_], rfl, ?_⟩, by simp, ?_⟩
        · intro e he
          simp only [List.mem_singleton] at he
          subst he
          exact ⟨hget, by simp [Event.writtenTCP]⟩
        · intro e he hc
          simp only [Option.some.injEq] at he
          subst he
          have := hconf s.1 e' (by rw [hf])
          rw [this] at hc
          cases hc
      | none =>
        dsimp only
        have hW : W obj := by have := hok s.1 (by rw [hf]); rwa [hf] at this
        by_cases hn : obj.Meta.Namespace ≠ s.1.Meta.Namespace ∨ obj.Meta.Name ≠ s.1.Meta.Name
        · rw [if_pos hn]
          refine ⟨⟨[_], rfl, ?_⟩, by simp, ?_⟩
          · intro e he
            simp only [List.mem_singleton] at he
            subst he
            exact ⟨hget, by simp [Event.writtenTCP]⟩
          · intro e he hc
            simp only [Option.some.injEq] at he
            subst he
            cases hc
        · rw [if_neg hn]
          simp only [ne_eq, not_or, not_not] at hn
          cases hcr : env.createTCP (s.2 ++ [Event.getTCP c s.1.Meta.Namespace s.1.Meta.Name]).length
              c obj with
          | some e' =>
            dsimp only
            refine ⟨⟨_, append_two _ _ _, ?_⟩, by simp, ?_⟩
            · intro e he
              simp only [List.mem_cons, List.mem_singleton, List.not_mem_nil, or_false] at he
              rcases he with he | he
              · subst he; exact ⟨hget, by simp [Event.writtenTCP]⟩
              · subst he
                refine ⟨⟨rfl, hn.1, hn.2⟩, ?_⟩
                intro o ho
                simp only [Event.writtenTCP, Option.some.injEq] at ho
                subst ho
                exact hW
            · intro e he hc
              exact ⟨hn.1, hn.2⟩
          | none =>
            dsimp only
            refine ⟨⟨_, append_two _ _ _, ?_⟩, fun _ => ⟨hn.1, hn.2, hW⟩, by simp⟩
            intro e he
            simp only [List.mem_cons, List.mem_singleton, List.not_mem_nil, or_false] at he
            rcases he with he | he
            · subst he; exact ⟨hget, by simp [Event.writtenTCP]⟩
            · subst he
              refine ⟨⟨rfl, hn.1, hn.2⟩, ?_⟩
              intro o ho
              simp only [Event.writtenTCP, Option.some.injEq] at ho
              subst ho
              exact hW
    · simp only [ne_eq, hnf, not_false_eq_true, ↓reduceIte]
      refine ⟨⟨[_], rfl, ?_⟩, by simp, by simp⟩
      intro e he
      simp only [List.mem_singleton] at he
      subst he
      exact ⟨hget, by simp [Event.writtenTCP]⟩
  | ok existing =>
    dsimp only
    rcases hf : f existing with ⟨obj, r⟩
    cases r with
    | some e' =>
      dsimp only
      refine ⟨⟨[_], rfl, ?_⟩, by simp, ?_⟩
      · intro e he
        simp only [List.mem_singleton] at he
        subst he
        exact ⟨hget, by simp [Event.writtenTCP]⟩
      · intro e he hc
        simp only [Option.some.injEq] at he
        subst he
        have := hconf existing e' (by rw [hf])
        rw [this] at hc
        cases hc
    | none =>
      dsimp only
      have hW : W obj := by have := hok existing (by rw [hf]); rwa [hf] at this
      by_cases hn : obj.Meta.Namespace ≠ s.1.Meta.Namespace ∨ obj.Meta.Name ≠ s.1.Meta.Name
      · rw [if_pos hn]
        refine ⟨⟨[_], rfl, ?_⟩, by simp, ?_⟩
        · intro e he
          simp only [List.mem_singleton] at he
          subst he
          exact ⟨hget, by simp [Event.writtenTCP]⟩
        · intro e he hc
          simp only [Option.some.injEq] at he
          subst he
          cases hc
      · rw [if_neg hn]
        simp only [ne_eq, not_or, not_not] at hn
        by_cases hde : env.deepEqual existing obj = true
        · rw [if_pos hde]
          refine ⟨⟨[_], rfl, ?_⟩, fun _ => ⟨hn.1, hn.2, hW⟩, by simp⟩
          intro e he
          simp only [List.mem_singleton] at he
          subst he
          exact ⟨hget, by simp [Event.writtenTCP]⟩
        · rw [if_neg hde]
          cases hcr : env.updateTCP (s.2 ++ [Event.getTCP c s.1.Meta.Namespace s.1.Meta.Name]).length
              c obj with
          | some e' =>
            dsimp only
            refine ⟨⟨_, append_two _ _ _, ?_⟩, by simp, ?_⟩
            · intro e he
              simp only [List.mem_cons, List.mem_singleton, List.not_mem_nil, or_false] at he
              rcases he with he | he
              · subst he; exact ⟨hget, by simp [Event.writtenTCP]⟩
              · subst he
                refine ⟨⟨rfl, hn.1, hn.2⟩, ?_⟩
                intro o ho
                simp only [Event.writtenTCP, Option.some.injEq] at ho
                subst ho
                exact hW
            · intro e he hc
              exact ⟨hn.1, hn.2⟩
          | none =>
            dsimp only
            refine ⟨⟨_, append_two _ _ _, ?_⟩, fun _ => ⟨hn.1, hn.2, hW⟩, by simp⟩
            intro e he
            simp only [List.mem_cons, List.mem_singleton, List.not_mem_nil, or_false] at he
            rcases he with he | he
            · subst he; exact ⟨hget, by simp [Event.writtenTCP]⟩
            · subst he
              refine ⟨⟨rfl, hn.1, hn.2⟩, ?_⟩
              intro o ho
              simp only [Event.writtenTCP, Option.some.injEq] at ho
              subst ho
              exact hW

theorem mutateFn_local_controller (cluster : Cluster) (scp : StewardControlPlane)
    (tcp : TenantControlPlane) (h : (mutateFn false cluster scp tcp).2 = none) :
    GetControllerOf (mutateFn false cluster scp tcp).1.Meta.OwnerReferences
      = some (controllerRefOf scp) := by
  cases hv : firstInvalidCertSAN scp.Spec.Network.CertSANs with
  | some i => rw [mutateFn_invalid false cluster scp tcp i hv] at h; cases h
  | none =>
    rw [mutateFn_valid false cluster scp tcp hv] at h ⊢
    simp only [Bool.false_eq_true, ↓reduceIte] at h ⊢
    obtain ⟨heq, -, -, hg⟩ := SetControllerReference_ok scp _ h
    rw [heq]
    exact getControllerOf_upsert (controllerRefOf scp) rfl _ hg

theorem mutateFn_remote_ownerReferences (cluster : Cluster) (scp : StewardControlPlane)
    (tcp : TenantControlPlane) :
    (mutateFn true cluster scp tcp).1.Meta.OwnerReferences = tcp.Meta.OwnerReferences := by
  cases hv : firstInvalidCertSAN scp.Spec.Network.CertSANs with
  | some i =>
    rw [mutateFn_invalid true cluster scp tcp i hv]
    simp only [mutateBeforeValidation, mutateDataStore_eq, mutateVersionAndAddons_eq,
      mutateClusterNetwork_eq, mutateComponents, mutateMetadata]
  | none =>
    rw [mutateFn_valid true cluster scp tcp hv]
    simp only [↓reduceIte]
    exact (mutate_pure_meta cluster scp tcp).1

theorem createOrUpdate_local (env : Env) (cluster : Cluster) (scp : StewardControlPlane)
    (tr : List Event) :
    (∃ added, (createOrUpdateTenantControlPlane env none cluster scp tr).2 = tr ++ added
        ∧ ∀ e ∈ added, e.targetsTCP .management scp.Meta.Namespace scp.Meta.Name
            ∧ ∀ obj, e.writtenTCP = some obj →
                GetControllerOf obj.Meta.OwnerReferences = some (controllerRefOf scp))
      ∧ ∀ tcp, (createOrUpdateTenantControlPlane env none cluster scp tr).1 = .ok tcp →
          tcp.Meta.Name = scp.Meta.Name ∧ tcp.Meta.Namespace = scp.Meta.Namespace
            ∧ GetControllerOf tcp.Meta.OwnerReferences = some (controllerRefOf scp) := by
  have key := retryOnConflictLoop_induct (createOrUpdateAttempt env none cluster scp)
    (fun s => (∃ added, s.2 = tr ++ added
        ∧ ∀ e ∈ added, e.targetsTCP .management scp.Meta.Namespace scp.Meta.Name
            ∧ ∀ obj, e.writtenTCP = some obj →
                GetControllerOf obj.Meta.OwnerReferences = some (controllerRefOf scp))
      ∧ s.1.Meta.Namespace = scp.Meta.Namespace ∧ s.1.Meta.Name = scp.Meta.Name)
    (fun r => (∃ added, r.1.2 = tr ++ added
        ∧ ∀ e ∈ added, e.targetsTCP .management scp.Meta.Namespace scp.Meta.Name
            ∧ ∀ obj, e.writtenTCP = some obj →
                GetControllerOf obj.Meta.OwnerReferences = some (controllerRefOf scp))
      ∧ (r.2 = none → r.1.1.Meta.Namespace = scp.Meta.Namespace
          ∧ r.1.1.Meta.Name = scp.Meta.Name
          ∧ GetControllerOf r.1.1.Meta.OwnerReferences = some (controllerRefOf scp)))
    (by
      intro s ⟨⟨added, hadd, hgood⟩, hns, hname⟩
      have hspec := CreateOrUpdate_spec env .management (mutateFn false cluster scp)
        (fun obj => GetControllerOf obj.Meta.OwnerReferences = some (controllerRefOf scp))
        (fun t e => mutateFn_err_not_conflict false cluster scp t e)
        (fun t => mutateFn_local_controller cluster scp t) s
      rw [hns, hname] at hspec
      obtain ⟨⟨added', hadd', hgood'⟩, hok, hconf⟩ := hspec
      have htrace : ∃ added'', (createOrUpdateAttempt env none cluster scp s).1.2 = tr ++ added''
          ∧ ∀ e ∈ added'', e.targetsTCP .management scp.Meta.Namespace scp.Meta.Name
              ∧ ∀ obj, e.writtenTCP = some obj →
                  GetControllerOf obj.Meta.OwnerReferences = some (controllerRefOf scp) := by
        refine ⟨added ++ added', ?_, ?_⟩
        · show (CreateOrUpdate env .management (mutateFn false cluster scp) s).1.2 = _
          rw [hadd', hadd, List.append_assoc]
        · intro e he
          rcases List.mem_append.1 he with he | he
          · exact hgood e he
          · exact hgood' e he
      exact ⟨⟨htrace, hok⟩, fun e he hc => ⟨htrace, hconf e he hc⟩⟩)
    4 ({ Meta := { Name := scp.Meta.Name, Namespace := scp.Meta.Namespace } }, tr)
    ⟨⟨[], by simp, by simp⟩, rfl, rfl⟩
  unfold createOrUpdateTenantControlPlane RetryOnConflict
  dsimp only at key ⊢
  rcases hr : retryOnConflictLoop (createOrUpdateAttempt env none cluster scp) 5
      ({ Meta := { Name := scp.Meta.Name, Namespace := scp.Meta.Namespace } }, tr) with ⟨s', r⟩
  rw [hr] at key
  obtain ⟨htrace, hok⟩ := key
  cases r with
  | some e => exact ⟨htrace, by simp⟩
  | none =>
    refine ⟨htrace, ?_⟩
    intro tcp htcp
    simp only [Except.ok.injEq] at htcp
    subst htcp
    obtain ⟨h1, h2, h3⟩ := hok rfl
    exact ⟨h2, h1, h3⟩

theorem createOrUpdate_remote (env : Env) (rc : Client) (cluster : Cluster)
    (scp : StewardControlPlane) (tr : List Event) (ecr : ExternalClusterReference)
    (hecr : scp.Spec.Deployment.ExternalClusterReference = some ecr) :
    (∃ added, (createOrUpdateTenantControlPlane env (some rc) cluster scp tr).2 = tr ++ added
        ∧ ∀ e ∈ added, e.targetsTCP rc ecr.DeploymentNamespace ("kcp-" ++ scp.Meta.UID))
      ∧ ∀ tcp, (createOrUpdateTenantControlPlane env (some rc) cluster scp tr).1 = .ok tcp →
          tcp.Meta.Name = "kcp-" ++ scp.Meta.UID
            ∧ tcp.Meta.Namespace = ecr.DeploymentNamespace := by
  have hnames : GenerateRemoteTenantControlPlaneNames scp
      = some ("kcp-" ++ scp.Meta.UID, ecr.DeploymentNamespace) := by
    simp [GenerateRemoteTenantControlPlaneNames, hecr, RemoteTCPPrefix]
  have key := retryOnConflictLoop_induct (createOrUpdateAttempt env (some rc) cluster scp)
    (fun s => ∃ added, s.2 = tr ++ added
        ∧ ∀ e ∈ added, e.targetsTCP rc ecr.DeploymentNamespace ("kcp-" ++ scp.Meta.UID))
    (fun r => (∃ added, r.1.2 = tr ++ added
        ∧ ∀ e ∈ added, e.targetsTCP rc ecr.DeploymentNamespace ("kcp-" ++ scp.Meta.UID))
      ∧ (r.2 = none → r.1.1.Meta.Namespace = ecr.DeploymentNamespace
          ∧ r.1.1.Meta.Name = "kcp-" ++ scp.Meta.UID))
    (by
      intro s ⟨added, hadd, hgood⟩
      have hspec := CreateOrUpdate_spec env rc (mutateFn true cluster scp) (fun _ => True)
        (fun t e => mutateFn_err_not_conflict true cluster scp t e) (fun _ _ => trivial)
        ({ s.1 with Meta.Name := "kcp-" ++ scp.Meta.UID,
                    Meta.Namespace := ecr.DeploymentNamespace }, s.2)
      obtain ⟨⟨added', hadd', hgood'⟩, hok, -⟩ := hspec
      have hatt : createOrUpdateAttempt env (some rc) cluster scp s
          = CreateOrUpdate env rc (mutateFn true cluster scp)
              ({ s.1 with Meta.Name := "kcp-" ++ scp.Meta.UID,
                          Meta.Namespace := ecr.DeploymentNamespace }, s.2) := by
        simp only [createOrUpdateAttempt, hnames]
      rw [hatt]
      have htrace : ∃ added'', (CreateOrUpdate env rc (mutateFn true cluster scp)
            ({ s.1 with Meta.Name := "kcp-" ++ scp.Meta.UID,
                        Meta.Namespace := ecr.DeploymentNamespace }, s.2)).1.2 = tr ++ added''
          ∧ ∀ e ∈ added'', e.targetsTCP rc ecr.DeploymentNamespace ("kcp-" ++ scp.Meta.UID) := by
        refine ⟨added ++ added', ?_, ?_⟩
        · rw [hadd']
          show s.2 ++ added' = _
          rw [hadd, List.append_assoc]
        · intro e he
          rcases List.mem_append.1 he with he | he
          · exact hgood e he
          · exact (hgood' e he).1
      exact ⟨⟨htrace, fun h => ⟨(hok h).1, (hok h).2.1⟩⟩, fun _ _ _ => htrace⟩)
    4 ({ Meta := { Name := scp.Meta.Name, Namespace := scp.Meta.Namespace } }, tr)
    ⟨[], by simp, by simp⟩
  unfold createOrUpdateTenantControlPlane RetryOnConflict
  dsimp only at key ⊢
  rcases hr : retryOnConflictLoop (createOrUpdateAttempt env (some rc) cluster scp) 5
      ({ Meta := { Name := scp.Meta.Name, Namespace := scp.Meta.Namespace } }, tr) with ⟨s', r⟩
  rw [hr] at key
  obtain ⟨htrace, hok⟩ := key
  cases r with
  | some e => exact ⟨htrace, by simp⟩
  | none =>
    refine ⟨htrace, ?_⟩
    intro tcp htcp
    simp only [Except.ok.injEq] at htcp
    subst htcp
    obtain ⟨h1, h2⟩ := hok rfl
    exact ⟨h2, h1⟩

/-- `CreateOrUpdate` with a mutate function that leaves the owner references
alone: when the object at hand carries references satisfying `A`, and so
does every object the client answers with, then so does every object
written and the object left at hand. -/
theorem CreateOrUpdate_ownerReferences (env : Env) (c : Client)
    (f : TenantControlPlane → TenantControlPlane × Option Err)
    (A : List OwnerReference → Prop)
    (hf : ∀ t, (f t).1.Meta.OwnerReferences = t.Meta.OwnerReferences)
    (s : TenantControlPlane × List Event)
    (hA : ∀ t existing, env.getTCP t c s.1.Meta.Namespace s.1.Meta.Name = .ok existing →
      A existing.Meta.OwnerReferences)
    (hs : A s.1.Meta.OwnerReferences) :
    A (CreateOrUpdate env c f s).1.1.Meta.OwnerReferences
      ∧ ∃ added, (CreateOrUpdate env c f s).1.2 = s.2 ++ added
          ∧ ∀ e ∈ added, ∀ obj, e.writtenTCP = some obj → A obj.Meta.OwnerReferences := by
  have hget : ∀ obj, (Event.getTCP c s.1.Meta.Namespace s.1.Meta.Name).writtenTCP = some obj →
      A obj.Meta.OwnerReferences := by
    intro obj h
    cases h
  have hone : ∀ e ∈ [Event.getTCP c s.1.Meta.Namespace s.1.Meta.Name], ∀ obj,
      e.writtenTCP = some obj → A obj.Meta.OwnerReferences := by
    intro e he
    simp only [List.mem_singleton] at he
    subst he
    exact hget
  have htwo : ∀ (w : Event) (o : TenantControlPlane), w.writtenTCP = some o →
      A o.Meta.OwnerReferences →
      ∀ e ∈ [Event.getTCP c s.1.Meta.Namespace s.1.Meta.Name, w], ∀ obj,
        e.writtenTCP = some obj → A obj.Meta.OwnerReferences := by
    intro w o hw ho e he obj hobj
    simp only [List.mem_cons, List.mem_singleton, List.not_mem_nil, or_false] at he
    rcases he with he | he
    · subst he; exact hget obj hobj
    · subst he
      rw [hw] at hobj
      cases hobj
      exact ho
  unfold CreateOrUpdate
  dsimp only
  cases hg : env.getTCP s.2.length c s.1.Meta.Namespace s.1.Meta.Name with
  | error e =>
    dsimp only
    by_cases hnf : e = .notFound
    · subst hnf
      simp only [ne_eq, not_true_eq_false, ↓reduceIte]
      have hobj : A (f s.1).1.Meta.OwnerReferences := by rw [hf]; exact hs
      rcases hfs : f s.1 with ⟨obj, r⟩
      rw [hfs] at hobj
      cases r with
      | some e' => exact ⟨hobj, [_], rfl, hone⟩
      | none =>
        dsimp only
        split
        · exact ⟨hobj, [_], rfl, hone⟩
        · split
          · exact ⟨hobj, _, append_two _ _ _, htwo _ obj rfl hobj⟩
          · exact ⟨hobj, _, append_two _ _ _, htwo _ obj rfl hobj⟩
    · simp only [ne_eq, hnf, not_false_eq_true, ↓reduceIte]
      exact ⟨hs, [_], rfl, hone⟩
  | ok existing =>
    dsimp only
    have hobj : A (f existing).1.Meta.OwnerReferences := by
      rw [hf]
      exact hA _ existing hg
    rcases hfs : f existing with ⟨obj, r⟩
    rw [hfs] at hobj
    cases r with
    | some e' => exact ⟨hobj, [_], rfl, hone⟩
    | none =>
      dsimp only
      split
      · exact ⟨hobj, [_], rfl, hone⟩
      · split
        · exact ⟨hobj, [_], rfl, hone⟩
        · split
          · exact ⟨hobj, _, append_two _ _ _, htwo _ obj rfl hobj⟩
          · exact ⟨hobj, _, append_two _ _ _, htwo _ obj rfl hobj⟩

/-- With a remote client no owner reference is set: every workload
`createOrUpdateTenantControlPlane` sends to be created or updated, and the
workload it is left with, carries no owner reference or those of a workload
read through that client. -/
theorem createOrUpdate_remote_owner (env : Env) (rc : Client) (cluster : Cluster)
    (scp : StewardControlPlane) (tr : List Event) (ecr : ExternalClusterReference)
    (hecr : scp.Spec.Deployment.ExternalClusterReference = some ecr) :
    (∃ added, (createOrUpdateTenantControlPlane env (some rc) cluster scp tr).2 = tr ++ added
        ∧ ∀ e ∈ added, ∀ obj, e.writtenTCP = some obj →
            ownerReferencesAsRead env rc ecr.DeploymentNamespace ("kcp-" ++ scp.Meta.UID)
              obj.Meta.OwnerReferences)
      ∧ ∀ tcp, (createOrUpdateTenantControlPlane env (some rc) cluster scp tr).1 = .ok tcp →
          ownerReferencesAsRead env rc ecr.DeploymentNamespace ("kcp-" ++ scp.Meta.UID)
            tcp.Meta.OwnerReferences := by
  have hnames : GenerateRemoteTenantControlPlaneNames scp
      = some ("kcp-" ++ scp.Meta.UID, ecr.DeploymentNamespace) := by
    simp [GenerateRemoteTenantControlPlaneNames, hecr, RemoteTCPPrefix]
  have key := retryOnConflictLoop_induct (createOrUpdateAttempt env (some rc) cluster scp)
    (fun s => (∃ added, s.2 = tr ++ added
        ∧ ∀ e ∈ added, ∀ obj, e.writtenTCP = some obj →
            ownerReferencesAsRead env rc ecr.DeploymentNamespace ("kcp-" ++ scp.Meta.UID)
              obj.Meta.OwnerReferences)
      ∧ ownerReferencesAsRead env rc ecr.DeploymentNamespace ("kcp-" ++ scp.Meta.UID)
          s.1.Meta.OwnerReferences)
    (fun r => (∃ added, r.1.2 = tr ++ added
        ∧ ∀ e ∈ added, ∀ obj, e.writtenTCP = some obj →
            ownerReferencesAsRead env rc ecr.DeploymentNamespace ("kcp-" ++ scp.Meta.UID)
              obj.Meta.OwnerReferences)
      ∧ ownerReferencesAsRead env rc ecr.DeploymentNamespace ("kcp-" ++ scp.Meta.UID)
          r.1.1.Meta.OwnerReferences)
    (by
      intro s ⟨⟨added, hadd, hgood⟩, hs⟩
      have hatt : createOrUpdateAttempt env (some rc) cluster scp s
          = CreateOrUpdate env rc (mutateFn true cluster scp)
              ({ s.1 with Meta.Name := "kcp-" ++ scp.Meta.UID,
                          Meta.Namespace := ecr.DeploymentNamespace }, s.2) := by
        simp only [createOrUpdateAttempt, hnames]
      obtain ⟨hleft, added', hadd', hgood'⟩ := CreateOrUpdate_ownerReferences env rc
        (mutateFn true cluster scp)
        (ownerReferencesAsRead env rc ecr.DeploymentNamespace ("kcp-" ++ scp.Meta.UID))
        (fun t => mutateFn_remote_ownerReferences cluster scp t)
        ({ s.1 with Meta.Name := "kcp-" ++ scp.Meta.UID,
                    Meta.Namespace := ecr.DeploymentNamespace }, s.2)
        (fun t existing h => Or.inr ⟨t, existing, h, rfl⟩) hs
      rw [hatt]
      have hall : (∃ added'', (CreateOrUpdate env rc (mutateFn true cluster scp)
            ({ s.1 with Meta.Name := "kcp-" ++ scp.Meta.UID,
                        Meta.Namespace := ecr.DeploymentNamespace }, s.2)).1.2 = tr ++ added''
          ∧ ∀ e ∈ added'', ∀ obj, e.writtenTCP = some obj →
              ownerReferencesAsRead env rc ecr.DeploymentNamespace ("kcp-" ++ scp.Meta.UID)
                obj.Meta.OwnerReferences)
          ∧ ownerReferencesAsRead env rc ecr.DeploymentNamespace ("kcp-" ++ scp.Meta.UID)
              (CreateOrUpdate env rc (mutateFn true cluster scp)
                ({ s.1 with Meta.Name := "kcp-" ++ scp.Meta.UID,
                            Meta.Namespace := ecr.DeploymentNamespace }, s.2)).1.1.Meta.OwnerReferences := by
        refine ⟨⟨added ++ added', ?_, ?_⟩, hleft⟩
        · rw [hadd']
          show s.2 ++ added' = _
          rw [hadd, List.append_assoc]
        · intro e he
          rcases List.mem_append.1 he with he | he
          · exact hgood e he
          · exact hgood' e he
      exact ⟨hall, fun _ _ _ => hall⟩)
    4 ({ Meta := { Name := scp.Meta.Name, Namespace := scp.Meta.Namespace } }, tr)
    ⟨⟨[], by simp, by simp⟩, Or.inl rfl⟩
  unfold createOrUpdateTenantControlPlane RetryOnConflict
  dsimp only at key ⊢
  rcases hr : retryOnConflictLoop (createOrUpdateAttempt env (some rc) cluster scp) 5
      ({ Meta := { Name := scp.Meta.Name, Namespace := scp.Meta.Namespace } }, tr) with ⟨s', r⟩
  rw [hr] at key
  obtain ⟨htrace, hleft⟩ := key
  cases r with
  | some e => exact ⟨htrace, by simp⟩
  | none =>
    refine ⟨htrace, ?_⟩
    intro tcp htcp
    simp only [Except.ok.injEq] at htcp
    subst htcp
    exact hleft

/-- C6. With a remote client, for a claim that has an external reference,
`createOrUpdateTenantControlPlane` issues every call through that client for
the workload named `kcp-` followed by the claim's UID in the external
deployment namespace, and sets no owner reference: every workload it sends
through that client to be created or updated carries no owner reference or
those of a workload read through that client, and so does the workload
returned, which has that name and namespace; its mutate step leaves the
owner references as they were. With no remote client every call goes through
the management client for the claim's own name and namespace, every workload
sent to be created or updated has the claim as its controller owner, and so
has the workload returned. -/
theorem C6_workload_target (env : Env) (cluster : Cluster) (scp : StewardControlPlane)
    (tr : List Event) :
    (∀ rc ecr, scp.Spec.Deployment.ExternalClusterReference = some ecr →
        (∃ added, (createOrUpdateTenantControlPlane env (some rc) cluster scp tr).2 = tr ++ added
            ∧ ∀ e ∈ added, e.targetsTCP rc ecr.DeploymentNamespace ("kcp-" ++ scp.Meta.UID)
                ∧ ∀ obj, e.writtenTCP = some obj →
                    ownerReferencesAsRead env rc ecr.DeploymentNamespace
                      ("kcp-" ++ scp.Meta.UID) obj.Meta.OwnerReferences)
          ∧ (∀ tcp, (createOrUpdateTenantControlPlane env (some rc) cluster scp tr).1 = .ok tcp →
              tcp.Meta.Name = "kcp-" ++ scp.Meta.UID
                ∧ tcp.Meta.Namespace = ecr.DeploymentNamespace
                ∧ ownerReferencesAsRead env rc ecr.DeploymentNamespace
                    ("kcp-" ++ scp.Meta.UID) tcp.Meta.OwnerReferences)
          ∧ ∀ t, (mutateFn true cluster scp t).1.Meta.OwnerReferences = t.Meta.OwnerReferences)
      ∧ (∃ added, (createOrUpdateTenantControlPlane env none cluster scp tr).2 = tr ++ added
          ∧ ∀ e ∈ added, e.targetsTCP .management scp.Meta.Namespace scp.Meta.Name
              ∧ ∀ obj, e.writtenTCP = some obj →
                  GetControllerOf obj.Meta.OwnerReferences = some (controllerRefOf scp))
      ∧ ∀ tcp, (createOrUpdateTenantControlPlane env none cluster scp tr).1 = .ok tcp →
          tcp.Meta.Name = scp.Meta.Name ∧ tcp.Meta.Namespace = scp.Meta.Namespace
            ∧ GetControllerOf tcp.Meta.OwnerReferences = some (controllerRefOf scp) := by
  refine ⟨?_, createOrUpdate_local env cluster scp tr⟩
  intro rc ecr hecr
  obtain ⟨⟨added, hadd, htarget⟩, hret⟩ := createOrUpdate_remote env rc cluster scp tr ecr hecr
  obtain ⟨⟨added', hadd', howner⟩, hretOwner⟩ :=
    createOrUpdate_remote_owner env rc cluster scp tr ecr hecr
  have hsame : added' = added := by
    rw [hadd] at hadd'
    exact (List.append_cancel_left hadd').symm
  subst hsame
  exact ⟨⟨added', hadd, fun e he => ⟨htarget e he, howner e he⟩⟩,
    fun tcp h => ⟨(hret tcp h).1, (hret tcp h).2, hretOwner tcp h⟩,
    fun t => mutateFn_remote_ownerReferences cluster scp t⟩

/-- C6 at a concrete input: the remote claim on empty clusters; the pass reads
and creates `tenants/kcp-u-1`, and the workload it creates carries no owner
reference. -/
theorem C6_workload_target_witness :
    claimRemote.Spec.Deployment.ExternalClusterReference = some ecrExample
      ∧ (∀ tcp, (createOrUpdateTenantControlPlane envAbsent (some remoteExample) clusterPlain
            claimRemote []).1 = .ok tcp →
          tcp.Meta.Name = "kcp-" ++ claimRemote.Meta.UID
            ∧ tcp.Meta.Namespace = ecrExample.DeploymentNamespace
            ∧ ownerReferencesAsRead envAbsent remoteExample ecrExample.DeploymentNamespace
                ("kcp-" ++ claimRemote.Meta.UID) tcp.Meta.OwnerReferences)
      ∧ (createOrUpdateTenantControlPlane envAbsent (some remoteExample) clusterPlain
            claimRemote []).2.length = 2
      ∧ ((createOrUpdateTenantControlPlane envAbsent (some remoteExample) clusterPlain
            claimRemote []).2.filterMap Event.writtenTCP).map (·.Meta.OwnerReferences) = [[]] :=
  ⟨rfl, ((C6_workload_target envAbsent clusterPlain claimRemote []).1 remoteExample ecrExample
    rfl).2.1, by decide, by decide⟩

/-! ### C8, C9: finalizer teardown -/

theorem setsHas_setsNew (xs : List String) (x : String) : setsHas (setsNew xs) x = decide (x ∈ xs) := by
  simp [setsHas, setsNew]

theorem handleDeletion_resolution_failure (env : Env) (scp : StewardControlPlane)
    (tr : List Event) (ecr : ExternalClusterReference)
    (hfin : ExternalClusterReferenceFinalizer ∈ scp.Meta.Finalizers)
    (hecr : scp.Spec.Deployment.ExternalClusterReference = some ecr) (cErr : Err)
    (hx : env.extractRemoteClient tr.length scp = .error cErr) :
    handleDeletion env scp tr = (some cErr, tr ++ [.extractRemoteClient]) := by
  unfold handleDeletion
  simp only [setsHas_setsNew, hfin, decide_True, Bool.not_true, hecr, Option.isNone_some,
    Bool.or_self, Bool.false_eq_true, ↓reduceIte, hx]

theorem handleDeletion_delete_outcome (env : Env) (scp : StewardControlPlane)
    (tr : List Event) (ecr : ExternalClusterReference)
    (hfin : ExternalClusterReferenceFinalizer ∈ scp.Meta.Finalizers)
    (hecr : scp.Spec.Deployment.ExternalClusterReference = some ecr) (rc : Client)
    (tcpErr : ApiError)
    (hx : env.extractRemoteClient tr.length scp = .ok rc)
    (hd : env.deleteTCP (tr.length + 1) rc ecr.DeploymentNamespace ("kcp-" ++ scp.Meta.UID)
      = some tcpErr) :
    handleDeletion env scp tr
      = (if tcpErr = .notFound then none else some (.api tcpErr),
          tr ++ [.extractRemoteClient,
            .deleteTCP rc ecr.DeploymentNamespace ("kcp-" ++ scp.Meta.UID) (some tcpErr)]) := by
  have hnames : GenerateRemoteTenantControlPlaneNames scp
      = some ("kcp-" ++ scp.Meta.UID, ecr.DeploymentNamespace) := by
    simp [GenerateRemoteTenantControlPlaneNames, hecr, RemoteTCPPrefix]
  unfold handleDeletion
  simp only [setsHas_setsNew, hfin, decide_True, Bool.not_true, hecr, Option.isNone_some,
    Bool.or_self, Bool.false_eq_true, ↓reduceIte, hx, hnames, List.length_append,
    List.length_singleton, hd]
  cases tcpErr <;> simp [Err.isNotFound]

/-- C8. For a claim that carries the external-cluster finalizer and has an
external reference: when the remote client cannot be resolved,
`handleDeletion` returns the resolution error after the single call that
failed; when the remote delete fails with anything but NotFound, it returns
that error after the resolution and the delete. Neither run issues an update
of the claim, so a claim stored with the finalizer still has it. -/
theorem C8_deletion_failure_keeps_finalizer (env : Env) (scp : StewardControlPlane)
    (tr : List Event) (ecr : ExternalClusterReference)
    (hfin : ExternalClusterReferenceFinalizer ∈ scp.Meta.Finalizers)
    (hecr : scp.Spec.Deployment.ExternalClusterReference = some ecr) :
    (∀ cErr, env.extractRemoteClient tr.length scp = .error cErr →
        handleDeletion env scp tr = (some cErr, tr ++ [.extractRemoteClient]))
      ∧ (∀ rc tcpErr, env.extractRemoteClient tr.length scp = .ok rc →
          env.deleteTCP (tr.length + 1) rc ecr.DeploymentNamespace ("kcp-" ++ scp.Meta.UID)
            = some tcpErr →
          tcpErr ≠ .notFound →
          handleDeletion env scp tr
            = (some (.api tcpErr),
                tr ++ [.extractRemoteClient,
                  .deleteTCP rc ecr.DeploymentNamespace ("kcp-" ++ scp.Meta.UID) (some tcpErr)]))
      ∧ (∀ stored rc ns name answer, ExternalClusterReferenceFinalizer ∈ stored →
          ExternalClusterReferenceFinalizer ∈ finalizersAfter stored [.extractRemoteClient]
            ∧ ExternalClusterReferenceFinalizer
                ∈ finalizersAfter stored [.extractRemoteClient, .deleteTCP rc ns name answer]) := by
  refine ⟨fun cErr hx => handleDeletion_resolution_failure env scp tr ecr hfin hecr cErr hx, ?_, ?_⟩
  · intro rc tcpErr hx hd hne
    rw [handleDeletion_delete_outcome env scp tr ecr hfin hecr rc tcpErr hx hd, if_neg hne]
  · intro stored rc ns name answer hs
    exact ⟨hs, hs⟩

/-- C8 at a concrete input: the remote delete is refused with a network error. -/
theorem C8_deletion_failure_keeps_finalizer_witness :
    ExternalClusterReferenceFinalizer ∈ claimRemote.Meta.Finalizers
      ∧ claimRemote.Spec.Deployment.ExternalClusterReference = some ecrExample
      ∧ handleDeletion envDeleteFails claimRemote []
        = (some (.api (.other "connection refused")),
            [] ++ [.extractRemoteClient,
              .deleteTCP remoteExample ecrExample.DeploymentNamespace
                ("kcp-" ++ claimRemote.Meta.UID) (some (.other "connection refused"))]) :=
  ⟨by decide, rfl,
    (C8_deletion_failure_keeps_finalizer envDeleteFails claimRemote [] ecrExample (by decide)
      rfl).2.1 remoteExample (.other "connection refused") rfl rfl (by decide)⟩

/-- C9, what the code does. For the claim `claimRemote`, which carries the
finalizer and an external reference, on clusters where the remote delete
reports NotFound, `handleDeletion` returns nil right after the delete: it
issues no read and no update of the claim, and the stored claim still
carries the finalizer. On clusters where the delete succeeds the same claim
loses the finalizer before `handleDeletion` returns nil. -/
theorem C9_not_found_leaves_finalizer :
    ExternalClusterReferenceFinalizer ∈ claimRemote.Meta.Finalizers
      ∧ claimRemote.Spec.Deployment.ExternalClusterReference = some ecrExample
      ∧ handleDeletion envAbsent claimRemote []
        = (none, [.extractRemoteClient,
            .deleteTCP remoteExample "tenants" "kcp-u-1" (some .notFound)])
      ∧ ExternalClusterReferenceFinalizer
          ∈ finalizersAfter claimRemote.Meta.Finalizers (handleDeletion envAbsent claimRemote []).2
      ∧ (handleDeletion envDeleted claimRemote []).1 = none
      ∧ ExternalClusterReferenceFinalizer
          ∉ finalizersAfter claimRemote.Meta.Finalizers (handleDeletion envDeleted claimRemote []).2 := by
  have h := handleDeletion_delete_outcome envAbsent claimRemote [] ecrExample (by decide) rfl
    remoteExample .notFound rfl rfl
  refine ⟨by decide, rfl, h, ?_, by decide, by decide⟩
  rw [h]
  decide

/-! ### Traces of a pass -/

theorem Extends.refl (P : Event → Prop) (tr : List Event) : Extends P tr tr :=
  ⟨[], by simp, by simp⟩

theorem Extends.trans {P : Event → Prop} {a b c : List Event} (h₁ : Extends P a b)
    (h₂ : Extends P b c) : Extends P a c := by
  obtain ⟨x, hx, hpx⟩ := h₁
  obtain ⟨y, hy, hpy⟩ := h₂
  refine ⟨x ++ y, by rw [hy, hx, List.append_assoc], ?_⟩
  intro e he
  rcases List.mem_append.1 he with he | he
  · exact hpx e he
  · exact hpy e he

theorem Extends.append {P : Event → Prop} (tr added : List Event) (h : ∀ e ∈ added, P e) :
    Extends P tr (tr ++ added) :=
  ⟨added, rfl, h⟩

theorem Extends.mono {P Q : Event → Prop} {a b : List Event} (hPQ : ∀ e, P e → Q e)
    (h : Extends P a b) : Extends Q a b := by
  obtain ⟨x, hx, hpx⟩ := h
  exact ⟨x, hx, fun e he => hPQ e (hpx e he)⟩

theorem Extends.all {P : Event → Prop} {a b : List Event} (h : Extends P a b)
    (ha : ∀ e ∈ a, P e) : ∀ e ∈ b, P e := by
  obtain ⟨x, hx, hpx⟩ := h
  intro e he
  rw [hx] at he
  rcases List.mem_append.1 he with he | he
  · exact ha e he
  · exact hpx e he

theorem retry_extends {α : Type} (P : Event → Prop) (fn : α × List Event → (α × List Event) × Option Err)
    (hfn : ∀ s, Extends P s.2 (fn s).1.2) (s : α × List Event) :
    Extends P s.2 (RetryOnConflict fn s).1.2 := by
  have key := retryOnConflictLoop_induct fn (fun s' => Extends P s.2 s'.2)
    (fun r => Extends P s.2 r.1.2)
    (fun s' hs' => ⟨hs'.trans (hfn s'), fun _ _ _ => hs'.trans (hfn s')⟩) 4 s (Extends.refl P s.2)
  exact key

theorem updateStatusAttempt_extends (env : Env)
    (modifierFn : StewardControlPlane → StewardControlPlane)
    (s : StewardControlPlane × List Event) :
    Extends (fun e => e.isStatusUpdateCall = true) s.2 (updateStatusAttempt env modifierFn s).1.2 := by
  unfold updateStatusAttempt
  dsimp only
  cases env.getClaim s.2.length s.1.Meta.Namespace s.1.Meta.Name with
  | error e => exact Extends.append _ _ (by simp [Event.isStatusUpdateCall])
  | ok fetched =>
    dsimp only
    cases env.updateClaimStatus
        (s.2 ++ [Event.getClaim s.1.Meta.Namespace s.1.Meta.Name]).length (modifierFn fetched) with
    | none =>
      dsimp only
      rw [append_two]
      exact Extends.append _ _ (by simp [Event.isStatusUpdateCall])
    | some e =>
      dsimp only
      rw [append_two]
      exact Extends.append _ _ (by simp [Event.isStatusUpdateCall])

theorem updateStatus_extends (env : Env) (scp : StewardControlPlane)
    (modifierFn : StewardControlPlane → StewardControlPlane) (tr : List Event) :
    Extends (fun e => e.isStatusUpdateCall = true) tr
      (updateStewardControlPlaneStatus env scp modifierFn tr).1.2 := by
  have h := retry_extends _ (updateStatusAttempt env modifierFn)
    (updateStatusAttempt_extends env modifierFn) (scp, tr)
  unfold updateStewardControlPlaneStatus
  rcases hr : RetryOnConflict (updateStatusAttempt env modifierFn) (scp, tr) with ⟨s', r⟩
  rw [hr] at h
  cases r <;> exact h

theorem handleFinalizerAttempt_extends (env : Env)
    (s : (StewardControlPlane × List String) × List Event) :
    Extends (fun e => e.afterEndpointWait = false) s.2 (handleFinalizerAttempt env s).1.2 := by
  unfold handleFinalizerAttempt
  dsimp only
  cases env.getClaim s.2.length s.1.1.Meta.Namespace s.1.1.Meta.Name with
  | error e => exact Extends.append _ _ (by simp [Event.afterEndpointWait])
  | ok fetched =>
    dsimp only
    split
    · rw [append_two]
      exact Extends.append _ _ (by simp [Event.afterEndpointWait])
    · rw [append_two]
      exact Extends.append _ _ (by simp [Event.afterEndpointWait])

theorem handleFinalizer_extends (env : Env) (scp : StewardControlPlane) (tr : List Event) :
    Extends (fun e => e.afterEndpointWait = false) tr (handleFinalizer env scp tr).1.2 := by
  unfold handleFinalizer
  dsimp only
  split
  · have h := retry_extends _ (handleFinalizerAttempt env) (handleFinalizerAttempt_extends env)
      ((scp, setsNew scp.Meta.Finalizers), tr)
    split <;> rename_i hr <;> rw [hr] at h <;> exact h
  · exact Extends.refl _ _

theorem targetsTCP_not_after {c : Client} {ns name : String} {e : Event}
    (h : e.targetsTCP c ns name) : e.afterEndpointWait = false := by
  cases e <;> first | rfl | exact absurd h (by simp [Event.targetsTCP])

theorem createOrUpdateAttempt_extends (env : Env) (remoteClient : Option Client)
    (cluster : Cluster) (scp : StewardControlPlane) (s : TenantControlPlane × List Event) :
    Extends (fun e => e.afterEndpointWait = false) s.2
      (createOrUpdateAttempt env remoteClient cluster scp s).1.2 := by
  unfold createOrUpdateAttempt
  cases remoteClient with
  | none =>
    dsimp only
    obtain ⟨⟨added, hadd, hgood⟩, -⟩ := CreateOrUpdate_spec env .management
      (mutateFn false cluster scp) (fun _ => True)
      (fun t e => mutateFn_err_not_conflict false cluster scp t e) (fun _ _ => trivial) s
    exact ⟨added, hadd, fun e he => targetsTCP_not_after (hgood e he).1⟩
  | some rc =>
    dsimp only
    cases GenerateRemoteTenantControlPlaneNames scp with
    | none => exact Extends.refl _ _
    | some names =>
      obtain ⟨name, ns⟩ := names
      dsimp only
      obtain ⟨⟨added, hadd, hgood⟩, -⟩ := CreateOrUpdate_spec env rc
        (mutateFn true cluster scp) (fun _ => True)
        (fun t e => mutateFn_err_not_conflict true cluster scp t e) (fun _ _ => trivial)
        ({ s.1 with Meta.Name := name, Meta.Namespace := ns }, s.2)
      exact ⟨added, hadd, fun e he => targetsTCP_not_after (hgood e he).1⟩

theorem createOrUpdate_extends (env : Env) (remoteClient : Option Client) (cluster : Cluster)
    (scp : StewardControlPlane) (tr : List Event) :
    Extends (fun e => e.afterEndpointWait = false) tr
      (createOrUpdateTenantControlPlane env remoteClient cluster scp tr).2 := by
  have h := retry_extends _ (createOrUpdateAttempt env remoteClient cluster scp)
    (createOrUpdateAttempt_extends env remoteClient cluster scp)
    ({ Meta := { Name := scp.Meta.Name, Namespace := scp.Meta.Namespace } }, tr)
  unfold createOrUpdateTenantControlPlane
  dsimp only at h ⊢
  split <;> rename_i hr <;> rw [hr] at h <;> exact h

theorem trackStage_proj (conditionType : String) (fn : PassState → PassState × Option Err)
    (st : PassState) :
    (trackStage conditionType fn st).trace = (fn st).1.trace
      ∧ (trackStage conditionType fn st).err = (fn st).1.err
      ∧ (trackStage conditionType fn st).scp = (fn st).1.scp
      ∧ (trackStage conditionType fn st).tcp = (fn st).1.tcp
      ∧ (trackStage conditionType fn st).cluster = (fn st).1.cluster
      ∧ (trackStage conditionType fn st).remoteClient = (fn st).1.remoteClient := by
  unfold trackStage TrackConditionType
  rcases fn st with ⟨s', r⟩
  cases r <;> simp

theorem reconcileGates_trace (env : Env) (ns name : String) (st : PassState)
    (h : reconcileGates env ns name = .ok st) :
    ∀ e ∈ st.trace, e.afterEndpointWait = false := by
  unfold reconcileGates at h
  dsimp only at h
  split at h
  · split at h <;> cases h
  · split at h
    · cases h
    · split at h
      · split at h <;> cases h
      · split at h
        · cases h
        · split at h
          · cases h
          · simp only [Except.ok.injEq] at h
            subst h
            intro e he
            simp only [List.cons_append, List.nil_append, List.mem_cons, List.mem_singleton,
              List.not_mem_nil, or_false] at he
            rcases he with he | he <;> subst he <;> rfl

theorem stageExternalClient_trace (env : Env) (st st' : PassState)
    (h : stageExternalClient env st = .ok st') :
    Extends (fun e => e.afterEndpointWait = false) st.trace st'.trace := by
  unfold stageExternalClient at h
  split at h
  · cases h; exact Extends.refl _ _
  · dsimp only at h
    split at h
    · cases h
    · split at h
      · cases h
      · rename_i s hfin
        simp only [Except.ok.injEq] at h
        subst h
        dsimp only
        have h1 := handleFinalizer_extends env
          (trackStage FoundExternalClusterReferenceConditionType (externalClientStep env) st).scp
          (trackStage FoundExternalClusterReferenceConditionType (externalClientStep env) st).trace
        rw [hfin] at h1
        refine Extends.trans ?_ h1
        rw [(trackStage_proj _ _ st).1]
        unfold externalClientStep
        dsimp only
        cases env.extractRemoteClient (st.trace.length + 1) st.scp <;>
          exact Extends.append _ _ (by simp [Event.afterEndpointWait, Step.afterEndpointWait])

theorem stageCreateOrUpdate_trace (env : Env) (st st' : PassState)
    (h : stageCreateOrUpdate env st = .ok st') :
    Extends (fun e => e.afterEndpointWait = false) st.trace st'.trace := by
  unfold stageCreateOrUpdate at h
  dsimp only at h
  split at h
  · cases h
  · simp only [Except.ok.injEq] at h
    subst h
    rw [(trackStage_proj _ _ st).1]
    have h1 := createOrUpdate_extends env st.remoteClient st.cluster st.scp
      (st.trace ++ [.step .createOrUpdate])
    have h0 : Extends (fun e => e.afterEndpointWait = false) st.trace
        (st.trace ++ [.step .createOrUpdate]) :=
      Extends.append _ _ (by simp [Event.afterEndpointWait, Step.afterEndpointWait])
    unfold createOrUpdateStep
    rcases hc : createOrUpdateTenantControlPlane env st.remoteClient st.cluster st.scp
      (st.trace ++ [.step .createOrUpdate]) with ⟨r, tr⟩
    rw [hc] at h1 ⊢
    cases r <;> exact h0.trans h1

theorem stagesThroughCreate_trace (env : Env) (st st' : PassState)
    (h : stagesThroughCreate env st = .ok st') :
    Extends (fun e => e.afterEndpointWait = false) st.trace st'.trace := by
  unfold stagesThroughCreate at h
  cases h1 : stageExternalClient env st with
  | error e => rw [h1] at h; cases h
  | ok st1 =>
    rw [h1] at h
    exact (stageExternalClient_trace env st st1 h1).trans
      (stageCreateOrUpdate_trace env st1 st' h)

theorem stageEndpointWait_empty (env : Env) (st : PassState)
    (h : st.tcp.Status.ControlPlaneEndpoint = "") :
    ∃ st', stageEndpointWait env st
        = .error { result := { RequeueAfter := timeSecond }, err := none, st := st' }
      ∧ st'.trace = st.trace ++ [.step .endpointWait] := by
  unfold stageEndpointWait
  dsimp only
  have hp := trackStage_proj TenantControlPlaneAddressReadyConditionType endpointWaitStep st
  have hs : endpointWaitStep st
      = ({ st with trace := st.trace ++ [.step .endpointWait],
                   err := some errEndpointNotYetAvailable }, some errEndpointNotYetAvailable) := by
    simp [endpointWaitStep, h]
  rw [hs] at hp
  rw [hp.2.1]
  exact ⟨_, rfl, hp.1⟩

theorem persistConditions_spec (env : Env) (exit : Exit) :
    (persistConditions env exit).result = exit.result
      ∧ (persistConditions env exit).err = exit.err
      ∧ Extends (fun e => e.isStatusUpdateCall = true)
          (exit.st.trace ++ [.step .persistConditions]) (persistConditions env exit).trace := by
  unfold persistConditions
  exact ⟨rfl, rfl, updateStatus_extends env _ _ _⟩

/-- C7. In every pass of `Reconcile` that gets through create-or-update with a
workload whose status endpoint is empty, `Reconcile` returns a `RequeueAfter`
of one second (10^9 nanoseconds) and a nil error; the events of the pass are
those up to create-or-update, the start of the endpoint wait, and the
deferred write of the conditions (reads of the claim and status updates
only); no event of the pass belongs to a later stage: no later step starts,
no endpoint patch, no infrastructure patch, no replication. -/
theorem C7_empty_endpoint_requeues (env : Env) (ns name : String) (st₀ st₁ : PassState)
    (hgates : reconcileGates env ns name = .ok st₀)
    (hcreate : stagesThroughCreate env st₀ = .ok st₁)
    (hempty : st₁.tcp.Status.ControlPlaneEndpoint = "") :
    (Reconcile env ns name).result = { RequeueAfter := timeSecond }
      ∧ timeSecond = 1000000000
      ∧ (Reconcile env ns name).err = none
      ∧ Extends (fun e => e.isStatusUpdateCall = true)
          (st₁.trace ++ [.step .endpointWait, .step .persistConditions])
          (Reconcile env ns name).trace
      ∧ ∀ e ∈ (Reconcile env ns name).trace, e.afterEndpointWait = false := by
  obtain ⟨st', hwait, htr⟩ := stageEndpointWait_empty env st₁ hempty
  have hstages : reconcileStages env st₀
      = { result := { RequeueAfter := timeSecond }, err := none, st := st' } := by
    unfold reconcileStages
    rw [hcreate]
    show (match stagesAfterCreate env st₁ with | .error exit => exit | .ok st => _) = _
    unfold stagesAfterCreate
    rw [hwait]
    rfl
  have hrec : Reconcile env ns name = persistConditions env
      { result := { RequeueAfter := timeSecond }, err := none, st := st' } := by
    unfold Reconcile
    rw [hgates]
    simp only [hstages]
  obtain ⟨h1, h2, h3⟩ := persistConditions_spec env
    { result := { RequeueAfter := timeSecond }, err := none, st := st' }
  rw [hrec]
  have hext : Extends (fun e => e.isStatusUpdateCall = true)
      (st₁.trace ++ [.step .endpointWait, .step .persistConditions])
      (persistConditions env
        { result := { RequeueAfter := timeSecond }, err := none, st := st' }).trace := by
    have : st₁.trace ++ [.step .endpointWait, .step .persistConditions]
        = st'.trace ++ [.step .persistConditions] := by rw [htr]; simp
    rw [this]
    exact h3
  refine ⟨h1, rfl, h2, hext, ?_⟩
  have hprefix : ∀ e ∈ st₁.trace ++ [.step .endpointWait, .step .persistConditions],
      e.afterEndpointWait = false := by
    intro e he
    rcases List.mem_append.1 he with he | he
    · exact (stagesThroughCreate_trace env st₀ st₁ hcreate).all
        (reconcileGates_trace env ns name st₀ hgates) e he
    · simp only [List.mem_cons, List.mem_singleton, List.not_mem_nil, or_false] at he
      rcases he with he | he <;> subst he <;> rfl
  refine (Extends.mono ?_ hext).all hprefix
  intro e he
  cases e <;> first | rfl | exact absurd he (by simp [Event.isStatusUpdateCall])

theorem eq_ok_passStateOf (r : Except Exit PassState) (h : goesOn r = true) :
    r = .ok (passStateOf r) := by
  cases r with
  | ok st => rfl
  | error e => cases h

/-- C7 at a concrete input: every call succeeds and the workload has no
endpoint yet. -/
theorem C7_empty_endpoint_requeues_witness :
    (Reconcile (envHealthy tcpNoEndpoint) "default" "cp").result = { RequeueAfter := timeSecond }
      ∧ (Reconcile (envHealthy tcpNoEndpoint) "default" "cp").err = none
      ∧ ∀ e ∈ (Reconcile (envHealthy tcpNoEndpoint) "default" "cp").trace,
          e.afterEndpointWait = false := by
  have h := C7_empty_endpoint_requeues (envHealthy tcpNoEndpoint) "default" "cp"
    healthyAfterGates
    (passStateOf (stagesThroughCreate (envHealthy tcpNoEndpoint) healthyAfterGates))
    rfl (eq_ok_passStateOf _ (by decide)) (by decide)
  exact ⟨h.1, h.2.2.1, h.2.2.2.2⟩

/-! ### C10: the readiness stage -/

theorem updateStatusAttempt_sends (env : Env)
    (modifierFn : StewardControlPlane → StewardControlPlane)
    (s : StewardControlPlane × List Event) :
    Extends (fun e => ∀ obj answer, e = .updateClaimStatus obj answer →
        ∃ fetched, obj = modifierFn fetched) s.2 (updateStatusAttempt env modifierFn s).1.2 := by
  unfold updateStatusAttempt
  dsimp only
  cases env.getClaim s.2.length s.1.Meta.Namespace s.1.Meta.Name with
  | error e =>
    refine Extends.append _ _ ?_
    intro e he obj answer hobj
    simp only [List.mem_singleton] at he
    subst he
    cases hobj
  | ok fetched =>
    dsimp only
    have hgood : ∀ answer, ∀ e ∈ [Event.getClaim s.1.Meta.Namespace s.1.Meta.Name,
        Event.updateClaimStatus (modifierFn fetched) answer],
        ∀ obj answer', e = .updateClaimStatus obj answer' → ∃ fetched', obj = modifierFn fetched' := by
      intro answer e he obj answer' hobj
      simp only [List.mem_cons, List.mem_singleton, List.not_mem_nil, or_false] at he
      rcases he with he | he
      · subst he; cases hobj
      · subst he
        simp only [Event.updateClaimStatus.injEq] at hobj
        exact ⟨fetched, hobj.1.symm⟩
    cases env.updateClaimStatus
        (s.2 ++ [Event.getClaim s.1.Meta.Namespace s.1.Meta.Name]).length (modifierFn fetched) with
    | none =>
      dsimp only
      rw [append_two]
      exact Extends.append _ _ (hgood none)
    | some e =>
      dsimp only
      rw [append_two]
      exact Extends.append _ _ (hgood (some e))

theorem updateStatus_sends (env : Env) (scp : StewardControlPlane)
    (modifierFn : StewardControlPlane → StewardControlPlane) (tr : List Event) :
    Extends (fun e => ∀ obj answer, e = .updateClaimStatus obj answer →
        ∃ fetched, obj = modifierFn fetched) tr
      (updateStewardControlPlaneStatus env scp modifierFn tr).1.2 := by
  have h := retry_extends _ (updateStatusAttempt env modifierFn)
    (updateStatusAttempt_sends env modifierFn) (scp, tr)
  unfold updateStewardControlPlaneStatus
  rcases hr : RetryOnConflict (updateStatusAttempt env modifierFn) (scp, tr) with ⟨s', r⟩
  rw [hr] at h
  cases r <;> exact h

/-- The Ready flag of every status update the readiness step sends is true
exactly when the workload's version state is ready or upgrading. -/
theorem readinessStep_ready_flag (env : Env) (st : PassState) (versionStatus : String)
    (hv : st.tcp.Status.Kubernetes.Version.Status = some versionStatus) :
    Extends (fun e => ∀ ready, e.readySent = some ready →
        (ready = true ↔ versionStatus = VersionReady ∨ versionStatus = VersionUpgrading))
      st.trace (readinessStep env st).1.trace := by
  unfold readinessStep
  simp only [hv]
  have h0 : Extends (fun e => ∀ ready, e.readySent = some ready →
        (ready = true ↔ versionStatus = VersionReady ∨ versionStatus = VersionUpgrading))
      st.trace (st.trace ++ [.step .readiness]) :=
    Extends.append _ _ (by simp [Event.readySent])
  have h1 := updateStatus_sends env st.scp (readyModifier versionStatus)
    (st.trace ++ [.step .readiness])
  have h2 : Extends (fun e => ∀ ready, e.readySent = some ready →
        (ready = true ↔ versionStatus = VersionReady ∨ versionStatus = VersionUpgrading))
      (st.trace ++ [.step .readiness])
      (updateStewardControlPlaneStatus env st.scp (readyModifier versionStatus)
        (st.trace ++ [.step .readiness])).1.2 := by
    refine Extends.mono ?_ h1
    intro e he ready hr
    cases e with
    | updateClaimStatus obj answer =>
      obtain ⟨fetched, hf⟩ := he obj answer rfl
      simp only [Event.readySent, Option.some.injEq] at hr
      subst hr
      subst hf
      simp [readyModifier]
    | _ => simp [Event.readySent] at hr
  have h := h0.trans h2
  split <;> [exact h; (split <;> exact h)]

/-- Once the status update of the readiness step is accepted, `Reconcile`'s
readiness stage returns the empty result and a nil error, whatever the Ready
flag it wrote: the enqueue-back error of the step never reaches `err`. -/
theorem stageReadiness_of_update_accepted (env : Env) (st : PassState) (versionStatus : String)
    (hv : st.tcp.Status.Kubernetes.Version.Status = some versionStatus)
    (hu : (updateStewardControlPlaneStatus env st.scp (readyModifier versionStatus)
      (st.trace ++ [.step .readiness])).2 = none) :
    (stageReadiness env st).result = {} ∧ (stageReadiness env st).err = none := by
  have herr : (readinessStep env st).1.err = none := by
    unfold readinessStep
    simp only [hv, hu]
    split <;> rfl
  unfold stageReadiness
  dsimp only
  rw [(trackStage_proj _ _ st).2.1, herr]
  exact ⟨rfl, rfl⟩

/-- C10, what the code does. On clusters where every call succeeds, for the
claim `claimInitialized` and a workload in the version state `NotReady`
(neither ready nor upgrading), the pass reaches the readiness stage, whose
status update sends the Ready flag false; `Reconcile` then returns the empty
result, `RequeueAfter` zero, with a nil error: it does not requeue. With the
workload in the state `Ready` the flag sent is true and the return is the
same. -/
theorem C10_not_ready_returns_without_requeue :
    goesOn (stagesThroughCreate (envHealthy (tcpInState "NotReady")) healthyAfterGates
        >>= stagesAfterCreate (envHealthy (tcpInState "NotReady"))) = true
      ∧ "NotReady" ≠ VersionReady ∧ "NotReady" ≠ VersionUpgrading
      ∧ (((readinessStep (envHealthy (tcpInState "NotReady"))
            (passStateOf (stagesThroughCreate (envHealthy (tcpInState "NotReady")) healthyAfterGates
              >>= stagesAfterCreate (envHealthy (tcpInState "NotReady"))))).1.trace.filterMap
            Event.readySent).getLast? = some false)
      ∧ (Reconcile (envHealthy (tcpInState "NotReady")) "default" "cp").result = {}
      ∧ (Reconcile (envHealthy (tcpInState "NotReady")) "default" "cp").result.RequeueAfter = 0
      ∧ (Reconcile (envHealthy (tcpInState "NotReady")) "default" "cp").err = none
      ∧ (((readinessStep (envHealthy (tcpInState "Ready"))
            (passStateOf (stagesThroughCreate (envHealthy (tcpInState "Ready")) healthyAfterGates
              >>= stagesAfterCreate (envHealthy (tcpInState "Ready"))))).1.trace.filterMap
            Event.readySent).getLast? = some true)
      ∧ (Reconcile (envHealthy (tcpInState "Ready")) "default" "cp").result = {}
      ∧ (Reconcile (envHealthy (tcpInState "Ready")) "default" "cp").err = none := by
  decide

/-- Every pass that reaches the readiness stage and whose status update there
is accepted returns the empty result and a nil error. -/
theorem Reconcile_of_readiness_update_accepted (env : Env) (ns name : String)
    (st₀ st : PassState) (versionStatus : String)
    (hgates : reconcileGates env ns name = .ok st₀)
    (hreach : stagesThroughCreate env st₀ >>= stagesAfterCreate env = .ok st)
    (hv : st.tcp.Status.Kubernetes.Version.Status = some versionStatus)
    (hu : (updateStewardControlPlaneStatus env st.scp (readyModifier versionStatus)
      (st.trace ++ [.step .readiness])).2 = none) :
    (Reconcile env ns name).result = {} ∧ (Reconcile env ns name).err = none := by
  have hs := stageReadiness_of_update_accepted env st versionStatus hv hu
  have hrec : Reconcile env ns name = persistConditions env (stageReadiness env st) := by
    unfold Reconcile reconcileStages
    rw [hgates]
    simp only [hreach]
  rw [hrec]
  obtain ⟨h1, h2, -⟩ := persistConditions_spec env (stageReadiness env st)
  rw [h1, h2]
  exact hs

/-! ## The secret replicator -/

theorem SetControllerReferenceSecret_data (scp : StewardControlPlane) (secret : Secret) :
    (SetControllerReferenceSecret scp secret).1.Data = secret.Data := by
  unfold SetControllerReferenceSecret
  split
  · rfl
  · split
    · rfl
    · dsimp only
      split
      · split <;> rfl
      · rfl

/-- C15 (amended). Whenever the first owner reference of the destination CA
secret is of kind `TenantControlPlane`, the mutate step of
`createOrUpdateCertificateAuthority` hands the destination back as it got it
(data, labels, type and owner references untouched) and returns no error,
whatever the source holds. -/
theorem C15_first_owner_workload_skips (cluster : Cluster) (scp : StewardControlPlane)
    (tcp : TenantControlPlane) (stewardCA capiCA : Secret) (first : OwnerReference)
    (rest : List OwnerReference) (h : capiCA.Meta.OwnerReferences = first :: rest)
    (hk : first.Kind = "TenantControlPlane") :
    mutateCertificateAuthority cluster scp tcp stewardCA capiCA = (capiCA, none) := by
  unfold mutateCertificateAuthority managedBySteward
  rw [h]
  simp [hk]

/-- C15 (amended) at a concrete input: the destination's only owner reference is
the workload's and the source holds no field. -/
theorem C15_first_owner_workload_skips_witness :
    mutateCertificateAuthority clusterReady claimInitialized (tcpInState "Ready") stewardCABare
      capiCAManaged = (capiCAManaged, none) :=
  C15_first_owner_workload_skips clusterReady claimInitialized (tcpInState "Ready") stewardCABare
    capiCAManaged workloadOwnerRef [] rfl rfl

/-- C15 (counterexample). The destination `capiCAWorkloadSecond` carries an owner
reference of kind `TenantControlPlane`, in second place. On a source without
`ca.crt` the mutate step fails; on a source with both fields it writes the
destination's data and labels. -/
theorem C15_counterexample :
    (∃ o ∈ capiCAWorkloadSecond.Meta.OwnerReferences, o.Kind = "TenantControlPlane")
    ∧ (mutateCertificateAuthority clusterReady claimInitialized (tcpInState "Ready")
        stewardCABare capiCAWorkloadSecond).2
      = some (.other "missing Certificate value from *stewardv1alpha1.TenantControlPlane CA")
    ∧ capiCAWorkloadSecond.lookup TLSCertKey = none
    ∧ (mutateCertificateAuthority clusterReady claimInitialized (tcpInState "Ready")
        stewardCAFull capiCAWorkloadSecond).1.lookup TLSCertKey = some "CRT"
    ∧ (mutateCertificateAuthority clusterReady claimInitialized (tcpInState "Ready")
        stewardCAFull capiCAWorkloadSecond).2 = none := by
  refine ⟨⟨workloadOwnerRef, by decide, rfl⟩, by decide, by decide, by decide, by decide⟩

/-- C17. The mutate step of `createOrUpdateKubeconfig` reads one field of the
source: the one the claim's kubeconfig-secret-key annotation names when the
annotation is present and not empty, `admin.conf` otherwise. When the source
has that field, the destination's data becomes the single entry `value` with
the field's content. When the source lacks it, the step fails and the
destination's data stays as it was. -/
theorem C17_kubeconfig_copies_one_field (cluster : Cluster) (scp : StewardControlPlane)
    (tcp : TenantControlPlane) (source dest : Secret) :
    kubeconfigSecretKey scp
        = (if GoMap.index scp.Meta.Annotations KubeconfigSecretKeyAnnotation ≠ ""
           then GoMap.index scp.Meta.Annotations KubeconfigSecretKeyAnnotation else "admin.conf")
    ∧ (∀ value, source.lookup (kubeconfigSecretKey scp) = some value →
        ∀ k, (mutateKubeconfig cluster scp tcp source dest).1.lookup k
          = if k = "value" then some value else none)
    ∧ (source.lookup (kubeconfigSecretKey scp) = none →
        (mutateKubeconfig cluster scp tcp source dest).2
          = some (.other "missing key from *stewardv1alpha1.TenantControlPlane admin kubeconfig secret")
        ∧ (mutateKubeconfig cluster scp tcp source dest).1.Data = dest.Data) := by
  refine ⟨?_, ?_, ?_⟩
  · unfold kubeconfigSecretKey GoMap.index
    cases scp.Meta.Annotations with
    | none => simp
    | some m =>
      dsimp only
      cases m KubeconfigSecretKeyAnnotation with
      | none => simp
      | some v => simp
  · intro value hv k
    unfold mutateKubeconfig
    simp only [hv]
    unfold Secret.lookup
    rw [SetControllerReferenceSecret_data]
    by_cases hc : dest.CreationTimestamp.isNone = true <;> simp [hc, GoMap.set, GoMap.empty]
  · intro hv
    unfold mutateKubeconfig
    simp [hv]

/-- C17 at concrete inputs: a source with two fields, with and without the
annotation on the claim. -/
theorem C17_kubeconfig_copies_one_field_witness :
    (mutateKubeconfig clusterReady claimAnnotated (tcpInState "Ready") stewardKubeconfigTwoFields
        capiKubeconfigFresh).1.lookup "value" = some "SUPER"
    ∧ (mutateKubeconfig clusterReady claimInitialized (tcpInState "Ready")
        stewardKubeconfigTwoFields capiKubeconfigFresh).1.lookup "value" = some "ADMIN"
    ∧ (mutateKubeconfig clusterReady claimAnnotated (tcpInState "Ready") stewardKubeconfigTwoFields
        capiKubeconfigFresh).1.lookup "admin.conf" = none :=
  ⟨(C17_kubeconfig_copies_one_field clusterReady claimAnnotated (tcpInState "Ready")
      stewardKubeconfigTwoFields capiKubeconfigFresh).2.1 "SUPER" (by decide) "value",
   (C17_kubeconfig_copies_one_field clusterReady claimInitialized (tcpInState "Ready")
      stewardKubeconfigTwoFields capiKubeconfigFresh).2.1 "ADMIN" (by decide) "value",
   (C17_kubeconfig_copies_one_field clusterReady claimAnnotated (tcpInState "Ready")
      stewardKubeconfigTwoFields capiKubeconfigFresh).2.1 "SUPER" (by decide) "admin.conf"⟩

/-! ## `extractRemoteClient` -/

/-- C16. `extractRemoteClient` tests the feature gates before it reads any
secret. With the external-cluster-reference gate disabled it fails with
`ErrExternalClusterReferenceNotEnabled` and issues no call. With that gate
enabled and the cross-namespace gate disabled, it fails with
`ErrExternalClusterReferenceCrossNamespaceReference` exactly when the claim's
reference names a kubeconfig secret namespace that is not empty and differs
from the claim's namespace, and then it issues no call either; and every
secret it reads is read from the claim's namespace. -/
theorem C16_feature_gates_before_secret (B : Backend) (scp : StewardControlPlane)
    (tr : List Call) :
    (B.featureGates features.ExternalClusterReference = false →
      extractRemoteClient B scp tr = (.error ErrExternalClusterReferenceNotEnabled, tr))
    ∧ (B.featureGates features.ExternalClusterReference = true →
       B.featureGates features.ExternalClusterReferenceCrossNamespace = false →
        ((extractRemoteClient B scp tr).1
            = .error ErrExternalClusterReferenceCrossNamespaceReference
          ↔ ∃ ref, scp.Spec.Deployment.ExternalClusterReference = some ref
              ∧ ref.KubeconfigSecretNamespace ≠ ""
              ∧ ref.KubeconfigSecretNamespace ≠ scp.Meta.Namespace)
        ∧ ((extractRemoteClient B scp tr).1
            = .error ErrExternalClusterReferenceCrossNamespaceReference →
            (extractRemoteClient B scp tr).2 = tr)
        ∧ ∃ added, (extractRemoteClient B scp tr).2 = tr ++ added
            ∧ ∀ c ∈ added, ∀ ns, c.secretNamespaceRead = some ns → ns = scp.Meta.Namespace) := by
  refine ⟨?_, ?_⟩
  · intro h
    unfold extractRemoteClient
    simp [h]
  · intro h1 h2
    unfold extractRemoteClient
    simp only [h1, h2, Bool.not_true, Bool.false_eq_true, ↓reduceIte, Bool.not_false,
      Bool.true_and, Bool.and_eq_true, decide_eq_true_eq]
    cases hr : scp.Spec.Deployment.ExternalClusterReference with
    | none =>
      dsimp only
      refine ⟨⟨fun h => ?_, fun ⟨ref, h, _⟩ => by cases h⟩, fun h => rfl, [], by simp, by simp⟩
      simp [ErrExternalClusterReferenceCrossNamespaceReference] at h
    | some ref =>
      dsimp only
      by_cases hx : ref.KubeconfigSecretNamespace ≠ "" ∧ ref.KubeconfigSecretNamespace ≠ scp.Meta.Namespace
      · rw [if_pos hx]
        exact ⟨⟨fun _ => ⟨ref, rfl, hx⟩, fun _ => rfl⟩, fun _ => rfl, [], by simp, by simp⟩
      · rw [if_neg hx]
        have hns : (if ref.KubeconfigSecretNamespace ≠ "" then ref.KubeconfigSecretNamespace
            else scp.Meta.Namespace) = scp.Meta.Namespace := by
          by_cases he : ref.KubeconfigSecretNamespace = ""
          · simp [he]
          · have : ref.KubeconfigSecretNamespace = scp.Meta.Namespace := by
              by_contra hne
              exact hx ⟨he, hne⟩
            simp [he, this]
        rw [hns]
        have hnot : ¬ ∃ ref', some ref = some ref' ∧ ref'.KubeconfigSecretNamespace ≠ ""
            ∧ ref'.KubeconfigSecretNamespace ≠ scp.Meta.Namespace := by
          rintro ⟨ref', h, h'⟩
          cases h
          exact hx h'
        cases B.getSecret tr.length .management scp.Meta.Namespace ref.KubeconfigSecretName with
        | error e =>
          dsimp only
          refine ⟨⟨fun h => ?_, fun h => absurd h hnot⟩, fun h => ?_, _, rfl, ?_⟩
          · simp [ErrExternalClusterReferenceCrossNamespaceReference] at h
          · simp [ErrExternalClusterReferenceCrossNamespaceReference] at h
          · simp [Call.secretNamespaceRead]
        | ok secret =>
          dsimp only
          have hsent : ∀ (r : Except Err Client) (t : List Call),
              r ≠ .error ErrExternalClusterReferenceCrossNamespaceReference →
              (∃ added, t = tr ++ added
                ∧ ∀ c ∈ added, ∀ ns, c.secretNamespaceRead = some ns → ns = scp.Meta.Namespace) →
              ((r, t).1 = .error ErrExternalClusterReferenceCrossNamespaceReference
                ↔ ∃ ref', some ref = some ref' ∧ ref'.KubeconfigSecretNamespace ≠ ""
                    ∧ ref'.KubeconfigSecretNamespace ≠ scp.Meta.Namespace)
              ∧ ((r, t).1 = .error ErrExternalClusterReferenceCrossNamespaceReference → (r, t).2 = tr)
              ∧ ∃ added, (r, t).2 = tr ++ added
                ∧ ∀ c ∈ added, ∀ ns, c.secretNamespaceRead = some ns → ns = scp.Meta.Namespace :=
            fun r t hr ht => ⟨⟨fun h => absurd h hr, fun h => absurd h hnot⟩, fun h => absurd h hr, ht⟩
          have h1 : ∃ added, tr ++ [Call.getSecret .management scp.Meta.Namespace
                ref.KubeconfigSecretName] = tr ++ added
              ∧ ∀ c ∈ added, ∀ ns, c.secretNamespaceRead = some ns → ns = scp.Meta.Namespace :=
            ⟨_, rfl, by simp [Call.secretNamespaceRead]⟩
          have h2 : ∀ key version, ∃ added, tr ++ [Call.getSecret .management scp.Meta.Namespace
                ref.KubeconfigSecretName] ++ [Call.storeGet key version] = tr ++ added
              ∧ ∀ c ∈ added, ∀ ns, c.secretNamespaceRead = some ns → ns = scp.Meta.Namespace :=
            fun key version =>
              ⟨[.getSecret .management scp.Meta.Namespace ref.KubeconfigSecretName,
                .storeGet key version], by simp, by simp [Call.secretNamespaceRead]⟩
          split
          · exact hsent _ _ (by simp [ErrExternalClusterReferenceCrossNamespaceReference,
              ErrExternalCLusterReferenceSecretEmptyError]) h1
          · split
            · exact hsent _ _ (by simp [ErrExternalClusterReferenceCrossNamespaceReference,
                ErrExternalClusterReferenceSecretKeyEmpty]) h1
            · split
              · exact hsent _ _ (by simp [ErrExternalClusterReferenceCrossNamespaceReference,
                  ErrExternalClusterReferenceNonInitializedStore]) (h2 _ _)
              · split
                · exact hsent _ _ (by simp [ErrExternalClusterReferenceCrossNamespaceReference,
                    ErrExternalClusterReferenceTenantControlPlaneNotFound]) (h2 _ _)
                · exact hsent _ _ (by simp) (h2 _ _)

/-- C16 at a concrete input: the cross-namespace gate is disabled and the claim
names a secret in another namespace. -/
theorem C16_feature_gates_before_secret_witness :
    (extractRemoteClient (backendBare gatesSameNamespace) claimCrossNamespace []).1
      = .error ErrExternalClusterReferenceCrossNamespaceReference :=
  ((C16_feature_gates_before_secret (backendBare gatesSameNamespace) claimCrossNamespace []).2
    (by decide) (by decide)).1.mpr ⟨_, rfl, by decide, by decide⟩

/-! ## `createRequiredResources` and the stages of a pass -/

theorem retry_err {σ : Type} (P : Err → Prop) (fn : σ → σ × Option Err)
    (hfn : ∀ s e, (fn s).2 = some e → P e) (s : σ) (e : Err)
    (h : (RetryOnConflict fn s).2 = some e) : P e := by
  have key := retryOnConflictLoop_induct fn (fun _ => True) (fun r => ∀ e, r.2 = some e → P e)
    (fun s' _ => ⟨hfn s', fun _ _ _ => trivial⟩) 4 s trivial
  exact key e h

theorem SetControllerReferenceSecret_err (scp : StewardControlPlane) (secret : Secret) (e : Err)
    (h : (SetControllerReferenceSecret scp secret).2 = some e) : e.is ErrEnqueueBack = false := by
  unfold SetControllerReferenceSecret at h
  split at h
  · cases h; rfl
  · split at h
    · cases h; rfl
    · dsimp only at h
      split at h
      · split at h
        · cases h
        · cases h; rfl
      · cases h

theorem mutateKubeconfig_err (cluster : Cluster) (scp : StewardControlPlane)
    (tcp : TenantControlPlane) (source dest : Secret) (e : Err)
    (h : (mutateKubeconfig cluster scp tcp source dest).2 = some e) :
    e.is ErrEnqueueBack = false := by
  unfold mutateKubeconfig at h
  dsimp only at h
  split at h
  · cases h; rfl
  · exact SetControllerReferenceSecret_err _ _ _ h

theorem mutateCertificateAuthority_err (cluster : Cluster) (scp : StewardControlPlane)
    (tcp : TenantControlPlane) (source dest : Secret) (e : Err)
    (h : (mutateCertificateAuthority cluster scp tcp source dest).2 = some e) :
    e.is ErrEnqueueBack = false := by
  unfold mutateCertificateAuthority at h
  split at h
  · cases h
  · split at h
    · cases h; rfl
    · split at h
      · cases h; rfl
      · exact SetControllerReferenceSecret_err _ _ _ h

theorem CreateOrUpdateSecret_err (B : Backend) (f : Secret → Secret × Option Err)
    (hf : ∀ s e, (f s).2 = some e → e.is ErrEnqueueBack = false) (s : Secret × List Call)
    (e : Err) (h : (CreateOrUpdateSecret B f s).2 = some e) : e.is ErrEnqueueBack = false := by
  unfold CreateOrUpdateSecret at h
  dsimp only at h
  split at h
  · split at h
    · cases h; rfl
    · rcases hfs : f s.1 with ⟨obj, r⟩
      have hf' := hf s.1
      rw [hfs] at h hf'
      cases r with
      | some e' => dsimp only at h; cases h; exact hf' _ rfl
      | none =>
        dsimp only at h
        split at h
        · cases h; rfl
        · split at h
          · cases h; rfl
          · cases h
  · rename_i existing _
    rcases hfs : f existing with ⟨obj, r⟩
    have hf' := hf existing
    rw [hfs] at h hf'
    cases r with
    | some e' => dsimp only at h; cases h; exact hf' _ rfl
    | none =>
      dsimp only at h
      split at h
      · cases h; rfl
      · split at h
        · cases h
        · split at h
          · cases h; rfl
          · cases h

theorem wrap_not_sentinel (pre : String) (inner : Err) (h : inner.is ErrEnqueueBack = false) :
    (Err.wrap pre inner).is ErrEnqueueBack = false := by
  unfold Err.is
  rw [h]
  rfl

theorem createOrUpdateKubeconfig_err (B : Backend) (reader : Client) (cluster : Cluster)
    (scp : StewardControlPlane) (tcp : TenantControlPlane) (tr : List Call) (e : Err)
    (h : (createOrUpdateKubeconfig B reader cluster scp tcp tr).1 = some e) :
    e.is ErrEnqueueBack = false := by
  unfold createOrUpdateKubeconfig at h
  dsimp only at h
  split at h
  · cases h; rfl
  · rename_i source _
    split at h
    · rename_i s err hr
      cases h
      exact wrap_not_sentinel _ _ (retry_err _ _ (fun s e => CreateOrUpdateSecret_err B _
        (mutateKubeconfig_err cluster scp tcp source) s e) _ err (congrArg Prod.snd hr))
    · cases h

theorem createOrUpdateCertificateAuthority_err (B : Backend) (reader : Client) (cluster : Cluster)
    (scp : StewardControlPlane) (tcp : TenantControlPlane) (tr : List Call) (e : Err)
    (h : (createOrUpdateCertificateAuthority B reader cluster scp tcp tr).1 = some e) :
    e.is ErrEnqueueBack = false := by
  unfold createOrUpdateCertificateAuthority at h
  dsimp only at h
  split at h
  · cases h; rfl
  · rename_i source _
    split at h
    · rename_i s err hr
      cases h
      exact wrap_not_sentinel _ _ (retry_err _ _ (fun s e => CreateOrUpdateSecret_err B _
        (mutateCertificateAuthority_err cluster scp tcp source) s e) _ err (congrArg Prod.snd hr))
    · cases h


theorem runStages_cons (f : PassState → Except Exit PassState)
    (fs : List (PassState → Except Exit PassState)) (st : PassState) :
    runStages (f :: fs) st = f st >>= runStages fs := by
  rw [runStages]
  cases f st <;> rfl

theorem runStages_append (l1 l2 : List (PassState → Except Exit PassState)) (st : PassState) :
    runStages (l1 ++ l2) st = runStages l1 st >>= runStages l2 := by
  induction l1 generalizing st with
  | nil => rfl
  | cons f fs ih =>
    rw [List.cons_append, runStages_cons, runStages_cons, bind_assoc]
    congr 1
    funext st'
    exact ih st'

theorem stages_eq_runStages (env : Env) (st : PassState) :
    stagesThroughCreate env st >>= stagesAfterCreate env = runStages (passStages env) st := by
  have hcons : ∀ (f : PassState → Except Exit PassState) fs,
      runStages (f :: fs) = fun st => f st >>= runStages fs :=
    fun f fs => funext (runStages_cons f fs)
  have hnil : runStages [] = fun st => (pure st : Except Exit PassState) := by
    funext st
    rfl
  have hafter : stagesAfterCreate env = fun st =>
      stageEndpointWait env st >>= stageEndpointPatch env >>= stageRefetchCluster env
        >>= stageInfrastructurePatch env >>= stageClusterGates env >>= stageMarkInitialized env
        >>= stageStatusProjection env >>= stageConfirmInitialized env >>= stageReplication env :=
    rfl
  simp only [passStages, hcons, hnil, hafter, stagesThroughCreate, bind_assoc, bind_pure]


theorem Reconcile_of_stage_exit (env : Env) (ns name : String) (st₀ st : PassState) (k : Nat)
    (f : PassState → Except Exit PassState) (rest : List (PassState → Except Exit PassState))
    (exit : Exit) (hgates : reconcileGates env ns name = .ok st₀)
    (hreach : runStages ((passStages env).take k) st₀ = .ok st)
    (hk : (passStages env).drop k = f :: rest) (hf : f st = .error exit) :
    Reconcile env ns name = persistConditions env exit := by
  have hrun : runStages (passStages env) st₀ = .error exit := by
    rw [← List.take_append_drop k (passStages env), runStages_append, hreach, hk]
    show runStages (f :: rest) st = _
    rw [runStages_cons, hf]
    rfl
  unfold Reconcile reconcileStages
  rw [hgates]
  simp only [stages_eq_runStages, hrun]

theorem Reconcile_of_stages_ok (env : Env) (ns name : String) (st₀ st : PassState)
    (hgates : reconcileGates env ns name = .ok st₀)
    (hreach : runStages (passStages env) st₀ = .ok st) :
    Reconcile env ns name = persistConditions env (stageReadiness env st) := by
  unfold Reconcile reconcileStages
  rw [hgates]
  simp only [stages_eq_runStages, hreach]

theorem string_length_eq_zero (s : String) : s.length = 0 ↔ s = "" := by
  constructor
  · intro h
    have : s.data = [] := List.length_eq_zero.1 h
    exact String.ext this
  · rintro rfl
    rfl

theorem stageReplication_of_answer (env : Env) (st : PassState) (e : Err)
    (h : env.createRequiredResources (st.trace.length + 1) st.remoteClient st.cluster st.scp
      st.tcp = some e) :
    ∃ exit, stageReplication env st = .error exit
      ∧ (e.is ErrEnqueueBack = false → exit.result = {} ∧ exit.err = some e)
      ∧ (e.is ErrEnqueueBack = true →
          exit.result = { RequeueAfter := timeSecond } ∧ exit.err = none) := by
  have herr : (replicationStep env st).1.err = some e := by
    unfold replicationStep
    exact h
  unfold stageReplication
  dsimp only
  rw [(trackStage_proj _ _ st).2.1, herr]
  dsimp only
  by_cases hs : e.is ErrEnqueueBack = true
  · rw [if_pos hs]
    exact ⟨_, rfl, (fun h' => by rw [hs] at h'; cases h'), fun _ => ⟨rfl, rfl⟩⟩
  · rw [if_neg hs]
    exact ⟨_, rfl, fun _ => ⟨rfl, rfl⟩, fun h' => absurd h' hs⟩

/-- C14. `createRequiredResources` fails with an error wrapping `ErrEnqueueBack`
exactly when the workload names no admin kubeconfig secret, or the
kubeconfig copy succeeded and the workload names no CA secret. Hence, in a
pass of `Reconcile` that reaches the replication and gets the answer of
`createRequiredResources`, such a failure yields a `RequeueAfter` of one
second with a nil error, and every other failure (unreadable source, missing
field, failed create or update) is returned as the error of the pass with an
empty result. -/
theorem C14_enqueue_back_exactly (B : Backend) (remoteClient : Option Client) (cluster : Cluster)
    (scp : StewardControlPlane) (tcp : TenantControlPlane) (tr : List Call) :
    ((∃ e, (createRequiredResources B remoteClient cluster scp tcp tr).1 = some e
        ∧ e.is ErrEnqueueBack = true)
      ↔ (tcp.Status.KubeConfigAdminSecretName = ""
          ∨ ((createOrUpdateKubeconfig B (replicationReader remoteClient) cluster scp tcp tr).1
                = none
              ∧ tcp.Status.CertificatesCASecretName = "")))
    ∧ ∀ (env : Env) (ns name : String) (st₀ st : PassState) (e : Err),
        reconcileGates env ns name = .ok st₀ →
        runStages (stagesBeforeReplication env) st₀ = .ok st →
        st.remoteClient = remoteClient → st.cluster = cluster → st.scp = scp → st.tcp = tcp →
        env.createRequiredResources (st.trace.length + 1) remoteClient cluster scp tcp
          = (createRequiredResources B remoteClient cluster scp tcp tr).1 →
        (createRequiredResources B remoteClient cluster scp tcp tr).1 = some e →
        (e.is ErrEnqueueBack = true →
          (Reconcile env ns name).result = { RequeueAfter := timeSecond }
            ∧ (Reconcile env ns name).err = none)
        ∧ (e.is ErrEnqueueBack = false →
          (Reconcile env ns name).result = {} ∧ (Reconcile env ns name).err = some e) := by
  refine ⟨?_, ?_⟩
  · unfold createRequiredResources
    by_cases h1' : tcp.Status.KubeConfigAdminSecretName.length = 0
    · rw [if_pos h1']
      exact ⟨fun _ => Or.inl ((string_length_eq_zero _).1 h1'), fun _ => ⟨_, rfl, rfl⟩⟩
    · rw [if_neg h1']
      have h1 : ¬ tcp.Status.KubeConfigAdminSecretName = "" :=
        fun h => h1' ((string_length_eq_zero _).2 h)
      dsimp only
      rcases hk : createOrUpdateKubeconfig B (replicationReader remoteClient) cluster scp tcp tr
        with ⟨r, tr1⟩
      cases r with
      | some err =>
        dsimp only
        have hn := createOrUpdateKubeconfig_err B _ cluster scp tcp tr err (by rw [hk])
        constructor
        · rintro ⟨e, he, hs⟩
          cases he
          rw [hn] at hs
          cases hs
        · rintro (h | ⟨h, -⟩)
          · exact absurd h h1
          · cases h
      | none =>
        dsimp only
        by_cases h2' : tcp.Status.CertificatesCASecretName.length = 0
        · rw [if_pos h2']
          exact ⟨fun _ => Or.inr ⟨rfl, (string_length_eq_zero _).1 h2'⟩, fun _ => ⟨_, rfl, rfl⟩⟩
        · rw [if_neg h2']
          have h2 : ¬ tcp.Status.CertificatesCASecretName = "" :=
            fun h => h2' ((string_length_eq_zero _).2 h)
          constructor
          · rintro ⟨e, he, hs⟩
            rcases hc : createOrUpdateCertificateAuthority B (replicationReader remoteClient)
              cluster scp tcp tr1 with ⟨r, tr2⟩
            rw [hc] at he
            cases r with
            | none => cases he
            | some err =>
              cases he
              have hn := createOrUpdateCertificateAuthority_err B _ cluster scp tcp tr1 e
                (by rw [hc])
              rw [hn] at hs
              cases hs
          · rintro (h | ⟨-, h⟩)
            · exact absurd h h1
            · exact absurd h h2
  · intro env ns name st₀ st e hgates hreach hrc hcl hscp htcp henv he
    subst hrc hcl hscp htcp
    rw [he] at henv
    obtain ⟨exit, hexit, hhard, hsent⟩ := stageReplication_of_answer env st e henv
    have hrec := Reconcile_of_stage_exit env ns name st₀ st 10 (stageReplication env) [] exit
      hgates hreach rfl hexit
    obtain ⟨h1, h2, -⟩ := persistConditions_spec env exit
    rw [hrec, h1, h2]
    exact ⟨hsent, hhard⟩

/-- C14 at a concrete input: the workload names both secrets and the source of
the kubeconfig cannot be read. -/
theorem C14_enqueue_back_exactly_witness :
    (Reconcile envSourcesMissing "default" "cp").result = {}
      ∧ (Reconcile envSourcesMissing "default" "cp").err
          = some (.wrap "cannot retrieve source-of-truth for admin kubeconfig: " (.api .notFound)) :=
  ((C14_enqueue_back_exactly (backendBare gatesSameNamespace)
      (passStateOf (runStages (stagesBeforeReplication envSourcesMissing) healthyAfterGates)).remoteClient
      (passStateOf (runStages (stagesBeforeReplication envSourcesMissing) healthyAfterGates)).cluster
      (passStateOf (runStages (stagesBeforeReplication envSourcesMissing) healthyAfterGates)).scp
      (passStateOf (runStages (stagesBeforeReplication envSourcesMissing) healthyAfterGates)).tcp
      []).2
    envSourcesMissing "default" "cp" healthyAfterGates
    (passStateOf (runStages (stagesBeforeReplication envSourcesMissing) healthyAfterGates))
    (.wrap "cannot retrieve source-of-truth for admin kubeconfig: " (.api .notFound))
    rfl (eq_ok_passStateOf _ (by decide)) rfl rfl rfl rfl rfl (by decide)).2 (by decide)



/-! ## `patchCluster` -/

theorem patchCluster_dispatch (B : Backend) (cluster : Cluster) (scp : StewardControlPlane)
    (hostPort : String) (tr : List Call) (ref : ObjectReference) (endpoint : String) (port : Int)
    (href : cluster.Spec.InfrastructureRef = some ref)
    (hep : controlPlaneEndpoint scp hostPort = .ok (endpoint, port)) :
    patchCluster B cluster scp hostPort tr
      = runStrategy B (dispatchTable ref.Kind B.dynamicInfrastructureClusters) cluster endpoint
          port tr := by
  unfold patchCluster
  simp only [href, hep]
  unfold dispatchTable runStrategy
  split <;> simp_all [setsHas]
  split <;> rfl


theorem SetNestedField_two (obj : String → Option JSON) (value : JSON) (a b : String)
    (obj' : String → Option JSON) (h : SetNestedField obj value [a, b] = .ok obj') :
    (∃ m', obj' a = some (.obj m') ∧ m' b = some value
        ∧ ∀ k, k ≠ b → m' k = match obj a with
                                | some (.obj m) => m k
                                | _ => none)
      ∧ ∀ k, k ≠ a → obj' k = obj k := by
  unfold SetNestedField at h
  split at h
  · rename_i m hm
    simp only [SetNestedField, Except.ok.injEq] at h
    subst h
    refine ⟨⟨fun k => if k = b then some value else m k, by simp, by simp,
      fun k hk => by simp [hk, hm]⟩, fun k hk => by simp [hk]⟩
  · cases h
  · rename_i hm
    simp only [SetNestedField, Except.ok.injEq] at h
    subst h
    refine ⟨⟨fun k => if k = b then some value else none, by simp, by simp,
      fun k hk => by simp [hk, hm]⟩, fun k hk => by simp [hk]⟩


theorem NestedFieldNoCopy_cons (obj : String → Option JSON) (field : String)
    (rest : List String) :
    NestedFieldNoCopy (.obj obj) (field :: rest)
      = match obj field with
        | none => .ok none
        | some v => NestedFieldNoCopy v rest := by
  cases h : obj field <;> simp [NestedFieldNoCopy, h]

theorem holdsEndpoint_of_spec (obj obj' : String → Option JSON) (host : String) (port : Int)
    (hspec : obj' "spec" = obj "spec") (h : holdsEndpoint obj host port) :
    holdsEndpoint obj' host port := by
  unfold holdsEndpoint NestedString NestedInt64 at *
  rw [NestedFieldNoCopy_cons] at h ⊢
  rw [NestedFieldNoCopy_cons] at h
  rw [NestedFieldNoCopy_cons, hspec]
  exact h

theorem holdsEndpoint_of_set (obj obj' : String → Option JSON) (host : String) (port : Int)
    (h : SetNestedField obj (endpointMap host port) ["spec", "controlPlaneEndpoint"] = .ok obj') :
    holdsEndpoint obj' host port := by
  obtain ⟨⟨m', h1, h2, -⟩, -⟩ := SetNestedField_two _ _ _ _ _ h
  unfold holdsEndpoint NestedString NestedInt64
  simp [NestedFieldNoCopy_cons, h1, h2, endpointMap, NestedFieldNoCopy]

theorem holdsReady_of_set (obj obj' : String → Option JSON)
    (h : SetNestedField obj (.bool true) ["status", "ready"] = .ok obj') : holdsReady obj' := by
  obtain ⟨⟨m', h1, h2, -⟩, -⟩ := SetNestedField_two _ _ _ _ _ h
  exact ⟨m', h1, h2⟩

theorem callsAdded_one (P : Call → Prop) (tr : List Call) (c : Call) (h : P c) :
    CallsAdded P tr (tr ++ [c]) :=
  ⟨[c], rfl, by simpa using h⟩

theorem callsAdded_two (P : Call → Prop) (tr : List Call) (c d : Call) (hc : P c) (hd : P d) :
    CallsAdded P tr (tr ++ [c] ++ [d]) :=
  ⟨[c, d], by simp, by simp [hc, hd]⟩

theorem callsAdded_refl (P : Call → Prop) (tr : List Call) : CallsAdded P tr tr :=
  ⟨[], by simp, by simp⟩

theorem callsAdded_trans {P : Call → Prop} {a b c : List Call} (h1 : CallsAdded P a b)
    (h2 : CallsAdded P b c) : CallsAdded P a c := by
  obtain ⟨x, rfl, hx⟩ := h1
  obtain ⟨y, rfl, hy⟩ := h2
  refine ⟨x ++ y, by simp, ?_⟩
  intro e he
  rcases List.mem_append.1 he with he | he
  · exact hx e he
  · exact hy e he

theorem callsAdded_mono {P Q : Call → Prop} {a b : List Call} (hPQ : ∀ c, P c → Q c)
    (h : CallsAdded P a b) : CallsAdded Q a b := by
  obtain ⟨x, rfl, hx⟩ := h
  exact ⟨x, rfl, fun c hc => hPQ c (hx c hc)⟩

theorem patchGenericCluster_calls_of (B : Backend) (cluster : Cluster) (endpoint : String)
    (port : Int) (patchStatus : Bool) (tr : List Call) (P : Call → Prop)
    (hget : ∀ ref, P (.getInfra ref))
    (hpatch : ∀ before after answer, holdsEndpoint after.Object endpoint port →
      (patchStatus = true → holdsReady after.Object) →
      (patchStatus = false → after.Object "status" = before.Object "status") →
      P (.patchInfra before after answer)) :
    CallsAdded P tr (patchGenericCluster B cluster endpoint port patchStatus tr).2 := by
  unfold patchGenericCluster
  split
  · exact callsAdded_refl P tr
  · rename_i ref _
    dsimp only
    split
    · exact callsAdded_one P tr _ (hget ref)
    · rename_i infraCluster _
      split
      · exact callsAdded_one P tr _ (hget ref)
      · split
        · exact callsAdded_one P tr _ (hget ref)
        · rename_i withEndpoint hset
          have hend := holdsEndpoint_of_set _ _ _ _ hset
          cases hp : patchStatus with
          | false =>
            subst hp
            simp only [Bool.false_eq_true, ↓reduceIte]
            have hP : ∀ answer, P (.patchInfra infraCluster
                { infraCluster with Object := withEndpoint } answer) := fun answer =>
              hpatch _ _ _ hend (fun h => by cases h)
                (fun _ => (SetNestedField_two _ _ _ _ _ hset).2 "status" (by decide))
            split
            · exact callsAdded_two P tr _ _ (hget ref) (hP _)
            · exact callsAdded_two P tr _ _ (hget ref) (hP _)
          | true =>
            subst hp
            simp only [↓reduceIte]
            split
            · exact callsAdded_one P tr _ (hget ref)
            · rename_i object hstatus
              have hP : ∀ answer, P (.patchInfra infraCluster
                  { infraCluster with Object := object } answer) := fun answer =>
                hpatch _ _ _
                  (holdsEndpoint_of_spec _ _ _ _
                    ((SetNestedField_two _ _ _ _ _ hstatus).2 "spec" (by decide)) hend)
                  (fun _ => holdsReady_of_set _ _ hstatus) (fun h => by cases h)
              split
              · exact callsAdded_two P tr _ _ (hget ref) (hP _)
              · exact callsAdded_two P tr _ _ (hget ref) (hP _)

/-- Every patch `patchGenericCluster` issues sets `spec.controlPlaneEndpoint` to the
resolved host and port, with `patchStatus` also `status.ready` to true, and
without it leaves the status as read. -/
theorem patchGenericCluster_calls (B : Backend) (cluster : Cluster) (endpoint : String)
    (port : Int) (patchStatus : Bool) (tr : List Call) :
    CallsAdded (fun c => ∀ before after answer, c = .patchInfra before after answer →
        holdsEndpoint after.Object endpoint port
        ∧ (patchStatus = true → holdsReady after.Object)
        ∧ (patchStatus = false → after.Object "status" = before.Object "status"))
      tr (patchGenericCluster B cluster endpoint port patchStatus tr).2 := by
  refine patchGenericCluster_calls_of B cluster endpoint port patchStatus tr _ ?_ ?_
  · intro ref before after answer h
    cases h
  · intro before after answer h1 h2 h3 before' after' answer' h
    cases h
    exact ⟨h1, h2, h3⟩


theorem checkGenericCluster_trace (B : Backend) (cluster : Cluster) (endpoint : String)
    (port : Int) (tr : List Call) (ref : ObjectReference)
    (href : cluster.Spec.InfrastructureRef = some ref) :
    (checkGenericCluster B cluster endpoint port tr).2 = tr ++ [.getInfra ref] := by
  unfold checkGenericCluster
  simp only [href]
  repeat' split
  all_goals rfl

theorem checkGenericCluster_no_patch (B : Backend) (cluster : Cluster) (endpoint : String)
    (port : Int) (tr : List Call) :
    CallsAdded (fun c => c.isInfraPatch = false) tr
      (checkGenericCluster B cluster endpoint port tr).2 := by
  cases href : cluster.Spec.InfrastructureRef with
  | none =>
    unfold checkGenericCluster
    simp only [href]
    exact callsAdded_refl _ tr
  | some ref =>
    rw [checkGenericCluster_trace B cluster endpoint port tr ref href]
    exact callsAdded_one _ tr _ rfl

theorem NestedFieldNoCopy_err (v : JSON) (fields : List String) (e : Err)
    (h : NestedFieldNoCopy v fields = .error e) : e.asUnmanagedControlPlaneAddress = false := by
  induction fields generalizing v with
  | nil => simp [NestedFieldNoCopy] at h
  | cons field rest ih =>
    cases v with
    | obj m =>
      rw [NestedFieldNoCopy_cons] at h
      split at h
      · cases h
      · exact ih _ h
    | null => simp [NestedFieldNoCopy] at h
    | bool b => simp [NestedFieldNoCopy] at h; subst h; rfl
    | int n => simp [NestedFieldNoCopy] at h; subst h; rfl
    | str s => simp [NestedFieldNoCopy] at h; subst h; rfl
    | other p => simp [NestedFieldNoCopy] at h; subst h; rfl

theorem NestedString_err (obj : String → Option JSON) (fields : List String) (e : Err)
    (h : NestedString obj fields = .error e) : e.asUnmanagedControlPlaneAddress = false := by
  unfold NestedString at h
  split at h
  · cases h; exact NestedFieldNoCopy_err _ _ _ (by assumption)
  · cases h
  · cases h
  · cases h; rfl

theorem NestedInt64_err (obj : String → Option JSON) (fields : List String) (e : Err)
    (h : NestedInt64 obj fields = .error e) : e.asUnmanagedControlPlaneAddress = false := by
  unfold NestedInt64 at h
  split at h
  · cases h; exact NestedFieldNoCopy_err _ _ _ (by assumption)
  · cases h
  · cases h
  · cases h; rfl

/-- What `checkGenericCluster` returns on an infrastructure cluster that can be
read and whose endpoint host reads as `cpHost` (empty when absent). -/
theorem checkGenericCluster_spec (B : Backend) (cluster : Cluster) (endpoint : String)
    (port : Int) (tr : List Call) (ref : ObjectReference) (gkc : Unstructured)
    (cpHost : String) (found : Bool)
    (href : cluster.Spec.InfrastructureRef = some ref)
    (hget : B.getInfra tr.length ref = .ok gkc)
    (hhost : NestedString gkc.Object ["spec", "controlPlaneEndpoint", "host"]
      = .ok (cpHost, found)) :
    ((checkGenericCluster B cluster endpoint port tr).1
        = some (.unmanagedControlPlaneAddress gkc.Kind) ↔ cpHost = "")
    ∧ ((∃ e, (checkGenericCluster B cluster endpoint port tr).1 = some e
          ∧ e.asUnmanagedControlPlaneAddress = true) ↔ cpHost = "")
    ∧ ((checkGenericCluster B cluster endpoint port tr).1 = none
        ↔ cpHost ≠ "" ∧ cpHost = endpoint
          ∧ ∃ found', NestedInt64 gkc.Object ["spec", "controlPlaneEndpoint", "port"]
              = .ok (port, found'))
    ∧ ∀ cpPort found', NestedInt64 gkc.Object ["spec", "controlPlaneEndpoint", "port"]
          = .ok (cpPort, found') → cpHost ≠ "" →
        (cpHost ≠ endpoint → (checkGenericCluster B cluster endpoint port tr).1
          = some (.other ("the " ++ gkc.Kind
              ++ " cluster has been provisioned with a mismatching host")))
        ∧ (cpHost = endpoint → cpPort ≠ port →
            (checkGenericCluster B cluster endpoint port tr).1
              = some (.other ("the " ++ gkc.Kind
                  ++ " cluster has been provisioned with a mismatching port"))) := by
  unfold checkGenericCluster
  simp only [href, hget, hhost]
  by_cases h0 : cpHost = ""
  · rw [if_pos h0]
    refine ⟨⟨fun _ => h0, fun _ => rfl⟩, ⟨fun _ => h0, fun _ => ⟨_, rfl, rfl⟩⟩,
      ⟨(fun h => by cases h), fun h => absurd h0 h.1⟩, fun _ _ _ h => absurd h0 h⟩
  · rw [if_neg h0]
    have hlen : ¬ (cpHost.length = 0 ∧ (0 : Int) = 0) := fun h =>
      h0 ((string_length_eq_zero _).1 h.1)
    cases hp : NestedInt64 gkc.Object ["spec", "controlPlaneEndpoint", "port"] with
    | error err =>
      have hne := NestedInt64_err _ _ _ hp
      dsimp only
      refine ⟨⟨(fun h => by cases h), fun h => absurd h h0⟩, ⟨?_, fun h => absurd h h0⟩,
        ⟨(fun h => by cases h), fun h => ?_⟩, (fun _ _ h => by cases h)⟩
      · rintro ⟨e, he, hu⟩
        cases he
        simp [Err.asUnmanagedControlPlaneAddress, hne] at hu
      · obtain ⟨-, -, _, h⟩ := h
        cases h
    | ok r =>
      obtain ⟨cpPort, found'⟩ := r
      dsimp only
      have hlen' : ¬ (cpHost.length = 0 ∧ cpPort = 0) := fun h =>
        h0 ((string_length_eq_zero _).1 h.1)
      rw [if_neg hlen']
      by_cases h1 : cpHost = endpoint
      · rw [if_neg (not_not.2 h1)]
        by_cases h2 : cpPort = port
        · rw [if_neg (not_not.2 h2)]
          refine ⟨⟨(fun h => by cases h), fun h => absurd h h0⟩,
            ⟨(fun ⟨e, he, _⟩ => by cases he), fun h => absurd h h0⟩,
            ⟨fun _ => ⟨h0, h1, found', by rw [h2]⟩, fun _ => rfl⟩, ?_⟩
          intro a b h _
          cases h
          exact ⟨fun h => absurd h1 h, fun _ h => absurd h2 h⟩
        · rw [if_pos h2]
          refine ⟨⟨(fun h => by cases h), fun h => absurd h h0⟩,
            ⟨?_, fun h => absurd h h0⟩, ⟨(fun h => by cases h), ?_⟩, ?_⟩
          · rintro ⟨e, he, hu⟩
            cases he
            cases hu
          · rintro ⟨-, -, f, h⟩
            cases h
            exact absurd rfl h2
          · intro a b h _
            cases h
            exact ⟨fun h => absurd h1 h, fun _ _ => rfl⟩
      · rw [if_pos h1]
        refine ⟨⟨(fun h => by cases h), fun h => absurd h h0⟩,
          ⟨?_, fun h => absurd h h0⟩, ⟨(fun h => by cases h), fun h => absurd h.2.1 h1⟩, ?_⟩
        · rintro ⟨e, he, hu⟩
          cases he
          cases hu
        · intro a b h _
          exact ⟨fun _ => rfl, fun h => absurd h h1⟩


theorem holdsOpenStackEndpoint_of_set (obj withIP obj' : String → Option JSON) (host : String)
    (port : Int) (h1 : SetNestedField obj (.str host) ["spec", "apiServerFixedIP"] = .ok withIP)
    (h2 : SetNestedField withIP (.int port) ["spec", "apiServerPort"] = .ok obj') :
    holdsOpenStackEndpoint obj' host port := by
  obtain ⟨⟨m1, ha, hb, -⟩, -⟩ := SetNestedField_two _ _ _ _ _ h1
  obtain ⟨⟨m2, hc, hd, he⟩, -⟩ := SetNestedField_two _ _ _ _ _ h2
  have hip : m2 "apiServerFixedIP" = some (.str host) := by
    rw [he "apiServerFixedIP" (by decide), ha]
    exact hb
  unfold holdsOpenStackEndpoint NestedString NestedInt64
  simp [NestedFieldNoCopy_cons, hc, hd, hip, NestedFieldNoCopy]

/-- Every patch `patchOpenStackCluster` issues sets `spec.apiServerFixedIP` and
`spec.apiServerPort` to the resolved host and port. -/
theorem patchOpenStackCluster_calls (B : Backend) (cluster : Cluster) (endpoint : String)
    (port : Int) (tr : List Call) :
    CallsAdded (fun c => ∀ before after answer, c = .patchInfra before after answer →
        holdsOpenStackEndpoint after.Object endpoint port)
      tr (patchOpenStackCluster B cluster endpoint port tr).2 := by
  have hget : ∀ ref : ObjectReference, ∀ before after answer,
      Call.getInfra ref = .patchInfra before after answer →
        holdsOpenStackEndpoint after.Object endpoint port := by
    intro ref before after answer h
    cases h
  unfold patchOpenStackCluster
  split
  · exact callsAdded_refl _ tr
  · rename_i ref _
    dsimp only
    split
    · exact callsAdded_one _ tr _ (hget ref)
    · rename_i osc _
      split
      · exact callsAdded_one _ tr _ (hget ref)
      · split
        · exact callsAdded_one _ tr _ (hget ref)
        · rename_i withIP h1
          split
          · exact callsAdded_one _ tr _ (hget ref)
          · rename_i object h2
            have hP : ∀ answer before after answer',
                Call.patchInfra osc { osc with Object := object } answer
                  = .patchInfra before after answer' →
                holdsOpenStackEndpoint after.Object endpoint port := by
              intro answer before after answer' h
              cases h
              exact holdsOpenStackEndpoint_of_set _ _ _ _ _ h1 h2
            split
            · exact callsAdded_two _ tr _ _ (hget ref) (hP _)
            · exact callsAdded_two _ tr _ _ (hget ref) (hP _)

theorem SetNestedField_two_ok (obj : String → Option JSON) (value : JSON) (a b : String)
    (h : obj a = none ∨ ∃ m, obj a = some (.obj m)) :
    ∃ obj', SetNestedField obj value [a, b] = .ok obj' := by
  rcases h with h | ⟨m, h⟩ <;> simp [SetNestedField, h]

/-- What `patchGenericCluster` does on an infrastructure cluster that can be
read, for which a patch helper can be made, and whose `spec` (and, with
status, `status`) is absent or a map: one read and one patch, the patch
carrying the endpoint; the result is nil exactly when the patch is accepted. -/
theorem patchGenericCluster_issued (B : Backend) (cluster : Cluster) (endpoint : String)
    (port : Int) (patchStatus : Bool) (tr : List Call) (ref : ObjectReference)
    (infra : Unstructured)
    (href : cluster.Spec.InfrastructureRef = some ref)
    (hget : B.getInfra tr.length ref = .ok infra)
    (hhelper : B.newPatchHelper infra = none)
    (hspec : infra.Object "spec" = none ∨ ∃ m, infra.Object "spec" = some (.obj m))
    (hstatus : patchStatus = true →
      infra.Object "status" = none ∨ ∃ m, infra.Object "status" = some (.obj m)) :
    ∃ object,
      (patchGenericCluster B cluster endpoint port patchStatus tr).2
          = tr ++ [.getInfra ref,
              .patchInfra infra { infra with Object := object }
                (B.patchInfra (tr.length + 1) infra { infra with Object := object })]
      ∧ ((patchGenericCluster B cluster endpoint port patchStatus tr).1 = none
          ↔ B.patchInfra (tr.length + 1) infra { infra with Object := object } = none)
      ∧ holdsEndpoint object endpoint port
      ∧ (patchStatus = true → holdsReady object)
      ∧ (patchStatus = false → object "status" = infra.Object "status") := by
  obtain ⟨withEndpoint, hset⟩ := SetNestedField_two_ok infra.Object (endpointMap endpoint port)
    "spec" "controlPlaneEndpoint" hspec
  have hend := holdsEndpoint_of_set _ _ _ _ hset
  have hkeep := (SetNestedField_two _ _ _ _ _ hset).2 "status" (by decide)
  cases hp : patchStatus with
  | false =>
    refine ⟨withEndpoint, ?_, ?_, hend, fun h => Bool.noConfusion h, fun _ => hkeep⟩
    · unfold patchGenericCluster
      simp only [href, hget, hhelper, hset, Bool.false_eq_true, ↓reduceIte, List.length_append,
        List.length_singleton]
      split <;> rename_i hans <;> simp [hans]
    · unfold patchGenericCluster
      simp only [href, hget, hhelper, hset, Bool.false_eq_true, ↓reduceIte, List.length_append,
        List.length_singleton]
      split <;> simp_all
  | true =>
    have hst : withEndpoint "status" = none ∨ ∃ m, withEndpoint "status" = some (.obj m) := by
      rw [hkeep]
      exact hstatus hp
    obtain ⟨object, hset2⟩ := SetNestedField_two_ok withEndpoint (.bool true) "status" "ready" hst
    have hspec2 := (SetNestedField_two _ _ _ _ _ hset2).2 "spec" (by decide)
    refine ⟨object, ?_, ?_, holdsEndpoint_of_spec _ _ _ _ hspec2 hend,
      fun _ => holdsReady_of_set _ _ hset2, fun h => Bool.noConfusion h⟩
    · unfold patchGenericCluster
      simp only [href, hget, hhelper, hset, ↓reduceIte, hset2, List.length_append,
        List.length_singleton]
      split <;> rename_i hans <;> simp [hans]
    · unfold patchGenericCluster
      simp only [href, hget, hhelper, hset, ↓reduceIte, hset2, List.length_append,
        List.length_singleton]
      split <;> simp_all

/-- When `patchGenericCluster` returns nil, it has read the infrastructure
cluster and issued one patch, which was accepted and carries the endpoint. -/
theorem patchGenericCluster_of_ok (B : Backend) (cluster : Cluster) (endpoint : String)
    (port : Int) (patchStatus : Bool) (tr : List Call) (ref : ObjectReference)
    (href : cluster.Spec.InfrastructureRef = some ref)
    (hok : (patchGenericCluster B cluster endpoint port patchStatus tr).1 = none) :
    ∃ infra object,
      B.getInfra tr.length ref = .ok infra
      ∧ (patchGenericCluster B cluster endpoint port patchStatus tr).2
          = tr ++ [.getInfra ref, .patchInfra infra { infra with Object := object } none]
      ∧ holdsEndpoint object endpoint port
      ∧ (patchStatus = true → holdsReady object)
      ∧ (patchStatus = false → object "status" = infra.Object "status") := by
  unfold patchGenericCluster at hok ⊢
  simp only [href] at hok ⊢
  cases hget : B.getInfra tr.length ref with
  | error e => simp [hget] at hok
  | ok infra =>
    simp only [hget] at hok ⊢
    cases hh : B.newPatchHelper infra with
    | some err => simp [hh] at hok
    | none =>
      simp only [hh] at hok ⊢
      cases hset : SetNestedField infra.Object (endpointMap endpoint port)
          ["spec", "controlPlaneEndpoint"] with
      | error err => simp [hset] at hok
      | ok withEndpoint =>
        simp only [hset] at hok ⊢
        have hend := holdsEndpoint_of_set _ _ _ _ hset
        have hkeep := (SetNestedField_two _ _ _ _ _ hset).2 "status" (by decide)
        cases hp : patchStatus with
        | false =>
          simp only [hp, Bool.false_eq_true, ↓reduceIte] at hok ⊢
          split at hok
          · simp at hok
          · rename_i hans
            refine ⟨infra, withEndpoint, rfl, ?_, hend, fun h => h.elim, fun _ => hkeep⟩
            simp only [hans]
            simp
        | true =>
          simp only [hp, ↓reduceIte] at hok ⊢
          cases hset2 : SetNestedField withEndpoint (.bool true) ["status", "ready"] with
          | error err => simp [hset2] at hok
          | ok object =>
            simp only [hset2] at hok ⊢
            have hspec2 := (SetNestedField_two _ _ _ _ _ hset2).2 "spec" (by decide)
            split at hok
            · simp at hok
            · rename_i hans
              refine ⟨infra, object, rfl, ?_, holdsEndpoint_of_spec _ _ _ _ hspec2 hend,
                fun _ => holdsReady_of_set _ _ hset2, fun h => Bool.noConfusion h⟩
              simp only [hans]
              simp

/-- What `patchOpenStackCluster` does on an infrastructure cluster that can be
read, for which a patch helper can be made, and whose `spec` is absent or a
map: one read and one patch, the patch carrying the host and the port; the
result is nil exactly when the patch is accepted. -/
theorem patchOpenStackCluster_issued (B : Backend) (cluster : Cluster) (endpoint : String)
    (port : Int) (tr : List Call) (ref : ObjectReference) (osc : Unstructured)
    (href : cluster.Spec.InfrastructureRef = some ref)
    (hget : B.getInfra tr.length ref = .ok osc)
    (hhelper : B.newPatchHelper osc = none)
    (hspec : osc.Object "spec" = none ∨ ∃ m, osc.Object "spec" = some (.obj m)) :
    ∃ object,
      (patchOpenStackCluster B cluster endpoint port tr).2
          = tr ++ [.getInfra ref,
              .patchInfra osc { osc with Object := object }
                (B.patchInfra (tr.length + 1) osc { osc with Object := object })]
      ∧ ((patchOpenStackCluster B cluster endpoint port tr).1 = none
          ↔ B.patchInfra (tr.length + 1) osc { osc with Object := object } = none)
      ∧ holdsOpenStackEndpoint object endpoint port
      ∧ (∀ k, k ≠ "spec" → object k = osc.Object k) := by
  obtain ⟨withIP, hset⟩ := SetNestedField_two_ok osc.Object (.str endpoint)
    "spec" "apiServerFixedIP" hspec
  obtain ⟨⟨m1, hm1, -, -⟩, hkeep1⟩ := SetNestedField_two _ _ _ _ _ hset
  obtain ⟨object, hset2⟩ := SetNestedField_two_ok withIP (.int port) "spec" "apiServerPort"
    (Or.inr ⟨m1, hm1⟩)
  have hkeep2 := (SetNestedField_two _ _ _ _ _ hset2).2
  refine ⟨object, ?_, ?_, holdsOpenStackEndpoint_of_set _ _ _ _ _ hset hset2,
    fun k hk => by rw [hkeep2 k hk, hkeep1 k hk]⟩
  · unfold patchOpenStackCluster
    simp only [href, hget, hhelper, hset, hset2, List.length_append, List.length_singleton]
    split <;> rename_i hans <;> simp [hans]
  · unfold patchOpenStackCluster
    simp only [href, hget, hhelper, hset, hset2, List.length_append, List.length_singleton]
    split <;> simp_all

/-- When `patchOpenStackCluster` returns nil, it has read the infrastructure
cluster and issued one patch, which was accepted and carries the host and the
port. -/
theorem patchOpenStackCluster_of_ok (B : Backend) (cluster : Cluster) (endpoint : String)
    (port : Int) (tr : List Call) (ref : ObjectReference)
    (href : cluster.Spec.InfrastructureRef = some ref)
    (hok : (patchOpenStackCluster B cluster endpoint port tr).1 = none) :
    ∃ osc object,
      B.getInfra tr.length ref = .ok osc
      ∧ (patchOpenStackCluster B cluster endpoint port tr).2
          = tr ++ [.getInfra ref, .patchInfra osc { osc with Object := object } none]
      ∧ holdsOpenStackEndpoint object endpoint port
      ∧ (∀ k, k ≠ "spec" → object k = osc.Object k) := by
  unfold patchOpenStackCluster at hok ⊢
  simp only [href] at hok ⊢
  cases hget : B.getInfra tr.length ref with
  | error e => simp [hget] at hok
  | ok osc =>
    simp only [hget] at hok ⊢
    cases hh : B.newPatchHelper osc with
    | some err => simp [hh] at hok
    | none =>
      simp only [hh] at hok ⊢
      cases hset : SetNestedField osc.Object (.str endpoint) ["spec", "apiServerFixedIP"] with
      | error err => simp [hset] at hok
      | ok withIP =>
        simp only [hset] at hok ⊢
        cases hset2 : SetNestedField withIP (.int port) ["spec", "apiServerPort"] with
        | error err => simp [hset2] at hok
        | ok object =>
          simp only [hset2] at hok ⊢
          have hkeep1 := (SetNestedField_two _ _ _ _ _ hset).2
          have hkeep2 := (SetNestedField_two _ _ _ _ _ hset2).2
          split at hok
          · simp at hok
          · rename_i hans
            refine ⟨osc, object, rfl, ?_, holdsOpenStackEndpoint_of_set _ _ _ _ _ hset hset2,
              fun k hk => by rw [hkeep2 k hk, hkeep1 k hk]⟩
            simp only [hans]
            simp

/-- When `checkOrPatchGenericCluster` returns nil, either the validation passed
after one read and nothing was written, or the validation found no address
and the patch without status was issued and accepted. -/
theorem checkOrPatchGenericCluster_of_ok (B : Backend) (cluster : Cluster) (endpoint : String)
    (port : Int) (tr : List Call) (ref : ObjectReference)
    (href : cluster.Spec.InfrastructureRef = some ref)
    (hok : (checkOrPatchGenericCluster B cluster endpoint port tr).1 = none) :
    ((checkGenericCluster B cluster endpoint port tr).1 = none
        ∧ (checkOrPatchGenericCluster B cluster endpoint port tr).2 = tr ++ [.getInfra ref])
    ∨ ((∃ err, (checkGenericCluster B cluster endpoint port tr).1 = some err
          ∧ err.asUnmanagedControlPlaneAddress = true)
        ∧ ∃ infra object,
          (checkOrPatchGenericCluster B cluster endpoint port tr).2
            = tr ++ [.getInfra ref, .getInfra ref,
                .patchInfra infra { infra with Object := object } none]
          ∧ holdsEndpoint object endpoint port
          ∧ object "status" = infra.Object "status") := by
  have htr := checkGenericCluster_trace B cluster endpoint port tr ref href
  unfold checkOrPatchGenericCluster at hok ⊢
  rcases hc : checkGenericCluster B cluster endpoint port tr with ⟨r, tr1⟩
  rw [hc] at htr
  simp only at htr
  subst htr
  cases r with
  | none => exact Or.inl ⟨rfl, rfl⟩
  | some err =>
    simp only [hc] at hok ⊢
    by_cases hu : err.asUnmanagedControlPlaneAddress = true
    · simp only [hu, ↓reduceIte] at hok ⊢
      obtain ⟨infra, object, -, htrace, hend, -, hst⟩ :=
        patchGenericCluster_of_ok B cluster endpoint port false _ ref href hok
      refine Or.inr ⟨⟨err, rfl, hu⟩, infra, object, ?_, hend, hst rfl⟩
      rw [htrace]
      simp
    · simp [hu] at hok

/-- C18. Given a cluster with an infrastructure reference and a resolvable
endpoint, `patchCluster` does what the dispatch table says for the kind of
the reference: AWS, Azure, Hetzner and IonosCloud clusters are patched
unconditionally without status; Kubevirt, Nutanix and Packet clusters are
patched unconditionally with `status.ready` set to true; Metal3 clusters are
only validated; OpenStack clusters get the dedicated variant; Proxmox,
Tinkerbell and VSphere clusters are validated then patched; any other kind is
patched unconditionally without status when it is among the dynamic kinds,
and fails with "unsupported infrastructure provider" without any call
otherwise. The unconditional strategy, on an infrastructure cluster that can
be read and patched and whose `spec` (with status also `status`) is absent or
a map, issues after the read exactly one patch, which writes the resolved
host and port as `spec.controlPlaneEndpoint`, with status also `status.ready`,
without status leaving the status as read, and it returns nil exactly when
that patch is accepted; whenever it returns nil such a patch was issued and
accepted; every patch it issues is of that form. The validate-only strategy
issues the read and no patch. The OpenStack variant likewise issues exactly
one patch writing `spec.apiServerFixedIP` and `spec.apiServerPort` and leaving
all but `spec` as read. The validate-then-patch strategy returns nil only
after a passed validation without any write, or after the validation found no
address and the patch without status was accepted. -/
theorem C18_patch_cluster_dispatch (B : Backend) (cluster : Cluster) (scp : StewardControlPlane)
    (hostPort : String) (tr : List Call) (ref : ObjectReference) (endpoint : String) (port : Int)
    (href : cluster.Spec.InfrastructureRef = some ref)
    (hep : controlPlaneEndpoint scp hostPort = .ok (endpoint, port)) :
    patchCluster B cluster scp hostPort tr
        = runStrategy B (dispatchTable ref.Kind B.dynamicInfrastructureClusters) cluster endpoint
            port tr
    ∧ (∀ status, CallsAdded (fun c => ∀ before after answer,
          c = .patchInfra before after answer →
            holdsEndpoint after.Object endpoint port
            ∧ (status = true → holdsReady after.Object)
            ∧ (status = false → after.Object "status" = before.Object "status"))
        tr (runStrategy B (.patchUnconditional status) cluster endpoint port tr).2)
    ∧ (∀ status infra, B.getInfra tr.length ref = .ok infra → B.newPatchHelper infra = none →
        (infra.Object "spec" = none ∨ ∃ m, infra.Object "spec" = some (.obj m)) →
        (status = true →
          infra.Object "status" = none ∨ ∃ m, infra.Object "status" = some (.obj m)) →
        ∃ object,
          (runStrategy B (.patchUnconditional status) cluster endpoint port tr).2
              = tr ++ [.getInfra ref,
                  .patchInfra infra { infra with Object := object }
                    (B.patchInfra (tr.length + 1) infra { infra with Object := object })]
          ∧ ((runStrategy B (.patchUnconditional status) cluster endpoint port tr).1 = none
              ↔ B.patchInfra (tr.length + 1) infra { infra with Object := object } = none)
          ∧ holdsEndpoint object endpoint port
          ∧ (status = true → holdsReady object)
          ∧ (status = false → object "status" = infra.Object "status"))
    ∧ (∀ status, (runStrategy B (.patchUnconditional status) cluster endpoint port tr).1 = none →
        ∃ infra object,
          B.getInfra tr.length ref = .ok infra
          ∧ (runStrategy B (.patchUnconditional status) cluster endpoint port tr).2
              = tr ++ [.getInfra ref, .patchInfra infra { infra with Object := object } none]
          ∧ holdsEndpoint object endpoint port
          ∧ (status = true → holdsReady object)
          ∧ (status = false → object "status" = infra.Object "status"))
    ∧ (runStrategy B .validateOnly cluster endpoint port tr).2 = tr ++ [.getInfra ref]
    ∧ CallsAdded (fun c => ∀ before after answer, c = .patchInfra before after answer →
          holdsOpenStackEndpoint after.Object endpoint port)
        tr (runStrategy B .openStack cluster endpoint port tr).2
    ∧ (∀ osc, B.getInfra tr.length ref = .ok osc → B.newPatchHelper osc = none →
        (osc.Object "spec" = none ∨ ∃ m, osc.Object "spec" = some (.obj m)) →
        ∃ object,
          (runStrategy B .openStack cluster endpoint port tr).2
              = tr ++ [.getInfra ref,
                  .patchInfra osc { osc with Object := object }
                    (B.patchInfra (tr.length + 1) osc { osc with Object := object })]
          ∧ ((runStrategy B .openStack cluster endpoint port tr).1 = none
              ↔ B.patchInfra (tr.length + 1) osc { osc with Object := object } = none)
          ∧ holdsOpenStackEndpoint object endpoint port
          ∧ (∀ k, k ≠ "spec" → object k = osc.Object k))
    ∧ ((runStrategy B .openStack cluster endpoint port tr).1 = none →
        ∃ osc object,
          B.getInfra tr.length ref = .ok osc
          ∧ (runStrategy B .openStack cluster endpoint port tr).2
              = tr ++ [.getInfra ref, .patchInfra osc { osc with Object := object } none]
          ∧ holdsOpenStackEndpoint object endpoint port
          ∧ (∀ k, k ≠ "spec" → object k = osc.Object k))
    ∧ runStrategy B .validateThenPatch cluster endpoint port tr
        = checkOrPatchGenericCluster B cluster endpoint port tr
    ∧ ((runStrategy B .validateThenPatch cluster endpoint port tr).1 = none →
        ((runStrategy B .validateOnly cluster endpoint port tr).1 = none
          ∧ (runStrategy B .validateThenPatch cluster endpoint port tr).2
              = tr ++ [.getInfra ref])
        ∨ ((∃ err, (runStrategy B .validateOnly cluster endpoint port tr).1 = some err
              ∧ err.asUnmanagedControlPlaneAddress = true)
            ∧ ∃ infra object,
              (runStrategy B .validateThenPatch cluster endpoint port tr).2
                = tr ++ [.getInfra ref, .getInfra ref,
                    .patchInfra infra { infra with Object := object } none]
              ∧ holdsEndpoint object endpoint port
              ∧ object "status" = infra.Object "status"))
    ∧ runStrategy B .unsupported cluster endpoint port tr
        = (some (.other "unsupported infrastructure provider"), tr) :=
  ⟨patchCluster_dispatch B cluster scp hostPort tr ref endpoint port href hep,
   fun status => patchGenericCluster_calls B cluster endpoint port status tr,
   fun status infra hget hhelper hspec hstatus =>
     patchGenericCluster_issued B cluster endpoint port status tr ref infra href hget hhelper
       hspec hstatus,
   fun status hok => patchGenericCluster_of_ok B cluster endpoint port status tr ref href hok,
   checkGenericCluster_trace B cluster endpoint port tr ref href,
   patchOpenStackCluster_calls B cluster endpoint port tr,
   fun osc hget hhelper hspec =>
     patchOpenStackCluster_issued B cluster endpoint port tr ref osc href hget hhelper hspec,
   fun hok => patchOpenStackCluster_of_ok B cluster endpoint port tr ref href hok,
   rfl,
   fun hok => checkOrPatchGenericCluster_of_ok B cluster endpoint port tr ref href hok,
   rfl⟩

/-- C18 at concrete inputs: a Kubevirt cluster, whose blank infrastructure
cluster receives one accepted patch with the endpoint and the ready status;
an OpenStack cluster, which receives one accepted patch with the fixed
address and port; and a kind that is neither in the table nor among the
dynamic kinds. -/
theorem C18_patch_cluster_dispatch_witness :
    patchCluster (backendInfra (infraBlank "KubevirtCluster")) (clusterWithInfra "KubevirtCluster")
        claimInitialized "10.0.0.1:6443" []
      = runStrategy (backendInfra (infraBlank "KubevirtCluster")) (.patchUnconditional true)
          (clusterWithInfra "KubevirtCluster") "10.0.0.1" 6443 []
    ∧ (∃ infra object,
        (runStrategy (backendInfra (infraBlank "KubevirtCluster")) (.patchUnconditional true)
            (clusterWithInfra "KubevirtCluster") "10.0.0.1" 6443 []).2
          = [] ++ [.getInfra
                { APIVersion := "infrastructure.cluster.x-k8s.io/v1beta1",
                  Kind := "KubevirtCluster", Name := "c1", Namespace := "default" },
              .patchInfra infra { infra with Object := object } none]
        ∧ holdsEndpoint object "10.0.0.1" 6443
        ∧ holdsReady object)
    ∧ (∃ osc object,
        (runStrategy (backendInfra (infraBlank "OpenStackCluster")) .openStack
            (clusterWithInfra "OpenStackCluster") "10.0.0.1" 6443 []).2
          = [] ++ [.getInfra
                { APIVersion := "infrastructure.cluster.x-k8s.io/v1beta1",
                  Kind := "OpenStackCluster", Name := "c1", Namespace := "default" },
              .patchInfra osc { osc with Object := object } none]
        ∧ holdsOpenStackEndpoint object "10.0.0.1" 6443)
    ∧ patchCluster (backendInfra (infraBlank "DockerCluster")) (clusterWithInfra "DockerCluster")
        claimInitialized "10.0.0.1:6443" []
      = (some (.other "unsupported infrastructure provider"), []) :=
  ⟨(C18_patch_cluster_dispatch (backendInfra (infraBlank "KubevirtCluster"))
      (clusterWithInfra "KubevirtCluster") claimInitialized "10.0.0.1:6443" [] _ "10.0.0.1" 6443
      rfl rfl).1,
   (let ⟨infra, object, _, htrace, hend, hready, _⟩ :=
      (C18_patch_cluster_dispatch (backendInfra (infraBlank "KubevirtCluster"))
        (clusterWithInfra "KubevirtCluster") claimInitialized "10.0.0.1:6443" [] _ "10.0.0.1"
        6443 rfl rfl).2.2.2.1 true rfl
    ⟨infra, object, htrace, hend, hready rfl⟩),
   (let ⟨osc, object, _, htrace, hend, _⟩ :=
      (C18_patch_cluster_dispatch (backendInfra (infraBlank "OpenStackCluster"))
        (clusterWithInfra "OpenStackCluster") claimInitialized "10.0.0.1:6443" [] _ "10.0.0.1"
        6443 rfl rfl).2.2.2.2.2.2.2.1 rfl
    ⟨osc, object, htrace, hend⟩),
   (C18_patch_cluster_dispatch (backendInfra (infraBlank "DockerCluster"))
      (clusterWithInfra "DockerCluster") claimInitialized "10.0.0.1:6443" [] _ "10.0.0.1" 6443
      rfl rfl).1⟩

theorem checkGenericCluster_host_unreadable (B : Backend) (cluster : Cluster)
    (endpoint : String) (port : Int) (tr : List Call) (ref : ObjectReference)
    (gkc : Unstructured) (err : Err) (href : cluster.Spec.InfrastructureRef = some ref)
    (hget : B.getInfra tr.length ref = .ok gkc)
    (hhost : NestedString gkc.Object ["spec", "controlPlaneEndpoint", "host"] = .error err) :
    (checkGenericCluster B cluster endpoint port tr).1
      = some (.wrap "cannot extract control plane endpoint host: " err) := by
  unfold checkGenericCluster
  simp only [href, hget, hhost]

/-- What `checkGenericCluster` returns on an infrastructure cluster that can be
read, in terms of what the accessors read of its endpoint. -/
theorem checkGenericCluster_classes (B : Backend) (cluster : Cluster) (endpoint : String)
    (port : Int) (tr : List Call) (ref : ObjectReference) (gkc : Unstructured)
    (href : cluster.Spec.InfrastructureRef = some ref)
    (hget : B.getInfra tr.length ref = .ok gkc) :
    ((checkGenericCluster B cluster endpoint port tr).1
        = some (.unmanagedControlPlaneAddress gkc.Kind)
      ↔ ∃ found, NestedString gkc.Object ["spec", "controlPlaneEndpoint", "host"]
          = .ok ("", found))
    ∧ ((∃ e, (checkGenericCluster B cluster endpoint port tr).1 = some e
          ∧ e.asUnmanagedControlPlaneAddress = true)
      ↔ ∃ found, NestedString gkc.Object ["spec", "controlPlaneEndpoint", "host"]
          = .ok ("", found))
    ∧ ((checkGenericCluster B cluster endpoint port tr).1 = none
      ↔ ∃ cpHost found found',
          NestedString gkc.Object ["spec", "controlPlaneEndpoint", "host"] = .ok (cpHost, found)
          ∧ cpHost ≠ "" ∧ cpHost = endpoint
          ∧ NestedInt64 gkc.Object ["spec", "controlPlaneEndpoint", "port"]
              = .ok (port, found')) := by
  cases hs : NestedString gkc.Object ["spec", "controlPlaneEndpoint", "host"] with
  | error err =>
    have hr := checkGenericCluster_host_unreadable B cluster endpoint port tr ref gkc err href
      hget hs
    have hne := NestedString_err _ _ _ hs
    rw [hr]
    refine ⟨⟨(fun h => by cases h), (fun ⟨_, h⟩ => by cases h)⟩,
      ⟨?_, (fun ⟨_, h⟩ => by cases h)⟩,
      ⟨(fun h => by cases h), (fun ⟨_, _, _, h, _⟩ => by cases h)⟩⟩
    rintro ⟨e, he, hu⟩
    cases he
    simp [Err.asUnmanagedControlPlaneAddress, hne] at hu
  | ok r =>
    obtain ⟨cpHost, found⟩ := r
    have h := checkGenericCluster_spec B cluster endpoint port tr ref gkc cpHost found href hget
      hs
    refine ⟨h.1.trans ?_, h.2.1.trans ?_, h.2.2.1.trans ?_⟩
    · exact ⟨fun h0 => ⟨found, by rw [h0]⟩, fun ⟨_, hx⟩ => by cases hx; rfl⟩
    · exact ⟨fun h0 => ⟨found, by rw [h0]⟩, fun ⟨_, hx⟩ => by cases hx; rfl⟩
    · constructor
      · rintro ⟨h0, h1, found', hp⟩
        exact ⟨cpHost, found, found', rfl, h0, h1, hp⟩
      · rintro ⟨cpHost', found1, found', hx, h0, h1, hp⟩
        cases hx
        exact ⟨h0, h1, found', hp⟩

/-- C19. For every infrastructure cluster that can be read, `checkGenericCluster`
issues the read and nothing else, and classifies the cluster by its
`spec.controlPlaneEndpoint`: it returns the unmanaged-address error exactly
when the host reads as the empty string, which is how an absent host reads;
otherwise, the port reading as `cpPort` (zero when absent), it returns the
mismatching-host error when the host differs from the resolved host,
otherwise the mismatching-port error when the port differs from the
resolved port; and it returns nil exactly when the host is not empty and host
and port equal the resolved values. -/
theorem C19_check_classifies (B : Backend) (cluster : Cluster) (endpoint : String)
    (port : Int) (tr : List Call) (ref : ObjectReference) (gkc : Unstructured)
    (href : cluster.Spec.InfrastructureRef = some ref)
    (hget : B.getInfra tr.length ref = .ok gkc) :
    (checkGenericCluster B cluster endpoint port tr).2 = tr ++ [.getInfra ref]
    ∧ ((checkGenericCluster B cluster endpoint port tr).1
        = some (.unmanagedControlPlaneAddress gkc.Kind)
      ↔ ∃ found, NestedString gkc.Object ["spec", "controlPlaneEndpoint", "host"]
          = .ok ("", found))
    ∧ (NestedFieldNoCopy (.obj gkc.Object) ["spec", "controlPlaneEndpoint", "host"] = .ok none →
        NestedString gkc.Object ["spec", "controlPlaneEndpoint", "host"] = .ok ("", false))
    ∧ ((checkGenericCluster B cluster endpoint port tr).1 = none
      ↔ ∃ cpHost found found',
          NestedString gkc.Object ["spec", "controlPlaneEndpoint", "host"] = .ok (cpHost, found)
          ∧ cpHost ≠ "" ∧ cpHost = endpoint
          ∧ NestedInt64 gkc.Object ["spec", "controlPlaneEndpoint", "port"]
              = .ok (port, found'))
    ∧ ∀ cpHost found cpPort found',
        NestedString gkc.Object ["spec", "controlPlaneEndpoint", "host"] = .ok (cpHost, found) →
        NestedInt64 gkc.Object ["spec", "controlPlaneEndpoint", "port"] = .ok (cpPort, found') →
        cpHost ≠ "" →
        (cpHost ≠ endpoint → (checkGenericCluster B cluster endpoint port tr).1
          = some (.other ("the " ++ gkc.Kind
              ++ " cluster has been provisioned with a mismatching host")))
        ∧ (cpHost = endpoint → cpPort ≠ port →
            (checkGenericCluster B cluster endpoint port tr).1
              = some (.other ("the " ++ gkc.Kind
                  ++ " cluster has been provisioned with a mismatching port"))) := by
  have h := checkGenericCluster_classes B cluster endpoint port tr ref gkc href hget
  refine ⟨checkGenericCluster_trace B cluster endpoint port tr ref href, h.1, ?_, h.2.2, ?_⟩
  · intro habsent
    unfold NestedString
    rw [habsent]
  · intro cpHost found cpPort found' hhost hport h0
    exact (checkGenericCluster_spec B cluster endpoint port tr ref gkc cpHost found href hget
      hhost).2.2.2 cpPort found' hport h0

/-- C19 at concrete inputs: a Metal3 cluster provisioned with another host, and
one without endpoint. -/
theorem C19_check_classifies_witness :
    (checkGenericCluster (backendInfra (infraWithEndpoint "Metal3Cluster" "10.0.0.9" 6443))
        (clusterWithInfra "Metal3Cluster") "10.0.0.1" 6443 []).1
      = some (.other "the Metal3Cluster cluster has been provisioned with a mismatching host")
    ∧ (checkGenericCluster (backendInfra (infraBlank "Metal3Cluster"))
        (clusterWithInfra "Metal3Cluster") "10.0.0.1" 6443 []).1
      = some (.unmanagedControlPlaneAddress "Metal3Cluster") :=
  ⟨((C19_check_classifies (backendInfra (infraWithEndpoint "Metal3Cluster" "10.0.0.9" 6443))
      (clusterWithInfra "Metal3Cluster") "10.0.0.1" 6443 [] _
      (infraWithEndpoint "Metal3Cluster" "10.0.0.9" 6443) rfl rfl).2.2.2.2
      "10.0.0.9" true 6443 true rfl rfl (by decide)).1 (by decide),
   (C19_check_classifies (backendInfra (infraBlank "Metal3Cluster"))
      (clusterWithInfra "Metal3Cluster") "10.0.0.1" 6443 [] _
      (infraBlank "Metal3Cluster") rfl rfl).2.1.2 ⟨false, rfl⟩⟩

/-- C20. `checkOrPatchGenericCluster` falls back to the patch exactly when the
validation returned the unmanaged-address error: then it does what
`patchGenericCluster` without status does after the validation; otherwise
it returns what the validation returned, nil or the error unchanged, and
issues no patch, the validation issuing none. On an infrastructure cluster
that can be read, the validation returns that error exactly when the
endpoint host reads as the empty string (as an absent host does); for a host
that is not empty the only call is the read, and the result is nil exactly
when host and port equal the resolved values. -/
theorem C20_check_or_patch (B : Backend) (cluster : Cluster) (endpoint : String) (port : Int)
    (tr : List Call) :
    ((∃ e, (checkGenericCluster B cluster endpoint port tr).1 = some e
          ∧ e.asUnmanagedControlPlaneAddress = true) →
        checkOrPatchGenericCluster B cluster endpoint port tr
          = patchGenericCluster B cluster endpoint port false
              (checkGenericCluster B cluster endpoint port tr).2)
    ∧ ((¬ ∃ e, (checkGenericCluster B cluster endpoint port tr).1 = some e
          ∧ e.asUnmanagedControlPlaneAddress = true) →
        checkOrPatchGenericCluster B cluster endpoint port tr
            = checkGenericCluster B cluster endpoint port tr
          ∧ CallsAdded (fun c => c.isInfraPatch = false) tr
              (checkOrPatchGenericCluster B cluster endpoint port tr).2)
    ∧ ∀ (ref : ObjectReference) (gkc : Unstructured),
        cluster.Spec.InfrastructureRef = some ref →
        B.getInfra tr.length ref = .ok gkc →
        ((∃ e, (checkGenericCluster B cluster endpoint port tr).1 = some e
            ∧ e.asUnmanagedControlPlaneAddress = true)
          ↔ ∃ found, NestedString gkc.Object ["spec", "controlPlaneEndpoint", "host"]
              = .ok ("", found))
        ∧ ∀ cpHost found,
            NestedString gkc.Object ["spec", "controlPlaneEndpoint", "host"]
              = .ok (cpHost, found) →
            cpHost ≠ "" →
            (checkOrPatchGenericCluster B cluster endpoint port tr).2 = tr ++ [.getInfra ref]
            ∧ (checkOrPatchGenericCluster B cluster endpoint port tr).1
                = (checkGenericCluster B cluster endpoint port tr).1
            ∧ ((checkOrPatchGenericCluster B cluster endpoint port tr).1 = none
                ↔ cpHost = endpoint
                  ∧ ∃ found', NestedInt64 gkc.Object ["spec", "controlPlaneEndpoint", "port"]
                      = .ok (port, found')) := by
  have hfall : (∃ e, (checkGenericCluster B cluster endpoint port tr).1 = some e
        ∧ e.asUnmanagedControlPlaneAddress = true) →
      checkOrPatchGenericCluster B cluster endpoint port tr
        = patchGenericCluster B cluster endpoint port false
            (checkGenericCluster B cluster endpoint port tr).2 := by
    rintro ⟨e, he, hu⟩
    unfold checkOrPatchGenericCluster
    rcases hc : checkGenericCluster B cluster endpoint port tr with ⟨r, tr1⟩
    rw [hc] at he
    cases he
    simp only [hu, ↓reduceIte]
  have hkeep : (¬ ∃ e, (checkGenericCluster B cluster endpoint port tr).1 = some e
        ∧ e.asUnmanagedControlPlaneAddress = true) →
      checkOrPatchGenericCluster B cluster endpoint port tr
        = checkGenericCluster B cluster endpoint port tr := by
    intro hn
    unfold checkOrPatchGenericCluster
    rcases hc : checkGenericCluster B cluster endpoint port tr with ⟨r, tr1⟩
    rw [hc] at hn
    cases r with
    | none => rfl
    | some err =>
      have : ¬ err.asUnmanagedControlPlaneAddress = true := fun h => hn ⟨err, rfl, h⟩
      simp only [this, Bool.false_eq_true, ↓reduceIte]
  refine ⟨hfall, fun hn => ⟨hkeep hn, ?_⟩, ?_⟩
  · rw [hkeep hn]
    exact checkGenericCluster_no_patch B cluster endpoint port tr
  · intro ref gkc href hget
    refine ⟨(checkGenericCluster_classes B cluster endpoint port tr ref gkc href hget).2.1, ?_⟩
    intro cpHost found hhost h0
    have h := checkGenericCluster_spec B cluster endpoint port tr ref gkc cpHost found href hget
      hhost
    have hn : ¬ ∃ e, (checkGenericCluster B cluster endpoint port tr).1 = some e
        ∧ e.asUnmanagedControlPlaneAddress = true := fun hx => h0 (h.2.1.1 hx)
    rw [hkeep hn]
    refine ⟨checkGenericCluster_trace B cluster endpoint port tr ref href, rfl, ?_⟩
    rw [h.2.2.1]
    exact ⟨fun hx => hx.2, fun hx => ⟨h0, hx⟩⟩

/-- C20 at concrete inputs: a VSphere cluster without endpoint is validated, read
again and patched; one with the resolved endpoint is only read. -/
theorem C20_check_or_patch_witness :
    checkOrPatchGenericCluster (backendInfra (infraBlank "VSphereCluster"))
        (clusterWithInfra "VSphereCluster") "10.0.0.1" 6443 []
      = patchGenericCluster (backendInfra (infraBlank "VSphereCluster"))
          (clusterWithInfra "VSphereCluster") "10.0.0.1" 6443 false
          (checkGenericCluster (backendInfra (infraBlank "VSphereCluster"))
            (clusterWithInfra "VSphereCluster") "10.0.0.1" 6443 []).2
    ∧ (checkOrPatchGenericCluster (backendInfra (infraBlank "VSphereCluster"))
        (clusterWithInfra "VSphereCluster") "10.0.0.1" 6443 []).2.map Call.isInfraPatch
      = [false, false, true]
    ∧ (checkOrPatchGenericCluster (backendInfra (infraWithEndpoint "VSphereCluster" "10.0.0.1" 6443))
        (clusterWithInfra "VSphereCluster") "10.0.0.1" 6443 []).1 = none :=
  ⟨(C20_check_or_patch (backendInfra (infraBlank "VSphereCluster"))
      (clusterWithInfra "VSphereCluster") "10.0.0.1" 6443 []).1 ⟨_, rfl, rfl⟩,
   by decide,
   (((C20_check_or_patch (backendInfra (infraWithEndpoint "VSphereCluster" "10.0.0.1" 6443))
      (clusterWithInfra "VSphereCluster") "10.0.0.1" 6443 []).2.2 _
      (infraWithEndpoint "VSphereCluster" "10.0.0.1" 6443) rfl rfl).2 "10.0.0.1" true rfl
      (by decide)).2.2.2 ⟨rfl, true, rfl⟩⟩



/-! ## The status updates of a pass -/

theorem handleFinalizerAttempt_quiet (env : Env)
    (s : (StewardControlPlane × List String) × List Event) :
    Extends (fun e => e.statusSent = none) s.2 (handleFinalizerAttempt env s).1.2 := by
  unfold handleFinalizerAttempt
  dsimp only
  cases env.getClaim s.2.length s.1.1.Meta.Namespace s.1.1.Meta.Name with
  | error e => exact Extends.append _ _ (by simp [Event.statusSent])
  | ok fetched =>
    dsimp only
    split
    · rw [append_two]
      exact Extends.append _ _ (by simp [Event.statusSent])
    · rw [append_two]
      exact Extends.append _ _ (by simp [Event.statusSent])

theorem handleFinalizer_quiet (env : Env) (scp : StewardControlPlane) (tr : List Event) :
    Extends (fun e => e.statusSent = none) tr (handleFinalizer env scp tr).1.2 := by
  unfold handleFinalizer
  dsimp only
  split
  · have h := retry_extends _ (handleFinalizerAttempt env) (handleFinalizerAttempt_quiet env)
      ((scp, setsNew scp.Meta.Finalizers), tr)
    split <;> rename_i hr <;> rw [hr] at h <;> exact h
  · exact Extends.refl _ _

theorem removeFinalizerAttempt_quiet (env : Env) (s : StewardControlPlane × List Event) :
    Extends (fun e => e.statusSent = none) s.2 (removeFinalizerAttempt env s).1.2 := by
  unfold removeFinalizerAttempt
  dsimp only
  cases env.getClaim s.2.length s.1.Meta.Namespace s.1.Meta.Name with
  | error e => exact Extends.append _ _ (by simp [Event.statusSent])
  | ok fetched =>
    dsimp only
    split
    · rw [append_two]
      exact Extends.append _ _ (by simp [Event.statusSent])
    · rw [append_two]
      exact Extends.append _ _ (by simp [Event.statusSent])

theorem handleDeletion_quiet (env : Env) (scp : StewardControlPlane) (tr : List Event) :
    Extends (fun e => e.statusSent = none) tr (handleDeletion env scp tr).2 := by
  unfold handleDeletion
  dsimp only
  split
  · exact Extends.refl _ _
  · split
    · exact Extends.append _ _ (by simp [Event.statusSent])
    · rename_i remoteClient _
      have h1 : Extends (fun e => e.statusSent = none) tr (tr ++ [Event.extractRemoteClient]) :=
        Extends.append _ _ (by simp [Event.statusSent])
      split
      · exact h1
      · rename_i name ns _
        split
        · split <;> exact h1.trans (Extends.append _ _ (by simp [Event.statusSent]))
        · have h2 : Extends (fun e => e.statusSent = none) tr
              (tr ++ [Event.extractRemoteClient]
                ++ [Event.deleteTCP remoteClient ns name none]) :=
            h1.trans (Extends.append _ _ (by simp [Event.statusSent]))
          have h3 := retry_extends _ (removeFinalizerAttempt env)
            (removeFinalizerAttempt_quiet env)
            (scp, tr ++ [Event.extractRemoteClient] ++ [Event.deleteTCP remoteClient ns name none])
          split
          · rename_i hr
            rw [hr] at h3
            split <;> exact h2.trans h3
          · rename_i hr
            rw [hr] at h3
            exact h2.trans h3

theorem targetsTCP_quiet {c : Client} {ns name : String} {e : Event}
    (h : e.targetsTCP c ns name) : e.statusSent = none := by
  cases e <;> first | rfl | exact absurd h (by simp [Event.targetsTCP])

theorem createOrUpdateAttempt_quiet (env : Env) (remoteClient : Option Client)
    (cluster : Cluster) (scp : StewardControlPlane) (s : TenantControlPlane × List Event) :
    Extends (fun e => e.statusSent = none) s.2
      (createOrUpdateAttempt env remoteClient cluster scp s).1.2 := by
  unfold createOrUpdateAttempt
  cases remoteClient with
  | none =>
    dsimp only
    obtain ⟨⟨added, hadd, hgood⟩, -⟩ := CreateOrUpdate_spec env .management
      (mutateFn false cluster scp) (fun _ => True)
      (fun t e => mutateFn_err_not_conflict false cluster scp t e) (fun _ _ => trivial) s
    exact ⟨added, hadd, fun e he => targetsTCP_quiet (hgood e he).1⟩
  | some rc =>
    dsimp only
    cases GenerateRemoteTenantControlPlaneNames scp with
    | none => exact Extends.refl _ _
    | some names =>
      obtain ⟨name, ns⟩ := names
      dsimp only
      obtain ⟨⟨added, hadd, hgood⟩, -⟩ := CreateOrUpdate_spec env rc
        (mutateFn true cluster scp) (fun _ => True)
        (fun t e => mutateFn_err_not_conflict true cluster scp t e) (fun _ _ => trivial)
        ({ s.1 with Meta.Name := name, Meta.Namespace := ns }, s.2)
      exact ⟨added, hadd, fun e he => targetsTCP_quiet (hgood e he).1⟩

theorem createOrUpdate_quiet (env : Env) (remoteClient : Option Client) (cluster : Cluster)
    (scp : StewardControlPlane) (tr : List Event) :
    Extends (fun e => e.statusSent = none) tr
      (createOrUpdateTenantControlPlane env remoteClient cluster scp tr).2 := by
  have h := retry_extends _ (createOrUpdateAttempt env remoteClient cluster scp)
    (createOrUpdateAttempt_quiet env remoteClient cluster scp)
    ({ Meta := { Name := scp.Meta.Name, Namespace := scp.Meta.Namespace } }, tr)
  unfold createOrUpdateTenantControlPlane
  dsimp only at h ⊢
  split <;> rename_i hr <;> rw [hr] at h <;> exact h

theorem reconcileGates_quiet (env : Env) (ns name : String) :
    (∀ ret, reconcileGates env ns name = .error ret → ∀ e ∈ ret.trace, e.statusSent = none)
    ∧ (∀ st, reconcileGates env ns name = .ok st → ∀ e ∈ st.trace, e.statusSent = none) := by
  have h1 : ∀ e ∈ [Event.getClaim ns name], e.statusSent = none := by simp [Event.statusSent]
  have h2 : ∀ ns' name', ∀ e ∈ [Event.getClaim ns name] ++ [Event.getCluster ns' name'],
      e.statusSent = none := by simp [Event.statusSent]
  unfold reconcileGates
  dsimp only
  split
  · split
    · exact ⟨fun ret h => by cases h; exact h1, fun st h => by cases h⟩
    · exact ⟨fun ret h => by cases h; exact h1, fun st h => by cases h⟩
  · split
    · exact ⟨fun ret h => by cases h; exact h1, fun st h => by cases h⟩
    · split
      · split
        · exact ⟨fun ret h => by cases h; exact h2 _ _, fun st h => by cases h⟩
        · exact ⟨fun ret h => by cases h; exact h2 _ _, fun st h => by cases h⟩
      · split
        · exact ⟨fun ret h => by cases h; exact h2 _ _, fun st h => by cases h⟩
        · split
          · refine ⟨fun ret h => ?_, fun st h => by cases h⟩
            cases h
            exact (handleDeletion_quiet env _ _).all (h2 _ _)
          · exact ⟨(fun ret h => by cases h), fun st h => by cases h; exact h2 _ _⟩


theorem stageExternalClient_quiet (env : Env) (st : PassState) :
    Extends (fun e => e.statusSent = none) st.trace
      (passStateOf (stageExternalClient env st)).trace := by
  unfold stageExternalClient
  split
  · exact Extends.refl _ _
  · dsimp only
    have h0 : Extends (fun e => e.statusSent = none) st.trace
        (trackStage FoundExternalClusterReferenceConditionType (externalClientStep env) st).trace := by
      rw [(trackStage_proj _ _ st).1]
      unfold externalClientStep
      dsimp only
      cases env.extractRemoteClient (st.trace.length + 1) st.scp <;>
        exact Extends.append _ _ (by simp [Event.statusSent])
    split
    · exact h0
    · have h1 := handleFinalizer_quiet env
        (trackStage FoundExternalClusterReferenceConditionType (externalClientStep env) st).scp
        (trackStage FoundExternalClusterReferenceConditionType (externalClientStep env) st).trace
      split <;> rename_i hfin <;> rw [hfin] at h1 <;> exact h0.trans h1

theorem stageCreateOrUpdate_quiet (env : Env) (st : PassState) :
    Extends (fun e => e.statusSent = none) st.trace
      (passStateOf (stageCreateOrUpdate env st)).trace := by
  have h0 : Extends (fun e => e.statusSent = none) st.trace
      (trackStage TenantControlPlaneCreatedConditionType (createOrUpdateStep env) st).trace := by
    rw [(trackStage_proj _ _ st).1]
    have h1 := createOrUpdate_quiet env st.remoteClient st.cluster st.scp
      (st.trace ++ [.step .createOrUpdate])
    have h2 : Extends (fun e => e.statusSent = none) st.trace
        (st.trace ++ [.step .createOrUpdate]) :=
      Extends.append _ _ (by simp [Event.statusSent])
    unfold createOrUpdateStep
    rcases hc : createOrUpdateTenantControlPlane env st.remoteClient st.cluster st.scp
      (st.trace ++ [.step .createOrUpdate]) with ⟨r, tr⟩
    rw [hc] at h1 ⊢
    cases r <;> exact h2.trans h1
  unfold stageCreateOrUpdate
  dsimp only
  split <;> exact h0

theorem stageEndpointWait_quiet (env : Env) (st : PassState) :
    Extends (fun e => e.statusSent = none) st.trace
      (passStateOf (stageEndpointWait env st)).trace := by
  have h0 : Extends (fun e => e.statusSent = none) st.trace
      (trackStage TenantControlPlaneAddressReadyConditionType endpointWaitStep st).trace := by
    rw [(trackStage_proj _ _ st).1]
    unfold endpointWaitStep
    dsimp only
    split <;> exact Extends.append _ _ (by simp [Event.statusSent])
  unfold stageEndpointWait
  dsimp only
  split <;> exact h0

theorem stageEndpointPatch_quiet (env : Env) (st : PassState) :
    Extends (fun e => e.statusSent = none) st.trace
      (passStateOf (stageEndpointPatch env st)).trace := by
  have h0 : Extends (fun e => e.statusSent = none) st.trace
      (trackStage ControlPlaneEndpointPatchedConditionType (endpointPatchStep env) st).trace := by
    rw [(trackStage_proj _ _ st).1]
    exact Extends.append _ _ (by simp [Event.statusSent])
  unfold stageEndpointPatch
  dsimp only
  split <;> exact h0

theorem stageRefetchCluster_quiet (env : Env) (st : PassState) :
    Extends (fun e => e.statusSent = none) st.trace
      (passStateOf (stageRefetchCluster env st)).trace := by
  unfold stageRefetchCluster
  dsimp only
  split
  · split <;> exact Extends.append _ _ (by simp [Event.statusSent])
  · exact Extends.append _ _ (by simp [Event.statusSent])

theorem stageInfrastructurePatch_quiet (env : Env) (st : PassState) :
    Extends (fun e => e.statusSent = none) st.trace
      (passStateOf (stageInfrastructurePatch env st)).trace := by
  have h0 : Extends (fun e => e.statusSent = none) st.trace
      (trackStage InfrastructureClusterPatchedConditionType (infrastructurePatchStep env)
        st).trace := by
    rw [(trackStage_proj _ _ st).1]
    exact Extends.append _ _ (by simp [Event.statusSent])
  unfold stageInfrastructurePatch
  split
  · dsimp only
    split <;> exact h0
  · exact Extends.refl _ _

theorem stageClusterGates_quiet (env : Env) (st : PassState) :
    Extends (fun e => e.statusSent = none) st.trace
      (passStateOf (stageClusterGates env st)).trace := by
  unfold stageClusterGates
  repeat' split
  all_goals exact Extends.refl _ _

theorem stageReplication_quiet (env : Env) (st : PassState) :
    Extends (fun e => e.statusSent = none) st.trace
      (passStateOf (stageReplication env st)).trace := by
  have h0 : Extends (fun e => e.statusSent = none) st.trace
      (trackStage KubeadmResourcesCreatedReadyConditionType (replicationStep env) st).trace := by
    rw [(trackStage_proj _ _ st).1]
    exact Extends.append _ _ (by simp [Event.statusSent])
  unfold stageReplication
  dsimp only
  split
  · split <;> exact h0
  · exact h0

theorem runStages_extends (P : Event → Prop)
    (stages : List (PassState → Except Exit PassState))
    (h : ∀ f ∈ stages, ∀ st, Extends P st.trace (passStateOf (f st)).trace) (st : PassState) :
    Extends P st.trace (passStateOf (runStages stages st)).trace := by
  induction stages generalizing st with
  | nil => exact Extends.refl _ _
  | cons f fs ih =>
    have hf := h f (List.mem_cons_self _ _) st
    rw [runStages]
    cases hfs : f st with
    | error exit =>
      rw [hfs] at hf
      exact hf
    | ok st' =>
      rw [hfs] at hf
      exact hf.trans (ih (fun g hg => h g (List.mem_cons_of_mem _ hg)) st')

theorem stagesBeforeInitialization_quiet (env : Env) (st : PassState) :
    Extends (fun e => e.statusSent = none) st.trace
      (passStateOf (runStages (stagesBeforeInitialization env) st)).trace := by
  refine runStages_extends _ _ ?_ st
  intro f hf
  simp only [stagesBeforeInitialization, passStages, List.take_succ_cons, List.take_zero,
    List.mem_cons, List.mem_singleton, List.not_mem_nil, or_false] at hf
  rcases hf with rfl | rfl | rfl | rfl | rfl | rfl | rfl
  · exact stageExternalClient_quiet env
  · exact stageCreateOrUpdate_quiet env
  · exact stageEndpointWait_quiet env
  · exact stageEndpointPatch_quiet env
  · exact stageRefetchCluster_quiet env
  · exact stageInfrastructurePatch_quiet env
  · exact stageClusterGates_quiet env


theorem StatusFollowsRead.of_quiet (env : Env)
    (Q : StewardControlPlane → StewardControlPlane → Prop) (tr : List Event)
    (hq : ∀ e ∈ tr, e.statusSent = none) : StatusFollowsRead env Q tr := by
  intro i obj answer hi
  have hmem := List.getElem?_mem hi
  have := hq _ hmem
  cases this

theorem StatusFollowsRead.appendQuiet {env : Env}
    {Q : StewardControlPlane → StewardControlPlane → Prop} {tr : List Event}
    (h : StatusFollowsRead env Q tr) (added : List Event)
    (hq : ∀ e ∈ added, e.statusSent = none) : StatusFollowsRead env Q (tr ++ added) := by
  intro i obj answer hi
  by_cases hlt : i < tr.length
  · rw [List.getElem?_append_left hlt] at hi
    obtain ⟨j, ns, name, fetched, hij, hj, hget, hQ⟩ := h i obj answer hi
    refine ⟨j, ns, name, fetched, hij, ?_, hget, hQ⟩
    rw [List.getElem?_append_left (by omega)]
    exact hj
  · rw [List.getElem?_append_right (by omega)] at hi
    have := hq _ (List.getElem?_mem hi)
    cases this

theorem StatusFollowsRead.extend {env : Env}
    {Q : StewardControlPlane → StewardControlPlane → Prop} {tr tr' : List Event}
    (h : StatusFollowsRead env Q tr) (hext : Extends (fun e => e.statusSent = none) tr tr') :
    StatusFollowsRead env Q tr' := by
  obtain ⟨added, rfl, hq⟩ := hext
  exact h.appendQuiet added hq

theorem StatusFollowsRead.relax {env : Env}
    {Q Q' : StewardControlPlane → StewardControlPlane → Prop} {tr : List Event}
    (hQ : ∀ fetched obj, Q fetched obj → Q' fetched obj) (h : StatusFollowsRead env Q tr) :
    StatusFollowsRead env Q' tr := by
  intro i obj answer hi
  obtain ⟨j, ns, name, fetched, hij, hj, hget, hq⟩ := h i obj answer hi
  exact ⟨j, ns, name, fetched, hij, hj, hget, hQ _ _ hq⟩

/-- One attempt of the status update keeps every status update of the trace
next to the read it is made from. -/
theorem updateStatusAttempt_follows (env : Env)
    (modifierFn : StewardControlPlane → StewardControlPlane)
    (Q : StewardControlPlane → StewardControlPlane → Prop)
    (hQ : ∀ fetched, Q fetched (modifierFn fetched))
    (s : StewardControlPlane × List Event) (h : StatusFollowsRead env Q s.2) :
    StatusFollowsRead env Q (updateStatusAttempt env modifierFn s).1.2 := by
  have hsent : ∀ (answer : Option ApiError) (fetched : StewardControlPlane),
      env.getClaim s.2.length s.1.Meta.Namespace s.1.Meta.Name = .ok fetched →
      StatusFollowsRead env Q
        (s.2 ++ [Event.getClaim s.1.Meta.Namespace s.1.Meta.Name]
          ++ [Event.updateClaimStatus (modifierFn fetched) answer]) := by
    intro a fetched hget i obj answer hi
    rw [List.append_assoc] at hi
    by_cases hlt : i < s.2.length
    · rw [List.getElem?_append_left hlt] at hi
      obtain ⟨j, ns, name, fetched', hij, hj, hget', hq⟩ := h i obj answer hi
      refine ⟨j, ns, name, fetched', hij, ?_, hget', hq⟩
      rw [List.append_assoc, List.getElem?_append_left (by omega)]
      exact hj
    · rw [List.getElem?_append_right (by omega)] at hi
      rcases hk : i - s.2.length with _ | _ | k
      · rw [hk] at hi
        cases hi
      · rw [hk] at hi
        simp only [List.singleton_append, zero_add, List.getElem?_cons_succ,
          List.getElem?_cons_zero, Option.some.injEq, Event.updateClaimStatus.injEq] at hi
        obtain ⟨rfl, -⟩ := hi
        refine ⟨s.2.length, _, _, fetched, by omega, ?_, hget, hQ fetched⟩
        rw [List.append_assoc, List.getElem?_append_right (le_refl _)]
        simp
      · rw [hk] at hi
        simp at hi
  unfold updateStatusAttempt
  dsimp only
  cases hget : env.getClaim s.2.length s.1.Meta.Namespace s.1.Meta.Name with
  | error e =>
    exact h.appendQuiet _ (by simp [Event.statusSent])
  | ok fetched =>
    dsimp only
    split
    · exact hsent _ fetched hget
    · exact hsent _ fetched hget

/-- The status update under retry keeps every status update of the trace next
to the read it is made from. -/
theorem updateStatus_follows (env : Env) (scp : StewardControlPlane)
    (modifierFn : StewardControlPlane → StewardControlPlane)
    (Q : StewardControlPlane → StewardControlPlane → Prop)
    (hQ : ∀ fetched, Q fetched (modifierFn fetched)) (tr : List Event)
    (h : StatusFollowsRead env Q tr) :
    StatusFollowsRead env Q (updateStewardControlPlaneStatus env scp modifierFn tr).1.2 := by
  have key := retryOnConflictLoop_induct (updateStatusAttempt env modifierFn)
    (fun s => StatusFollowsRead env Q s.2) (fun r => StatusFollowsRead env Q r.1.2)
    (fun s hs => ⟨updateStatusAttempt_follows env modifierFn Q hQ s hs,
      fun _ _ _ => updateStatusAttempt_follows env modifierFn Q hQ s hs⟩) 4 (scp, tr) h
  unfold updateStewardControlPlaneStatus RetryOnConflict
  rcases hr : retryOnConflictLoop (updateStatusAttempt env modifierFn) 5 (scp, tr) with ⟨s', r⟩
  rw [hr] at key
  cases r <;> exact key

theorem step_follows {env : Env} {Q : StewardControlPlane → StewardControlPlane → Prop}
    {tr : List Event} (h : StatusFollowsRead env Q tr) (s : Step) :
    StatusFollowsRead env Q (tr ++ [.step s]) :=
  h.appendQuiet _ (by simp [Event.statusSent])

theorem runStages_preserves (G : List Event → Prop)
    (stages : List (PassState → Except Exit PassState))
    (h : ∀ f ∈ stages, ∀ st, G st.trace → G (passStateOf (f st)).trace) (st : PassState)
    (hst : G st.trace) : G (passStateOf (runStages stages st)).trace := by
  induction stages generalizing st with
  | nil => exact hst
  | cons f fs ih =>
    have hf := h f (List.mem_cons_self _ _) st hst
    rw [runStages]
    cases hfs : f st with
    | error exit =>
      rw [hfs] at hf
      exact hf
    | ok st' =>
      rw [hfs] at hf
      exact ih (fun g hg => h g (List.mem_cons_of_mem _ hg)) st' hf

theorem stageMarkInitialized_follows (env : Env) (st : PassState)
    (h : StatusFollowsRead env (madeByModifier env) st.trace) :
    StatusFollowsRead env (madeByModifier env)
      (passStateOf (stageMarkInitialized env st)).trace := by
  have h0 : StatusFollowsRead env (madeByModifier env)
      (trackStage StewardControlPlaneInitializedConditionType (markInitializedStep env)
        st).trace := by
    rw [(trackStage_proj _ _ st).1]
    exact updateStatus_follows env st.scp initializedModifier _ (fun _ => Or.inl rfl) _
      (step_follows h .markInitialized)
  unfold stageMarkInitialized
  dsimp only
  by_cases hc : st.tcp.Status.Kubernetes.Version.Status = some VersionReady
      ∧ st.scp.Status.Initialized = false
  · rw [if_pos hc]
    cases herr : (trackStage StewardControlPlaneInitializedConditionType
        (markInitializedStep env) st).err with
    | some e => exact h0
    | none =>
      dsimp only
      split <;> exact h0
  · rw [if_neg hc]
    dsimp only
    split <;> exact h

theorem stageStatusProjection_follows (env : Env) (st : PassState)
    (h : StatusFollowsRead env (madeByModifier env) st.trace) :
    StatusFollowsRead env (madeByModifier env)
      (passStateOf (stageStatusProjection env st)).trace := by
  have h0 : StatusFollowsRead env (madeByModifier env)
      (trackStage StewardControlPlaneInitializedConditionType (statusProjectionStep env)
        st).trace := by
    rw [(trackStage_proj _ _ st).1]
    exact updateStatus_follows env st.scp (projectionModifier env st.tcp) _
      (fun _ => Or.inr (Or.inl ⟨st.tcp, rfl⟩)) _ (step_follows h .statusProjection)
  unfold stageStatusProjection
  dsimp only
  split <;> exact h0

theorem stageConfirmInitialized_follows (env : Env) (st : PassState)
    (h : StatusFollowsRead env (madeByModifier env) st.trace) :
    StatusFollowsRead env (madeByModifier env)
      (passStateOf (stageConfirmInitialized env st)).trace := by
  unfold stageConfirmInitialized passStateOf
  dsimp only
  rw [(trackStage_proj _ _ st).1]
  exact updateStatus_follows env st.scp initializedModifier _ (fun _ => Or.inl rfl) _
    (step_follows h .confirmInitialized)

theorem stageReadiness_follows (env : Env) (st : PassState)
    (h : StatusFollowsRead env (madeByModifier env) st.trace) :
    StatusFollowsRead env (madeByModifier env) (stageReadiness env st).st.trace := by
  have h0 : StatusFollowsRead env (madeByModifier env)
      (trackStage StewardControlPlaneReadyConditionType (readinessStep env) st).trace := by
    rw [(trackStage_proj _ _ st).1]
    unfold readinessStep
    split
    · exact step_follows h .readiness
    · rename_i versionStatus _
      have h1 := updateStatus_follows env st.scp (readyModifier versionStatus) _
        (fun _ => Or.inr (Or.inr (Or.inl ⟨versionStatus, rfl⟩))) _
        (step_follows h .readiness)
      dsimp only
      split
      · exact h1
      · split <;> exact h1
  unfold stageReadiness
  dsimp only
  split
  · split <;> exact h0
  · exact h0

theorem passStages_follows (env : Env) (st : PassState)
    (h : StatusFollowsRead env (madeByModifier env) st.trace) :
    StatusFollowsRead env (madeByModifier env)
      (passStateOf (runStages (passStages env) st)).trace := by
  refine runStages_preserves _ _ ?_ st h
  intro f hf
  simp only [passStages, List.mem_cons, List.mem_singleton, List.not_mem_nil, or_false] at hf
  rcases hf with rfl | rfl | rfl | rfl | rfl | rfl | rfl | rfl | rfl | rfl | rfl
  · exact fun st hst => hst.extend (stageExternalClient_quiet env st)
  · exact fun st hst => hst.extend (stageCreateOrUpdate_quiet env st)
  · exact fun st hst => hst.extend (stageEndpointWait_quiet env st)
  · exact fun st hst => hst.extend (stageEndpointPatch_quiet env st)
  · exact fun st hst => hst.extend (stageRefetchCluster_quiet env st)
  · exact fun st hst => hst.extend (stageInfrastructurePatch_quiet env st)
  · exact fun st hst => hst.extend (stageClusterGates_quiet env st)
  · exact stageMarkInitialized_follows env
  · exact stageStatusProjection_follows env
  · exact stageConfirmInitialized_follows env
  · exact fun st hst => hst.extend (stageReplication_quiet env st)

theorem reconcileStages_of_exit (env : Env) (st : PassState) (exit : Exit)
    (h : runStages (passStages env) st = .error exit) : reconcileStages env st = exit := by
  unfold reconcileStages
  simp only [stages_eq_runStages, h]

theorem reconcileStages_of_ok (env : Env) (st st' : PassState)
    (h : runStages (passStages env) st = .ok st') :
    reconcileStages env st = stageReadiness env st' := by
  unfold reconcileStages
  simp only [stages_eq_runStages, h]

theorem reconcileStages_follows (env : Env) (st : PassState)
    (h : StatusFollowsRead env (madeByModifier env) st.trace) :
    StatusFollowsRead env (madeByModifier env) (reconcileStages env st).st.trace := by
  have h1 := passStages_follows env st h
  cases hr : runStages (passStages env) st with
  | error exit =>
    rw [hr] at h1
    rw [reconcileStages_of_exit env st exit hr]
    exact h1
  | ok st' =>
    rw [hr] at h1
    rw [reconcileStages_of_ok env st st' hr]
    exact stageReadiness_follows env st' h1

theorem persistConditions_follows (env : Env) (exit : Exit)
    (Q : StewardControlPlane → StewardControlPlane → Prop)
    (hQ : ∀ fetched, Q fetched (conditionsModifier exit.st.conditions fetched))
    (h : StatusFollowsRead env Q exit.st.trace) :
    StatusFollowsRead env Q (persistConditions env exit).trace := by
  unfold persistConditions
  dsimp only
  exact updateStatus_follows env exit.st.scp (conditionsModifier exit.st.conditions) Q hQ _
    (step_follows h .persistConditions)

/-- Every status update of every pass directly follows the read it is made
from and sends what one of the four modifiers makes of the claim read. -/
theorem Reconcile_follows (env : Env) (ns name : String) :
    StatusFollowsRead env (madeByModifier env) (Reconcile env ns name).trace := by
  unfold Reconcile
  cases hg : reconcileGates env ns name with
  | error ret =>
    exact StatusFollowsRead.of_quiet env _ _ ((reconcileGates_quiet env ns name).1 ret hg)
  | ok st =>
    dsimp only
    exact persistConditions_follows env _ _ (fun _ => Or.inr (Or.inr (Or.inr ⟨_, rfl⟩)))
      (reconcileStages_follows env st
        (StatusFollowsRead.of_quiet env _ _ ((reconcileGates_quiet env ns name).2 st hg)))

theorem madeByModifier_latch (env : Env) (fetched obj : StewardControlPlane)
    (h : madeByModifier env fetched obj) (hinit : fetched.Status.Initialized = true) :
    obj.Status.Initialized = true := by
  rcases h with h | ⟨tcp, h⟩ | ⟨v, h⟩ | ⟨c, h⟩ <;> rw [h]
  · rfl
  · exact hinit
  · exact hinit
  · exact hinit

theorem stageMarkInitialized_not_ready (env : Env) (st : PassState)
    (hinit : st.scp.Status.Initialized = false)
    (hstate : st.tcp.Status.Kubernetes.Version.Status ≠ some VersionReady) :
    stageMarkInitialized env st
      = .error { result := { RequeueAfter := timeSecond }, err := none, st := st } := by
  unfold stageMarkInitialized
  dsimp only
  rw [if_neg (fun h => hstate h.1)]
  simp [hinit]

/-- C11. The Initialized flag is a one-way latch under `Reconcile`. The marking
modifier sets the flag; the three other modifiers (projection, readiness,
conditions) leave it as it is. In every pass, every status update directly
follows a read of the claim, and the object it sends is what one of these
four modifiers makes of the claim the API server answered that read with: so
when the claim read is initialized, the claim sent is. A pass that reaches
the initialization gate with a claim whose flag is false and a workload whose
version state is not exactly "Ready" (any other state, "Upgrading" included)
returns a `RequeueAfter` of one second and a nil error, and every status
update of that pass is the deferred write of the conditions onto the claim
just read, which sends the flag as read: the claim is not marked. Such a
pass does not get to the second marking of lines 294-300 either: a pass that
comes through the gate with a claim whose flag is false and reaches the
second marking has a workload whose version state is exactly "Ready". -/
theorem C11_initialized_latch :
    (∀ scp, (initializedModifier scp).Status.Initialized = true)
    ∧ (∀ env tcp scp,
        (projectionModifier env tcp scp).Status.Initialized = scp.Status.Initialized)
    ∧ (∀ versionStatus scp,
        (readyModifier versionStatus scp).Status.Initialized = scp.Status.Initialized)
    ∧ (∀ conditions scp,
        (conditionsModifier conditions scp).Status.Initialized = scp.Status.Initialized)
    ∧ (∀ (env : Env) (ns name : String),
        StatusFollowsRead env
          (fun fetched obj => madeByModifier env fetched obj
            ∧ (fetched.Status.Initialized = true → obj.Status.Initialized = true))
          (Reconcile env ns name).trace)
    ∧ (∀ (env : Env) (ns name : String) (st₀ st : PassState),
        reconcileGates env ns name = .ok st₀ →
        runStages (stagesBeforeInitialization env) st₀ = .ok st →
        st.scp.Status.Initialized = false →
        st.tcp.Status.Kubernetes.Version.Status ≠ some VersionReady →
        (Reconcile env ns name).result = { RequeueAfter := timeSecond }
        ∧ (Reconcile env ns name).err = none
        ∧ StatusFollowsRead env
            (fun fetched obj => obj = conditionsModifier st.conditions fetched
              ∧ obj.Status.Initialized = fetched.Status.Initialized)
            (Reconcile env ns name).trace)
    ∧ ∀ (env : Env) (st₀ st st' : PassState),
        runStages (stagesBeforeInitialization env) st₀ = .ok st →
        runStages (stagesBeforeConfirmation env) st₀ = .ok st' →
        st.scp.Status.Initialized = false →
        st.tcp.Status.Kubernetes.Version.Status = some VersionReady := by
  refine ⟨fun _ => rfl, fun _ _ _ => rfl, fun _ _ => rfl, fun _ _ => rfl, ?_, ?_, ?_⟩
  · intro env ns name
    exact (Reconcile_follows env ns name).relax
      (fun fetched obj h => ⟨h, madeByModifier_latch env fetched obj h⟩)
  · intro env ns name st₀ st hgates hreach hinit hstate
    have hexit := stageMarkInitialized_not_ready env st hinit hstate
    have hrec := Reconcile_of_stage_exit env ns name st₀ st 7 (stageMarkInitialized env)
      [stageStatusProjection env, stageConfirmInitialized env, stageReplication env] _
      hgates hreach rfl hexit
    obtain ⟨h1, h2, -⟩ := persistConditions_spec env
      { result := { RequeueAfter := timeSecond }, err := none, st := st }
    rw [hrec]
    refine ⟨h1, h2, ?_⟩
    have hq0 : ∀ e ∈ st₀.trace, e.statusSent = none :=
      (reconcileGates_quiet env ns name).2 st₀ hgates
    have hq1 := stagesBeforeInitialization_quiet env st₀
    rw [hreach] at hq1
    have hq : ∀ e ∈ st.trace, e.statusSent = none := hq1.all hq0
    exact persistConditions_follows env
      { result := { RequeueAfter := timeSecond }, err := none, st := st } _
      (fun _ => ⟨rfl, rfl⟩) (StatusFollowsRead.of_quiet env _ _ hq)
  · intro env st₀ st st' hreach hreach' hinit
    by_contra hstate
    have hexit := stageMarkInitialized_not_ready env st hinit hstate
    have hsplit : stagesBeforeConfirmation env
        = stagesBeforeInitialization env
          ++ [stageMarkInitialized env, stageStatusProjection env] := rfl
    rw [hsplit, runStages_append, hreach] at hreach'
    have : runStages [stageMarkInitialized env, stageStatusProjection env] st
        = .error { result := { RequeueAfter := timeSecond }, err := none, st := st } := by
      rw [runStages_cons, hexit]
      rfl
    rw [show (Except.ok st >>= runStages [stageMarkInitialized env, stageStatusProjection env])
        = runStages [stageMarkInitialized env, stageStatusProjection env] st from rfl,
      this] at hreach'
    cases hreach'

/-- C11 at a concrete input: the claim is not yet initialized and the workload
is upgrading; the pass requeues after a second, and its one status update
sends the claim as read, not initialized. -/
theorem C11_initialized_latch_witness :
    (Reconcile (envFresh (tcpInState "Upgrading")) "default" "cp").result
        = { RequeueAfter := timeSecond }
      ∧ (Reconcile (envFresh (tcpInState "Upgrading")) "default" "cp").err = none
      ∧ ((Reconcile (envFresh (tcpInState "Upgrading")) "default" "cp").trace.filterMap
            Event.statusSent).map (·.Status.Initialized) = [false] :=
  let h := C11_initialized_latch.2.2.2.2.2.1 (envFresh (tcpInState "Upgrading")) "default" "cp"
    freshAfterGates
    (passStateOf (runStages (stagesBeforeInitialization (envFresh (tcpInState "Upgrading")))
      freshAfterGates))
    rfl (eq_ok_passStateOf _ (by decide)) (by decide) (by decide)
  ⟨h.1, h.2.1, by decide⟩

/-! ## What `Reconcile` returns -/

theorem passStages_exit_shape (env : Env) :
    ∀ f ∈ passStages env, ∀ st exit, f st = .error exit →
      exit.result = {} ∨ (exit.result = { RequeueAfter := timeSecond } ∧ exit.err = none) := by
  intro f hf st exit h
  simp only [passStages, List.mem_cons, List.mem_singleton, List.not_mem_nil, or_false] at hf
  rcases hf with rfl | rfl | rfl | rfl | rfl | rfl | rfl | rfl | rfl | rfl | rfl
  · unfold stageExternalClient at h
    dsimp only at h
    repeat' split at h
    all_goals first | (cases h; exact Or.inl rfl) | cases h
  · unfold stageCreateOrUpdate at h
    dsimp only at h
    repeat' split at h
    all_goals first | (cases h; exact Or.inl rfl) | cases h
  · unfold stageEndpointWait at h
    dsimp only at h
    repeat' split at h
    all_goals first | (cases h; exact Or.inr ⟨rfl, rfl⟩) | cases h
  · unfold stageEndpointPatch at h
    dsimp only at h
    repeat' split at h
    all_goals first | (cases h; exact Or.inl rfl) | cases h
  · unfold stageRefetchCluster at h
    dsimp only at h
    repeat' split at h
    all_goals first | (cases h; exact Or.inl rfl) | cases h
  · unfold stageInfrastructurePatch at h
    dsimp only at h
    repeat' split at h
    all_goals first | (cases h; exact Or.inl rfl) | cases h
  · unfold stageClusterGates at h
    repeat' split at h
    all_goals first | (cases h; exact Or.inr ⟨rfl, rfl⟩) | cases h
  · unfold stageMarkInitialized at h
    dsimp only at h
    split at h
    · rename_i hm
      cases h
      split at hm
      · split at hm
        · cases hm; exact Or.inl rfl
        · cases hm
      · cases hm
    · split at h
      · cases h; exact Or.inr ⟨rfl, rfl⟩
      · cases h
  · unfold stageStatusProjection at h
    dsimp only at h
    repeat' split at h
    all_goals first | (cases h; exact Or.inl rfl) | cases h
  · unfold stageConfirmInitialized at h
    cases h
  · unfold stageReplication at h
    dsimp only at h
    repeat' split at h
    all_goals first | (cases h; exact Or.inl rfl) | (cases h; exact Or.inr ⟨rfl, rfl⟩) | cases h


theorem runStages_exit (P : Exit → Prop) (stages : List (PassState → Except Exit PassState))
    (h : ∀ f ∈ stages, ∀ st exit, f st = .error exit → P exit) (st : PassState) (exit : Exit)
    (hr : runStages stages st = .error exit) : P exit := by
  induction stages generalizing st with
  | nil => cases hr
  | cons f fs ih =>
    rw [runStages] at hr
    cases hfs : f st with
    | error exit' =>
      rw [hfs] at hr
      cases hr
      exact h f (List.mem_cons_self _ _) st _ hfs
    | ok st' =>
      rw [hfs] at hr
      exact ih (fun g hg => h g (List.mem_cons_of_mem _ hg)) st' hr

theorem stageReadiness_shape (env : Env) (st : PassState) :
    (stageReadiness env st).result = {}
      ∨ ((stageReadiness env st).result = { RequeueAfter := timeSecond }
          ∧ (stageReadiness env st).err = none) := by
  unfold stageReadiness
  dsimp only
  split
  · split
    · exact Or.inr ⟨rfl, rfl⟩
    · exact Or.inl rfl
  · exact Or.inl rfl

theorem reconcileGates_result (env : Env) (ns name : String) (ret : Return)
    (h : reconcileGates env ns name = .error ret) : ret.result = {} := by
  unfold reconcileGates at h
  dsimp only at h
  repeat' split at h
  all_goals first | (cases h; rfl) | cases h

/-- Whatever the pass, `Reconcile` returns the empty result, or a `RequeueAfter`
of one second with a nil error. -/
theorem Reconcile_shape (env : Env) (ns name : String) :
    (Reconcile env ns name).result = {}
      ∨ ((Reconcile env ns name).result = { RequeueAfter := timeSecond }
          ∧ (Reconcile env ns name).err = none) := by
  unfold Reconcile
  cases hg : reconcileGates env ns name with
  | error ret => exact Or.inl (reconcileGates_result env ns name ret hg)
  | ok st =>
    dsimp only
    obtain ⟨h1, h2, -⟩ := persistConditions_spec env (reconcileStages env st)
    rw [h1, h2]
    cases hr : runStages (passStages env) st with
    | error exit =>
      rw [reconcileStages_of_exit env st exit hr]
      exact runStages_exit _ _ (passStages_exit_shape env) st exit hr
    | ok st' =>
      rw [reconcileStages_of_ok env st st' hr]
      exact stageReadiness_shape env st'

/-- C13, what the code does. Every result of `Reconcile` has a `RequeueAfter` of
zero or of exactly one second (10^9 nanoseconds), the latter only with a nil
error; and in a pass that reaches the replication, an answer wrapping
`ErrEnqueueBack` is turned into a `RequeueAfter` of one second with a nil
error. The readiness stage does not do so: on clusters where every call
succeeds and the workload is in the version state `Provisioning`, its step
returns an error wrapping `ErrEnqueueBack`, and `Reconcile` returns a
`RequeueAfter` of zero with a nil error. -/
theorem C13_requeue_after_shape :
    (∀ (env : Env) (ns name : String),
      ((Reconcile env ns name).result.RequeueAfter = 0
        ∨ (Reconcile env ns name).result.RequeueAfter = timeSecond)
      ∧ ((Reconcile env ns name).result.RequeueAfter ≠ 0 → (Reconcile env ns name).err = none))
    ∧ timeSecond = 1000000000
    ∧ (∀ (env : Env) (ns name : String) (st₀ st : PassState) (e : Err),
        reconcileGates env ns name = .ok st₀ →
        runStages (stagesBeforeReplication env) st₀ = .ok st →
        env.createRequiredResources (st.trace.length + 1) st.remoteClient st.cluster st.scp
          st.tcp = some e →
        e.is ErrEnqueueBack = true →
        (Reconcile env ns name).result = { RequeueAfter := timeSecond }
          ∧ (Reconcile env ns name).err = none)
    ∧ goesOn (runStages (passStages (envHealthy (tcpInState "Provisioning")))
        healthyAfterGates) = true
    ∧ (readinessStep (envHealthy (tcpInState "Provisioning"))
        (passStateOf (runStages (passStages (envHealthy (tcpInState "Provisioning")))
          healthyAfterGates))).2
        = some (.wrap "TenantControlPlane in Provisioning status, " ErrEnqueueBack)
    ∧ (Err.wrap "TenantControlPlane in Provisioning status, " ErrEnqueueBack).is ErrEnqueueBack
        = true
    ∧ (Reconcile (envHealthy (tcpInState "Provisioning")) "default" "cp").result.RequeueAfter = 0
    ∧ (Reconcile (envHealthy (tcpInState "Provisioning")) "default" "cp").err = none := by
  refine ⟨?_, rfl, ?_, by decide, by decide, by decide, by decide, by decide⟩
  · intro env ns name
    rcases Reconcile_shape env ns name with h | ⟨h, he⟩
    · rw [h]
      exact ⟨Or.inl rfl, fun hne => absurd rfl hne⟩
    · rw [h]
      exact ⟨Or.inr rfl, fun _ => he⟩
  · intro env ns name st₀ st e hgates hreach henv hs
    obtain ⟨exit, hexit, -, hsent⟩ := stageReplication_of_answer env st e henv
    have hrec := Reconcile_of_stage_exit env ns name st₀ st 10 (stageReplication env) [] exit
      hgates hreach rfl hexit
    obtain ⟨h1, h2, -⟩ := persistConditions_spec env exit
    rw [hrec, h1, h2]
    exact hsent hs

theorem tracked_stage_exit (conditionType : String) (fn : PassState → PassState × Option Err)
    (st : PassState) (e : Err) (h : (fn st).1.err = some e) :
    (trackStage conditionType fn st).err = some e := by
  rw [(trackStage_proj conditionType fn st).2.1, h]

/-- The stages whose error is checked stop the pass on a hard error of their
step: the stage returns with that error and the empty result. (The second
marking as initialized is not among them.) -/
theorem checked_stages_stop (env : Env) (st : PassState) (e : Err) :
    (st.scp.Spec.Deployment.ExternalClusterReference.isSome = true →
      (externalClientStep env st).2 = some e →
      ∃ exit, stageExternalClient env st = .error exit ∧ exit.err = some e ∧ exit.result = {})
    ∧ ((createOrUpdateStep env st).2 = some e →
      ∃ exit, stageCreateOrUpdate env st = .error exit ∧ exit.err = some e ∧ exit.result = {})
    ∧ ((endpointPatchStep env st).2 = some e →
      ∃ exit, stageEndpointPatch env st = .error exit ∧ exit.err = some e ∧ exit.result = {})
    ∧ (env.skipInfraClusterPatch = false → (infrastructurePatchStep env st).2 = some e →
      ∃ exit, stageInfrastructurePatch env st = .error exit ∧ exit.err = some e
        ∧ exit.result = {})
    ∧ (st.tcp.Status.Kubernetes.Version.Status = some VersionReady →
      st.scp.Status.Initialized = false → (markInitializedStep env st).2 = some e →
      ∃ exit, stageMarkInitialized env st = .error exit ∧ exit.err = some e ∧ exit.result = {})
    ∧ ((statusProjectionStep env st).2 = some e →
      ∃ exit, stageStatusProjection env st = .error exit ∧ exit.err = some e ∧ exit.result = {})
    ∧ ((replicationStep env st).2 = some e → e.is ErrEnqueueBack = false →
      ∃ exit, stageReplication env st = .error exit ∧ exit.err = some e ∧ exit.result = {}) := by
  refine ⟨?_, ?_, ?_, ?_, ?_, ?_, ?_⟩
  · intro hsome h
    have herr : (externalClientStep env st).1.err = some e := by
      unfold externalClientStep at h ⊢
      dsimp only at h ⊢
      split at h <;> rename_i hx <;> simp only [hx] <;> first | (cases h; done) | (cases h; rfl)
    have ht := tracked_stage_exit FoundExternalClusterReferenceConditionType _ st e herr
    unfold stageExternalClient
    cases hr : st.scp.Spec.Deployment.ExternalClusterReference with
    | none => rw [hr] at hsome; cases hsome
    | some ref =>
      dsimp only
      rw [ht]
      exact ⟨_, rfl, rfl, rfl⟩
  · intro h
    have herr : (createOrUpdateStep env st).1.err = some e := by
      unfold createOrUpdateStep at h ⊢
      split at h <;> rename_i hx <;> simp only [hx] <;> first | (cases h; done) | (cases h; rfl)
    have ht := tracked_stage_exit TenantControlPlaneCreatedConditionType _ st e herr
    unfold stageCreateOrUpdate
    dsimp only
    rw [ht]
    exact ⟨_, rfl, rfl, rfl⟩
  · intro h
    have ht := tracked_stage_exit ControlPlaneEndpointPatchedConditionType
      (endpointPatchStep env) st e h
    unfold stageEndpointPatch
    dsimp only
    rw [ht]
    exact ⟨_, rfl, rfl, rfl⟩
  · intro hskip h
    have ht := tracked_stage_exit InfrastructureClusterPatchedConditionType
      (infrastructurePatchStep env) st e h
    unfold stageInfrastructurePatch
    simp only [hskip, Bool.not_false, ↓reduceIte]
    rw [ht]
    exact ⟨_, rfl, rfl, rfl⟩
  · intro hready hinit h
    have ht := tracked_stage_exit StewardControlPlaneInitializedConditionType
      (markInitializedStep env) st e h
    unfold stageMarkInitialized
    dsimp only
    rw [if_pos ⟨hready, hinit⟩, ht]
    exact ⟨_, rfl, rfl, rfl⟩
  · intro h
    have ht := tracked_stage_exit StewardControlPlaneInitializedConditionType
      (statusProjectionStep env) st e h
    unfold stageStatusProjection
    dsimp only
    rw [ht]
    exact ⟨_, rfl, rfl, rfl⟩
  · intro h hs
    obtain ⟨exit, hexit, hhard, -⟩ := stageReplication_of_answer env st e h
    exact ⟨exit, hexit, (hhard hs).2, (hhard hs).1⟩

/-- C12, what the code does. On clusters where every call succeeds but the
status update of the second marking as initialized (lines 294-300), which
fails with a timeout: the pass reaches that stage; its step returns a hard
error, neither NotFound nor the enqueue-back sentinel; the steps of the
replication and of the readiness stage run all the same; and `Reconcile`
returns the empty result with a nil error. -/
theorem C12_confirmation_error_ignored :
    goesOn (runStages (stagesBeforeConfirmation envConfirmationFails) healthyAfterGates) = true
    ∧ (confirmInitializedStep envConfirmationFails
        (passStateOf (runStages (stagesBeforeConfirmation envConfirmationFails)
          healthyAfterGates))).2
        = some (.wrap "cannot update StewardControlPlane resource: "
            (.api (.other "etcdserver: request timed out")))
    ∧ (Err.wrap "cannot update StewardControlPlane resource: "
        (.api (.other "etcdserver: request timed out"))).is ErrEnqueueBack = false
    ∧ (Err.wrap "cannot update StewardControlPlane resource: "
        (.api (.other "etcdserver: request timed out"))).isNotFound = false
    ∧ stepsOf (Reconcile envConfirmationFails "default" "cp").trace
        = [.createOrUpdate, .endpointWait, .endpointPatch, .infrastructurePatch,
           .statusProjection, .confirmInitialized, .replication, .readiness,
           .persistConditions]
    ∧ (Reconcile envConfirmationFails "default" "cp").result = {}
    ∧ (Reconcile envConfirmationFails "default" "cp").err = none := by
  decide



/-! ## Decimal texts -/

theorem digitValue_ofNat (k : Nat) (h : k < 10) : digitValue (Char.ofNat (48 + k)) = some k := by
  interval_cases k <;> rfl

theorem parseDigits_append (acc : Nat) (l : List Char) (c : Char) :
    parseDigits acc (l ++ [c])
      = (parseDigits acc l).bind (fun a => (digitValue c).map (fun d => a * 10 + d)) := by
  induction l generalizing acc with
  | nil =>
    cases hd : digitValue c <;> simp [parseDigits, hd]
  | cons x xs ih =>
    cases hx : digitValue x with
    | none => simp [parseDigits, hx]
    | some d => simp [parseDigits, hx, ih]

theorem parseDigits_decimalDigits (fuel n : Nat) (h : n < fuel) :
    parseDigits 0 (decimalDigits fuel n) = some n := by
  induction fuel generalizing n with
  | zero => omega
  | succ fuel ih =>
    unfold decimalDigits
    by_cases h10 : n < 10
    · simp [h10, parseDigits, digitValue_ofNat n h10]
    · simp only [h10, ↓reduceIte]
      rw [parseDigits_append, ih (n / 10) (by omega),
        digitValue_ofNat (n % 10) (Nat.mod_lt _ (by decide))]
      simp only [Option.some_bind, Option.map_some']
      congr 1
      omega


theorem parseDigits_digits (acc : Nat) (l : List Char) (n : Nat)
    (h : parseDigits acc l = some n) : ∀ c ∈ l, (digitValue c).isSome = true := by
  induction l generalizing acc with
  | nil => simp
  | cons x xs ih =>
    cases hx : digitValue x with
    | none => simp [parseDigits, hx] at h
    | some d =>
      simp only [parseDigits, hx] at h
      intro c hc
      rcases List.mem_cons.1 hc with rfl | hc
      · simp [hx]
      · exact ih _ h c hc

theorem decimalDigits_ne_nil (fuel n : Nat) : decimalDigits (fuel + 1) n ≠ [] := by
  unfold decimalDigits
  split <;> simp

theorem decimalDigits_digits (fuel n : Nat) (h : n < fuel) :
    ∀ c ∈ decimalDigits fuel n, (digitValue c).isSome = true :=
  parseDigits_digits 0 _ n (parseDigits_decimalDigits fuel n h)

theorem ParseInt_Itoa (d : Int) (bitSize : Nat) (hlo : -(2 : Int) ^ (bitSize - 1) ≤ d)
    (hhi : d < (2 : Int) ^ (bitSize - 1)) : ParseInt (Itoa d) bitSize = .ok d := by
  cases d with
  | ofNat m =>
    have hp := parseDigits_decimalDigits (m + 1) m (by omega)
    have hd := decimalDigits_digits (m + 1) m (by omega)
    have hne := decimalDigits_ne_nil m m
    unfold ParseInt Itoa
    simp only
    cases hl : decimalDigits (m + 1) m with
    | nil => exact absurd hl hne
    | cons c rest =>
      rw [hl] at hp hd
      have hc := hd c (List.mem_cons_self _ _)
      have h1 : c ≠ '+' := by rintro rfl; simp [digitValue] at hc
      have h2 : c ≠ '-' := by rintro rfl; simp [digitValue] at hc
      have hm : ¬ (2 ^ (bitSize - 1) ≤ m) := by
        intro hle
        have : ((2 ^ (bitSize - 1) : Nat) : Int) ≤ (m : Int) := by exact_mod_cast hle
        simp only [Int.ofNat_eq_coe] at hhi
        push_cast at this
        omega
      simp [h1, h2, hp, hm]
  | negSucc m =>
    have hp := parseDigits_decimalDigits (m + 2) (m + 1) (by omega)
    have hne := decimalDigits_ne_nil (m + 1) (m + 1)
    unfold ParseInt Itoa
    simp only
    cases hl : decimalDigits (m + 2) (m + 1) with
    | nil => exact absurd hl hne
    | cons c rest =>
      rw [hl] at hp
      have hm : ¬ (2 ^ (bitSize - 1) < m + 1) := by
        intro hle
        have : ((2 ^ (bitSize - 1) : Nat) : Int) < ((m + 1 : Nat) : Int) := by exact_mod_cast hle
        push_cast at this
        rw [Int.negSucc_eq] at hlo
        omega
      simp [hp, hm, Int.negSucc_eq]


/-! ## Splitting a joined host and port -/

theorem indexByte_eq_none (c : Char) (l : List Char) (h : c ∉ l) : indexByte l c = none := by
  induction l with
  | nil => rfl
  | cons x xs ih =>
    simp only [List.mem_cons, not_or] at h
    simp [indexByte, Ne.symm h.1, ih h.2]

theorem lastIndexByte_join (c : Char) (l r : List Char) (h : c ∉ r) :
    lastIndexByte (l ++ c :: r) c = some l.length := by
  induction l with
  | nil => simp [lastIndexByte, lastIndexByte_eq_none c r h]
  | cons x xs ih => simp [lastIndexByte, ih]

theorem SplitHostPort_join (host port : String)
    (hc : ':' ∉ host.data) (ho : '[' ∉ host.data) (hcl : ']' ∉ host.data)
    (pc : ':' ∉ port.data) (po : '[' ∉ port.data) (pcl : ']' ∉ port.data) :
    SplitHostPort (host ++ ":" ++ port) = .ok (host, port) := by
  have hdata : (host ++ ":" ++ port).data = host.data ++ ':' :: port.data := by
    simp [String.data_append]
  have hhead : (host.data ++ ':' :: port.data).head? ≠ some '[' := by
    cases hh : host.data with
    | nil => simp
    | cons x xs =>
      rw [hh] at ho
      simp only [List.mem_cons, not_or] at ho
      simp [Ne.symm ho.1]
  unfold SplitHostPort
  simp only [hdata, lastIndexByte_join ':' host.data port.data pc, hhead, ↓reduceIte]
  have h1 : indexByte (List.take host.data.length (host.data ++ ':' :: port.data)) ':' = none := by
    rw [List.take_left]
    exact indexByte_eq_none _ _ hc
  have h2 : indexByte (host.data ++ ':' :: port.data) '[' = none :=
    indexByte_eq_none _ _ (by simp [ho, po])
  have h3 : indexByte (host.data ++ ':' :: port.data) ']' = none :=
    indexByte_eq_none _ _ (by simp [hcl, pcl])
  simp only [h1, h2, h3, Option.isSome_none, Bool.false_eq_true, ↓reduceIte]
  have hdrop : List.drop (host.data.length + 1) (host.data ++ ':' :: port.data) = port.data := by
    rw [List.drop_append_eq_append_drop]
    simp
  simp only [hdrop, List.take_left]

theorem splitCount_one (s : String) : splitCount s ':' = 1 ↔ ':' ∉ s.data := by
  unfold splitCount
  simp [List.count_eq_zero]

theorem SplitHostPort_has_colon (s host port : String) (h : SplitHostPort s = .ok (host, port)) :
    ':' ∈ s.data := by
  by_contra hn
  unfold SplitHostPort at h
  simp [lastIndexByte_eq_none ':' s.data hn] at h

theorem digits_no_separator (l : List Char) (h : ∀ c ∈ l, (digitValue c).isSome = true) :
    ':' ∉ l ∧ '[' ∉ l ∧ ']' ∉ l :=
  ⟨fun hm => by simpa [digitValue] using h _ hm, fun hm => by simpa [digitValue] using h _ hm,
    fun hm => by simpa [digitValue] using h _ hm⟩

theorem Itoa_no_separator (d : Int) :
    ':' ∉ (Itoa d).data ∧ '[' ∉ (Itoa d).data ∧ ']' ∉ (Itoa d).data := by
  cases d with
  | ofNat m => exact digits_no_separator _ (decimalDigits_digits (m + 1) m (by omega))
  | negSucc m =>
    have h := digits_no_separator _ (decimalDigits_digits (m + 2) (m + 1) (by omega))
    simp only [Itoa, List.mem_cons, not_or]
    exact ⟨⟨by decide, h.1⟩, ⟨by decide, h.2.1⟩, ⟨by decide, h.2.2⟩⟩


/-! ## `strconv.ParseInt` against the decimal value -/

theorem ParseInt_ok_iff (s : String) (bitSize : Nat) (v : Int) :
    ParseInt s bitSize = .ok v
      ↔ decimalValue s = some v ∧ -(2 : Int) ^ (bitSize - 1) ≤ v ∧ v < (2 : Int) ^ (bitSize - 1) := by
  unfold ParseInt decimalValue
  simp only
  cases hs : s.data with
  | nil => simp
  | cons c rest =>
    simp only
    cases hd : (if c = '+' ∨ c = '-' then rest else c :: rest) with
    | nil => simp
    | cons x xs =>
      simp only
      cases hp : parseDigits 0 (x :: xs) with
      | none => simp
      | some un =>
        simp only
        have hcast : ∀ a : Nat, ((2 ^ (bitSize - 1) : Nat) : Int) = (2 : Int) ^ (bitSize - 1) := by
          intro _; push_cast; rfl
        by_cases hneg : c = '-'
        · subst hneg
          simp only [beq_self_eq_true, Bool.true_eq_false, false_and, ↓reduceIte, true_and]
          by_cases hlt : 2 ^ (bitSize - 1) < un
          · simp only [hlt, ↓reduceIte]
            constructor
            · intro h; cases h
            · rintro ⟨h1, h2, _⟩
              simp only [Option.some.injEq] at h1
              subst h1
              have : ((2 ^ (bitSize - 1) : Nat) : Int) < (un : Int) := by exact_mod_cast hlt
              rw [hcast 0] at this
              omega
          · simp only [hlt, ↓reduceIte]
            constructor
            · intro h
              cases h
              have : (un : Int) ≤ ((2 ^ (bitSize - 1) : Nat) : Int) := by
                exact_mod_cast Nat.le_of_not_lt hlt
              rw [hcast 0] at this
              have hpos : (0 : Int) < (2 : Int) ^ (bitSize - 1) := by positivity
              exact ⟨rfl, by omega, by omega⟩
            · rintro ⟨h1, _, _⟩
              simp only [Option.some.injEq] at h1
              rw [h1]
        · have hb : (c == '-') = false := by simpa using hneg
          simp only [hb, true_and, Bool.false_eq_true, false_and, ↓reduceIte, hneg]
          by_cases hle : 2 ^ (bitSize - 1) ≤ un
          · simp only [hle, ↓reduceIte]
            constructor
            · intro h; cases h
            · rintro ⟨h1, _, h3⟩
              simp only [Option.some.injEq] at h1
              subst h1
              have : ((2 ^ (bitSize - 1) : Nat) : Int) ≤ (un : Int) := by exact_mod_cast hle
              rw [hcast 0] at this
              omega
          · simp only [hle, ↓reduceIte]
            constructor
            · intro h
              cases h
              have : (un : Int) < ((2 ^ (bitSize - 1) : Nat) : Int) := by
                exact_mod_cast Nat.lt_of_not_le hle
              rw [hcast 0] at this
              have hpos : (0 : Int) < (2 : Int) ^ (bitSize - 1) := by positivity
              exact ⟨rfl, by omega, by omega⟩
            · rintro ⟨h1, _, _⟩
              simp only [Option.some.injEq] at h1
              rw [h1]


theorem ParseInt_too_large (s : String) (bitSize : Nat) (v : Int)
    (hv : decimalValue s = some v) (hlarge : (2 : Int) ^ (bitSize - 1) ≤ v) :
    ParseInt s bitSize = .error .outOfRange := by
  unfold decimalValue at hv
  unfold ParseInt
  simp only at hv ⊢
  cases hs : s.data with
  | nil => simp [hs] at hv
  | cons c rest =>
    simp only [hs] at hv ⊢
    cases hd : (if c = '+' ∨ c = '-' then rest else c :: rest) with
    | nil => simp [hd] at hv
    | cons x xs =>
      simp only [hd] at hv ⊢
      cases hp : parseDigits 0 (x :: xs) with
      | none => simp [hp] at hv
      | some un =>
        simp only [hp, Option.some.injEq] at hv ⊢
        have hpos : (0 : Int) < (2 : Int) ^ (bitSize - 1) := by positivity
        have hcast : ((2 ^ (bitSize - 1) : Nat) : Int) = (2 : Int) ^ (bitSize - 1) := by
          push_cast; rfl
        by_cases hneg : c = '-'
        · simp only [hneg, ↓reduceIte] at hv
          omega
        · simp only [hneg, ↓reduceIte] at hv
          have hb : (c == '-') = false := by simpa using hneg
          have hle : 2 ^ (bitSize - 1) ≤ un := by
            have : ((2 ^ (bitSize - 1) : Nat) : Int) ≤ (un : Int) := by rw [hcast]; omega
            exact_mod_cast this
          simp [hb, hle]

/-- C26. Without ingress and gateway, `controlPlaneEndpoint` returns a host and
a port exactly when the status endpoint splits into that host and a port text
that is a decimal integer of that value within -32768..32767. For every
claim, with or without ingress and gateway: a status endpoint whose port is
within 32768..65535 is rejected with the port-conversion error, and so is
every port text `strconv.ParseInt` does not read as a 16-bit integer; a
status endpoint that does not split is rejected with the split error. -/
theorem C26_status_port_sixteen_bits (scp : StewardControlPlane) (statusEndpoint : String) :
    (scp.Spec.Network.Ingress = none → scp.Spec.Network.Gateway = none →
      ∀ host port, controlPlaneEndpoint scp statusEndpoint = .ok (host, port)
        ↔ ∃ strPort, SplitHostPort statusEndpoint = .ok (host, strPort)
            ∧ decimalValue strPort = some port ∧ -32768 ≤ port ∧ port ≤ 32767)
    ∧ (∀ host strPort port, SplitHostPort statusEndpoint = .ok (host, strPort) →
        decimalValue strPort = some port → 32768 ≤ port → port ≤ 65535 →
        controlPlaneEndpoint scp statusEndpoint
          = .error (.wrap "cannot convert port to integer: " (numErr strPort .outOfRange)))
    ∧ (∀ host strPort e, SplitHostPort statusEndpoint = .ok (host, strPort) →
        ParseInt strPort 16 = .error e →
        controlPlaneEndpoint scp statusEndpoint
          = .error (.wrap "cannot convert port to integer: " (numErr strPort e)))
    ∧ (∀ e, SplitHostPort statusEndpoint = .error e →
        controlPlaneEndpoint scp statusEndpoint
          = .error (.wrap "cannot split the Steward endpoint host port pair: "
              (addrErr statusEndpoint e))) := by
  have hconv : ∀ host strPort e, SplitHostPort statusEndpoint = .ok (host, strPort) →
      ParseInt strPort 16 = .error e →
      controlPlaneEndpoint scp statusEndpoint
        = .error (.wrap "cannot convert port to integer: " (numErr strPort e)) := by
    intro host strPort e hs hp
    simp [controlPlaneEndpoint, hs, hp]
  refine ⟨?_, ?_, hconv, ?_⟩
  · intro hi hg host port
    unfold controlPlaneEndpoint
    cases hs : SplitHostPort statusEndpoint with
    | error e => simp
    | ok hp =>
      obtain ⟨h, sp⟩ := hp
      simp only [hi, hg]
      cases hpi : ParseInt sp 16 with
      | error e =>
        simp only [false_iff, reduceCtorEq]
        rintro ⟨strPort, h1, h2, h3, h4⟩
        simp only [Except.ok.injEq, Prod.mk.injEq] at h1
        obtain ⟨rfl, rfl⟩ := h1
        have := (ParseInt_ok_iff sp 16 port).2 ⟨h2, by norm_num; omega, by norm_num; omega⟩
        rw [hpi] at this
        cases this
      | ok p =>
        have hp := (ParseInt_ok_iff sp 16 p).1 hpi
        norm_num at hp
        simp only [Except.ok.injEq, Prod.mk.injEq]
        constructor
        · rintro ⟨rfl, rfl⟩
          exact ⟨sp, ⟨rfl, rfl⟩, hp.1, hp.2.1, by omega⟩
        · rintro ⟨strPort, ⟨rfl, rfl⟩, h2, _, _⟩
          rw [hp.1] at h2
          exact ⟨rfl, Option.some.inj h2⟩
  · intro host strPort port hs hv hlo _
    exact hconv host strPort _ hs (ParseInt_too_large strPort 16 port hv (by norm_num; omega))
  · intro e hs
    simp [controlPlaneEndpoint, hs]

/-- C26 at concrete inputs: the port 6443 is returned, the port 40000 is
rejected, also for a claim with an ingress. -/
theorem C26_status_port_sixteen_bits_witness :
    controlPlaneEndpoint claimInitialized "10.0.0.1:6443" = .ok ("10.0.0.1", 6443)
    ∧ controlPlaneEndpoint claimBehindIngress "10.0.0.1:40000"
        = .error (.wrap "cannot convert port to integer: " (numErr "40000" .outOfRange)) :=
  ⟨((C26_status_port_sixteen_bits claimInitialized "10.0.0.1:6443").1 rfl rfl "10.0.0.1" 6443).2
      ⟨"6443", rfl, by decide, by decide, by decide⟩,
   (C26_status_port_sixteen_bits claimBehindIngress "10.0.0.1:40000").2.1 "10.0.0.1" "40000" 40000
      rfl (by decide) (by decide) (by decide)⟩


theorem decimalValue_no_separator (s : String) (v : Int) (h : decimalValue s = some v) :
    ':' ∉ s.data ∧ '[' ∉ s.data ∧ ']' ∉ s.data := by
  unfold decimalValue at h
  cases hs : s.data with
  | nil => simp [hs] at h
  | cons c rest =>
    simp only [hs] at h
    cases hd : (if c = '+' ∨ c = '-' then rest else c :: rest) with
    | nil => simp [hd] at h
    | cons x xs =>
      simp only [hd] at h
      cases hp : parseDigits 0 (x :: xs) with
      | none => simp [hp] at h
      | some un =>
        have hdig := digits_no_separator _ (parseDigits_digits 0 _ un hp)
        by_cases hsign : c = '+' ∨ c = '-'
        · simp only [hsign, ↓reduceIte] at hd
          subst hd
          have hcons : ∀ a : Char, a ≠ c → a ∉ x :: xs → a ∉ c :: x :: xs := by
            intro a hne hm hmem
            rcases List.mem_cons.1 hmem with heq | hmem
            · exact hne heq
            · exact hm hmem
          rcases hsign with rfl | rfl
          · exact ⟨hcons _ (by decide) hdig.1, hcons _ (by decide) hdig.2.1,
              hcons _ (by decide) hdig.2.2⟩
          · exact ⟨hcons _ (by decide) hdig.1, hcons _ (by decide) hdig.2.1,
              hcons _ (by decide) hdig.2.2⟩
        · simp only [hsign, ↓reduceIte] at hd
          rw [hd]
          exact hdig

theorem parseHostnameWithDefault_of_split (h host strPort : String) (port d : Int)
    (label : String) (hs : SplitHostPort h = .ok (host, strPort))
    (hp : ParseInt strPort 64 = .ok port) :
    parseHostnameWithDefault h d label = .ok (host, port) := by
  have hc : ¬ splitCount h ':' = 1 := by
    rw [splitCount_one]
    exact not_not.2 (SplitHostPort_has_colon h host strPort hs)
  simp [parseHostnameWithDefault, hc, hs, hp]

theorem parseHostnameWithDefault_of_no_colon (h : String) (d : Int) (label : String)
    (hc : ':' ∉ h.data) (ho : '[' ∉ h.data) (hcl : ']' ∉ h.data)
    (hlo : -(2 : Int) ^ 63 ≤ d) (hhi : d < (2 : Int) ^ 63) :
    parseHostnameWithDefault h d label = .ok (h, d) := by
  have h1 : splitCount h ':' = 1 := (splitCount_one h).2 hc
  have hsep := Itoa_no_separator d
  have hs := SplitHostPort_join h (Itoa d) hc ho hcl hsep.1 hsep.2.1 hsep.2.2
  have hp := ParseInt_Itoa d 64 hlo hhi
  simp [parseHostnameWithDefault, h1, hs, hp]

/-- C21. `parseHostnameWithDefault` returns a hostname without colon (and
without square bracket) unchanged, with the default port, a 64-bit integer;
for a hostname `host:port`, the host free of colons and brackets and the
port a decimal integer of 64 bits, it returns that host and that port. On a
status endpoint that splits and whose port reads as a 16-bit integer,
`controlPlaneEndpoint` resolves an ingress hostname without port to port 443
when no gateway is configured, a gateway hostname without port to port 6443
when the ingress, if any, has a hostname that parses; with both configured
and the ingress hostname parsing, the result is what the gateway hostname
parses to. -/
theorem C21_hostname_default_port :
    (∀ h d label, ':' ∉ h.data → '[' ∉ h.data → ']' ∉ h.data →
        -(2 : Int) ^ 63 ≤ d → d < (2 : Int) ^ 63 →
        parseHostnameWithDefault h d label = .ok (h, d))
    ∧ (∀ host portText port d label, ':' ∉ host.data → '[' ∉ host.data → ']' ∉ host.data →
        decimalValue portText = some port → -(2 : Int) ^ 63 ≤ port → port < (2 : Int) ^ 63 →
        parseHostnameWithDefault (host ++ ":" ++ portText) d label = .ok (host, port))
    ∧ ∀ (scp : StewardControlPlane) (statusEndpoint endpoint strPort : String)
        (statusPort : Int),
        SplitHostPort statusEndpoint = .ok (endpoint, strPort) →
        ParseInt strPort 16 = .ok statusPort →
        (∀ ingress, scp.Spec.Network.Ingress = some ingress →
            scp.Spec.Network.Gateway = none →
            ':' ∉ ingress.Hostname.data → '[' ∉ ingress.Hostname.data →
            ']' ∉ ingress.Hostname.data →
            controlPlaneEndpoint scp statusEndpoint = .ok (ingress.Hostname, 443))
        ∧ (∀ gateway, scp.Spec.Network.Gateway = some gateway →
            (∀ ingress, scp.Spec.Network.Ingress = some ingress →
              ∃ r, parseHostnameWithDefault ingress.Hostname defaultIngressPort "Ingress"
                = .ok r) →
            ':' ∉ gateway.Hostname.data → '[' ∉ gateway.Hostname.data →
            ']' ∉ gateway.Hostname.data →
            controlPlaneEndpoint scp statusEndpoint = .ok (gateway.Hostname, 6443))
        ∧ (∀ ingress gateway, scp.Spec.Network.Ingress = some ingress →
            scp.Spec.Network.Gateway = some gateway →
            (∃ r, parseHostnameWithDefault ingress.Hostname defaultIngressPort "Ingress"
              = .ok r) →
            controlPlaneEndpoint scp statusEndpoint
              = parseHostnameWithDefault gateway.Hostname defaultGatewayPort "Gateway") := by
  refine ⟨?_, ?_, ?_⟩
  · intro h d label hc ho hcl hlo hhi
    exact parseHostnameWithDefault_of_no_colon h d label hc ho hcl hlo hhi
  · intro host portText port d label hc ho hcl hv hlo hhi
    have hsep := decimalValue_no_separator portText port hv
    exact parseHostnameWithDefault_of_split _ host portText port d label
      (SplitHostPort_join host portText hc ho hcl hsep.1 hsep.2.1 hsep.2.2)
      ((ParseInt_ok_iff portText 64 port).2 ⟨hv, hlo, hhi⟩)
  · intro scp statusEndpoint endpoint strPort statusPort hsplit hport
    have hboth : ∀ gateway, scp.Spec.Network.Gateway = some gateway →
        (∀ ingress, scp.Spec.Network.Ingress = some ingress →
          ∃ r, parseHostnameWithDefault ingress.Hostname defaultIngressPort "Ingress" = .ok r) →
        controlPlaneEndpoint scp statusEndpoint
          = parseHostnameWithDefault gateway.Hostname defaultGatewayPort "Gateway" := by
      intro gateway hg hi
      unfold controlPlaneEndpoint
      simp only [hsplit, hport, hg]
      cases hing : scp.Spec.Network.Ingress with
      | none => rfl
      | some ingress =>
        obtain ⟨r, hr⟩ := hi ingress hing
        simp only [hr]
    refine ⟨?_, ?_, ?_⟩
    · intro ingress hi hg hc ho hcl
      have hp := parseHostnameWithDefault_of_no_colon ingress.Hostname defaultIngressPort
        "Ingress" hc ho hcl (by decide) (by decide)
      unfold controlPlaneEndpoint
      simp only [hsplit, hport, hi, hg, hp]
      rfl
    · intro gateway hg hi hc ho hcl
      rw [hboth gateway hg hi]
      exact parseHostnameWithDefault_of_no_colon gateway.Hostname defaultGatewayPort "Gateway"
        hc ho hcl (by decide) (by decide)
    · intro ingress gateway hi hg hr
      exact hboth gateway hg (fun ingress' hi' => by
        rw [hi] at hi'
        cases hi'
        exact hr)

/-- C21 at concrete inputs: a hostname without colon gets the default port; an
ingress without port resolves to port 443; with an ingress and a gateway
`gw.example.com:8443` the result is the gateway's host and port. -/
theorem C21_hostname_default_port_witness :
    parseHostnameWithDefault "gw.example.com" 6443 "Gateway" = .ok ("gw.example.com", 6443)
    ∧ controlPlaneEndpoint claimBehindIngress "10.0.0.1:6443" = .ok ("cp.example.com", 443)
    ∧ controlPlaneEndpoint claimBehindBoth "10.0.0.1:6443" = .ok ("gw.example.com", 8443) :=
  ⟨C21_hostname_default_port.1 "gw.example.com" 6443 "Gateway" (by decide) (by decide)
      (by decide) (by decide) (by decide),
   (C21_hostname_default_port.2.2 claimBehindIngress "10.0.0.1:6443" "10.0.0.1" "6443" 6443 rfl
      rfl).1 { Hostname := "cp.example.com" } rfl rfl (by decide) (by decide) (by decide),
   ((C21_hostname_default_port.2.2 claimBehindBoth "10.0.0.1:6443" "10.0.0.1" "6443" 6443 rfl
      rfl).2.2 { Hostname := "cp.example.com" } { Hostname := "gw.example.com:8443" } rfl rfl
      ⟨("cp.example.com", 443), rfl⟩).trans rfl⟩

/-- C21 fails as stated: the hostname `[abc]` holds no colon and comes back as
host `abc`; the hostname `a]b` holds no colon and is rejected; and with the
ingress hostname `a:b:c` and a gateway `gw.example.com`, on a status endpoint
that parses, the result is the error of the ingress hostname, not the
gateway's host and port. -/
theorem C21_counterexample :
    parseHostnameWithDefault "[abc]" 443 "Ingress" = .ok ("abc", 443)
    ∧ parseHostnameWithDefault "a]b" 443 "Ingress"
        = .error (.wrap "cannot split the Steward Ingress hostname host port pair: "
            (.other "address a]b:443: unexpected ] in address"))
    ∧ controlPlaneEndpoint claimInitialized "10.0.0.1:6443" = .ok ("10.0.0.1", 6443)
    ∧ controlPlaneEndpoint claimUnparsableIngress "10.0.0.1:6443"
        = .error (.wrap "cannot split the Steward Ingress hostname host port pair: "
            (.other "address a:b:c: too many colons in address")) :=
  ⟨rfl, rfl, rfl, rfl⟩

/-! ## `patchControlPlaneEndpoint` -/

theorem int32_of_range (x : Int) (hlo : -(2 : Int) ^ 31 ≤ x) (hhi : x < (2 : Int) ^ 31) :
    int32 x = x := by
  unfold int32
  norm_num at hlo hhi ⊢
  omega

/-- C27. On the claim whose ingress hostname is `cp.example.com:4294967739` and
the status endpoint `10.0.0.1:6443`, `controlPlaneEndpoint` resolves the port
4294967739, and `patchControlPlaneEndpoint`, its patch accepted, stores the
port 443 in the claim's `Spec.ControlPlaneEndpoint`. -/
theorem C27_port_truncated :
    controlPlaneEndpoint claimIngressWidePort "10.0.0.1:6443"
      = .ok ("cp.example.com", 4294967739)
    ∧ (patchControlPlaneEndpoint patchAccepted claimIngressWidePort "10.0.0.1:6443").2 = none
    ∧ (patchControlPlaneEndpoint patchAccepted claimIngressWidePort
        "10.0.0.1:6443").1.Spec.ControlPlaneEndpoint
        = { Host := "cp.example.com", Port := 443 } := by
  refine ⟨by rfl, by rfl, by decide⟩


/-! ## Names of remote workloads -/

theorem hasPrefix_append (p u : String) : hasPrefix (p ++ u) p = true := by
  simp [hasPrefix, String.data_append]

theorem TrimPrefix_append (p u : String) : TrimPrefix (p ++ u) p = u := by
  simp [TrimPrefix, hasPrefix_append, String.data_append]

theorem string_append_left_cancel (p a b : String) (h : p ++ a = p ++ b) : a = b := by
  have hd := congrArg String.data h
  simp only [String.data_append] at hd
  exact String.ext (List.append_cancel_left hd)

/-- C29. The UID parsed from a workload named by
`GenerateRemoteTenantControlPlaneNames` for a claim is the claim's UID; claims
with distinct UIDs get distinct names; and the parse of a name that does not
start with `kcp-` is the empty string. -/
theorem C29_remote_name_round_trip :
    (∀ (scp : StewardControlPlane) (name ns : String) (tcp : TenantControlPlane),
        GenerateRemoteTenantControlPlaneNames scp = some (name, ns) →
        tcp.Meta.Name = name →
        ParseStewardControlPlaneUIDFromTenantControlPlane tcp = scp.Meta.UID)
    ∧ (∀ (scp₁ scp₂ : StewardControlPlane) (name₁ ns₁ name₂ ns₂ : String),
        GenerateRemoteTenantControlPlaneNames scp₁ = some (name₁, ns₁) →
        GenerateRemoteTenantControlPlaneNames scp₂ = some (name₂, ns₂) →
        scp₁.Meta.UID ≠ scp₂.Meta.UID → name₁ ≠ name₂)
    ∧ (∀ tcp : TenantControlPlane, hasPrefix tcp.Meta.Name "kcp-" = false →
        ParseStewardControlPlaneUIDFromTenantControlPlane tcp = "") := by
  refine ⟨?_, ?_, ?_⟩
  · intro scp name ns tcp hgen hname
    unfold GenerateRemoteTenantControlPlaneNames at hgen
    cases href : scp.Spec.Deployment.ExternalClusterReference with
    | none => simp [href] at hgen
    | some ref =>
      simp only [href, Option.some.injEq, Prod.mk.injEq] at hgen
      unfold ParseStewardControlPlaneUIDFromTenantControlPlane
      rw [hname, ← hgen.1]
      simp [hasPrefix_append, TrimPrefix_append]
  · intro scp₁ scp₂ name₁ ns₁ name₂ ns₂ h₁ h₂ hne heq
    unfold GenerateRemoteTenantControlPlaneNames at h₁ h₂
    cases href₁ : scp₁.Spec.Deployment.ExternalClusterReference with
    | none => simp [href₁] at h₁
    | some ref₁ =>
      cases href₂ : scp₂.Spec.Deployment.ExternalClusterReference with
      | none => simp [href₂] at h₂
      | some ref₂ =>
        simp only [href₁, Option.some.injEq, Prod.mk.injEq] at h₁
        simp only [href₂, Option.some.injEq, Prod.mk.injEq] at h₂
        rw [← h₁.1, ← h₂.1] at heq
        exact hne (string_append_left_cancel _ _ _ heq)
  · intro tcp h
    have h' : hasPrefix tcp.Meta.Name RemoteTCPPrefix = false := h
    simp [ParseStewardControlPlaneUIDFromTenantControlPlane, h']

/-- C29 at concrete inputs: the workload of `claimRemote` is named `kcp-u-1` and
parses back to `u-1`; the name `cp` parses to the empty string. -/
theorem C29_remote_name_round_trip_witness :
    ParseStewardControlPlaneUIDFromTenantControlPlane { Meta := { Name := "kcp-u-1" } } = "u-1"
    ∧ ParseStewardControlPlaneUIDFromTenantControlPlane tcpFresh = "" :=
  ⟨C29_remote_name_round_trip.1 claimRemote "kcp-u-1" "tenants" { Meta := { Name := "kcp-u-1" } }
      rfl rfl,
   C29_remote_name_round_trip.2.2 tcpFresh rfl⟩


/-! ## Store keys -/

theorem GenerateKeyNameFromSecret_mem (secret : Secret) (order : List String) (key : String) :
    key ∈ GenerateKeyNameFromSecret secret order
      ↔ ∃ k, k ∈ order ∧ key = secret.Meta.Namespace ++ "/" ++ secret.Meta.Name ++ "/" ++ k := by
  unfold GenerateKeyNameFromSecret
  simp only [List.mem_map]
  constructor
  · rintro ⟨k, hk, rfl⟩
    exact ⟨k, hk, rfl⟩
  · rintro ⟨k, hk, rfl⟩
    exact ⟨k, hk, rfl⟩

theorem GenerateKeyNameFromSecret_nodup (secret : Secret) (order : List String)
    (h : order.Nodup) : (GenerateKeyNameFromSecret secret order).Nodup := by
  unfold GenerateKeyNameFromSecret
  exact h.map (fun a b hab => string_append_left_cancel _ a b hab)

/-- C30. For a secret with namespace `ns`, name `n` and its data keys ranged
over: a claim whose external reference names the secret `n` and the key `k`
of an entry of the secret's data, and whose effective secret namespace (the
referenced one, or the claim's own when none is given) is `ns`, has the store
key `ns/n/k`, and this is one of the keys `GenerateKeyNameFromSecret` returns;
that function returns exactly the keys `ns/n/k` of the data entries `k`,
each once. -/
theorem C30_store_keys_agree (secret : Secret) (order : List String)
    (hrange : secret.rangedBy order) :
    (∀ (scp : StewardControlPlane) (ref : ExternalClusterReference) (k : String),
        scp.Spec.Deployment.ExternalClusterReference = some ref →
        ref.KubeconfigSecretName = secret.Meta.Name →
        ref.KubeconfigSecretKey = k →
        (if ref.KubeconfigSecretNamespace ≠ "" then ref.KubeconfigSecretNamespace
          else scp.Meta.Namespace) = secret.Meta.Namespace →
        (secret.lookup k).isSome = true →
        GenerateKeyNameFromSteward scp
            = some (secret.Meta.Namespace ++ "/" ++ secret.Meta.Name ++ "/" ++ k)
          ∧ secret.Meta.Namespace ++ "/" ++ secret.Meta.Name ++ "/" ++ k
              ∈ GenerateKeyNameFromSecret secret order)
    ∧ (GenerateKeyNameFromSecret secret order).Nodup
    ∧ (GenerateKeyNameFromSecret secret order).length = order.length
    ∧ ∀ key, key ∈ GenerateKeyNameFromSecret secret order
        ↔ ∃ k, (secret.lookup k).isSome = true
            ∧ key = secret.Meta.Namespace ++ "/" ++ secret.Meta.Name ++ "/" ++ k := by
  refine ⟨?_, GenerateKeyNameFromSecret_nodup secret order hrange.1, ?_, ?_⟩
  · intro scp ref k href hname hkey hns hdata
    constructor
    · unfold GenerateKeyNameFromSteward
      simp only [href]
      rw [hns, hname, hkey]
    · exact (GenerateKeyNameFromSecret_mem secret order _).2 ⟨k, (hrange.2 k).2 hdata, rfl⟩
  · simp [GenerateKeyNameFromSecret]
  · intro key
    rw [GenerateKeyNameFromSecret_mem]
    constructor
    · rintro ⟨k, hk, rfl⟩
      exact ⟨k, (hrange.2 k).1 hk, rfl⟩
    · rintro ⟨k, hk, rfl⟩
      exact ⟨k, (hrange.2 k).2 hk, rfl⟩

theorem secretRotated_ranged : secretRotated.rangedBy ["value"] := by
  refine ⟨by simp, ?_⟩
  intro k
  by_cases hk : k = "value"
  · subst hk
    simp [Secret.lookup, secretRotated, GoMap.ofList]
  · simp [Secret.lookup, secretRotated, GoMap.ofList, hk, Ne.symm hk]

/-- C30 at a concrete input: the claim `claimRemote` and the secret
`default/kubeconfig` with the data key `value`. -/
theorem C30_store_keys_agree_witness :
    GenerateKeyNameFromSteward claimRemote = some "default/kubeconfig/value"
    ∧ "default/kubeconfig/value" ∈ GenerateKeyNameFromSecret secretRotated ["value"] :=
  (C30_store_keys_agree secretRotated ["value"] secretRotated_ranged).1 claimRemote ecrExample
    "value" rfl rfl rfl rfl rfl


/-! ## `handleFinalizer` and the finalizers of the stored claim -/

theorem handleFinalizer_of_present (env : Env) (scp : StewardControlPlane) (tr : List Event)
    (h : ExternalClusterReferenceFinalizer ∈ scp.Meta.Finalizers) :
    handleFinalizer env scp tr = ((scp, tr), none) := by
  simp [handleFinalizer, setsHas, setsNew, h]

/-- C28. The claim in memory carries no finalizer, the stored claim, as the
re-read returns it, carries `example.com/protect`, and the update is accepted:
`handleFinalizer` succeeds after one read and one update, and the update
writes the finalizer `ecr.steward.butlerlabs.dev/finalizer` alone, so that the
stored claim has lost `example.com/protect`. -/
theorem C28_stored_finalizer_dropped :
    (handleFinalizer envForeignFinalizer claimUnguarded []).2 = none
    ∧ (handleFinalizer envForeignFinalizer claimUnguarded []).1.2
        = [.getClaim "default" "cp",
           .updateClaim
             { claimForeignFinalizer with Meta.Finalizers := [ExternalClusterReferenceFinalizer] }
             none]
    ∧ finalizersAfter claimForeignFinalizer.Meta.Finalizers
          (handleFinalizer envForeignFinalizer claimUnguarded []).1.2
        = ["ecr.steward.butlerlabs.dev/finalizer"]
    ∧ "example.com/protect" ∈ claimForeignFinalizer.Meta.Finalizers := by
  refine ⟨by rfl, by rfl, by decide, by decide⟩


/-! ## The generation `TrackConditionType` records -/

theorem recordedGeneration_setCondition (conditions : List Condition) (c : Condition)
    (conditionType : String) :
    recordedGeneration (setCondition conditions c) conditionType
      = if c.ConditionType = conditionType then some c.ObservedGeneration
        else recordedGeneration conditions conditionType := by
  induction conditions with
  | nil =>
    by_cases h : c.ConditionType = conditionType <;>
      simp [setCondition, recordedGeneration, h]
  | cons x xs ih =>
    unfold setCondition
    by_cases hx : x.ConditionType = c.ConditionType
    · by_cases h : c.ConditionType = conditionType
      · simp [recordedGeneration, hx, h]
      · have hx' : ¬ x.ConditionType = conditionType := by rw [hx]; exact h
        simp [recordedGeneration, hx, h, hx']
    · simp only [hx, ↓reduceIte]
      by_cases hxt : x.ConditionType = conditionType
      · have h : ¬ c.ConditionType = conditionType := by
          rw [← hxt]; exact fun hc => hx hc.symm
        simp [recordedGeneration, hxt, h]
      · have := ih
        unfold recordedGeneration at this ⊢
        simp only [List.find?_cons, hxt, decide_False]
        exact this

/-- The generation on record after one call: for another type the one before;
for the type of the call, the generation of the call when none was on record
or when the step succeeded with a generation not lower than the one on
record, else the one on record. -/
theorem recordedGeneration_track {σ : Type} (conditions : List Condition)
    (conditionType : String) (generation : Int) (fn : σ → σ × Option Err) (s : σ)
    (other : String) :
    recordedGeneration (TrackConditionType conditions conditionType generation fn s).1 other
      = if conditionType = other then
          match recordedGeneration conditions conditionType with
          | none => some generation
          | some recorded =>
            if (fn s).2 = none ∧ recorded ≤ generation then some generation else some recorded
        else recordedGeneration conditions other := by
  unfold TrackConditionType
  rcases hfn : fn s with ⟨s', _ | e⟩
  · by_cases hto : conditionType = other
    · subst hto
      cases hrec : recordedGeneration conditions conditionType with
      | none => simp [recordedGeneration_setCondition]
      | some recorded =>
        by_cases hlt : generation < recorded
        · have : ¬ recorded ≤ generation := by omega
          simp [hlt, this, hrec]
        · have : recorded ≤ generation := by omega
          simp [hlt, this, recordedGeneration_setCondition]
    · cases hrec : recordedGeneration conditions conditionType with
      | none => simp [recordedGeneration_setCondition, hto]
      | some recorded =>
        by_cases hlt : generation < recorded
        · simp [hlt, hto]
        · simp [hlt, hto, recordedGeneration_setCondition]
  · by_cases hto : conditionType = other
    · subst hto
      cases hrec : recordedGeneration conditions conditionType with
      | none => simp [recordedGeneration_setCondition]
      | some recorded => simp [recordedGeneration_setCondition]
    · simp [recordedGeneration_setCondition, hto]

theorem recordedGeneration_track_le {σ : Type} (conditions : List Condition)
    (conditionType : String) (generation : Int) (fn : σ → σ × Option Err) (s : σ)
    (other : String) (g : Int) (h : recordedGeneration conditions other = some g) :
    ∃ g', recordedGeneration (TrackConditionType conditions conditionType generation fn s).1
        other = some g' ∧ g ≤ g' := by
  rw [recordedGeneration_track]
  by_cases hto : conditionType = other
  · subst hto
    simp only [↓reduceIte, h]
    by_cases hc : (fn s).2 = none ∧ g ≤ generation
    · rw [if_pos hc]
      exact ⟨generation, rfl, hc.2⟩
    · rw [if_neg hc]
      exact ⟨g, rfl, le_refl g⟩
  · rw [if_neg hto]
    exact ⟨g, h, le_refl g⟩

theorem trackAll_append (conditions : List Condition) (first rest : List TrackCall) :
    trackAll conditions (first ++ rest) = trackAll (trackAll conditions first) rest := by
  induction first generalizing conditions with
  | nil => rfl
  | cons c cs ih =>
    rw [List.cons_append, trackAll, trackAll]
    exact ih _

theorem recordedGeneration_trackAll_le (conditions : List Condition) (calls : List TrackCall)
    (conditionType : String) (g : Int)
    (h : recordedGeneration conditions conditionType = some g) :
    ∃ g', recordedGeneration (trackAll conditions calls) conditionType = some g' ∧ g ≤ g' := by
  induction calls generalizing conditions g with
  | nil => exact ⟨g, h, le_refl g⟩
  | cons c cs ih =>
    rw [trackAll]
    obtain ⟨g₁, h₁, hle₁⟩ := recordedGeneration_track_le conditions c.conditionType c.generation
      (fun (s : Unit) => (s, c.outcome)) () conditionType g h
    obtain ⟨g₂, h₂, hle₂⟩ := ih _ g₁ h₁
    exact ⟨g₂, h₂, le_trans hle₁ hle₂⟩

/-- C24. Across every sequence of `TrackConditionType` calls on the condition
list of one claim, the generation recorded on the condition of a given type
never decreases: whatever generation is on record for a type after the
first calls of the sequence, a generation at least as high is on record
after the calls that follow. A call that carries a generation lower than
the one on record for its type leaves that generation on record, whatever
its step function returns; and every call leaves a generation on record for
its type. -/
theorem C24_generation_never_decreases (conditions : List Condition)
    (first rest : List TrackCall) (conditionType : String) (g : Int)
    (h : recordedGeneration (trackAll conditions first) conditionType = some g) :
    (∃ g', recordedGeneration (trackAll conditions (first ++ rest)) conditionType = some g'
        ∧ g ≤ g')
    ∧ (∀ call : TrackCall, call.conditionType = conditionType → call.generation < g →
        recordedGeneration (trackAll conditions (first ++ [call])) conditionType = some g)
    ∧ (∀ call : TrackCall, ∃ g',
        recordedGeneration (trackAll conditions (first ++ [call])) call.conditionType
          = some g') := by
  refine ⟨?_, ?_, ?_⟩
  · rw [trackAll_append]
    exact recordedGeneration_trackAll_le _ rest conditionType g h
  · intro call htype hlt
    rw [trackAll_append, trackAll, trackAll, recordedGeneration_track, if_pos htype, htype, h]
    have : ¬ (call.outcome = none ∧ g ≤ call.generation) := fun hc => by omega
    simp only [this, ↓reduceIte]
  · intro call
    rw [trackAll_append, trackAll, trackAll, recordedGeneration_track, if_pos rfl]
    cases recordedGeneration (trackAll conditions first) call.conditionType with
    | none => exact ⟨_, rfl⟩
    | some recorded =>
      dsimp only
      split <;> exact ⟨_, rfl⟩

/-- C24 at a concrete input: a call for `TenantControlPlaneCreated` carrying
generation 5 records 5; a later call for the same type carrying generation 3
leaves 5 on record, whether its step succeeds or fails. -/
theorem C24_generation_never_decreases_witness :
    recordedGeneration
        (trackAll [] [{ conditionType := TenantControlPlaneCreatedConditionType, generation := 5 }])
        TenantControlPlaneCreatedConditionType = some 5
    ∧ recordedGeneration
        (trackAll []
          ([{ conditionType := TenantControlPlaneCreatedConditionType, generation := 5 }]
            ++ [{ conditionType := TenantControlPlaneCreatedConditionType, generation := 3 }]))
        TenantControlPlaneCreatedConditionType = some 5
    ∧ recordedGeneration
        (trackAll []
          ([{ conditionType := TenantControlPlaneCreatedConditionType, generation := 5 }]
            ++ [{ conditionType := TenantControlPlaneCreatedConditionType, generation := 3,
                  outcome := some (.other "boom") }]))
        TenantControlPlaneCreatedConditionType = some 5 :=
  ⟨by decide,
   (C24_generation_never_decreases []
      [{ conditionType := TenantControlPlaneCreatedConditionType, generation := 5 }] []
      TenantControlPlaneCreatedConditionType 5 (by decide)).2.1
      { conditionType := TenantControlPlaneCreatedConditionType, generation := 3 } rfl
      (by decide),
   (C24_generation_never_decreases []
      [{ conditionType := TenantControlPlaneCreatedConditionType, generation := 5 }] []
      TenantControlPlaneCreatedConditionType 5 (by decide)).2.1
      { conditionType := TenantControlPlaneCreatedConditionType, generation := 3,
        outcome := some (.other "boom") } rfl (by decide)⟩


/-! ## The store -/

theorem Store.Stop_entries_self (w : RouterWorld) (key : String) :
    (Store.Stop w key).1.entries key = none := by
  unfold Store.Stop
  cases h : w.entries key <;> simp [h]

theorem Store.Stop_entries_other (w : RouterWorld) (key other : String) (h : other ≠ key) :
    (Store.Stop w key).1.entries other = w.entries other := by
  unfold Store.Stop
  cases hk : w.entries key <;> simp [h]

theorem Store.Stop_started (w : RouterWorld) (key : String) :
    (Store.Stop w key).1.started = w.started := by
  unfold Store.Stop
  cases hk : w.entries key <;> rfl

theorem Store.Stop_cancelled (w : RouterWorld) (key : String) (t : Nat) :
    t ∈ (Store.Stop w key).1.cancelled
      ↔ t ∈ w.cancelled ∨ ∃ e, w.entries key = some e ∧ e.task = t := by
  unfold Store.Stop
  cases hk : w.entries key with
  | none => simp
  | some e =>
    simp only [List.mem_append, List.mem_singleton, Option.some.injEq, exists_eq_left']
    constructor
    · rintro (h | h)
      · exact Or.inl h
      · exact Or.inr h.symm
    · rintro (h | h)
      · exact Or.inl h
      · exact Or.inr h.symm

theorem Store.Add_entries_self (w : RouterWorld) (key version : String) (mgr : Manager)
    (task : Nat) :
    (Store.Add w key version mgr task).entries key
      = some { version := version, manager := mgr, task := task } := by
  simp [Store.Add]

theorem Store.Add_entries_other (w : RouterWorld) (key version : String) (mgr : Manager)
    (task : Nat) (other : String) (h : other ≠ key) :
    (Store.Add w key version mgr task).entries other = w.entries other := by
  simp [Store.Add, h]

theorem Store.Get_of_entry (w : RouterWorld) (key version : String) (e : StoreEntry)
    (h : w.entries key = some e) :
    Store.Get w key version = if e.version = version then some e.manager else none := by
  simp [Store.Get, h]

/-! ## A pass on a deleted secret -/

theorem Reconcile_of_not_found (env : RouterEnv) (ns name : String) (w : RouterWorld)
    (h : env.getSecret 0 ns name = .error .notFound) :
    ExternalClusterReferenceReconciler.Reconcile env ns name w
      = ((w, [.getSecret ns name]), none) := by
  simp [ExternalClusterReferenceReconciler.Reconcile, h, Err.isNotFound]

/-- C25. The store holds a connection under `default/kubeconfig/value`, its task
running, and the secret `default/kubeconfig` has been deleted: the pass for
the secret returns no error after its read, issues no call on the store, and
leaves the entry registered and its task live. -/
theorem C25_deleted_secret_keeps_connection :
    (ExternalClusterReferenceReconciler.Reconcile routerEnvDeleted "default" "kubeconfig"
        worldConnected).2 = none
    ∧ (ExternalClusterReferenceReconciler.Reconcile routerEnvDeleted "default" "kubeconfig"
        worldConnected).1.2 = [.getSecret "default" "kubeconfig"]
    ∧ Store.Get (ExternalClusterReferenceReconciler.Reconcile routerEnvDeleted "default"
        "kubeconfig" worldConnected).1.1 "default/kubeconfig/value" "1" = some managerExample
    ∧ liveTasks (ExternalClusterReferenceReconciler.Reconcile routerEnvDeleted "default"
        "kubeconfig" worldConnected).1.1 "default/kubeconfig/value" = [0] := by
  decide


/-! ## Loops of a pass -/

theorem rangeLoop_invariant {σ : Type} (body : String → σ → σ × Option Err) (P : σ → Prop)
    (hP : ∀ k s, P s → P (body k s).1) (l : List String) (s : σ) (h : P s) :
    P (rangeLoop body l s).1 := by
  induction l generalizing s with
  | nil => exact h
  | cons k ks ih =>
    unfold rangeLoop
    have hk := hP k s h
    rcases hb : body k s with ⟨s', _ | e⟩
    · rw [hb] at hk
      exact ih s' hk
    · rw [hb] at hk
      exact hk

theorem rangeLoop_invariant_ok {σ : Type} (body : String → σ → σ × Option Err) (P : σ → Prop)
    (hP : ∀ k s, P s → (body k s).2 = none → P (body k s).1) (l : List String) (s : σ)
    (h : P s) (hok : (rangeLoop body l s).2 = none) : P (rangeLoop body l s).1 := by
  induction l generalizing s with
  | nil => exact h
  | cons k ks ih =>
    unfold rangeLoop at hok ⊢
    have hk := hP k s h
    rcases hb : body k s with ⟨s', _ | e⟩
    · rw [hb] at hk
      simp only [hb] at hok ⊢
      exact ih s' (hk rfl) hok
    · simp [hb] at hok

theorem rangeLoop_reaches {σ : Type} (body : String → σ → σ × Option Err) (P Q : σ → Prop)
    (key : String)
    (hP : ∀ k s, P s → (body k s).2 = none → P (body k s).1)
    (hset : ∀ s, P s → (body key s).2 = none → Q (body key s).1)
    (hkeep : ∀ k s, P s → Q s → (body k s).2 = none → Q (body k s).1)
    (l : List String) (s : σ) (hmem : key ∈ l) (h : P s)
    (hok : (rangeLoop body l s).2 = none) : Q (rangeLoop body l s).1 := by
  induction l generalizing s with
  | nil => simp at hmem
  | cons k ks ih =>
    unfold rangeLoop at hok ⊢
    rcases hb : body k s with ⟨s', _ | e⟩
    · simp only [hb] at hok ⊢
      have hP' : P s' := by
        have := hP k s h (by rw [hb])
        rwa [hb] at this
      by_cases hk : k = key
      · subst hk
        have hQ : Q s' := by
          have := hset s h (by rw [hb])
          rwa [hb] at this
        have := rangeLoop_invariant_ok body (fun s => P s ∧ Q s)
          (fun k s hs hok => ⟨hP k s hs.1 hok, hkeep k s hs.1 hs.2 hok⟩) ks s' ⟨hP', hQ⟩ hok
        exact this.2
      · have hmem' : key ∈ ks := by
          rcases List.mem_cons.1 hmem with h1 | h1
          · exact absurd h1.symm hk
          · exact h1
        exact ih s' hmem' hP' hok
    · simp [hb] at hok


/-! ## The turns of the two loops -/

theorem collectKey_other (env : RouterEnv) (key other : String) (s : RouterState × List String)
    (h : other ≠ key) :
    (collectKey env other s).1.1.1.entries key = s.1.1.entries key
    ∧ (∀ t ∈ s.1.1.cancelled, t ∈ (collectKey env other s).1.1.1.cancelled)
    ∧ (∃ added, (collectKey env other s).1.1.2 = s.1.2 ++ added
        ∧ ∀ c ∈ added, c.changes ≠ some key)
    ∧ ∀ k ∈ s.2, k ∈ (collectKey env other s).1.2 := by
  have hne : key ≠ other := Ne.symm h
  unfold collectKey
  simp only [RouterState.issue]
  cases hl : env.listClaims s.1.2.length with
  | error e =>
    refine ⟨rfl, fun t ht => ht, ⟨[.listClaims other], rfl, ?_⟩, fun k hk => hk⟩
    simp [RouterCall.changes]
  | ok items =>
    simp only
    split
    · refine ⟨?_, ?_, ⟨[.listClaims other, .storeStop other], by simp, ?_⟩, fun k hk => hk⟩
      · simp only [RouterCall.apply]
        exact Store.Stop_entries_other _ _ _ hne
      · intro t ht
        simp only [RouterCall.apply]
        exact (Store.Stop_cancelled _ _ _).2 (Or.inl ht)
      · intro c hc
        simp only [List.mem_cons, List.mem_singleton, List.not_mem_nil, or_false] at hc
        rcases hc with rfl | rfl <;> simp [RouterCall.changes, h]
    · refine ⟨rfl, fun t ht => ht, ⟨[.listClaims other], rfl, ?_⟩,
        fun k hk => List.mem_append_left _ hk⟩
      simp [RouterCall.changes]

theorem matchingFields_of_referenced (key : String) (items : List StewardControlPlane)
    (h : ∃ scp ∈ items, GenerateKeyNameFromSteward scp = some key) :
    (matchingFields key items).length ≠ 0 := by
  obtain ⟨scp, hmem, hkey⟩ := h
  have : scp ∈ matchingFields key items := by
    unfold matchingFields
    rw [List.mem_filter]
    refine ⟨hmem, ?_⟩
    simp [ExternalClusterReferenceStewardControlPlane.ExtractValue, hkey]
  intro h0
  rw [List.length_eq_zero] at h0
  rw [h0] at this
  simp at this

theorem collectKey_referenced (env : RouterEnv) (key : String) (s : RouterState × List String)
    (href : ∀ t items, env.listClaims t = .ok items →
      ∃ scp ∈ items, GenerateKeyNameFromSteward scp = some key) :
    (collectKey env key s).1.1.1 = s.1.1
    ∧ (∃ added, (collectKey env key s).1.1.2 = s.1.2 ++ added
        ∧ ∀ c ∈ added, c.changes ≠ some key)
    ∧ (∀ k ∈ s.2, k ∈ (collectKey env key s).1.2)
    ∧ ((collectKey env key s).2 = none → key ∈ (collectKey env key s).1.2) := by
  unfold collectKey
  simp only [RouterState.issue]
  cases hl : env.listClaims s.1.2.length with
  | error e =>
    refine ⟨rfl, ⟨[.listClaims key], rfl, ?_⟩, fun k hk => hk, ?_⟩
    · simp [RouterCall.changes]
    · simp
  | ok items =>
    have hne := matchingFields_of_referenced key items (href _ items hl)
    simp only [hne, ↓reduceIte]
    refine ⟨rfl, ⟨[.listClaims key], rfl, ?_⟩, fun k hk => List.mem_append_left _ hk, ?_⟩
    · simp [RouterCall.changes]
    · intro _
      simp

theorem connectKey_other (env : RouterEnv) (secret : Secret) (key other : String)
    (st : RouterState) (h : other ≠ key) :
    (connectKey env secret other st).1.1.entries key = st.1.entries key
    ∧ (∀ t ∈ st.1.cancelled, t ∈ (connectKey env secret other st).1.1.cancelled)
    ∧ ∃ added, (connectKey env secret other st).1.2 = st.2 ++ added
        ∧ ∀ c ∈ added, c.changes ≠ some key := by
  have hne : key ≠ other := Ne.symm h
  have hstop := Store.Stop_entries_other st.1 other key hne
  have hcan : ∀ t ∈ st.1.cancelled, t ∈ (Store.Stop st.1 other).1.cancelled :=
    fun t ht => (Store.Stop_cancelled _ _ _).2 (Or.inl ht)
  unfold connectKey
  simp only [RouterState.issue, RouterCall.apply]
  cases hg : Store.Get st.1 other secret.ResourceVersion with
  | some m =>
    refine ⟨rfl, fun t ht => ht, [.storeGet other secret.ResourceVersion], rfl, ?_⟩
    simp [RouterCall.changes]
  | none =>
    simp only
    cases hf : (splitOnByte '/' other.data)[2]? with
    | none =>
      refine ⟨hstop, hcan, [.storeGet other secret.ResourceVersion, .storeStop other],
        by simp, ?_⟩
      intro c hc
      simp only [List.mem_cons, List.mem_singleton, List.not_mem_nil, or_false] at hc
      rcases hc with rfl | rfl <;> simp [RouterCall.changes, h]
    | some field =>
      simp only
      cases hc : env.restConfigFromKubeConfig (GoMap.index secret.Data (String.mk field)) with
      | error e =>
        refine ⟨hstop, hcan, [.storeGet other secret.ResourceVersion, .storeStop other],
          by simp, ?_⟩
        intro c hc
        simp only [List.mem_cons, List.mem_singleton, List.not_mem_nil, or_false] at hc
        rcases hc with rfl | rfl <;> simp [RouterCall.changes, h]
      | ok cfg =>
        simp only
        split
        · refine ⟨hstop, hcan,
            [.storeGet other secret.ResourceVersion, .storeStop other, .newManager other],
            by simp, ?_⟩
          intro c hc
          simp only [List.mem_cons, List.mem_singleton, List.not_mem_nil, or_false] at hc
          rcases hc with rfl | rfl | rfl <;> simp [RouterCall.changes, h]
        · split
          · refine ⟨hstop, hcan,
              [.storeGet other secret.ResourceVersion, .storeStop other, .newManager other,
               .setupWithManager other], by simp, ?_⟩
            intro c hc
            simp only [List.mem_cons, List.mem_singleton, List.not_mem_nil, or_false] at hc
            rcases hc with rfl | rfl | rfl | rfl <;> simp [RouterCall.changes, h]
          · rename_i _ mgr _ _ _
            refine ⟨?_, ?_,
              [.storeGet other secret.ResourceVersion, .storeStop other, .newManager other,
               .setupWithManager other, .startManager other,
               .storeAdd other secret.ResourceVersion mgr (Store.Stop st.1 other).1.started.length],
              by simp, ?_⟩
            · rw [Store.Add_entries_other _ _ _ _ _ _ hne]
              exact hstop
            · intro t ht
              exact hcan t ht
            · intro c hc
              simp only [List.mem_cons, List.mem_singleton, List.not_mem_nil, or_false] at hc
              rcases hc with rfl | rfl | rfl | rfl | rfl | rfl <;> simp [RouterCall.changes, h]


theorem connectKey_hit (env : RouterEnv) (secret : Secret) (key : String) (st : RouterState)
    (m : Manager) (h : Store.Get st.1 key secret.ResourceVersion = some m) :
    connectKey env secret key st
      = ((st.1, st.2 ++ [.storeGet key secret.ResourceVersion]), none) := by
  unfold connectKey
  simp only [h, RouterState.issue, RouterCall.apply]

theorem connectKey_miss (env : RouterEnv) (secret : Secret) (key : String) (st : RouterState)
    (h : Store.Get st.1 key secret.ResourceVersion = none)
    (hok : (connectKey env secret key st).2 = none) :
    ∃ mgr,
      (connectKey env secret key st).1.1
          = Store.Add { (Store.Stop st.1 key).1 with
                        started := (Store.Stop st.1 key).1.started ++ [key] }
              key secret.ResourceVersion mgr st.1.started.length
      ∧ (connectKey env secret key st).1.2
          = st.2 ++ [.storeGet key secret.ResourceVersion, .storeStop key, .newManager key,
              .setupWithManager key, .startManager key,
              .storeAdd key secret.ResourceVersion mgr st.1.started.length] := by
  unfold connectKey at hok ⊢
  simp only [RouterState.issue, RouterCall.apply, h] at hok ⊢
  cases hf : (splitOnByte '/' key.data)[2]? with
  | none => simp [hf] at hok
  | some field =>
    simp only [hf] at hok ⊢
    cases hc : env.restConfigFromKubeConfig (GoMap.index secret.Data (String.mk field)) with
    | error e => simp [hc] at hok
    | ok cfg =>
      simp only [hc] at hok ⊢
      split at hok
      · simp at hok
      · split at hok
        · simp at hok
        · rename_i _ mgr hm _ hs
          refine ⟨mgr, ?_, ?_⟩
          · simp only [hm, hs, Store.Stop_started]
          · simp only [hm, hs, Store.Stop_started]
            simp


/-! ## A pass on a rotated secret -/

theorem collect_loop_spares (env : RouterEnv) (key : String)
    (href : ∀ t items, env.listClaims t = .ok items →
      ∃ scp ∈ items, GenerateKeyNameFromSteward scp = some key)
    (l : List String) (s : RouterState × List String) :
    (rangeLoop (collectKey env) l s).1.1.1.entries key = s.1.1.entries key
    ∧ ((∀ c ∈ s.1.2, c.changes ≠ some key) →
        ∀ c ∈ (rangeLoop (collectKey env) l s).1.1.2, c.changes ≠ some key) := by
  have hstep : ∀ k (s' : RouterState × List String),
      (collectKey env k s').1.1.1.entries key = s'.1.1.entries key
      ∧ ((∀ c ∈ s'.1.2, c.changes ≠ some key) →
          ∀ c ∈ (collectKey env k s').1.1.2, c.changes ≠ some key) := by
    intro k s'
    by_cases hk : k = key
    · subst hk
      obtain ⟨h1, ⟨added, h2, h3⟩, _, _⟩ := collectKey_referenced env k s' href
      refine ⟨by rw [h1], ?_⟩
      intro hs c hc
      rw [h2] at hc
      rcases List.mem_append.1 hc with hc | hc
      · exact hs c hc
      · exact h3 c hc
    · obtain ⟨h1, _, ⟨added, h2, h3⟩, _⟩ := collectKey_other env key k s' hk
      refine ⟨h1, ?_⟩
      intro hs c hc
      rw [h2] at hc
      rcases List.mem_append.1 hc with hc | hc
      · exact hs c hc
      · exact h3 c hc
  have := rangeLoop_invariant (collectKey env)
    (fun s' => s'.1.1.entries key = s.1.1.entries key
      ∧ ((∀ c ∈ s.1.2, c.changes ≠ some key) → ∀ c ∈ s'.1.2, c.changes ≠ some key))
    (fun k s' hs => ⟨(hstep k s').1.trans hs.1, fun h0 => (hstep k s').2 (hs.2 h0)⟩)
    l s ⟨rfl, fun h0 => h0⟩
  exact this

theorem collect_loop_keeps (env : RouterEnv) (key : String)
    (href : ∀ t items, env.listClaims t = .ok items →
      ∃ scp ∈ items, GenerateKeyNameFromSteward scp = some key)
    (l : List String) (s : RouterState × List String) (hmem : key ∈ l)
    (hok : (rangeLoop (collectKey env) l s).2 = none) :
    key ∈ (rangeLoop (collectKey env) l s).1.2 := by
  refine rangeLoop_reaches (collectKey env) (fun _ => True) (fun s' => key ∈ s'.2) key
    (fun _ _ _ _ => trivial) ?_ ?_ l s hmem trivial hok
  · intro s' _ hok'
    exact (collectKey_referenced env key s' href).2.2.2 hok'
  · intro k s' _ hq _
    by_cases hk : k = key
    · subst hk
      exact (collectKey_referenced env k s' href).2.2.1 _ hq
    · exact (collectKey_other env key k s' hk).2.2.2 _ hq

theorem connect_loop_spares (env : RouterEnv) (secret : Secret) (key : String) (m : Manager)
    (l : List String) (s : RouterState)
    (hhit : Store.Get s.1 key secret.ResourceVersion = some m) :
    (rangeLoop (connectKey env secret) l s).1.1.entries key = s.1.entries key
    ∧ ((∀ c ∈ s.2, c.changes ≠ some key) →
        ∀ c ∈ (rangeLoop (connectKey env secret) l s).1.2, c.changes ≠ some key) := by
  have hget : ∀ s' : RouterState, s'.1.entries key = s.1.entries key →
      Store.Get s'.1 key secret.ResourceVersion = some m := by
    intro s' h
    unfold Store.Get at hhit ⊢
    rw [h]
    exact hhit
  have := rangeLoop_invariant (connectKey env secret)
    (fun s' => s'.1.entries key = s.1.entries key
      ∧ ((∀ c ∈ s.2, c.changes ≠ some key) → ∀ c ∈ s'.2, c.changes ≠ some key))
    (fun k s' hs => by
      by_cases hk : k = key
      · subst hk
        rw [connectKey_hit env secret k s' m (hget s' hs.1)]
        refine ⟨hs.1, ?_⟩
        intro h0 c hc
        rcases List.mem_append.1 hc with hc | hc
        · exact hs.2 h0 c hc
        · simp only [List.mem_singleton] at hc
          subst hc
          simp [RouterCall.changes]
      · obtain ⟨h1, _, added, h2, h3⟩ := connectKey_other env secret key k s' hk
        refine ⟨h1.trans hs.1, ?_⟩
        intro h0 c hc
        rw [h2] at hc
        rcases List.mem_append.1 hc with hc | hc
        · exact hs.2 h0 c hc
        · exact h3 c hc)
    l s ⟨rfl, fun h0 => h0⟩
  exact this

theorem connect_loop_restarts (env : RouterEnv) (secret : Secret) (key : String)
    (e : StoreEntry) (hver : e.version ≠ secret.ResourceVersion)
    (l : List String) (s : RouterState) (hmem : key ∈ l)
    (hentry : s.1.entries key = some e)
    (hok : (rangeLoop (connectKey env secret) l s).2 = none) :
    ∃ mgr task,
      List.Sublist [.storeStop key, .storeAdd key secret.ResourceVersion mgr task]
          (rangeLoop (connectKey env secret) l s).1.2
      ∧ e.task ∈ (rangeLoop (connectKey env secret) l s).1.1.cancelled
      ∧ (rangeLoop (connectKey env secret) l s).1.1.entries key
          = some { version := secret.ResourceVersion, manager := mgr, task := task } := by
  have hdone : ∀ k (s' : RouterState),
      (∃ mgr task,
        List.Sublist [RouterCall.storeStop key, .storeAdd key secret.ResourceVersion mgr task]
          s'.2
        ∧ e.task ∈ s'.1.cancelled
        ∧ s'.1.entries key
            = some { version := secret.ResourceVersion, manager := mgr, task := task }) →
      ∃ mgr task,
        List.Sublist [RouterCall.storeStop key, .storeAdd key secret.ResourceVersion mgr task]
            (connectKey env secret k s').1.2
        ∧ e.task ∈ (connectKey env secret k s').1.1.cancelled
        ∧ (connectKey env secret k s').1.1.entries key
            = some { version := secret.ResourceVersion, manager := mgr, task := task } := by
    rintro k s' ⟨mgr, task, hsub, hcan, hent⟩
    by_cases hk : k = key
    · subst hk
      have hhit : Store.Get s'.1 k secret.ResourceVersion = some mgr := by
        rw [Store.Get_of_entry _ _ _ _ hent]
        simp
      rw [connectKey_hit env secret k s' mgr hhit]
      exact ⟨mgr, task, hsub.trans (List.sublist_append_left _ _), hcan, hent⟩
    · obtain ⟨h1, h2, added, h3, _⟩ := connectKey_other env secret key k s' hk
      refine ⟨mgr, task, ?_, h2 _ hcan, h1.trans hent⟩
      rw [h3]
      exact hsub.trans (List.sublist_append_left _ _)
  have hfirst : ∀ s' : RouterState, s'.1.entries key = some e →
      (connectKey env secret key s').2 = none →
      ∃ mgr task,
        List.Sublist [RouterCall.storeStop key, .storeAdd key secret.ResourceVersion mgr task]
            (connectKey env secret key s').1.2
        ∧ e.task ∈ (connectKey env secret key s').1.1.cancelled
        ∧ (connectKey env secret key s').1.1.entries key
            = some { version := secret.ResourceVersion, manager := mgr, task := task } := by
    intro s' hent hok'
    have hmiss : Store.Get s'.1 key secret.ResourceVersion = none := by
      rw [Store.Get_of_entry _ _ _ _ hent]
      simp [hver]
    obtain ⟨mgr, hw, htr⟩ := connectKey_miss env secret key s' hmiss hok'
    refine ⟨mgr, s'.1.started.length, ?_, ?_, ?_⟩
    · rw [htr]
      refine List.Sublist.trans ?_ (List.sublist_append_right _ _)
      refine List.Sublist.cons _ (List.Sublist.cons₂ _ ?_)
      refine List.Sublist.cons _ (List.Sublist.cons _ (List.Sublist.cons _ ?_))
      exact List.Sublist.refl _
    · rw [hw]
      show e.task ∈ (Store.Stop s'.1 key).1.cancelled
      exact (Store.Stop_cancelled _ _ _).2 (Or.inr ⟨e, hent, rfl⟩)
    · rw [hw]
      exact Store.Add_entries_self _ _ _ _ _
  refine rangeLoop_reaches (connectKey env secret)
    (fun s' => s'.1.entries key = some e ∨
      ∃ mgr task,
        List.Sublist [RouterCall.storeStop key, .storeAdd key secret.ResourceVersion mgr task]
          s'.2
        ∧ e.task ∈ s'.1.cancelled
        ∧ s'.1.entries key
            = some { version := secret.ResourceVersion, manager := mgr, task := task })
    (fun s' => ∃ mgr task,
        List.Sublist [RouterCall.storeStop key, .storeAdd key secret.ResourceVersion mgr task]
          s'.2
        ∧ e.task ∈ s'.1.cancelled
        ∧ s'.1.entries key
            = some { version := secret.ResourceVersion, manager := mgr, task := task })
    key ?_ ?_ ?_ l s hmem (Or.inl hentry) hok
  · intro k s' hs hok'
    rcases hs with hs | hs
    · by_cases hk : k = key
      · subst hk
        exact Or.inr (hfirst s' hs hok')
      · exact Or.inl ((connectKey_other env secret key k s' hk).1.trans hs)
    · exact Or.inr (hdone k s' hs)
  · intro s' hs hok'
    rcases hs with hs | hs
    · exact hfirst s' hs hok'
    · exact hdone key s' hs
  · intro k s' _ hq _
    exact hdone k s' hq


theorem Reconcile_of_collect_error (env : RouterEnv) (ns name : String) (w : RouterWorld)
    (secret : Secret) (s : RouterState × List String) (err : Err)
    (h : env.getSecret 0 ns name = .ok secret)
    (hloop : rangeLoop (collectKey env)
      (GenerateKeyNameFromSecret secret (env.rangeOrder secret))
      ((w, [.getSecret ns name]), []) = (s, some err)) :
    ExternalClusterReferenceReconciler.Reconcile env ns name w = (s.1, some err) := by
  simp only [ExternalClusterReferenceReconciler.Reconcile, h, hloop]

theorem Reconcile_of_collect_ok (env : RouterEnv) (ns name : String) (w : RouterWorld)
    (secret : Secret) (s : RouterState × List String)
    (h : env.getSecret 0 ns name = .ok secret)
    (hloop : rangeLoop (collectKey env)
      (GenerateKeyNameFromSecret secret (env.rangeOrder secret))
      ((w, [.getSecret ns name]), []) = (s, none)) :
    ExternalClusterReferenceReconciler.Reconcile env ns name w
      = rangeLoop (connectKey env secret) s.2 s.1 := by
  simp only [ExternalClusterReferenceReconciler.Reconcile, h, hloop]

/-- C22. A pass for a secret that can be read, and a store key `key` of one of its
data entries under which the claims listed always include one that
references it. When the store holds an entry for `key` at another version
than the secret's and the pass returns no error, the pass calls `Store.Stop`
on `key`, which cancels the task of that entry, and later `Store.Add` with
`key`, the secret's version and a new connection; afterwards `Store.Get` is a
hit with that connection at the secret's version and finds nothing at the
old version. When `Store.Get` was a hit at the secret's version before the
pass, the pass issues no stop, start or add for `key`, and the entry stays. -/
theorem C22_rotation_restarts (env : RouterEnv) (ns name : String) (w : RouterWorld)
    (secret : Secret) (key : String)
    (hsecret : env.getSecret 0 ns name = .ok secret)
    (hkey : key ∈ GenerateKeyNameFromSecret secret (env.rangeOrder secret))
    (href : ∀ t items, env.listClaims t = .ok items →
      ∃ scp ∈ items, GenerateKeyNameFromSteward scp = some key) :
    (∀ e, w.entries key = some e → e.version ≠ secret.ResourceVersion →
      (ExternalClusterReferenceReconciler.Reconcile env ns name w).2 = none →
      ∃ mgr task,
        List.Sublist [.storeStop key, .storeAdd key secret.ResourceVersion mgr task]
          (ExternalClusterReferenceReconciler.Reconcile env ns name w).1.2
        ∧ e.task ∈ (ExternalClusterReferenceReconciler.Reconcile env ns name w).1.1.cancelled
        ∧ Store.Get (ExternalClusterReferenceReconciler.Reconcile env ns name w).1.1 key
            secret.ResourceVersion = some mgr
        ∧ Store.Get (ExternalClusterReferenceReconciler.Reconcile env ns name w).1.1 key
            e.version = none)
    ∧ (∀ m, Store.Get w key secret.ResourceVersion = some m →
        (∀ c ∈ (ExternalClusterReferenceReconciler.Reconcile env ns name w).1.2,
          c.changes ≠ some key)
        ∧ (ExternalClusterReferenceReconciler.Reconcile env ns name w).1.1.entries key
            = w.entries key) := by
  have hfirst := collect_loop_spares env key href
    (GenerateKeyNameFromSecret secret (env.rangeOrder secret)) ((w, [.getSecret ns name]), [])
  have hstart : ∀ c ∈ [RouterCall.getSecret ns name], c.changes ≠ some key := by
    intro c hc
    simp only [List.mem_singleton] at hc
    subst hc
    simp [RouterCall.changes]
  have hkeeps := collect_loop_keeps env key href
    (GenerateKeyNameFromSecret secret (env.rangeOrder secret)) ((w, [.getSecret ns name]), [])
    hkey
  rcases hloop : rangeLoop (collectKey env)
      (GenerateKeyNameFromSecret secret (env.rangeOrder secret))
      ((w, [.getSecret ns name]), []) with ⟨s, _ | err⟩
  · rw [Reconcile_of_collect_ok env ns name w secret s hsecret hloop]
    rw [hloop] at hfirst hkeeps
    simp only at hfirst hkeeps ⊢
    constructor
    · intro e hentry hver hok
      obtain ⟨mgr, task, hsub, hcan, hent⟩ := connect_loop_restarts env secret key e hver s.2 s.1
        (hkeeps trivial) (hfirst.1.trans hentry) hok
      refine ⟨mgr, task, hsub, hcan, ?_, ?_⟩
      · rw [Store.Get_of_entry _ _ _ _ hent]
        simp
      · rw [Store.Get_of_entry _ _ _ _ hent]
        simp [Ne.symm hver]
    · intro m hhit
      have hhit' : Store.Get s.1.1 key secret.ResourceVersion = some m := by
        unfold Store.Get at hhit ⊢
        rw [hfirst.1]
        exact hhit
      have := connect_loop_spares env secret key m s.2 s.1 hhit'
      exact ⟨this.2 (hfirst.2 hstart), this.1.trans hfirst.1⟩
  · rw [Reconcile_of_collect_error env ns name w secret s err hsecret hloop]
    rw [hloop] at hfirst
    simp only at hfirst ⊢
    constructor
    · intro e _ _ hok
      simp at hok
    · intro m _
      exact ⟨hfirst.2 hstart, hfirst.1⟩

theorem routerEnvRotated_referenced (t : Nat) (items : List StewardControlPlane)
    (h : routerEnvRotated.listClaims t = .ok items) :
    ∃ scp ∈ items, GenerateKeyNameFromSteward scp = some "default/kubeconfig/value" := by
  simp only [routerEnvRotated, Except.ok.injEq] at h
  subst h
  exact ⟨claimRemote, by simp, rfl⟩

/-- C22 at a concrete input: the store holds `default/kubeconfig/value` at version
1, the secret is at version 2 and the claim `claimRemote` references it. -/
theorem C22_rotation_restarts_witness :
    ∃ mgr task,
      List.Sublist
        [.storeStop "default/kubeconfig/value",
         .storeAdd "default/kubeconfig/value" secretRotated.ResourceVersion mgr task]
        (ExternalClusterReferenceReconciler.Reconcile routerEnvRotated "default" "kubeconfig"
          worldConnected).1.2
      ∧ (0 : Nat) ∈ (ExternalClusterReferenceReconciler.Reconcile routerEnvRotated "default"
          "kubeconfig" worldConnected).1.1.cancelled
      ∧ Store.Get (ExternalClusterReferenceReconciler.Reconcile routerEnvRotated "default"
          "kubeconfig" worldConnected).1.1 "default/kubeconfig/value"
          secretRotated.ResourceVersion = some mgr
      ∧ Store.Get (ExternalClusterReferenceReconciler.Reconcile routerEnvRotated "default"
          "kubeconfig" worldConnected).1.1 "default/kubeconfig/value" "1" = none :=
  (C22_rotation_restarts routerEnvRotated "default" "kubeconfig" worldConnected secretRotated
    "default/kubeconfig/value" rfl (by decide) routerEnvRotated_referenced).1
    { version := "1", manager := managerExample, task := 0 } rfl (by decide) (by decide)


/-! ## Live tasks -/

theorem mem_liveTasks (w : RouterWorld) (key : String) (t : Nat) :
    t ∈ liveTasks w key ↔ w.started[t]? = some key ∧ t ∉ w.cancelled := by
  unfold liveTasks
  simp only [List.mem_filter, List.mem_range, Bool.and_eq_true, decide_eq_true_eq,
    Bool.not_eq_true', decide_eq_false_iff_not]
  constructor
  · rintro ⟨_, h⟩
    exact h
  · intro h
    refine ⟨?_, h⟩
    by_contra hlt
    rw [List.getElem?_eq_none (by omega)] at h
    simp at h

theorem liveTasks_nodup (w : RouterWorld) (key : String) : (liveTasks w key).Nodup := by
  unfold liveTasks
  exact (List.nodup_range _).filter _

theorem length_le_one_of_all_eq (l : List Nat) (hn : l.Nodup)
    (h : ∀ a ∈ l, ∀ b ∈ l, a = b) : l.length ≤ 1 := by
  match l, hn, h with
  | [], _, _ => simp
  | [_], _, _ => simp
  | a :: b :: rest, hn, h =>
    have hab : a = b := h a (by simp) b (by simp)
    subst hab
    simp at hn

theorem allows_at_most_one (p : KeyPhase) (w : RouterWorld) (key : String)
    (h : p.allows w key) : ∀ a ∈ liveTasks w key, ∀ b ∈ liveTasks w key, a = b := by
  intro a ha b hb
  cases p with
  | quiet =>
    obtain ⟨e, he, hea⟩ := h a ha
    obtain ⟨e', he', heb⟩ := h b hb
    rw [he] at he'
    cases he'
    rw [← hea, ← heb]
  | stopped => exact absurd ha (h.2 a)
  | started task => rw [h.2 a ha, h.2 b hb]

/-! ## What a stop allows -/

theorem liveTasks_stop (w : RouterWorld) (k₀ key : String) (t : Nat)
    (h : t ∈ liveTasks (Store.Stop w k₀).1 key) : t ∈ liveTasks w key := by
  rw [mem_liveTasks] at h ⊢
  rw [Store.Stop_started] at h
  exact ⟨h.1, fun hc => h.2 ((Store.Stop_cancelled _ _ _).2 (Or.inl hc))⟩

theorem allows_stop_other (p : KeyPhase) (w : RouterWorld) (k₀ key : String) (hne : key ≠ k₀)
    (h : p.allows w key) : p.allows (Store.Stop w k₀).1 key := by
  cases p with
  | quiet =>
    intro t ht
    obtain ⟨e, he, het⟩ := h t (liveTasks_stop w k₀ key t ht)
    exact ⟨e, by rw [Store.Stop_entries_other _ _ _ hne]; exact he, het⟩
  | stopped =>
    exact ⟨by rw [Store.Stop_entries_other _ _ _ hne]; exact h.1,
      fun t ht => h.2 t (liveTasks_stop w k₀ key t ht)⟩
  | started task =>
    exact ⟨by rw [Store.Stop_entries_other _ _ _ hne]; exact h.1,
      fun t ht => h.2 t (liveTasks_stop w k₀ key t ht)⟩

theorem allows_stop_self (p : KeyPhase) (w : RouterWorld) (key : String)
    (h : p.allows w key) :
    (Store.Stop w key).1.entries key = none
    ∧ ((∀ task, p ≠ .started task) → ∀ t, t ∉ liveTasks (Store.Stop w key).1 key)
    ∧ p.allows (Store.Stop w key).1 key := by
  have hnone := Store.Stop_entries_self w key
  cases p with
  | quiet =>
    have hno : ∀ t, t ∉ liveTasks (Store.Stop w key).1 key := by
      intro t ht
      obtain ⟨e, he, het⟩ := h t (liveTasks_stop w key key t ht)
      rw [mem_liveTasks] at ht
      exact ht.2 ((Store.Stop_cancelled _ _ _).2 (Or.inr ⟨e, he, het⟩))
    exact ⟨hnone, fun _ => hno, fun t ht => absurd ht (hno t)⟩
  | stopped =>
    have hno : ∀ t, t ∉ liveTasks (Store.Stop w key).1 key :=
      fun t ht => h.2 t (liveTasks_stop w key key t ht)
    exact ⟨hnone, fun _ => hno, hnone, hno⟩
  | started task =>
    refine ⟨hnone, fun hb => absurd rfl (hb task), hnone, ?_⟩
    exact fun t ht => h.2 t (liveTasks_stop w key key t ht)



/-! ## What the statements of a turn allow -/

theorem liveTasks_go (w : RouterWorld) (k₀ key : String) (t : Nat)
    (h : t ∈ liveTasks { w with started := w.started ++ [k₀] } key) :
    t ∈ liveTasks w key ∨ (t = w.started.length ∧ key = k₀) := by
  rw [mem_liveTasks] at h
  simp only at h
  by_cases hlt : t < w.started.length
  · left
    rw [mem_liveTasks]
    rw [List.getElem?_append_left hlt] at h
    exact h
  · right
    have h1 := h.1
    rw [List.getElem?_append_right (by omega)] at h1
    have hlen : t - w.started.length = 0 := by
      by_contra hne
      rw [List.getElem?_eq_none (by simp; omega)] at h1
      simp at h1
    rw [hlen] at h1
    simp only [List.getElem?_cons_zero, Option.some.injEq] at h1
    exact ⟨by omega, h1.symm⟩

theorem allows_go_other (p : KeyPhase) (w : RouterWorld) (k₀ key : String) (hne : key ≠ k₀)
    (h : p.allows w key) : p.allows { w with started := w.started ++ [k₀] } key := by
  have hlive : ∀ t, t ∈ liveTasks { w with started := w.started ++ [k₀] } key
      → t ∈ liveTasks w key := by
    intro t ht
    rcases liveTasks_go w k₀ key t ht with hl | hl
    · exact hl
    · exact absurd hl.2 hne
  cases p with
  | quiet => exact fun t ht => h t (hlive t ht)
  | stopped => exact ⟨h.1, fun t ht => h.2 t (hlive t ht)⟩
  | started task => exact ⟨h.1, fun t ht => h.2 t (hlive t ht)⟩

theorem allows_go_self (w : RouterWorld) (key : String)
    (h : KeyPhase.stopped.allows w key) :
    (KeyPhase.started w.started.length).allows { w with started := w.started ++ [key] } key := by
  refine ⟨h.1, ?_⟩
  intro t ht
  rcases liveTasks_go w key key t ht with hl | hl
  · exact absurd hl (h.2 t)
  · exact hl.1

theorem liveTasks_add (w : RouterWorld) (k₀ version : String) (mgr : Manager) (task : Nat)
    (key : String) (t : Nat) (h : t ∈ liveTasks (Store.Add w k₀ version mgr task) key) :
    t ∈ liveTasks w key := by
  rw [mem_liveTasks] at h ⊢
  exact h

theorem allows_add_other (p : KeyPhase) (w : RouterWorld) (k₀ version : String) (mgr : Manager)
    (task : Nat) (key : String) (hne : key ≠ k₀) (h : p.allows w key) :
    p.allows (Store.Add w k₀ version mgr task) key := by
  cases p with
  | quiet =>
    intro t ht
    obtain ⟨e, he, het⟩ := h t (liveTasks_add _ _ _ _ _ _ _ ht)
    exact ⟨e, by rw [Store.Add_entries_other _ _ _ _ _ _ hne]; exact he, het⟩
  | stopped =>
    exact ⟨by rw [Store.Add_entries_other _ _ _ _ _ _ hne]; exact h.1,
      fun t ht => h.2 t (liveTasks_add _ _ _ _ _ _ _ ht)⟩
  | started task' =>
    exact ⟨by rw [Store.Add_entries_other _ _ _ _ _ _ hne]; exact h.1,
      fun t ht => h.2 t (liveTasks_add _ _ _ _ _ _ _ ht)⟩

theorem allows_add_self (w : RouterWorld) (key version : String) (mgr : Manager) (task : Nat)
    (h : (KeyPhase.started task).allows w key) :
    KeyPhase.quiet.allows (Store.Add w key version mgr task) key := by
  intro t ht
  exact ⟨_, Store.Add_entries_self _ _ _ _ _, (h.2 t (liveTasks_add _ _ _ _ _ _ _ ht)).symm⟩

theorem allows_quiet_of_stopped (w : RouterWorld) (key : String)
    (h : KeyPhase.stopped.allows w key) : KeyPhase.quiet.allows w key :=
  fun t ht => absurd ht (h.2 t)

theorem allows_stop (p : KeyPhase) (w : RouterWorld) (k₀ key : String) (h : p.allows w key) :
    p.allows (Store.Stop w k₀).1 key := by
  by_cases hkey : key = k₀
  · subst hkey
    exact (allows_stop_self _ _ _ h).2.2
  · exact allows_stop_other _ _ _ _ hkey h

theorem allows_startManager (p : KeyPhase) (w : RouterWorld) (startErr : Option Err)
    (k₀ key : String) (h : p.allows w key) :
    p.allows (ExternalClusterReferenceReconciler.startManager startErr k₀ w) key := by
  cases startErr with
  | none => exact h
  | some err => exact allows_stop p w k₀ key h

/-- A statement of a turn on one key leaves every other key as its phase allows. -/
theorem advance_allows_other (t : Turn) (key : String) (built : Option Manager)
    (w : RouterWorld) (p : KeyPhase) (other : String) (hne : other ≠ key)
    (h : p.allows w other) : p.allows (t.advance key built w).1 other := by
  unfold Turn.advance
  split
  · split <;> exact h
  · exact allows_stop_other _ _ _ _ hne h
  · split <;> exact h
  · exact allows_go_other _ _ _ _ hne h
  · exact allows_add_other _ _ _ _ _ _ _ hne h
  · exact h

/-- A statement of a turn brings its key from what the point before allows to
what the point after allows. -/
theorem advance_allows_self (t : Turn) (key : String) (built : Option Manager)
    (w : RouterWorld) (h : t.point.phase.allows w key) :
    (t.advance key built w).2.point.phase.allows (t.advance key built w).1 key := by
  unfold Turn.advance
  split
  · rename_i hp
    rw [hp] at h
    split <;> exact h
  · rename_i hp
    rw [hp] at h
    have hs := allows_stop_self _ _ _ h
    exact ⟨hs.1, hs.2.1 (fun task hc => by cases hc)⟩
  · rename_i hp
    rw [hp] at h
    split
    · exact allows_quiet_of_stopped w key h
    · exact h
  · rename_i mgr hp
    rw [hp] at h
    exact allows_go_self w key h
  · rename_i mgr task hp
    rw [hp] at h
    exact allows_add_self w key t.version mgr task h
  · exact h

theorem advance_over (t : Turn) (key : String) (built : Option Manager) (w : RouterWorld)
    (h : t.point = .over) : t.advance key built w = (w, t) := by
  unfold Turn.advance
  rw [h]

theorem phaseOf_concat (l : List Turn) (t : Turn) : phaseOf (l ++ [t]) = t.point.phase := by
  unfold phaseOf
  simp

theorem idle_iff (c : Crowd) (key : String) :
    c.idle key = true ↔ ∀ t ∈ c.turns key, t.point = .over := by
  unfold Crowd.idle
  simp

theorem phaseOf_of_all_over (l : List Turn) (h : ∀ t ∈ l, t.point = .over) :
    phaseOf l = .quiet := by
  unfold phaseOf
  cases hl : l.getLast? with
  | none => rfl
  | some t =>
    have := h t (List.mem_of_mem_getLast? hl)
    simp only [this, TurnPoint.phase]

/-! ## Every move of a serial run keeps the crowd orderly -/

theorem set_of_getElem? {α : Type} (l : List α) (i : Nat) (a : α) (h : l[i]? = some a) :
    l.set i a = l := by
  induction l generalizing i with
  | nil => rfl
  | cons x xs ih =>
    cases i with
    | zero =>
      simp only [List.getElem?_cons_zero, Option.some.injEq] at h
      simp [h]
    | succ n =>
      simp only [List.getElem?_cons_succ] at h
      simp [ih n h]

theorem setTurns_self (c : Crowd) (key : String) (l : List Turn) : c.setTurns key l key = l := by
  simp [Crowd.setTurns]

theorem setTurns_other (c : Crowd) (key other : String) (l : List Turn) (h : other ≠ key) :
    c.setTurns key l other = c.turns other := by
  simp [Crowd.setTurns, h]

/-- The move is one a serial run admits in the state `c`. -/
theorem step_orderly (c c' : Crowd) (m : Move) (h : c.orderly) (hstep : c.step m = some c')
    (hserial : ∀ key version, m = .enter key version → c.idle key = true) : c'.orderly := by
  cases m with
  | enter k₀ version =>
    simp only [Crowd.step, Option.some.injEq] at hstep
    subst hstep
    have hidle := (idle_iff c k₀).1 (hserial k₀ version rfl)
    intro key
    by_cases hkey : key = k₀
    · subst hkey
      simp only [setTurns_self, List.dropLast_concat, phaseOf_concat]
      refine ⟨hidle, ?_⟩
      have hq := (h key).2
      rw [phaseOf_of_all_over _ hidle] at hq
      exact hq
    · simp only [setTurns_other _ _ _ _ hkey]
      exact h key
  | sweep k₀ =>
    simp only [Crowd.step, Option.some.injEq] at hstep
    subst hstep
    intro key
    exact ⟨(h key).1, allows_stop _ _ k₀ key (h key).2⟩
  | returned task startErr =>
    simp only [Crowd.step] at hstep
    cases hs : c.world.started[task]? with
    | none => simp [hs] at hstep
    | some k₀ =>
      simp only [hs, Option.some.injEq] at hstep
      subst hstep
      intro key
      exact ⟨(h key).1, allows_startManager _ _ startErr k₀ key (h key).2⟩
  | advance k₀ i built =>
    simp only [Crowd.step] at hstep
    cases ht : (c.turns k₀)[i]? with
    | none => simp [ht] at hstep
    | some t =>
      simp only [ht, Option.some.injEq] at hstep
      subst hstep
      intro key
      by_cases hkey : key = k₀
      · subst hkey
        simp only [setTurns_self]
        have hk := h key
        rcases List.eq_nil_or_concat (c.turns key) with hnil | ⟨init, last, hl⟩
        · rw [hnil] at ht
          simp at ht
        · rw [List.concat_eq_append] at hl
          rw [hl] at ht hk ⊢
          simp only [List.dropLast_concat, phaseOf_concat] at hk
          by_cases hi : i < init.length
          · rw [List.getElem?_append_left hi] at ht
            have hover := hk.1 t (List.getElem?_mem ht)
            rw [advance_over t key built c.world hover]
            simp only
            have hset : (init ++ [last]).set i t = init ++ [last] := by
              rw [List.set_append_left i t hi]
              congr 1
              exact set_of_getElem? _ _ _ ht
            rw [hset]
            simp only [List.dropLast_concat, phaseOf_concat]
            exact hk
          · have hlen : i = init.length := by
              have := (List.getElem?_eq_some.1 ht).1
              simp at this
              omega
            subst hlen
            simp only [List.getElem?_concat_length, Option.some.injEq] at ht
            subst ht
            have hset : (init ++ [last]).set init.length (last.advance key built c.world).2
                = init ++ [(last.advance key built c.world).2] := by simp
            rw [hset]
            simp only [List.dropLast_concat, phaseOf_concat]
            exact ⟨hk.1, advance_allows_self last key built c.world hk.2⟩
      · simp only [setTurns_other _ _ _ _ hkey]
        exact ⟨(h key).1, advance_allows_other t k₀ built c.world _ key hkey (h key).2⟩

theorem run_orderly (moves : List Move) (c c' : Crowd) (h : c.orderly)
    (hrun : Crowd.run c moves = some c') (hserial : Crowd.serial c moves = true) :
    c'.orderly := by
  induction moves generalizing c with
  | nil =>
    simp only [Crowd.run, Option.some.injEq] at hrun
    subst hrun
    exact h
  | cons m ms ih =>
    unfold Crowd.run at hrun
    unfold Crowd.serial at hserial
    cases hs : c.step m with
    | none => simp [hs] at hrun
    | some c₁ =>
      simp only [hs, Bool.and_eq_true] at hrun hserial
      refine ih c₁ (step_orderly c c₁ m h hs ?_) hrun hserial.2
      intro key version hm
      subst hm
      exact hserial.1

theorem orderly_initial : ({} : Crowd).orderly := by
  intro key
  refine ⟨fun t ht => by simp at ht, ?_⟩
  show KeyPhase.quiet.allows _ key
  intro t ht
  rw [mem_liveTasks] at ht
  simp at ht

theorem orderly_at_most_one (c : Crowd) (h : c.orderly) (key : String) :
    (liveTasks c.world key).length ≤ 1 :=
  length_le_one_of_all_eq _ (liveTasks_nodup _ _) (allows_at_most_one _ _ _ (h key).2)

theorem Crowd.run_append (c : Crowd) (a b : List Move) :
    Crowd.run c (a ++ b) = (Crowd.run c a).bind (fun c' => Crowd.run c' b) := by
  induction a generalizing c with
  | nil => rfl
  | cons m ms ih =>
    simp only [List.cons_append, Crowd.run]
    cases hs : c.step m with
    | none => rfl
    | some c₁ => exact ih c₁

theorem Crowd.serial_append (c : Crowd) (a b : List Move) :
    Crowd.serial c (a ++ b)
      = (Crowd.serial c a && match Crowd.run c a with
                              | none => true
                              | some c' => Crowd.serial c' b) := by
  induction a generalizing c with
  | nil => simp [Crowd.serial, Crowd.run]
  | cons m ms ih =>
    simp only [List.cons_append, Crowd.serial, Crowd.run]
    cases hs : c.step m with
    | none => simp
    | some c₁ =>
      simp only
      rw [show ms.append b = ms ++ b from rfl, ih c₁, Bool.and_assoc]


/-! ## A pass on its own is a serial run -/

theorem setTurns_setTurns (c : Crowd) (w : RouterWorld) (key : String) (l l' : List Turn) :
    Crowd.setTurns { world := w, turns := c.setTurns key l } key l' = c.setTurns key l' := by
  funext k
  by_cases hk : k = key <;> simp [Crowd.setTurns, hk]

/-- The last turn entered on a key runs `n` statements, nothing else moving in
between. -/
theorem run_advance_last (n : Nat) (c : Crowd) (key : String) (l : List Turn) (t : Turn)
    (built : Option Manager) (hl : c.turns key = l ++ [t]) :
    Crowd.run c (List.replicate n (.advance key l.length built))
      = some
        { world := (Nat.iterate (fun p : RouterWorld × Turn => p.2.advance key built p.1) n
            (c.world, t)).1,
          turns := c.setTurns key
            (l ++ [(Nat.iterate (fun p : RouterWorld × Turn => p.2.advance key built p.1) n
              (c.world, t)).2]) } := by
  induction n generalizing c t with
  | zero =>
    simp only [List.replicate_zero, Crowd.run, Function.iterate_zero, id_eq]
    congr 1
    rcases c with ⟨w, turns⟩
    simp only [Crowd.mk.injEq, true_and]
    funext k
    by_cases hk : k = key
    · subst hk
      simp only [setTurns_self]
      exact hl
    · simp only [setTurns_other _ _ _ _ hk]
  | succ n ih =>
    have hget : (c.turns key)[l.length]? = some t := by
      rw [hl]
      simp
    simp only [List.replicate_succ, Crowd.run, Crowd.step, hget]
    rw [ih _ (t.advance key built c.world).2 (by
      simp only [setTurns_self]
      rw [hl]
      simp)]
    simp only [setTurns_setTurns, Function.iterate_succ, Function.comp_apply]

theorem step_enter (c : Crowd) (key version : String) :
    c.step (.enter key version)
      = some { c with turns := c.setTurns key (c.turns key ++ [{ version := version }]) } := rfl

/-- A turn run on its own: it enters and runs five statements. -/
theorem run_soloTurn (c : Crowd) (key version : String) (built : Option Manager) :
    Crowd.run c (soloTurn key version (c.turns key).length built)
      = some
        { world := (Nat.iterate (fun p : RouterWorld × Turn => p.2.advance key built p.1) 5
            (c.world, { version := version })).1,
          turns := c.setTurns key
            (c.turns key
              ++ [(Nat.iterate (fun p : RouterWorld × Turn => p.2.advance key built p.1) 5
                (c.world, { version := version })).2]) } := by
  unfold soloTurn
  rw [show Crowd.run c (.enter key version
        :: List.replicate 5 (.advance key (c.turns key).length built))
      = Crowd.run { c with turns := c.setTurns key (c.turns key ++ [{ version := version }]) }
          (List.replicate 5 (.advance key (c.turns key).length built)) from rfl]
  rw [run_advance_last 5 _ key (c.turns key) { version := version } built
    (by simp only [setTurns_self])]
  simp only [setTurns_setTurns]

theorem serial_advances (n : Nat) (c : Crowd) (key : String) (i : Nat)
    (built : Option Manager) :
    Crowd.serial c (List.replicate n (.advance key i built)) = true := by
  induction n generalizing c with
  | zero => rfl
  | succ n ih =>
    simp only [List.replicate_succ, Crowd.serial, Bool.true_and]
    cases c.step (.advance key i built) with
    | none => rfl
    | some c' => exact ih c'

theorem serial_soloTurn (c : Crowd) (key version : String) (built : Option Manager)
    (h : c.idle key = true) :
    Crowd.serial c (soloTurn key version (c.turns key).length built) = true := by
  unfold soloTurn
  simp only [Crowd.serial, h, step_enter, Bool.true_and]
  exact serial_advances 5 _ key _ built

/-- What a turn of the loop of lines 77-121 does to the store and the tasks is
what its five statements do, run one after the other on their own, with the
manager lines 88-115 come to; and the turn is over then. -/
theorem connectKey_world (env : RouterEnv) (secret : Secret) (key : String) (st : RouterState) :
    ∃ built,
      (Nat.iterate (fun p : RouterWorld × Turn => p.2.advance key built p.1) 5
          (st.1, { version := secret.ResourceVersion })).1
        = (connectKey env secret key st).1.1
      ∧ (Nat.iterate (fun p : RouterWorld × Turn => p.2.advance key built p.1) 5
          (st.1, { version := secret.ResourceVersion })).2.point = .over := by
  unfold connectKey
  simp only [RouterState.issue, RouterCall.apply]
  cases hg : Store.Get st.1 key secret.ResourceVersion with
  | some m =>
    exact ⟨none, by simp [Function.iterate_succ, Turn.advance, hg]⟩
  | none =>
    simp only
    cases hf : (splitOnByte '/' key.data)[2]? with
    | none => exact ⟨none, by simp [Function.iterate_succ, Turn.advance, hg]⟩
    | some field =>
      simp only
      cases hc : env.restConfigFromKubeConfig (GoMap.index secret.Data (String.mk field)) with
      | error e => exact ⟨none, by simp [Function.iterate_succ, Turn.advance, hg]⟩
      | ok cfg =>
        simp only
        split
        · exact ⟨none, by simp [Function.iterate_succ, Turn.advance, hg]⟩
        · split
          · exact ⟨none, by simp [Function.iterate_succ, Turn.advance, hg]⟩
          · rename_i _ mgr _ _ _
            exact ⟨some mgr, by simp [Function.iterate_succ, Turn.advance, hg]⟩

/-- The store and tasks of `st` are reached from the crowd `c` by a serial run
that leaves every key idle. -/
theorem collectKey_serial (env : RouterEnv) (key : String) (s : RouterState × List String)
    (c : Crowd)
    (h : ∃ moves c', Crowd.run c moves = some c' ∧ c'.world = s.1.1
      ∧ Crowd.serial c moves = true ∧ ∀ k, c'.idle k = true) :
    ∃ moves c', Crowd.run c moves = some c' ∧ c'.world = (collectKey env key s).1.1.1
      ∧ Crowd.serial c moves = true ∧ ∀ k, c'.idle k = true := by
  obtain ⟨moves, c', hrun, hw, hser, hidle⟩ := h
  unfold collectKey
  simp only [RouterState.issue, RouterCall.apply]
  cases hl : env.listClaims s.1.2.length with
  | error e => exact ⟨moves, c', hrun, hw, hser, hidle⟩
  | ok items =>
    simp only
    split
    · refine ⟨moves ++ [.sweep key], { c' with world := (Store.Stop c'.world key).1 }, ?_, ?_,
        ?_, hidle⟩
      · rw [Crowd.run_append, hrun]
        rfl
      · simp only [hw]
      · rw [Crowd.serial_append, hser, hrun]
        rfl
    · exact ⟨moves, c', hrun, hw, hser, hidle⟩

theorem connectKey_serial (env : RouterEnv) (secret : Secret) (key : String) (st : RouterState)
    (c : Crowd)
    (h : ∃ moves c', Crowd.run c moves = some c' ∧ c'.world = st.1
      ∧ Crowd.serial c moves = true ∧ ∀ k, c'.idle k = true) :
    ∃ moves c', Crowd.run c moves = some c' ∧ c'.world = (connectKey env secret key st).1.1
      ∧ Crowd.serial c moves = true ∧ ∀ k, c'.idle k = true := by
  obtain ⟨moves, c', hrun, hw, hser, hidle⟩ := h
  obtain ⟨built, hworld, hover⟩ := connectKey_world env secret key st
  rw [← hw] at hworld hover
  have hrun' : Crowd.run c
        (moves ++ soloTurn key secret.ResourceVersion (c'.turns key).length built)
      = Crowd.run c' (soloTurn key secret.ResourceVersion (c'.turns key).length built) := by
    rw [Crowd.run_append, hrun]
    rfl
  rw [run_soloTurn c' key secret.ResourceVersion built] at hrun'
  refine ⟨_, _, hrun', hworld, ?_, ?_⟩
  · rw [Crowd.serial_append, hser, hrun]
    exact serial_soloTurn c' key secret.ResourceVersion built (hidle key)
  · intro k
    rw [idle_iff]
    by_cases hk : k = key
    · subst hk
      simp only [setTurns_self]
      intro t ht
      rcases List.mem_append.1 ht with ht | ht
      · exact (idle_iff c' k).1 (hidle k) t ht
      · simp only [List.mem_singleton] at ht
        rw [ht]
        exact hover
    · simp only [setTurns_other _ _ _ _ hk]
      exact (idle_iff c' k).1 (hidle k)

/-- Every pass of the router, on any store and any answers, run on its own from
a crowd in which every key is idle, is a serial run that leaves every key
idle. -/
theorem Reconcile_serial (env : RouterEnv) (ns name : String) (c : Crowd)
    (hidle : ∀ k, c.idle k = true) :
    ∃ moves c', Crowd.run c moves = some c'
      ∧ c'.world = (ExternalClusterReferenceReconciler.Reconcile env ns name c.world).1.1
      ∧ Crowd.serial c moves = true ∧ ∀ k, c'.idle k = true := by
  have h0 : ∃ moves c', Crowd.run c moves = some c' ∧ c'.world = c.world
      ∧ Crowd.serial c moves = true ∧ ∀ k, c'.idle k = true :=
    ⟨[], c, rfl, rfl, rfl, hidle⟩
  unfold ExternalClusterReferenceReconciler.Reconcile
  simp only
  cases hs : env.getSecret 0 ns name with
  | error e =>
    simp only
    split <;> exact h0
  | ok secret =>
    simp only
    have h1 := rangeLoop_invariant (collectKey env)
      (fun s => ∃ moves c', Crowd.run c moves = some c' ∧ c'.world = s.1.1
        ∧ Crowd.serial c moves = true ∧ ∀ k, c'.idle k = true)
      (fun k s hs => collectKey_serial env k s c hs)
      (GenerateKeyNameFromSecret secret (env.rangeOrder secret))
      ((c.world, [.getSecret ns name]), []) h0
    rcases hloop : rangeLoop (collectKey env)
        (GenerateKeyNameFromSecret secret (env.rangeOrder secret))
        ((c.world, [.getSecret ns name]), []) with ⟨s, _ | err⟩
    · rw [hloop] at h1
      simp only at h1 ⊢
      exact rangeLoop_invariant (connectKey env secret)
        (fun st => ∃ moves c', Crowd.run c moves = some c' ∧ c'.world = st.1
          ∧ Crowd.serial c moves = true ∧ ∀ k, c'.idle k = true)
        (fun k st hst => connectKey_serial env secret k st c hst) s.2 s.1 h1
    · rw [hloop] at h1
      exact h1


/-! ## No add without a stop before -/

theorem AddsFollowStops.appendOther {calls : List RouterCall} (h : AddsFollowStops calls)
    (added : List RouterCall)
    (hq : ∀ c ∈ added, ∀ key version mgr task, c ≠ .storeAdd key version mgr task) :
    AddsFollowStops (calls ++ added) := by
  intro i key version mgr task hi
  by_cases hlt : i < calls.length
  · rw [List.getElem?_append_left hlt] at hi
    obtain ⟨j, hj, hstop⟩ := h i key version mgr task hi
    exact ⟨j, hj, by rw [List.getElem?_append_left (by omega)]; exact hstop⟩
  · rw [List.getElem?_append_right (by omega)] at hi
    exact absurd rfl (hq _ (List.getElem?_mem hi) key version mgr task)

theorem AddsFollowStops.add {calls : List RouterCall} (h : AddsFollowStops calls)
    (key version : String) (mgr : Manager) (task : Nat) (hstop : .storeStop key ∈ calls) :
    AddsFollowStops (calls ++ [.storeAdd key version mgr task]) := by
  intro i key' version' mgr' task' hi
  by_cases hlt : i < calls.length
  · rw [List.getElem?_append_left hlt] at hi
    obtain ⟨j, hj, hs⟩ := h i key' version' mgr' task' hi
    exact ⟨j, hj, by rw [List.getElem?_append_left (by omega)]; exact hs⟩
  · rw [List.getElem?_append_right (by omega)] at hi
    have hmem := List.getElem?_mem hi
    simp only [List.mem_singleton, RouterCall.storeAdd.injEq] at hmem
    obtain ⟨rfl, -, -, -⟩ := hmem
    obtain ⟨j, hjlt, hj⟩ := List.mem_iff_getElem.1 hstop
    refine ⟨j, by omega, ?_⟩
    rw [List.getElem?_append_left hjlt, List.getElem?_eq_getElem hjlt, hj]

theorem collectKey_adds (env : RouterEnv) (key : String) (s : RouterState × List String)
    (h : AddsFollowStops s.1.2) : AddsFollowStops (collectKey env key s).1.1.2 := by
  unfold collectKey
  simp only [RouterState.issue]
  cases env.listClaims s.1.2.length with
  | error e => exact h.appendOther _ (by simp)
  | ok items =>
    simp only
    split
    · exact (h.appendOther _ (by simp)).appendOther _ (by simp)
    · exact h.appendOther _ (by simp)

theorem connectKey_adds (env : RouterEnv) (secret : Secret) (key : String) (st : RouterState)
    (h : AddsFollowStops st.2) : AddsFollowStops (connectKey env secret key st).1.2 := by
  have h1 : AddsFollowStops (st.2 ++ [.storeGet key secret.ResourceVersion]) :=
    h.appendOther _ (by simp)
  have h2 : AddsFollowStops (st.2 ++ [.storeGet key secret.ResourceVersion]
      ++ [.storeStop key]) := h1.appendOther _ (by simp)
  have h3 : AddsFollowStops (st.2 ++ [.storeGet key secret.ResourceVersion]
      ++ [.storeStop key] ++ [.newManager key]) := h2.appendOther _ (by simp)
  have h4 : AddsFollowStops (st.2 ++ [.storeGet key secret.ResourceVersion]
      ++ [.storeStop key] ++ [.newManager key] ++ [.setupWithManager key]) :=
    h3.appendOther _ (by simp)
  have h5 : AddsFollowStops (st.2 ++ [.storeGet key secret.ResourceVersion]
      ++ [.storeStop key] ++ [.newManager key] ++ [.setupWithManager key]
      ++ [.startManager key]) := h4.appendOther _ (by simp)
  unfold connectKey
  simp only [RouterState.issue]
  cases Store.Get st.1 key secret.ResourceVersion with
  | some m => exact h1
  | none =>
    simp only
    cases (splitOnByte '/' key.data)[2]? with
    | none => exact h2
    | some field =>
      simp only
      cases env.restConfigFromKubeConfig (GoMap.index secret.Data (String.mk field)) with
      | error e => exact h2
      | ok cfg =>
        simp only
        split
        · exact h3
        · split
          · exact h4
          · exact h5.add key _ _ _ (by simp)

/-- In the calls of every pass, every `Store.Add` comes after a `Store.Stop` on the
same key. -/
theorem Reconcile_adds (env : RouterEnv) (ns name : String) (w : RouterWorld) :
    AddsFollowStops (ExternalClusterReferenceReconciler.Reconcile env ns name w).1.2 := by
  have h0 : AddsFollowStops [RouterCall.getSecret ns name] := by
    intro i key version mgr task hi
    have := List.getElem?_mem hi
    simp at this
  unfold ExternalClusterReferenceReconciler.Reconcile
  simp only
  cases hs : env.getSecret 0 ns name with
  | error e =>
    simp only
    split <;> exact h0
  | ok secret =>
    simp only
    have h1 := rangeLoop_invariant (collectKey env) (fun s => AddsFollowStops s.1.2)
      (fun k s hs => collectKey_adds env k s hs)
      (GenerateKeyNameFromSecret secret (env.rangeOrder secret))
      ((w, [.getSecret ns name]), []) h0
    rcases hloop : rangeLoop (collectKey env)
        (GenerateKeyNameFromSecret secret (env.rangeOrder secret))
        ((w, [.getSecret ns name]), []) with ⟨s, _ | err⟩
    · rw [hloop] at h1
      simp only at h1 ⊢
      exact rangeLoop_invariant (connectKey env secret) (fun st => AddsFollowStops st.2)
        (fun k st hst => connectKey_adds env secret k st hst) s.2 s.1 h1
    · rw [hloop] at h1
      exact h1

theorem add_after_stop (calls pre post : List RouterCall) (key version : String)
    (mgr : Manager) (task : Nat) (h : AddsFollowStops calls)
    (hcalls : calls = pre ++ .storeAdd key version mgr task :: post) :
    .storeStop key ∈ pre := by
  subst hcalls
  obtain ⟨j, hj, hstop⟩ := h pre.length key version mgr task
    (by rw [List.getElem?_append_right (le_refl _)]; simp)
  rw [List.getElem?_append_left hj] at hstop
  exact List.getElem?_mem hstop


/-! ## At most one live task per key -/

/-- C23 fails as stated: nothing in the router keeps two passes from being at
work on one key at the same time, and such passes leave two live tasks. In
the run `runOverlap` two passes, both having read the secret at version 2,
miss at line 78 and stop the key at line 82 before either starts its
manager (after six moves both stand before line 88, nothing is registered
and no task is live); the first then starts task 0 and registers it, the
second starts task 1 and registers it in place of the first entry, which
`Store.Add` replaces without stopping: tasks 0 and 1 are both started and
neither is cancelled. -/
theorem C23_counterexample :
    Crowd.serial {} runOverlap = false
    ∧ (Crowd.run {} (runOverlap.take 6)).map
        (fun c => ((c.turns "default/kubeconfig/value").map (·.point),
          c.world.entries "default/kubeconfig/value",
          liveTasks c.world "default/kubeconfig/value"))
      = some ([.atBuild, .atBuild], none, [])
    ∧ (Crowd.run {} runOverlap).map
        (fun c => ((c.turns "default/kubeconfig/value").map (·.point),
          (c.world.entries "default/kubeconfig/value").map (·.task),
          c.world.cancelled,
          liveTasks c.world "default/kubeconfig/value"))
      = some ([.over, .over], some 1, [], [0, 1])
    ∧ ¬ (∀ c, Crowd.run {} runOverlap = some c →
          (liveTasks c.world "default/kubeconfig/value").length ≤ 1) := by
  refine ⟨by decide, by decide, by decide, ?_⟩
  intro h
  have h2 : (Crowd.run {} runOverlap).map
      (fun c => (liveTasks c.world "default/kubeconfig/value").length) = some 2 := by decide
  cases hrun : Crowd.run {} runOverlap with
  | none => simp [hrun] at h2
  | some c =>
    have := h c hrun
    simp only [hrun, Option.map_some', Option.some.injEq] at h2
    omega

/-- C23, amended. As long as the passes at work on one key come one after the
other (a pass enters a key only when every earlier turn on it is over, as
the work queue arranges for the passes of one secret), at most one task per
key is live at any time: in every such run of passes, line-65 stops and
returns of `mgr.Start`, started from the empty store and interleaved in any
order, every key has at most one started, un-cancelled task, after the run
and after every part of it. Every pass of
`ExternalClusterReferenceReconciler.Reconcile`, on any store and any
answers, run on its own with every key idle, is such a run and leaves
every key idle; what a turn of its loop of lines 77-121 does to the store
and the tasks is what the five statements of a turn do. Every `Store.Add`
of a pass comes after a `Store.Stop` of the same pass on the same key; and
`Store.Stop` deregisters the entry of the key and cancels its task, which is
then no longer live. -/
theorem C23_at_most_one_live :
    (∀ (moves : List Move) (c : Crowd), Crowd.run {} moves = some c →
        Crowd.serial {} moves = true → ∀ key, (liveTasks c.world key).length ≤ 1)
    ∧ (∀ (first rest : List Move) (c : Crowd), Crowd.run {} (first ++ rest) = some c →
        Crowd.serial {} (first ++ rest) = true →
        ∃ c', Crowd.run {} first = some c' ∧ ∀ key, (liveTasks c'.world key).length ≤ 1)
    ∧ (∀ (env : RouterEnv) (ns name : String) (c : Crowd), (∀ k, c.idle k = true) →
        ∃ moves c', Crowd.run c moves = some c'
          ∧ c'.world = (ExternalClusterReferenceReconciler.Reconcile env ns name c.world).1.1
          ∧ Crowd.serial c moves = true ∧ ∀ k, c'.idle k = true)
    ∧ (∀ (env : RouterEnv) (secret : Secret) (key : String) (st : RouterState),
        ∃ built,
          (Nat.iterate (fun p : RouterWorld × Turn => p.2.advance key built p.1) 5
              (st.1, { version := secret.ResourceVersion })).1
            = (connectKey env secret key st).1.1
          ∧ (Nat.iterate (fun p : RouterWorld × Turn => p.2.advance key built p.1) 5
              (st.1, { version := secret.ResourceVersion })).2.point = .over)
    ∧ (∀ (env : RouterEnv) (ns name : String) (w : RouterWorld) (pre post : List RouterCall)
        (key version : String) (mgr : Manager) (task : Nat),
        (ExternalClusterReferenceReconciler.Reconcile env ns name w).1.2
          = pre ++ .storeAdd key version mgr task :: post →
        .storeStop key ∈ pre)
    ∧ (∀ (w : RouterWorld) (key : String) (e : StoreEntry), w.entries key = some e →
        (Store.Stop w key).1.entries key = none
        ∧ e.task ∈ (Store.Stop w key).1.cancelled
        ∧ e.task ∉ liveTasks (Store.Stop w key).1 key) := by
  refine ⟨?_, ?_, ?_, ?_, ?_, ?_⟩
  · intro moves c hrun hserial key
    exact orderly_at_most_one c (run_orderly moves {} c orderly_initial hrun hserial) key
  · intro first rest c hrun hserial
    rw [Crowd.run_append] at hrun
    rw [Crowd.serial_append, Bool.and_eq_true] at hserial
    cases hfirst : Crowd.run {} first with
    | none => simp [hfirst] at hrun
    | some c' =>
      exact ⟨c', rfl, fun key =>
        orderly_at_most_one c' (run_orderly first {} c' orderly_initial hfirst hserial.1) key⟩
  · intro env ns name c hidle
    exact Reconcile_serial env ns name c hidle
  · intro env secret key st
    exact connectKey_world env secret key st
  · intro env ns name w pre post key version mgr task hcalls
    exact add_after_stop _ pre post key version mgr task (Reconcile_adds env ns name w) hcalls
  · intro w key e he
    have hc : e.task ∈ (Store.Stop w key).1.cancelled :=
      (Store.Stop_cancelled _ _ _).2 (Or.inr ⟨e, he, rfl⟩)
    refine ⟨Store.Stop_entries_self w key, hc, ?_⟩
    intro hl
    rw [mem_liveTasks] at hl
    exact hl.2 hc

/-- C23 at a concrete input: the same two passes one after the other, the task
of the first failing to start in between (its failure stops the key): the
run is serial, task 0 is cancelled and only task 1 is live; and stopping the
key on `worldConnected` cancels task 0. -/
theorem C23_at_most_one_live_witness :
    Crowd.serial {} runOneByOne = true
    ∧ (Crowd.run {} runOneByOne).map
        (fun c => (c.world.cancelled, liveTasks c.world "default/kubeconfig/value"))
      = some ([0], [1])
    ∧ (liveTasks ((Crowd.run {} runOneByOne).getD {}).world
        "default/kubeconfig/value").length ≤ 1
    ∧ (0 : Nat) ∈ (Store.Stop worldConnected "default/kubeconfig/value").1.cancelled :=
  ⟨by decide, by decide,
   C23_at_most_one_live.1 runOneByOne ((Crowd.run {} runOneByOne).getD {}) rfl (by decide)
      "default/kubeconfig/value",
   (C23_at_most_one_live.2.2.2.2.2 worldConnected "default/kubeconfig/value"
      { version := "1", manager := managerExample, task := 0 } rfl).2.1⟩


end Steward
